import Mathlib

/-!
vmdkbkp: archive records, the dump, digest, merge, check and restore commands,
multi-archive reading, the synchronized queue and the parallel reader.

A shallow embedding of the archive subsystem of `vmdkbkp`
(`serialize.hpp/.cpp`, `util.hpp/.cpp`, `bitmap.hpp`, `header.hpp/.cpp`,
`archive_io_manager.hpp`, `archive_manager.cpp`, `command.cpp`, `vmdkbkp.cpp`,
`queue.hpp`, `data_reader.hpp`) and theorems about it.

Conventions of the embedding.

* A byte (`char`, `uint8_t`) is a natural number; the code only ever stores values
  below 256, and no statement below needs that bound.
* A C++ call either returns, throws an exception, or dies in a failed `assert`.
  `Res` keeps the three apart.  Whether `assert` is compiled in depends on the macro
  `NDEBUG`, which no source file defines; every function containing an `assert`
  therefore takes the build flag `ndebug` as its first argument.
* An input stream is the list of bytes not yet consumed together with its `eofbit`.
  Every read in the code is followed by `if (is.fail()) throw`, so `failbit` never
  outlives the call that set it and is represented by `Res.throw`.
-/

namespace Vmdkbkp

/-! ## Results of C++ calls -/

/-- Outcome of a C++ call: normal return, a thrown exception, or a failed `assert`. -/
inductive Res (α : Type) where
  | ok (a : α) : Res α
  | throw : Res α
  | abort : Res α
  deriving DecidableEq, Repr

namespace Res

/-- Sequencing: the first exception or assertion failure ends the computation. -/
def bind {α β : Type} (x : Res α) (f : α → Res β) : Res β :=
  match x with
  | ok a => f a
  | throw => throw
  | abort => abort

instance : Monad Res where
  pure := Res.ok
  bind := Res.bind

end Res

/-- The macro `assert(c)`: nothing when `NDEBUG` is defined, otherwise the program
aborts unless `c` holds. -/
def cassert (ndebug : Bool) (c : Bool) : Res Unit :=
  if ndebug || c then Res.ok () else Res.abort

/-- `MY_CHECK_AND_THROW(c, msg)`: throws unless `c` holds. -/
def checkAndThrow (c : Bool) : Res Unit :=
  if c then Res.ok () else Res.throw

/-! ## Bytes, streams and the text-with-NUL framing (`serialize.hpp`) -/

/-- An `std::istream`: the bytes not yet read and the `eofbit`. -/
structure IStream where
  buf : List Nat
  eof : Bool
  deriving DecidableEq, Repr

/-- A freshly opened stream over `bytes`. -/
def IStream.open (bytes : List Nat) : IStream := { buf := bytes, eof := false }

/-- ASCII digit test. -/
def isDigit (b : Nat) : Bool := decide (48 ≤ b) && decide (b ≤ 57)

/-- The `isspace` characters skipped by a formatted extraction. -/
def isSpace (b : Nat) : Bool := b == 32 || (decide (9 ≤ b) && decide (b ≤ 13))

/-- Worker of `natToDec`: the decimal digits of `n` in front of `acc`. -/
def natToDecAux : Nat → Nat → List Nat → List Nat
  | 0, _, acc => acc
  | fuel + 1, n, acc =>
    if n < 10 then (48 + n) :: acc
    else natToDecAux fuel (n / 10) ((48 + n % 10) :: acc)

/-- What `os << n` writes for an unsigned integer: its decimal digits. -/
def natToDec (n : Nat) : List Nat := natToDecAux (n + 1) n []

/-- What `os << i` writes for a signed integer. -/
def intToDec (i : Int) : List Nat :=
  if i < 0 then 45 :: natToDec (-i).toNat else natToDec i.toNat

/-- Value of a digit string, most significant digit first. -/
def decValue (ds : List Nat) : Nat := ds.foldl (fun v b => 10 * v + (b - 48)) 0

/-- Sign and digit run of a formatted integer extraction from `line`: leading
white space is skipped, one `+` or `-` is accepted, then the longest run of digits is
taken.  `none` when there is no digit. -/
def scanInteger (line : List Nat) : Option (Bool × Nat) :=
  let l := line.dropWhile isSpace
  let neg := l.head? == some 45
  let l := if l.head? == some 45 || l.head? == some 43 then l.tail else l
  let ds := l.takeWhile isDigit
  if ds.isEmpty then none else some (neg, decValue ds)

/-- Extraction `istringstream(line) >> out` for `uint64` / `size_t`, with the
results the library stores since C++11: `0` when there is no digit, the largest value
on overflow, and a minus sign negates modulo `2^64`.  A failed extraction is recorded
on the temporary string stream only, which nobody inspects. -/
def extractU64 (line : List Nat) : Nat :=
  match scanInteger line with
  | none => 0
  | some (neg, v) =>
    if v < 2 ^ 64 then (if neg then (2 ^ 64 - v) % 2 ^ 64 else v) else 2 ^ 64 - 1

/-- Extraction `istringstream(line) >> out` for a signed integer of `w` bits
(`int`, `int32`: `w = 32`; `long`: `w = 64`). -/
def extractSigned (w : Nat) (line : List Nat) : Int :=
  match scanInteger line with
  | none => 0
  | some (neg, v) =>
    if neg then (if v ≤ 2 ^ (w - 1) then -(v : Int) else -(2 ^ (w - 1) : Int))
    else (if v < 2 ^ (w - 1) then (v : Int) else (2 ^ (w - 1) : Int) - 1)

/-- Extraction `istringstream(line) >> out` for `int` / `int32`. -/
def extractI32 (line : List Nat) : Int := extractSigned 32 line

/-- Extraction `istringstream(line) >> out` for `bool` (no `boolalpha`): the text is
read as a `long`; `0` stores `false`, every other value stores `true`. -/
def extractBool (line : List Nat) : Bool := extractSigned 64 line != 0

/-- Split at the first NUL: the bytes before it and the bytes after it. -/
def splitNul : List Nat → Option (List Nat × List Nat)
  | [] => none
  | b :: bs =>
    if b = 0 then some ([], bs)
    else match splitNul bs with
      | none => none
      | some (l, r) => some (b :: l, r)

/-- The call `std::getline(is, line, '\0')` followed by `if (is.fail()) throw`.
The delimiter is consumed and not stored.  Reaching the end of the data without a
delimiter sets `eofbit`; it is a failure only when nothing at all was extracted. -/
def getline0 (is : IStream) : Res (List Nat × IStream) :=
  if is.eof then Res.throw
  else match splitNul is.buf with
    | some (line, rest) => Res.ok (line, { buf := rest, eof := false })
    | none =>
      if is.buf.isEmpty then Res.throw
      else Res.ok (is.buf, { buf := [], eof := true })

/-- Template `putAsString` at `uint64` / `size_t`: decimal text and one NUL. -/
def putAsStringU64 (n : Nat) : List Nat := natToDec n ++ [0]

/-- Template `putAsString` at `int` / `int32`. -/
def putAsStringI32 (i : Int) : List Nat := intToDec i ++ [0]

/-- Template `putAsString` at `bool`: `1` or `0` and one NUL. -/
def putAsStringBool (b : Bool) : List Nat := (if b then [49] else [48]) ++ [0]

/-- Template `putAsString` at `std::string`: the raw bytes and one NUL. -/
def putAsStringStr (s : List Nat) : List Nat := s ++ [0]

/-- Template `getAsString` at `uint64` / `size_t`. -/
def getAsStringU64 (is : IStream) : Res (Nat × IStream) :=
  match getline0 is with
  | Res.ok (line, is1) => Res.ok (extractU64 line, is1)
  | Res.throw => Res.throw
  | Res.abort => Res.abort

/-- Template `getAsString` at `int` / `int32`. -/
def getAsStringI32 (is : IStream) : Res (Int × IStream) :=
  match getline0 is with
  | Res.ok (line, is1) => Res.ok (extractI32 line, is1)
  | Res.throw => Res.throw
  | Res.abort => Res.abort

/-- Template `getAsString` at `bool`. -/
def getAsStringBool (is : IStream) : Res (Bool × IStream) :=
  match getline0 is with
  | Res.ok (line, is1) => Res.ok (extractBool line, is1)
  | Res.throw => Res.throw
  | Res.abort => Res.abort

/-- The overload `getAsString(std::string&, std::istream&)`. -/
def getAsStringStr (is : IStream) : Res (List Nat × IStream) := getline0 is

/-- A `ByteArray` (`std::vector<char>`). -/
abbrev ByteArray := List Nat

/-- The operator `os << ary` for `ByteArray`: the size, then the raw bytes. -/
def writeByteArray (ary : ByteArray) : List Nat := putAsStringU64 ary.length ++ ary

/-- The call `is.read(p, n)` followed by `if (is.fail()) throw`. -/
def readBytes (n : Nat) (is : IStream) : Res (List Nat × IStream) :=
  if is.eof then Res.throw
  else if n ≤ is.buf.length then Res.ok (is.buf.take n, { buf := is.buf.drop n, eof := false })
  else Res.throw

/-- The operator `is >> ary` for `ByteArray`: the size is read, the vector is resized
to it and filled with that many raw bytes. -/
def readByteArray (is : IStream) : Res (ByteArray × IStream) :=
  match getAsStringU64 is with
  | Res.ok (size, is1) => readBytes size is1
  | Res.throw => Res.throw
  | Res.abort => Res.abort

/-- Range of `size_t` / `uint64`. -/
def u64Max : Nat := 2 ^ 64

/-- Unsigned 64-bit wrap-around. -/
def wrapU64 (n : Nat) : Nat := n % 2 ^ 64

/-- Signed 64-bit wrap-around. -/
def wrapI64 (x : Int) : Int := (x + 2 ^ 63) % 2 ^ 64 - 2 ^ 63

/-- The call `std::copy(src.begin(), src.end(), dst.begin())` on byte vectors: the
leading bytes of `dst` are overwritten, its size is kept. -/
def copyInto (dst src : ByteArray) : ByteArray :=
  (src ++ dst.drop src.length).take dst.length

/-- The call `v.resize(n)` on a byte vector: truncate, or extend with zero bytes. -/
def resizeBytes (v : ByteArray) (n : Nat) : ByteArray :=
  v.take n ++ List.replicate (n - v.length) 0

/-! ## String maps (`serialize.cpp`) -/

/-- A `StringMap` (`std::map<std::string, std::string>`): the pairs in iteration
order, that is by strictly ascending key. -/
abbrev StringMap := List (List Nat × List Nat)

/-- The keys are strictly ascending (the invariant of `std::map`). -/
def StringMap.Sorted (m : StringMap) : Prop :=
  m.Pairwise (fun a b => a.1 < b.1)

/-- No key and no value contains a NUL byte. -/
def StringMap.NulFree (m : StringMap) : Prop :=
  ∀ p ∈ m, (∀ b ∈ p.1, b ≠ 0) ∧ (∀ b ∈ p.2, b ≠ 0)

instance (m : StringMap) : Decidable m.Sorted := by
  unfold StringMap.Sorted; infer_instance

instance (m : StringMap) : Decidable m.NulFree := by
  unfold StringMap.NulFree; infer_instance

/-- The assignment `map[key] = value`. -/
def StringMap.set : StringMap → List Nat → List Nat → StringMap
  | [], k, v => [(k, v)]
  | (k1, v1) :: t, k, v =>
    if k = k1 then (k, v) :: t
    else if k < k1 then (k, v) :: (k1, v1) :: t
    else (k1, v1) :: StringMap.set t k v

/-- The pairs written by `operator<<` for `StringMap`, after the size. -/
def writePairs : StringMap → List Nat
  | [] => []
  | (k, v) :: t => putAsStringStr k ++ putAsStringStr v ++ writePairs t

/-- The operator `os << map` for `StringMap`. -/
def writeStringMap (m : StringMap) : List Nat := putAsStringU64 m.length ++ writePairs m

/-- The loop of `operator>>` for `StringMap`: `size` times, read a key and a value
and assign. -/
def readPairs : Nat → StringMap → IStream → Res (StringMap × IStream)
  | 0, m, is => Res.ok (m, is)
  | n + 1, m, is =>
    match getAsStringStr is with
    | Res.ok (key, is1) =>
      match getAsStringStr is1 with
      | Res.ok (value, is2) => readPairs n (m.set key value) is2
      | Res.throw => Res.throw
      | Res.abort => Res.abort
    | Res.throw => Res.throw
    | Res.abort => Res.abort

/-- The operator `is >> map` for `StringMap`: the map is cleared first. -/
def readStringMap (is : IStream) : Res (StringMap × IStream) :=
  match getAsStringU64 is with
  | Res.ok (size, is1) => readPairs size [] is1
  | Res.throw => Res.throw
  | Res.abort => Res.abort

/-! ## Time stamps (`util.hpp`, `util.cpp`) -/

/-- The broken-down time `struct tm`. -/
structure Tm where
  tm_sec : Int
  tm_min : Int
  tm_hour : Int
  tm_mday : Int
  tm_mon : Int
  tm_year : Int
  tm_wday : Int
  tm_yday : Int
  tm_isdst : Int
  deriving DecidableEq, Repr

/-- The C library calls the time stamps go through; they depend on the time zone of
the process and are a parameter of the embedding. -/
structure TimeLib where
  mktime : Tm → Int
  localtime_r : Int → Tm

/-- Days from 1970-01-01 to the civil date `y`-`m`-`d` (proleptic Gregorian). -/
def daysFromCivil (y m d : Int) : Int :=
  let y1 := if m ≤ 2 then y - 1 else y
  let era := y1 / 400
  let yoe := y1 - era * 400
  let doy := (153 * (if m > 2 then m - 3 else m + 9) + 2) / 5 + d - 1
  let doe := yoe * 365 + yoe / 4 - yoe / 100 + doy
  era * 146097 + doe - 719468

/-- The call `mktime` when the time zone is UTC: `tm_wday` and `tm_yday` are ignored,
as the C standard prescribes. -/
def utcMktime (t : Tm) : Int :=
  daysFromCivil (t.tm_year + 1900) (t.tm_mon + 1) t.tm_mday * 86400 +
    t.tm_hour * 3600 + t.tm_min * 60 + t.tm_sec

/-- The call `localtime_r` when the time zone is UTC. -/
def utcLocaltime (time : Int) : Tm :=
  let days := time / 86400
  let rem := time % 86400
  let z := days + 719468
  let era := z / 146097
  let doe := z - era * 146097
  let yoe := (doe - doe / 1460 + doe / 36524 - doe / 146096) / 365
  let doy := doe - (365 * yoe + yoe / 4 - yoe / 100)
  let mp := (5 * doy + 2) / 153
  let d := doy - (153 * mp + 2) / 5 + 1
  let m := if mp < 10 then mp + 3 else mp - 9
  let y := if m ≤ 2 then yoe + era * 400 + 1 else yoe + era * 400
  { tm_sec := rem % 60, tm_min := rem / 60 % 60, tm_hour := rem / 3600,
    tm_mday := d, tm_mon := m - 1, tm_year := y - 1900,
    tm_wday := (days + 4) % 7, tm_yday := days - daysFromCivil y 1 1, tm_isdst := 0 }

/-- The time library of a process whose time zone is UTC; the concrete scenarios
below are evaluated with it. -/
def utcTimeLib : TimeLib := { mktime := utcMktime, localtime_r := utcLocaltime }

/-- The class `TimeStamp`, a wrapper of `struct tm`. -/
structure TimeStamp where
  timeM : Tm
  deriving DecidableEq, Repr

/-- Member `TimeStamp::getTimeStamp`. -/
def TimeStamp.getTimeStamp (lib : TimeLib) (ts : TimeStamp) : Int := lib.mktime ts.timeM

/-- Member `TimeStamp::setTimeStamp(time_t)`. -/
def TimeStamp.setTimeStamp (lib : TimeLib) (time : Int) : TimeStamp :=
  { timeM := lib.localtime_r time }

/-- Member `TimeStamp::compareTo`: both times must be non-negative. -/
def TimeStamp.compareTo (ndebug : Bool) (lib : TimeLib) (l r : TimeStamp) : Res Int :=
  let leftI := wrapI64 (l.getTimeStamp lib)
  let rightI := wrapI64 (r.getTimeStamp lib)
  match cassert ndebug (decide (0 ≤ leftI)) with
  | Res.ok _ =>
    match cassert ndebug (decide (0 ≤ rightI)) with
    | Res.ok _ => Res.ok (wrapI64 (leftI - rightI))
    | Res.throw => Res.throw
    | Res.abort => Res.abort
  | Res.throw => Res.throw
  | Res.abort => Res.abort

/-- Member `TimeStamp::operator==`. -/
def TimeStamp.eq (ndebug : Bool) (lib : TimeLib) (l r : TimeStamp) : Res Bool :=
  match l.compareTo ndebug lib r with
  | Res.ok c => Res.ok (decide (c = 0))
  | Res.throw => Res.throw
  | Res.abort => Res.abort

/-- Member `TimeStamp::operator>`. -/
def TimeStamp.gt (ndebug : Bool) (lib : TimeLib) (l r : TimeStamp) : Res Bool :=
  match l.compareTo ndebug lib r with
  | Res.ok c => Res.ok (decide (0 < c))
  | Res.throw => Res.throw
  | Res.abort => Res.abort

/-- The operator `os << ts` for `TimeStamp`: the nine fields of `struct tm`. -/
def writeTimeStamp (ts : TimeStamp) : List Nat :=
  putAsStringI32 ts.timeM.tm_sec ++ putAsStringI32 ts.timeM.tm_min ++
  putAsStringI32 ts.timeM.tm_hour ++ putAsStringI32 ts.timeM.tm_mday ++
  putAsStringI32 ts.timeM.tm_mon ++ putAsStringI32 ts.timeM.tm_year ++
  putAsStringI32 ts.timeM.tm_wday ++ putAsStringI32 ts.timeM.tm_yday ++
  putAsStringI32 ts.timeM.tm_isdst

/-- The operator `is >> ts` for `TimeStamp`. -/
def readTimeStamp (is : IStream) : Res (TimeStamp × IStream) := do
  let (sec, is) ← getAsStringI32 is
  let (min, is) ← getAsStringI32 is
  let (hour, is) ← getAsStringI32 is
  let (mday, is) ← getAsStringI32 is
  let (mon, is) ← getAsStringI32 is
  let (year, is) ← getAsStringI32 is
  let (wday, is) ← getAsStringI32 is
  let (yday, is) ← getAsStringI32 is
  let (isdst, is) ← getAsStringI32 is
  pure ({ timeM := { tm_sec := sec, tm_min := min, tm_hour := hour, tm_mday := mday,
                     tm_mon := mon, tm_year := year, tm_wday := wday, tm_yday := yday,
                     tm_isdst := isdst } }, is)

/-! ## Bitmap (`bitmap.hpp`) -/

/-- The class `Bitmap`: the byte vector `bmp_` and the number of bits `bmpSize_`. -/
structure Bitmap where
  bmp : List Nat
  bmpSize : Nat
  deriving DecidableEq, Repr

/-- Number of bytes `(size + 7) / 8`, computed in `size_t`. -/
def Bitmap.byteCount (size : Nat) : Nat := wrapU64 (size + 7) / 8

/-- Constructor `Bitmap(size_t size)`. -/
def Bitmap.mk1 (size : Nat) : Bitmap :=
  { bmp := List.replicate (Bitmap.byteCount size) 0, bmpSize := size }

/-- Constructor `Bitmap()`. -/
def Bitmap.mk0 : Bitmap := { bmp := [], bmpSize := 0 }

/-- Member `Bitmap::resize`. -/
def Bitmap.resize (b : Bitmap) (size : Nat) : Bitmap :=
  { bmp := resizeBytes b.bmp (Bitmap.byteCount size), bmpSize := size }

/-- Member `Bitmap::size`. -/
def Bitmap.size (b : Bitmap) : Nat := b.bmpSize

/-- Member `Bitmap::operator==`. -/
def Bitmap.eq (l r : Bitmap) : Bool := l.bmpSize == r.bmpSize && l.bmp == r.bmp

/-- The class invariant kept by the constructors, `resize` and `operator>>`: the size
is a `size_t` and the vector has `(bmpSize_ + 7) / 8` bytes. -/
def Bitmap.WF (b : Bitmap) : Prop :=
  b.bmpSize < 2 ^ 64 ∧ b.bmp.length = Bitmap.byteCount b.bmpSize

instance (b : Bitmap) : Decidable b.WF := by
  unfold Bitmap.WF; infer_instance

/-- The operator `os << bmp` for `Bitmap`: the size as text, then every byte of the
vector with `os.put`. -/
def writeBitmap (b : Bitmap) : List Nat := putAsStringU64 b.bmpSize ++ b.bmp

/-- The call `is.peek()` compared with `EOF`: the result of the test and the stream
afterwards (a `peek` that finds no byte left sets `eofbit`). -/
def peekIsEOF (is : IStream) : Bool × IStream :=
  if is.eof then (true, is)
  else if is.buf.isEmpty then (true, { buf := [], eof := true })
  else (false, is)

/-- The fill loop of `operator>>` for `Bitmap`, over the slots of the vector from
the iterator `i` on: `while (is.peek() != EOF && i != bmp.bmp_.end())`, one `is.get()`
per slot.  The `peek` is evaluated before the iterator test. -/
def fillBitmap : List Nat → IStream → List Nat × IStream
  | [], is => ([], (peekIsEOF is).2)
  | s :: slots, is =>
    match peekIsEOF is with
    | (true, is1) => (s :: slots, is1)
    | (false, is1) =>
      match is1.buf with
      | [] => (s :: slots, is1)
      | c :: cs =>
        let r := fillBitmap slots { buf := cs, eof := false }
        (c :: r.1, r.2)

/-- The operator `is >> bmp` for `Bitmap`: read the size, resize the vector (its old
contents stay), then run the fill loop. -/
def readBitmap (b : Bitmap) (is : IStream) : Res (Bitmap × IStream) :=
  match getAsStringU64 is with
  | Res.ok (bmpSize, is1) =>
    let r := fillBitmap (resizeBytes b.bmp (Bitmap.byteCount bmpSize)) is1
    Res.ok ({ bmp := r.1, bmpSize := bmpSize }, r.2)
  | Res.throw => Res.throw
  | Res.abort => Res.abort

/-! ## Dump and digest records (`header.hpp`, `header.cpp`) -/

/-- The enum `Boolean`: a boolean with a null value. -/
inductive Boolean where
  | BFALSE : Boolean
  | BTRUE : Boolean
  | BNULL : Boolean
  deriving DecidableEq, Repr

/-- `VIXDISKLIB_SECTOR_SIZE` of the VDDK header `vixDiskLib.h`. -/
def VIXDISKLIB_SECTOR_SIZE : Nat := 512

/-- `MD5_DIGEST_LENGTH` of `openssl/md5.h`. -/
def MD5_DIGEST_LENGTH : Nat := 16

/-- The class `VmdkDumpHeader`. -/
structure VmdkDumpHeader where
  diskSize : Nat
  blockSize : Nat
  adapterType : Int
  isFull : Bool
  uuid : ByteArray
  timeStamp : TimeStamp
  metaData : StringMap
  deriving DecidableEq, Repr

/-- The values a `VmdkDumpHeader` object can hold: the integers fit their C types,
the uuid has 16 bytes and the map is an `std::map`. -/
structure VmdkDumpHeader.WF (h : VmdkDumpHeader) : Prop where
  diskSize_lt : h.diskSize < 2 ^ 64
  blockSize_lt : h.blockSize < 2 ^ 64
  adapterType_ge : -(2 ^ 31 : Int) ≤ h.adapterType
  adapterType_lt : h.adapterType < 2 ^ 31
  uuid_len : h.uuid.length = 16
  tm_ge : ∀ x ∈ [h.timeStamp.timeM.tm_sec, h.timeStamp.timeM.tm_min,
    h.timeStamp.timeM.tm_hour, h.timeStamp.timeM.tm_mday, h.timeStamp.timeM.tm_mon,
    h.timeStamp.timeM.tm_year, h.timeStamp.timeM.tm_wday, h.timeStamp.timeM.tm_yday,
    h.timeStamp.timeM.tm_isdst], -(2 ^ 31 : Int) ≤ x ∧ x < 2 ^ 31
  meta_sorted : h.metaData.Sorted
  meta_len : h.metaData.length < 2 ^ 64

/-- Short-circuit conjunction of a decided test with a test that may abort. -/
def andThen (c : Bool) (rest : Res Bool) : Res Bool :=
  if c then rest else Res.ok false

/-- Member `VmdkDumpHeader::operator==`: the conjuncts are evaluated left to right. -/
def VmdkDumpHeader.eq (ndebug : Bool) (lib : TimeLib) (l r : VmdkDumpHeader) : Res Bool :=
  andThen (l.diskSize == r.diskSize && l.blockSize == r.blockSize &&
           l.adapterType == r.adapterType && l.isFull == r.isFull && l.uuid == r.uuid)
    (match l.timeStamp.eq ndebug lib r.timeStamp with
     | Res.ok t => Res.ok (t && l.metaData == r.metaData)
     | Res.throw => Res.throw
     | Res.abort => Res.abort)

/-- Member `VmdkDumpHeader::isTheSameVMDK`. -/
def VmdkDumpHeader.isTheSameVMDK (l r : VmdkDumpHeader) : Bool :=
  l.diskSize == r.diskSize && l.blockSize == r.blockSize && l.uuid == r.uuid

/-- Member `VmdkDumpHeader::getTimeStamp`. -/
def VmdkDumpHeader.getTimeStamp (lib : TimeLib) (h : VmdkDumpHeader) : Int :=
  h.timeStamp.getTimeStamp lib

/-- Member `VmdkDumpHeader::setTimeStamp`. -/
def VmdkDumpHeader.setTimeStamp (lib : TimeLib) (h : VmdkDumpHeader) (time : Int) :
    VmdkDumpHeader :=
  { h with timeStamp := TimeStamp.setTimeStamp lib time }

/-- Member `VmdkDumpHeader::setFull`. -/
def VmdkDumpHeader.setFull (h : VmdkDumpHeader) (isFull : Bool) : VmdkDumpHeader :=
  { h with isFull := isFull }

/-- Member `VmdkDumpHeader::copyDataFrom`: every field is taken from `src`. -/
def VmdkDumpHeader.copyDataFrom (_dst src : VmdkDumpHeader) : VmdkDumpHeader := src

/-- Member `VmdkDumpHeader::getUUID`. -/
def VmdkDumpHeader.getUUID (ndebug : Bool) (h : VmdkDumpHeader) : Res ByteArray := do
  let _ ← cassert ndebug (h.uuid.length == 16)
  pure h.uuid

/-- Member `VmdkDumpHeader::initialize`. -/
def VmdkDumpHeader.initialize (h : VmdkDumpHeader) (diskSize blockSize : Nat)
    (adapterType : Int) : VmdkDumpHeader :=
  { h with diskSize := diskSize, blockSize := blockSize, adapterType := adapterType }

/-- The static function `setUUIDLocal(uuid)`: sixteen bytes drawn with `rand()`; `rnd i`
is the byte the `i`-th draw yields. -/
def setUUIDLocalRandom (ndebug : Bool) (uuid : ByteArray) (rnd : Nat → Nat) :
    Res ByteArray := do
  let _ ← cassert ndebug (uuid.length == 16)
  pure (copyInto uuid ((List.range 16).map fun i => rnd i % 256))

/-- The static function `setUUIDLocal(dst, src)`. -/
def setUUIDLocal (ndebug : Bool) (dst src : ByteArray) : Res ByteArray := do
  let _ ← cassert ndebug (dst.length == 16 && src.length == 16)
  pure src

/-- Member `VmdkDumpHeader::setUUID()`. -/
def VmdkDumpHeader.setUUIDRandom (ndebug : Bool) (h : VmdkDumpHeader) (rnd : Nat → Nat) :
    Res VmdkDumpHeader := do
  let u ← setUUIDLocalRandom ndebug h.uuid rnd
  pure { h with uuid := u }

/-- Member `VmdkDumpHeader::setUUID(uuid)`. -/
def VmdkDumpHeader.setUUID (ndebug : Bool) (h : VmdkDumpHeader) (uuid : ByteArray) :
    Res VmdkDumpHeader := do
  let u ← setUUIDLocal ndebug h.uuid uuid
  pure { h with uuid := u }

/-- The operator `os << head` for `VmdkDumpHeader`. -/
def writeDumpHeader (h : VmdkDumpHeader) : List Nat :=
  putAsStringU64 h.diskSize ++ putAsStringU64 h.blockSize ++
  putAsStringI32 h.adapterType ++ putAsStringBool h.isFull ++
  writeByteArray h.uuid ++ writeTimeStamp h.timeStamp ++ writeStringMap h.metaData

/-- The operator `is >> head` for `VmdkDumpHeader`. -/
def readDumpHeader (is : IStream) : Res (VmdkDumpHeader × IStream) := do
  let (diskSize, is) ← getAsStringU64 is
  let (blockSize, is) ← getAsStringU64 is
  let (adapterType, is) ← getAsStringI32 is
  let (isFull, is) ← getAsStringBool is
  let (uuid, is) ← readByteArray is
  let (timeStamp, is) ← readTimeStamp is
  let (metaData, is) ← readStringMap is
  pure ({ diskSize := diskSize, blockSize := blockSize, adapterType := adapterType,
          isFull := isFull, uuid := uuid, timeStamp := timeStamp,
          metaData := metaData }, is)

/-- The class `VmdkDigestHeader`. -/
structure VmdkDigestHeader where
  diskSize : Nat
  blockSize : Nat
  uuid : ByteArray
  timeStamp : TimeStamp
  deriving DecidableEq, Repr

/-- Member `VmdkDigestHeader::initialize`. -/
def VmdkDigestHeader.initialize (h : VmdkDigestHeader) (diskSize blockSize : Nat) :
    VmdkDigestHeader :=
  { h with diskSize := diskSize, blockSize := blockSize }

/-- Member `VmdkDigestHeader::operator==`. -/
def VmdkDigestHeader.eq (ndebug : Bool) (lib : TimeLib) (l r : VmdkDigestHeader) :
    Res Bool :=
  andThen (l.diskSize == r.diskSize && l.blockSize == r.blockSize && l.uuid == r.uuid)
    (l.timeStamp.eq ndebug lib r.timeStamp)

/-- Member `VmdkDigestHeader::setUUID(uuid)`. -/
def VmdkDigestHeader.setUUID (ndebug : Bool) (h : VmdkDigestHeader) (uuid : ByteArray) :
    Res VmdkDigestHeader := do
  let u ← setUUIDLocal ndebug h.uuid uuid
  pure { h with uuid := u }

/-- Member `VmdkDigestHeader::getUUID`. -/
def VmdkDigestHeader.getUUID (ndebug : Bool) (h : VmdkDigestHeader) : Res ByteArray := do
  let _ ← cassert ndebug (h.uuid.length == 16)
  pure h.uuid

/-- Member `VmdkDigestHeader::setTimeStamp`. -/
def VmdkDigestHeader.setTimeStamp (lib : TimeLib) (h : VmdkDigestHeader) (time : Int) :
    VmdkDigestHeader :=
  { h with timeStamp := TimeStamp.setTimeStamp lib time }

/-- Member `VmdkDigestHeader::getTimeStamp`. -/
def VmdkDigestHeader.getTimeStamp (lib : TimeLib) (h : VmdkDigestHeader) : Int :=
  h.timeStamp.getTimeStamp lib

/-- Member `VmdkDigestHeader::isTheSameVMDK`. -/
def VmdkDigestHeader.isTheSameVMDK (l r : VmdkDigestHeader) : Bool :=
  l.diskSize == r.diskSize && l.blockSize == r.blockSize && l.uuid == r.uuid

/-- Member `VmdkDigestHeader::copyDataFrom`: every field is taken from `src`. -/
def VmdkDigestHeader.copyDataFrom (_dst src : VmdkDigestHeader) : VmdkDigestHeader := src

/-- Member `VmdkDigestHeader::set`. -/
def VmdkDigestHeader.set (ndebug : Bool) (lib : TimeLib) (h : VmdkDigestHeader)
    (src : VmdkDumpHeader) : Res VmdkDigestHeader := do
  let u ← src.getUUID ndebug
  pure ({ h with diskSize := src.diskSize, blockSize := src.blockSize,
                 uuid := u }.setTimeStamp lib (src.getTimeStamp lib))

/-- The operator `os << head` for `VmdkDigestHeader`. -/
def writeDigestHeader (h : VmdkDigestHeader) : List Nat :=
  putAsStringU64 h.diskSize ++ putAsStringU64 h.blockSize ++
  writeByteArray h.uuid ++ writeTimeStamp h.timeStamp

/-- The operator `is >> head` for `VmdkDigestHeader`. -/
def readDigestHeader (is : IStream) : Res (VmdkDigestHeader × IStream) := do
  let (diskSize, is) ← getAsStringU64 is
  let (blockSize, is) ← getAsStringU64 is
  let (uuid, is) ← readByteArray is
  let (timeStamp, is) ← readTimeStamp is
  pure ({ diskSize := diskSize, blockSize := blockSize, uuid := uuid,
          timeStamp := timeStamp }, is)

/-- The free function `isTheSameVMDK(dumpH, digestH)`: the three comparisons are all
evaluated and combined with `&=`. -/
def isTheSameVMDK (ndebug : Bool) (dumpH : VmdkDumpHeader) (digestH : VmdkDigestHeader) :
    Res Bool := do
  let ret := true
  let ret := ret && (dumpH.diskSize == digestH.diskSize)
  let ret := ret && (dumpH.blockSize == digestH.blockSize)
  let u1 ← dumpH.getUUID ndebug
  let u2 ← digestH.getUUID ndebug
  pure (ret && (u1 == u2))

/-- The free function `isTheSameSnapshot(dumpH, digestH)`. -/
def isTheSameSnapshot (ndebug : Bool) (lib : TimeLib) (dumpH : VmdkDumpHeader)
    (digestH : VmdkDigestHeader) : Res Bool := do
  let ret := true
  let same ← isTheSameVMDK ndebug dumpH digestH
  let ret := ret && same
  pure (ret && (dumpH.getTimeStamp lib == digestH.getTimeStamp lib))

/-- What the commands get from the C library: `clock k` is the result of the `k`-th
call of `::time(0)` and `rand k` the byte computed from the `k`-th call of `rand()`. -/
structure SysEnv where
  clock : Nat → Int
  rand : Nat → Nat

/-- The sixteen uuid bytes drawn by `setUUIDLocal(uuid)` from draw `k` on. -/
def SysEnv.uuidFrom (sys : SysEnv) (k : Nat) : Nat → Nat := fun i => sys.rand (k + i)

/-- Constructor `VmdkDumpHeader()`: zero sizes, a full dump, a random uuid (draws `k`
to `k + 15`) and the time of call `c` of `::time(0)`. -/
def VmdkDumpHeader.new (lib : TimeLib) (sys : SysEnv) (k c : Nat) : VmdkDumpHeader :=
  { diskSize := 0, blockSize := 0, adapterType := 0, isFull := true
    uuid := (List.range 16).map fun i => sys.uuidFrom k i % 256
    timeStamp := TimeStamp.setTimeStamp lib (sys.clock c)
    metaData := [] }

/-- Constructor `VmdkDigestHeader()`. -/
def VmdkDigestHeader.new (lib : TimeLib) (sys : SysEnv) (k c : Nat) : VmdkDigestHeader :=
  { diskSize := 0, blockSize := 0
    uuid := (List.range 16).map fun i => sys.uuidFrom k i % 256
    timeStamp := TimeStamp.setTimeStamp lib (sys.clock c) }

/-- The class `VmdkDumpBlock`: `block_` is the payload buffer, `blockSize_` the
constant block size given to the constructor. -/
structure VmdkDumpBlock where
  offset : Nat
  isAllZero : Boolean
  block : ByteArray
  blockSize : Nat
  deriving DecidableEq, Repr

/-- Constructor `VmdkDumpBlock(size_t blockSize)`, without its assertion that the
block size is a multiple of the sector size (see `VmdkDumpBlock.new`). -/
def VmdkDumpBlock.fresh (blockSize : Nat) : VmdkDumpBlock :=
  { offset := 0, isAllZero := Boolean.BNULL, block := List.replicate blockSize 0,
    blockSize := blockSize }

/-- Constructor `VmdkDumpBlock(size_t blockSize)`. -/
def VmdkDumpBlock.new (ndebug : Bool) (blockSize : Nat) : Res VmdkDumpBlock :=
  match cassert ndebug (blockSize % VIXDISKLIB_SECTOR_SIZE == 0) with
  | Res.ok _ => Res.ok (VmdkDumpBlock.fresh blockSize)
  | Res.throw => Res.throw
  | Res.abort => Res.abort

/-- Member `VmdkDumpBlock::operator==`. -/
def VmdkDumpBlock.eq (l r : VmdkDumpBlock) : Bool :=
  l.offset == r.offset && l.isAllZero == r.isAllZero &&
  (l.isAllZero == Boolean.BTRUE || l.block == r.block)

/-- Member `VmdkDumpBlock::isAllZero`. -/
def VmdkDumpBlock.getIsAllZero (ndebug : Bool) (b : VmdkDumpBlock) : Res Bool :=
  match cassert ndebug (b.isAllZero != Boolean.BNULL) with
  | Res.ok _ => Res.ok (b.isAllZero == Boolean.BTRUE)
  | Res.throw => Res.throw
  | Res.abort => Res.abort

/-- Member `VmdkDumpBlock::setIsAllZero`: scan the payload for a non-zero byte. -/
def VmdkDumpBlock.setIsAllZero (b : VmdkDumpBlock) : VmdkDumpBlock :=
  { b with isAllZero := if b.block.all (fun x => x == 0) then Boolean.BTRUE
                        else Boolean.BFALSE }

/-- Member `VmdkDumpBlock::setOffset`. -/
def VmdkDumpBlock.setOffset (b : VmdkDumpBlock) (offset : Nat) : VmdkDumpBlock :=
  { b with offset := offset }

/-- Member `VmdkDumpBlock::copyDataFrom`: offset and flag are copied, the payload
only when the source is not all-zero. -/
def VmdkDumpBlock.copyDataFrom (ndebug : Bool) (dst src : VmdkDumpBlock) :
    Res VmdkDumpBlock :=
  match cassert ndebug (dst.blockSize == src.blockSize) with
  | Res.ok _ =>
    match cassert ndebug (dst.block.length == src.block.length) with
    | Res.ok _ =>
      Res.ok { dst with
        offset := src.offset
        isAllZero := src.isAllZero
        block := if src.isAllZero = Boolean.BFALSE then copyInto dst.block src.block
                 else dst.block }
    | Res.throw => Res.throw
    | Res.abort => Res.abort
  | Res.throw => Res.throw
  | Res.abort => Res.abort

/-- The operator `os << blk` for `VmdkDumpBlock`. -/
def writeDumpBlock (ndebug : Bool) (b : VmdkDumpBlock) : Res (List Nat) :=
  match cassert ndebug (b.blockSize == b.block.length) with
  | Res.ok _ =>
    match cassert ndebug (b.isAllZero != Boolean.BNULL) with
    | Res.ok _ =>
      Res.ok (putAsStringU64 b.offset ++ putAsStringBool (b.isAllZero == Boolean.BTRUE) ++
              (if b.isAllZero = Boolean.BFALSE then writeByteArray b.block else []))
    | Res.throw => Res.throw
    | Res.abort => Res.abort
  | Res.throw => Res.throw
  | Res.abort => Res.abort

/-- The operator `is >> blk` for `VmdkDumpBlock`. -/
def readDumpBlock (ndebug : Bool) (blk : VmdkDumpBlock) (is : IStream) :
    Res (VmdkDumpBlock × IStream) := do
  let (offset, is) ← getAsStringU64 is
  let (isAllZero, is) ← getAsStringBool is
  let flag := if isAllZero then Boolean.BTRUE else Boolean.BFALSE
  let (block, is) ← (if flag = Boolean.BFALSE then readByteArray is
                     else Res.ok (blk.block, is))
  let _ ← cassert ndebug (blk.blockSize == block.length)
  pure ({ blk with offset := offset, isAllZero := flag, block := block }, is)

/-- The class `VmdkDigestBlock`. -/
structure VmdkDigestBlock where
  isAllZero : Boolean
  digest : ByteArray
  deriving DecidableEq, Repr

/-- Constructor `VmdkDigestBlock()`. -/
def VmdkDigestBlock.new : VmdkDigestBlock :=
  { isAllZero := Boolean.BNULL, digest := List.replicate MD5_DIGEST_LENGTH 0 }

/-- Member `VmdkDigestBlock::operator==`. -/
def VmdkDigestBlock.eq (ndebug : Bool) (l r : VmdkDigestBlock) : Res Bool :=
  match cassert ndebug (l.isAllZero != Boolean.BNULL) with
  | Res.ok _ =>
    Res.ok (l.isAllZero == r.isAllZero &&
            (l.isAllZero == Boolean.BTRUE || l.digest == r.digest))
  | Res.throw => Res.throw
  | Res.abort => Res.abort

/-- Member `VmdkDigestBlock::operator!=`. -/
def VmdkDigestBlock.ne (ndebug : Bool) (l r : VmdkDigestBlock) : Res Bool :=
  match l.eq ndebug r with
  | Res.ok e => Res.ok (!e)
  | Res.throw => Res.throw
  | Res.abort => Res.abort

/-- Function `calcMD5`: the OpenSSL call `MD5(buf, blockSize_, out)` reads
`blockSize_` bytes of the payload and writes the digest into the digest buffer.
The hash function itself is the parameter `md5`. -/
def calcMD5 (md5 : List Nat → List Nat) (dumpB : VmdkDumpBlock)
    (digestB : VmdkDigestBlock) : VmdkDigestBlock :=
  { digestB with digest := copyInto digestB.digest (md5 (dumpB.block.take dumpB.blockSize)) }

/-- Member `VmdkDigestBlock::set`. -/
def VmdkDigestBlock.set (ndebug : Bool) (md5 : List Nat → List Nat)
    (d : VmdkDigestBlock) (vdBlock : VmdkDumpBlock) : Res VmdkDigestBlock :=
  match vdBlock.getIsAllZero ndebug with
  | Res.ok z =>
    let d1 := { d with isAllZero := if z then Boolean.BTRUE else Boolean.BFALSE }
    Res.ok (if d1.isAllZero = Boolean.BFALSE then calcMD5 md5 vdBlock d1 else d1)
  | Res.throw => Res.throw
  | Res.abort => Res.abort

/-- Member `VmdkDigestBlock::copyDataFrom`. -/
def VmdkDigestBlock.copyDataFrom (dst src : VmdkDigestBlock) : VmdkDigestBlock :=
  { isAllZero := src.isAllZero
    digest := if src.isAllZero = Boolean.BFALSE then copyInto dst.digest src.digest
              else dst.digest }

/-- The operator `os << blk` for `VmdkDigestBlock`. -/
def writeDigestBlock (ndebug : Bool) (b : VmdkDigestBlock) : Res (List Nat) :=
  match cassert ndebug (b.digest.length == MD5_DIGEST_LENGTH) with
  | Res.ok _ =>
    match cassert ndebug (b.isAllZero != Boolean.BNULL) with
    | Res.ok _ =>
      Res.ok (putAsStringBool (b.isAllZero == Boolean.BTRUE) ++
              (if b.isAllZero = Boolean.BFALSE then writeByteArray b.digest else []))
    | Res.throw => Res.throw
    | Res.abort => Res.abort
  | Res.throw => Res.throw
  | Res.abort => Res.abort

/-- The operator `is >> blk` for `VmdkDigestBlock`. -/
def readDigestBlock (ndebug : Bool) (blk : VmdkDigestBlock) (is : IStream) :
    Res (VmdkDigestBlock × IStream) := do
  let (isAllZero, is) ← getAsStringBool is
  let flag := if isAllZero then Boolean.BTRUE else Boolean.BFALSE
  let (digest, is) ← (if flag = Boolean.BFALSE then readByteArray is
                      else Res.ok (blk.digest, is))
  let _ ← cassert ndebug (digest.length == MD5_DIGEST_LENGTH)
  pure ({ isAllZero := flag, digest := digest }, is)

/-- Private member `Bitmap::getMask`. -/
def Bitmap.getMask (ndebug : Bool) (b : Bitmap) (idx : Nat) : Res Nat :=
  match cassert ndebug (decide (idx < b.bmpSize)) with
  | Res.ok _ => Res.ok ((1 <<< (7 - idx % 8)) % 256)
  | Res.throw => Res.throw
  | Res.abort => Res.abort

/-- Private member `Bitmap::getIdx`. -/
def Bitmap.getIdx (idx : Nat) : Nat := idx / 8

/-- The access `bmp_[vidx]`: outside the vector the behaviour is undefined, which is
represented as an aborted computation. -/
def Bitmap.byteAt (b : Bitmap) (vidx : Nat) : Res Nat :=
  match b.bmp[vidx]? with
  | some v => Res.ok v
  | none => Res.abort

/-- Member `Bitmap::get` (also `operator[]`). -/
def Bitmap.get (ndebug : Bool) (b : Bitmap) (idx : Nat) : Res Bool :=
  if idx ≥ b.bmpSize then Res.ok false
  else
    match b.byteAt (Bitmap.getIdx idx) with
    | Res.ok v =>
      match b.getMask ndebug idx with
      | Res.ok mask => Res.ok (decide ((v &&& mask) > 0))
      | Res.throw => Res.throw
      | Res.abort => Res.abort
    | Res.throw => Res.throw
    | Res.abort => Res.abort

/-- Member `Bitmap::set(idx, flag)`; `~mask` acts on the byte as `255 - mask`. -/
def Bitmap.set (ndebug : Bool) (b : Bitmap) (idx : Nat) (flag : Bool) : Res Bitmap := do
  let _ ← cassert ndebug (decide (idx < b.bmpSize))
  let vidx := Bitmap.getIdx idx
  let tmp ← b.byteAt vidx
  let mask ← b.getMask ndebug idx
  let v1 := if flag && ((tmp &&& mask) == 0) then tmp ||| mask else tmp
  let v2 := if !flag && ((tmp &&& mask) != 0) then v1 &&& (255 - mask) else v1
  pure { b with bmp := b.bmp.set vidx v2 }

/-- Member `Bitmap::set(idx)`. -/
def Bitmap.set1 (ndebug : Bool) (b : Bitmap) (idx : Nat) : Res Bitmap :=
  b.set ndebug idx true

/-- The loop `for (size_t i = 0; i < size; i ++) { if (bmp.get(i)) { bmp2.set(i); } }`
of the unit test `test_bitmap.cpp`: `n` iterations from index `i`. -/
def rebuildLoop (ndebug : Bool) (bmp : Bitmap) : Nat → Nat → Bitmap → Res Bitmap
  | 0, _, bmp2 => Res.ok bmp2
  | n + 1, i, bmp2 => do
    let bit ← bmp.get ndebug i
    let bmp2a ← (if bit then bmp2.set1 ndebug i else Res.ok bmp2)
    rebuildLoop ndebug bmp n (i + 1) bmp2a

/-- The end of `main` of `test_bitmap.cpp`: build `bmp2` of the same size from the
bits of `bmp` and compare (`assert(bmp == bmp2)`). -/
def rebuildAndCompare (ndebug : Bool) (bmp : Bitmap) : Res Bool := do
  let bmp2 ← rebuildLoop ndebug bmp bmp.size 0 (Bitmap.mk1 bmp.size)
  pure (bmp.eq bmp2)

/-- The loop of `Bitmap::toString`: `n` iterations from index `i`, each appending the
character `1` or `0` for one bit. -/
def Bitmap.toStringLoop (ndebug : Bool) (b : Bitmap) : Nat → Nat → List Nat → Res (List Nat)
  | 0, _, out => Res.ok out
  | n + 1, i, out => do
    let bit ← b.get ndebug i
    Bitmap.toStringLoop ndebug b n (i + 1) (out ++ [if bit then 49 else 48])

/-- Member `Bitmap::toString`. -/
def Bitmap.toString (ndebug : Bool) (b : Bitmap) (out : List Nat) : Res (List Nat) :=
  b.toStringLoop ndebug b.bmpSize 0 out

/-- The function `main` of `test_bitmap.cpp` called with the argument `in` on the bytes
`input` of the standard input: `std::cin >> bmp`, the string of its bits, the rebuilt
bitmap and `assert(bmp == bmp2)`.  The result is the string of the bits and the value
that `main` returns. -/
def testBitmapIn (ndebug : Bool) (input : List Nat) : Res (List Nat × Int) := do
  let (bmp, _) ← readBitmap Bitmap.mk0 (IStream.open input)
  let a ← bmp.toString ndebug []
  let same ← rebuildAndCompare ndebug bmp
  let _ ← cassert ndebug same
  pure (a, 0)

/-- The function `isGzipFileName` of `util.hpp`; a file name is its list of bytes. -/
def isGzipFileName (fileName : List Nat) : Bool :=
  let len := fileName.length
  decide (len > 3) && (fileName.drop (len - 3) == [46, 103, 122])

/-! ## Archive manager (`archive_manager.cpp`)

The stream managers are the single-threaded ones (`SingleDumpInManager`, ...), which
the code uses unless `VMDKBACKUP_THREAD` is defined.  An input manager is represented
by the blocks its `getB` will still deliver, in order; an output manager by the
blocks handed to `putB` so far, oldest first. -/

/-- The enum `BackupCommand`. -/
inductive BackupCommand where
  | CMD_DUMP | CMD_DUMPTEST | CMD_RESTORE | CMD_CHECK | CMD_PRINT | CMD_DIGEST
  | CMD_MERGE | CMD_RDIFF | CMD_LOCK | CMD_HELP | CMD_UNKNOWN
  deriving DecidableEq, Repr

/-- The enum `DumpMode`. -/
inductive DumpMode where
  | DUMPMODE_FULL | DUMPMODE_DIFF | DUMPMODE_INCR | DUMPMODE_UNKNOWN
  deriving DecidableEq, Repr

/-- One dump or rdiff archive file: the header and the blocks that follow it. -/
structure Archive where
  header : VmdkDumpHeader
  blocks : List VmdkDumpBlock
  deriving DecidableEq, Repr

/-- One digest file: the header and the digest blocks that follow it. -/
structure DigestArchive where
  header : VmdkDigestHeader
  blocks : List VmdkDigestBlock
  deriving DecidableEq, Repr

/-- The class `ArchiveManager` (with the part of `ConfigData` it consults): the open
flags, the header each input manager read in `init`, the blocks still to come from
`dump_in` and `digest_in`, the bitmap stream, and what has been written to `dump_out`,
`digest_out` and `rdiff_out`.  An output manager is started (`isStarted_`) by the
`start()` that follows `putH`, so it is started exactly when its header is present. -/
structure ArchiveManager where
  cmd : BackupCommand
  mode : DumpMode
  isUseSan : Bool
  isOpenDumpIn : Bool
  isOpenDumpOut : Bool
  isOpenDigestIn : Bool
  isOpenDigestOut : Bool
  isOpenRdiffOut : Bool
  isOpenBitmapIn : Bool
  dumpInH : Option VmdkDumpHeader
  digestInH : Option VmdkDigestHeader
  dumpIn : List VmdkDumpBlock
  digestIn : List VmdkDigestBlock
  changedBlockBitmapIn : IStream
  dumpOutH : Option VmdkDumpHeader
  digestOutH : Option VmdkDigestHeader
  rdiffOutH : Option VmdkDumpHeader
  dumpOut : List VmdkDumpBlock
  digestOut : List VmdkDigestBlock
  rdiffOut : List VmdkDumpBlock
  deriving DecidableEq, Repr

/-- Continue with `k` after `r`, keeping the state `s` when `r` failed. -/
def stepRes {σ α β : Type} (s : σ) (r : Res α) (k : α → σ × Res β) : σ × Res β :=
  match r with
  | Res.ok a => k a
  | Res.throw => (s, Res.throw)
  | Res.abort => (s, Res.abort)

/-- Drop the value of a result, keeping whether and how the call failed. -/
def voidRes {α : Type} (r : Res α) : Res Unit :=
  match r with
  | Res.ok _ => Res.ok ()
  | Res.throw => Res.throw
  | Res.abort => Res.abort

/-- Member `ArchiveManager::checkStreams`. -/
def ArchiveManager.checkStreams (am : ArchiveManager) : Res Unit :=
  let canDumpFull := am.isOpenDumpOut && am.isOpenDigestOut
  let canDumpDiff := am.isOpenDumpIn && am.isOpenDigestIn && am.isOpenDumpOut &&
    am.isOpenDigestOut && am.isOpenRdiffOut
  let canDumpIncr := am.isOpenDumpIn && am.isOpenDigestIn && am.isOpenDumpOut &&
    am.isOpenDigestOut && am.isOpenBitmapIn && am.isOpenRdiffOut
  let canRestore := if am.isUseSan then am.isOpenDigestIn else true
  let canCheck := am.isOpenDigestIn
  let canPrint := am.isOpenDumpIn || am.isOpenDigestIn
  let canDigest := am.isOpenDumpIn && am.isOpenDigestOut
  let canMerge := am.isOpenDumpOut || am.isOpenRdiffOut
  match am.cmd with
  | BackupCommand.CMD_DUMP =>
    match am.mode with
    | DumpMode.DUMPMODE_FULL => checkAndThrow canDumpFull
    | DumpMode.DUMPMODE_DIFF => checkAndThrow canDumpDiff
    | DumpMode.DUMPMODE_INCR => checkAndThrow canDumpIncr
    | DumpMode.DUMPMODE_UNKNOWN => Res.throw
  | BackupCommand.CMD_RESTORE => checkAndThrow canRestore
  | BackupCommand.CMD_CHECK => checkAndThrow canCheck
  | BackupCommand.CMD_PRINT => checkAndThrow canPrint
  | BackupCommand.CMD_DIGEST => checkAndThrow canDigest
  | BackupCommand.CMD_MERGE => checkAndThrow canMerge
  | _ => Res.throw

/-- The part of `ConfigData` the commands read, together with the contents of the
input files it names.  `none` / `false` stand for an empty file name;
`numReadBlockForTest` is the value of the option `--nread`. -/
structure ArchiveConfig where
  cmd : BackupCommand
  mode : DumpMode
  isUseSan : Bool
  blocksize : Nat
  numReadBlockForTest : Nat
  dumpInFile : Option Archive
  digestInFile : Option DigestArchive
  dumpOutFileName : Bool
  digestOutFileName : Bool
  rdiffOutFileName : Bool
  bmpInFile : Option (List Nat)
  deriving DecidableEq, Repr

/-- The blocks of the file `dumpInFileName`. -/
def ArchiveConfig.dumpInBlocks (cfg : ArchiveConfig) : List VmdkDumpBlock :=
  match cfg.dumpInFile with
  | some a => a.blocks
  | none => []

/-- The blocks of the file `digestInFileName`. -/
def ArchiveConfig.digestInBlocks (cfg : ArchiveConfig) : List VmdkDigestBlock :=
  match cfg.digestInFile with
  | some a => a.blocks
  | none => []

/-- Constructor `ArchiveManager(cfg)`: open every named file (an input manager reads
its header in `init`), then `checkStreams`. -/
def ArchiveManager.new (cfg : ArchiveConfig) : Res ArchiveManager :=
  let am : ArchiveManager :=
    { cmd := cfg.cmd, mode := cfg.mode, isUseSan := cfg.isUseSan
      isOpenDumpIn := cfg.dumpInFile.isSome
      isOpenDumpOut := cfg.dumpOutFileName
      isOpenDigestIn := cfg.digestInFile.isSome
      isOpenDigestOut := cfg.digestOutFileName
      isOpenRdiffOut := cfg.rdiffOutFileName
      isOpenBitmapIn := cfg.bmpInFile.isSome
      dumpInH := cfg.dumpInFile.map Archive.header
      digestInH := cfg.digestInFile.map DigestArchive.header
      dumpIn := cfg.dumpInBlocks
      digestIn := cfg.digestInBlocks
      changedBlockBitmapIn := IStream.open (cfg.bmpInFile.getD [])
      dumpOutH := none, digestOutH := none, rdiffOutH := none
      dumpOut := [], digestOut := [], rdiffOut := [] }
  match am.checkStreams with
  | Res.ok _ => Res.ok am
  | Res.throw => Res.throw
  | Res.abort => Res.abort

/-- Destructor `~ArchiveManager()`: every open manager is stopped.  An input manager
was started in the constructor.  An output manager is started only by the `start()`
that follows `putH`, and its `stop()` asserts `isInit_ && isStarted_`. -/
def ArchiveManager.destroy (ndebug : Bool) (am : ArchiveManager) : Res Unit := do
  let _ ← (if am.isOpenDumpOut then cassert ndebug (am.isOpenDumpOut && am.dumpOutH.isSome)
           else Res.ok ())
  let _ ← (if am.isOpenDigestOut then
             cassert ndebug (am.isOpenDigestOut && am.digestOutH.isSome)
           else Res.ok ())
  if am.isOpenRdiffOut then cassert ndebug (am.isOpenRdiffOut && am.rdiffOutH.isSome)
  else Res.ok ()

/-- The end of the scope of a local `ArchiveManager` that is in state `am`, the code
of the scope having ended as `r`: after a return and after an exception the destructor
runs; a failed assertion has ended the process before. -/
def ArchiveManager.leave {α : Type} (ndebug : Bool) (am : ArchiveManager) (r : Res α) :
    Res α :=
  match r with
  | Res.abort => Res.abort
  | Res.throw =>
    match am.destroy ndebug with
    | Res.ok _ => Res.throw
    | Res.throw => Res.throw
    | Res.abort => Res.abort
  | Res.ok a =>
    match am.destroy ndebug with
    | Res.ok _ => Res.ok a
    | Res.throw => Res.throw
    | Res.abort => Res.abort

/-- A call inside the scope of a local `ArchiveManager` in state `am` that ended as
`r`: an exception leaves the scope, so the destructor runs before it is passed on. -/
def ArchiveManager.unwind {α : Type} (ndebug : Bool) (am : ArchiveManager) (r : Res α) :
    Res α :=
  match r with
  | Res.throw => am.leave ndebug Res.throw
  | Res.ok a => Res.ok a
  | Res.abort => Res.abort

/-- Member `SingleDumpOutManager::putB`: after `assert(isInit_ && isStarted_)` the
block is serialised at once with `operator<<`, whose assertions apply; `out` is the
list of blocks written so far. -/
def putDumpB (ndebug : Bool) (isInit isStarted : Bool) (out : List VmdkDumpBlock)
    (b : VmdkDumpBlock) : Res (List VmdkDumpBlock) :=
  match cassert ndebug (isInit && isStarted) with
  | Res.ok _ =>
    match writeDumpBlock ndebug b with
    | Res.ok _ => Res.ok (out ++ [b])
    | Res.throw => Res.throw
    | Res.abort => Res.abort
  | Res.throw => Res.throw
  | Res.abort => Res.abort

/-- Member `SingleDigestOutManager::putB`. -/
def putDigestB (ndebug : Bool) (isInit isStarted : Bool) (out : List VmdkDigestBlock)
    (b : VmdkDigestBlock) : Res (List VmdkDigestBlock) :=
  match cassert ndebug (isInit && isStarted) with
  | Res.ok _ =>
    match writeDigestBlock ndebug b with
    | Res.ok _ => Res.ok (out ++ [b])
    | Res.throw => Res.throw
    | Res.abort => Res.abort
  | Res.throw => Res.throw
  | Res.abort => Res.abort

/-- Member `ArchiveManager::readFromDump`: the next block of `dump_in` is copied into
the caller's block.  The block object `getB` constructs for it has the block size of
the stream, which `copyDataFrom` asserts to be that of the caller's block. -/
def ArchiveManager.readFromDump (ndebug : Bool) (am : ArchiveManager)
    (dumpB : VmdkDumpBlock) : Res (ArchiveManager × VmdkDumpBlock) := do
  let _ ← cassert ndebug am.isOpenDumpIn
  match am.dumpIn with
  | [] => Res.throw
  | dumpBP :: rest =>
    let b ← dumpB.copyDataFrom ndebug dumpBP
    pure ({ am with dumpIn := rest }, b)

/-- Member `ArchiveManager::readFromDigest`. -/
def ArchiveManager.readFromDigest (ndebug : Bool) (am : ArchiveManager)
    (digestB : VmdkDigestBlock) : Res (ArchiveManager × VmdkDigestBlock) := do
  let _ ← cassert ndebug am.isOpenDigestIn
  match am.digestIn with
  | [] => Res.throw
  | digestBP :: rest => pure ({ am with digestIn := rest }, digestB.copyDataFrom digestBP)

/-- Member `ArchiveManager::writeToDump`: a new block of the same block size receives
the data with `copyDataFrom` and is handed to `putB`. -/
def ArchiveManager.writeToDump (ndebug : Bool) (am : ArchiveManager)
    (dumpB : VmdkDumpBlock) : Res ArchiveManager := do
  let _ ← cassert ndebug am.isOpenDumpOut
  let fresh ← VmdkDumpBlock.new ndebug dumpB.blockSize
  let dumpBP ← fresh.copyDataFrom ndebug dumpB
  let out ← putDumpB ndebug am.isOpenDumpOut am.dumpOutH.isSome am.dumpOut dumpBP
  pure { am with dumpOut := out }

/-- Member `ArchiveManager::writeToDigest`. -/
def ArchiveManager.writeToDigest (ndebug : Bool) (am : ArchiveManager)
    (digestB : VmdkDigestBlock) : Res ArchiveManager := do
  let _ ← cassert ndebug am.isOpenDigestOut
  let digestBP := VmdkDigestBlock.new.copyDataFrom digestB
  let out ← putDigestB ndebug am.isOpenDigestOut am.digestOutH.isSome am.digestOut digestBP
  pure { am with digestOut := out }

/-- Member `ArchiveManager::writeToRdiff`. -/
def ArchiveManager.writeToRdiff (ndebug : Bool) (am : ArchiveManager)
    (rdiffB : VmdkDumpBlock) : Res ArchiveManager := do
  let _ ← cassert ndebug am.isOpenRdiffOut
  let fresh ← VmdkDumpBlock.new ndebug rdiffB.blockSize
  let rdiffBP ← fresh.copyDataFrom ndebug rdiffB
  let out ← putDumpB ndebug am.isOpenRdiffOut am.rdiffOutH.isSome am.rdiffOut rdiffBP
  pure { am with rdiffOut := out }

/-- Member `ArchiveManager::readDumpHeader`.  A manager that was never initialised
has no header: `getH` then returns a null pointer, which is dereferenced. -/
def ArchiveManager.readDumpHeader (ndebug : Bool) (am : ArchiveManager)
    (dumpH : VmdkDumpHeader) : Res VmdkDumpHeader := do
  let _ ← cassert ndebug am.isOpenDumpIn
  let _ ← checkAndThrow (!am.dumpIn.isEmpty)
  match am.dumpInH with
  | some h => pure (dumpH.copyDataFrom h)
  | none => Res.abort

/-- Member `ArchiveManager::readDigestHeader`. -/
def ArchiveManager.readDigestHeader (ndebug : Bool) (am : ArchiveManager)
    (digestH : VmdkDigestHeader) : Res VmdkDigestHeader := do
  let _ ← cassert ndebug am.isOpenDigestIn
  let _ ← checkAndThrow (!am.digestIn.isEmpty)
  match am.digestInH with
  | some h => pure (digestH.copyDataFrom h)
  | none => Res.abort

/-- Member `ArchiveManager::writeDumpHeader`: a new header receives every field with
`copyDataFrom`; `putH` asserts `isInit_ && ! isStarted_`, then the manager is started. -/
def ArchiveManager.writeDumpHeader (ndebug : Bool) (am : ArchiveManager)
    (dumpH : VmdkDumpHeader) : Res ArchiveManager := do
  let _ ← cassert ndebug am.isOpenDumpOut
  let _ ← cassert ndebug (am.isOpenDumpOut && !am.dumpOutH.isSome)
  pure { am with dumpOutH := some dumpH }

/-- Member `ArchiveManager::writeDigestHeader`. -/
def ArchiveManager.writeDigestHeader (ndebug : Bool) (am : ArchiveManager)
    (digestH : VmdkDigestHeader) : Res ArchiveManager := do
  let _ ← cassert ndebug am.isOpenDigestOut
  let _ ← cassert ndebug (am.isOpenDigestOut && !am.digestOutH.isSome)
  pure { am with digestOutH := some digestH }

/-- Member `ArchiveManager::writeRdiffHeader`. -/
def ArchiveManager.writeRdiffHeader (ndebug : Bool) (am : ArchiveManager)
    (rdiffH : VmdkDumpHeader) : Res ArchiveManager := do
  let _ ← cassert ndebug am.isOpenRdiffOut
  let _ ← cassert ndebug (am.isOpenRdiffOut && !am.rdiffOutH.isSome)
  pure { am with rdiffOutH := some rdiffH }

/-- Member `ArchiveManager::readChangedBlockBitmap`. -/
def ArchiveManager.readChangedBlockBitmap (ndebug : Bool) (am : ArchiveManager)
    (bmp : Bitmap) : Res (ArchiveManager × Bitmap) := do
  let _ ← cassert ndebug am.isOpenBitmapIn
  let p := peekIsEOF am.changedBlockBitmapIn
  let _ ← checkAndThrow (!p.1)
  let (bmp1, is) ← readBitmap bmp p.2
  pure ({ am with changedBlockBitmapIn := is }, bmp1)

/-- Whether the mode is `DUMPMODE_DIFF` or `DUMPMODE_INCR`. -/
def DumpMode.isDiffOrIncr (m : DumpMode) : Bool :=
  m == DumpMode.DUMPMODE_DIFF || m == DumpMode.DUMPMODE_INCR

/-- Member `ArchiveManagerForDump::readFromStreams`: in diff and incr mode the next
previous dump block and digest block are read and checked against each other. -/
def ArchiveManager.readFromStreams (ndebug : Bool) (md5 : List Nat → List Nat)
    (am : ArchiveManager) (dumpB : VmdkDumpBlock) (digestB : VmdkDigestBlock) :
    (ArchiveManager × VmdkDumpBlock × VmdkDigestBlock) × Res Unit :=
  stepRes (am, dumpB, digestB) (cassert ndebug (am.cmd == BackupCommand.CMD_DUMP)) fun _ =>
  if am.mode.isDiffOrIncr then
    stepRes (am, dumpB, digestB) (am.readFromDump ndebug dumpB) fun r1 =>
    stepRes (r1.1, r1.2, digestB) (r1.1.readFromDigest ndebug digestB) fun r2 =>
    stepRes (r2.1, r1.2, r2.2) (VmdkDigestBlock.new.set ndebug md5 r1.2) fun digestBCheck =>
    stepRes (r2.1, r1.2, r2.2) (digestBCheck.eq ndebug r2.2) fun same =>
    ((r2.1, r1.2, r2.2), checkAndThrow same)
  else
    ((am, dumpB, digestB), cassert ndebug (am.mode == DumpMode.DUMPMODE_FULL))

/-- Member `ArchiveManagerForDump::writeToStreams`. -/
def ArchiveManager.writeToStreams (ndebug : Bool) (am : ArchiveManager)
    (prevDumpB : VmdkDumpBlock) (prevDigestB : VmdkDigestBlock)
    (currDumpB : VmdkDumpBlock) (currDigestB : VmdkDigestBlock) :
    ArchiveManager × Res Bool :=
  stepRes am (cassert ndebug (am.cmd == BackupCommand.CMD_DUMP)) fun _ =>
  stepRes am (am.writeToDump ndebug currDumpB) fun am1 =>
  stepRes am1 (am1.writeToDigest ndebug currDigestB) fun am2 =>
  if am2.mode.isDiffOrIncr then
    stepRes am2 (prevDigestB.ne ndebug currDigestB) fun differs =>
    if differs then
      stepRes am2 (am2.writeToRdiff ndebug prevDumpB) fun am3 => (am3, Res.ok true)
    else (am2, Res.ok false)
  else (am2, Res.ok true)

/-- Member `ArchiveManagerForDump::readHeaders`: the two headers afterwards. -/
def ArchiveManager.readHeaders (ndebug : Bool) (lib : TimeLib) (am : ArchiveManager)
    (dumpH : VmdkDumpHeader) (digestH : VmdkDigestHeader) :
    Res (VmdkDumpHeader × VmdkDigestHeader) := do
  let _ ← cassert ndebug (am.cmd == BackupCommand.CMD_DUMP)
  if am.mode.isDiffOrIncr then
    let dumpH1 ← am.readDumpHeader ndebug dumpH
    let digestH1 ← am.readDigestHeader ndebug digestH
    let same ← isTheSameSnapshot ndebug lib dumpH1 digestH1
    let _ ← checkAndThrow same
    let _ ← checkAndThrow dumpH1.isFull
    pure (dumpH1, digestH1)
  else
    let _ ← cassert ndebug (am.mode == DumpMode.DUMPMODE_FULL)
    pure (dumpH, digestH)

/-- Member `ArchiveManagerForDump::readChangedBlockBitmap`. -/
def ArchiveManager.readChangedBlockBitmapForDump (ndebug : Bool) (am : ArchiveManager)
    (bmp : Bitmap) : Res (ArchiveManager × Bitmap) := do
  let _ ← cassert ndebug (am.cmd == BackupCommand.CMD_DUMP)
  if am.mode == DumpMode.DUMPMODE_INCR then am.readChangedBlockBitmap ndebug bmp
  else
    let _ ← cassert ndebug (am.mode == DumpMode.DUMPMODE_FULL ||
                            am.mode == DumpMode.DUMPMODE_DIFF)
    pure (am, bmp)

/-- The struct `VmdkInfo`. -/
structure VmdkInfo where
  adapterType : Int
  nBlocks : Nat
  deriving DecidableEq, Repr

/-- The three headers `setHeaders` fills. -/
structure DumpHeaders where
  currDumpH : VmdkDumpHeader
  currDigestH : VmdkDigestHeader
  rdiffH : VmdkDumpHeader
  deriving DecidableEq, Repr

/-- Member `ArchiveManagerForDump::setHeaders`: `now` is the value of `::time(0)`,
`rnd` the bytes `setUUID()` draws, `blocksize` is `cfg_.blocksize`.  The assertion on
the previous headers is evaluated in a debug build only. -/
def ArchiveManager.setHeaders (ndebug : Bool) (lib : TimeLib) (now : Int) (rnd : Nat → Nat)
    (am : ArchiveManager) (blocksize : Nat) (vmdkInfo : VmdkInfo)
    (prevDumpH : VmdkDumpHeader) (prevDigestH : VmdkDigestHeader) (hs : DumpHeaders) :
    Res DumpHeaders := do
  let currDumpH := VmdkDumpHeader.setTimeStamp lib
    ( VmdkDumpHeader.initialize hs.currDumpH vmdkInfo.nBlocks blocksize
        vmdkInfo.adapterType) now
  let currDigestH := VmdkDigestHeader.setTimeStamp lib
    ( VmdkDigestHeader.initialize hs.currDigestH vmdkInfo.nBlocks blocksize) now
  let _ ← cassert ndebug (currDumpH.diskSize == currDigestH.diskSize)
  let _ ← cassert ndebug (currDumpH.blockSize == currDigestH.blockSize)
  if am.mode.isDiffOrIncr then
    let _ ← (if ndebug then Res.ok ()
             else do
               let same ← isTheSameSnapshot ndebug lib prevDumpH prevDigestH
               cassert ndebug same)
    let u ← prevDumpH.getUUID ndebug
    let currDumpH1 ← currDumpH.setUUID ndebug u
    let rdiffH := (hs.rdiffH.copyDataFrom prevDumpH).setFull false
    let u1 ← currDumpH1.getUUID ndebug
    let currDigestH1 ← currDigestH.setUUID ndebug u1
    pure { currDumpH := currDumpH1, currDigestH := currDigestH1, rdiffH := rdiffH }
  else
    let currDumpH1 ← currDumpH.setUUIDRandom ndebug rnd
    let u1 ← currDumpH1.getUUID ndebug
    let currDigestH1 ← currDigestH.setUUID ndebug u1
    pure { currDumpH := currDumpH1, currDigestH := currDigestH1, rdiffH := hs.rdiffH }

/-- Member `ArchiveManagerForDump::writeHeaders`. -/
def ArchiveManager.writeHeaders (ndebug : Bool) (am : ArchiveManager)
    (dumpH : VmdkDumpHeader) (digestH : VmdkDigestHeader) (rdiffH : VmdkDumpHeader) :
    Res ArchiveManager := do
  let _ ← cassert ndebug (am.cmd == BackupCommand.CMD_DUMP)
  let am1 ← am.writeDumpHeader ndebug dumpH
  let am2 ← am1.writeDigestHeader ndebug digestH
  if am2.mode.isDiffOrIncr then am2.writeRdiffHeader ndebug rdiffH
  else pure am2

/-! ## The dump loop (`Command::doDumpFork`, `command.cpp`) -/

/-- What the dump loop gets from outside the archive subsystem.  The block provider
(`VddkController`) runs in a forked child; its answers are given per offset and per
attempt: `readBlock oft k` is the data delivered by the `k`-th call of
`vddkCtrl.readBlock(oft, buf)` for offset `oft` (`none`: the provider answered that the
read failed, and the call threw `MyException`).  `close oft k`, `reset oft k` and
`reopen oft k` tell whether the `vddkCtrl.close()` that follows this failure returned
(`false`: it threw), what the `vddkCtrl.reset` after it returned, and whether the
`vddkCtrl.open()` after the reset returned.  `isSignal oft` is the value of the signal
flag when iteration `oft` starts. -/
structure DumpEnv where
  md5 : List Nat → List Nat
  readBlock : Nat → Nat → Option ByteArray
  close : Nat → Nat → Bool
  reset : Nat → Nat → Bool
  reopen : Nat → Nat → Bool
  isSignal : Nat → Bool
  changedBlockBitmap : Bitmap

/-- What the retry loop did to the provider and to the archive streams (`ok`: the call
returned, for `reset`: it returned true). -/
inductive DumpEvent where
  | read (oft : Nat) (attempt : Nat) (ok : Bool) : DumpEvent
  | close (ok : Bool) : DumpEvent
  | stop : DumpEvent
  | pause : DumpEvent
  | reset (ok : Bool) : DumpEvent
  | resume : DumpEvent
  | reopen (ok : Bool) : DumpEvent
  deriving DecidableEq, Repr

/-- The variables of the dump loop. -/
structure DumpState where
  arcMgr : ArchiveManager
  prevDumpB : VmdkDumpBlock
  currDumpB : VmdkDumpBlock
  prevDigestB : VmdkDigestBlock
  currDigestB : VmdkDigestBlock
  events : List DumpEvent
  deriving DecidableEq, Repr

/-- The retry loop `while (tryalTimes > 0)` around `vddkCtrl.readBlock`: the current
buffer `buf` and the event log go in, the buffer after the loop comes out.  A
successful read fills the whole buffer.  After a failure `tryalTimes` is decremented.
At `0` the provider is closed and stopped and the exception is rethrown.  At `8` or
less the provider is closed and reset between `arcMgr.pause()` and `arcMgr.resume()`
(which do nothing for the single-threaded stream managers) and opened again; an
exception of `close()` or `open()` leaves the handler and ends the loop.  A reset
that returns false has left `sockP_` null (`reset` calls `stop()` first and `start()`
threw before setting it), so the `vddkCtrl.close()` that follows it fails its
assertion `sockP_.get() != NULL`, or without assertions dereferences the null pointer:
the process ends there in both builds. -/
def retryRead (env : DumpEnv) (oft : Nat) :
    Nat → ByteArray → List DumpEvent → (ByteArray × List DumpEvent) × Res Unit
  | 0, buf, ev => ((buf, ev), Res.ok ())
  | tryalTimes + 1, buf, ev =>
    let attempt := 10 - (tryalTimes + 1)
    match env.readBlock oft attempt with
    | some data => ((copyInto buf data, ev ++ [DumpEvent.read oft attempt true]), Res.ok ())
    | none =>
      let ev1 := ev ++ [DumpEvent.read oft attempt false]
      if tryalTimes ≤ 0 then
        if env.close oft attempt then
          ((buf, ev1 ++ [DumpEvent.close true, DumpEvent.stop]), Res.throw)
        else ((buf, ev1 ++ [DumpEvent.close false]), Res.throw)
      else if tryalTimes ≤ 8 then
        if env.close oft attempt then
          if env.reset oft attempt then
            if env.reopen oft attempt then
              retryRead env oft tryalTimes buf
                (ev1 ++ [DumpEvent.close true, DumpEvent.pause, DumpEvent.reset true,
                         DumpEvent.resume, DumpEvent.reopen true])
            else
              ((buf, ev1 ++ [DumpEvent.close true, DumpEvent.pause, DumpEvent.reset true,
                             DumpEvent.resume, DumpEvent.reopen false]), Res.throw)
          else
            ((buf, ev1 ++ [DumpEvent.close true, DumpEvent.pause, DumpEvent.reset false]),
             Res.abort)
        else ((buf, ev1 ++ [DumpEvent.close false]), Res.throw)
      else retryRead env oft tryalTimes buf ev1

/-- One iteration of the loop `for (uint64 oft = 0; oft < maxOft; oft ++)` of
`Command::doDumpFork`.  The state returned with a failure is the state at the point
of failure. -/
def dumpStep (ndebug : Bool) (env : DumpEnv) (oft : Nat) (st : DumpState) :
    DumpState × Res Unit :=
  stepRes st (checkAndThrow (!env.isSignal oft)) fun _ =>
  let r := st.arcMgr.readFromStreams ndebug env.md5 st.prevDumpB st.prevDigestB
  let st1 := { st with arcMgr := r.1.1, prevDumpB := r.1.2.1, prevDigestB := r.1.2.2 }
  stepRes st1 r.2 fun _ =>
  stepRes st1 (if st1.arcMgr.mode != DumpMode.DUMPMODE_INCR then Res.ok true
               else env.changedBlockBitmap.get ndebug oft) fun maybeChanged =>
  let c : DumpState × Res Unit :=
    if maybeChanged then
      let rr := retryRead env oft 10 st1.currDumpB.block st1.events
      let st2 := { st1 with currDumpB := { st1.currDumpB with block := rr.1.1 },
                            events := rr.1.2 }
      stepRes st2 rr.2 fun _ =>
      ({ st2 with currDumpB := (st2.currDumpB.setIsAllZero).setOffset oft }, Res.ok ())
    else
      stepRes st1 (st1.currDumpB.copyDataFrom ndebug st1.prevDumpB) fun b =>
      let st2 := { st1 with currDumpB := b }
      (st2, cassert ndebug (b.offset == oft))
  stepRes c.1 c.2 fun _ =>
  let st3 := c.1
  stepRes st3 (st3.currDigestB.set ndebug env.md5 st3.currDumpB) fun d =>
  let st4 := { st3 with currDigestB := d }
  let w := st4.arcMgr.writeToStreams ndebug st4.prevDumpB st4.prevDigestB
             st4.currDumpB st4.currDigestB
  ({ st4 with arcMgr := w.1 }, voidRes w.2)

/-- The loop `for (uint64 oft = 0; oft < maxOft; oft ++)`: `n` iterations starting
at offset `oft`.  The loop ends at the first failure. -/
def dumpLoop (ndebug : Bool) (env : DumpEnv) : Nat → Nat → DumpState → DumpState × Res Unit
  | 0, _, st => (st, Res.ok ())
  | n + 1, oft, st =>
    match dumpStep ndebug env oft st with
    | (st1, Res.ok _) => dumpLoop ndebug env n (oft + 1) st1
    | (st1, Res.throw) => (st1, Res.throw)
    | (st1, Res.abort) => (st1, Res.abort)

/-- The state in which `doDumpFork` enters its loop: the four block variables are
freshly constructed (`VmdkDumpBlock prevDumpB(cfg_.blocksize), currDumpB(cfg_.blocksize);
VmdkDigestBlock prevDigestB, currDigestB;`). -/
def DumpState.init (arcMgr : ArchiveManager) (blocksize : Nat) : DumpState :=
  { arcMgr := arcMgr
    prevDumpB := VmdkDumpBlock.fresh blocksize
    currDumpB := VmdkDumpBlock.fresh blocksize
    prevDigestB := VmdkDigestBlock.new
    currDigestB := VmdkDigestBlock.new
    events := [] }

/-- The block part of `Command::doDumpFork` for an archive manager `arcMgr` built by
`ArchiveManager.new`: construct the four block variables and run the loop over
`maxOft` offsets. -/
def doDumpBlocks (ndebug : Bool) (env : DumpEnv) (arcMgr : ArchiveManager)
    (blocksize maxOft : Nat) : DumpState × Res Unit :=
  stepRes (DumpState.init arcMgr blocksize)
    (cassert ndebug (blocksize % VIXDISKLIB_SECTOR_SIZE == 0)) fun _ =>
  dumpLoop ndebug env maxOft 0 (DumpState.init arcMgr blocksize)

/-- The command `Command::doDumpFork`.  `vmdkInfo` and `metadata` are what
`readVmdkInfo` and `readMetadata` deliver; the bitmap field of `env` is replaced by the
bitmap read from `bmp_in`.  The five headers are constructed in the order of the
source; the result is the state of the loop (`none` when the failure came before the
loop) and how the command ended, the destructor of the local `arcMgr` included (the
members of `ArchiveManagerForDump` fail by exception or by assertion; `writeHeaders`
only by assertion). -/
def doDump (ndebug : Bool) (lib : TimeLib) (sys : SysEnv) (env : DumpEnv)
    (vmdkInfo : VmdkInfo) (metadata : StringMap) (cfg : ArchiveConfig) :
    Option DumpState × Res Unit :=
  stepRes none (cassert ndebug (cfg.cmd == BackupCommand.CMD_DUMP)) fun _ =>
  let prevDumpH := VmdkDumpHeader.new lib sys 0 0
  let currDumpH := { VmdkDumpHeader.new lib sys 16 1 with metaData := metadata }
  let prevDigestH := VmdkDigestHeader.new lib sys 32 2
  let currDigestH := VmdkDigestHeader.new lib sys 48 3
  let rdiffH := VmdkDumpHeader.new lib sys 64 4
  stepRes none (ArchiveManager.new cfg) fun arcMgr =>
  stepRes none (arcMgr.unwind ndebug (arcMgr.readHeaders ndebug lib prevDumpH prevDigestH))
    fun prev =>
  stepRes none (arcMgr.unwind ndebug
                  (arcMgr.setHeaders ndebug lib (sys.clock 5) (sys.uuidFrom 80) cfg.blocksize
                    vmdkInfo prev.1 prev.2
                    { currDumpH := currDumpH, currDigestH := currDigestH,
                      rdiffH := rdiffH })) fun hs =>
  stepRes none (arcMgr.unwind ndebug
                  (arcMgr.writeHeaders ndebug hs.currDumpH hs.currDigestH hs.rdiffH))
    fun arcMgr1 =>
  stepRes none (arcMgr1.unwind ndebug
                  (arcMgr1.readChangedBlockBitmapForDump ndebug Bitmap.mk0)) fun rb =>
  stepRes none (rb.1.unwind ndebug
                  (if cfg.mode == DumpMode.DUMPMODE_INCR then
                     checkAndThrow (hs.currDumpH.diskSize == rb.2.size)
                   else Res.ok ())) fun _ =>
  let maxOft := if cfg.numReadBlockForTest == 0 then vmdkInfo.nBlocks
                else cfg.numReadBlockForTest
  let r := doDumpBlocks ndebug { env with changedBlockBitmap := rb.2 } rb.1
             cfg.blocksize maxOft
  (some r.1, r.1.arcMgr.leave ndebug r.2)

/-! ## The digest command (`Command::doDigest`) -/

/-- The loop `for (uint64 offset = 0; offset < prevDumpH.getDiskSize(); offset ++)` of
`Command::doDigest`: `n` iterations. -/
def digestLoop (ndebug : Bool) (md5 : List Nat → List Nat) :
    Nat → ArchiveManager → VmdkDumpBlock → VmdkDigestBlock → ArchiveManager × Res Unit
  | 0, arcMgr, _, _ => (arcMgr, Res.ok ())
  | n + 1, arcMgr, prevDumpB, currDigestB =>
    stepRes arcMgr (arcMgr.readFromDump ndebug prevDumpB) fun r =>
    stepRes r.1 (currDigestB.set ndebug md5 r.2) fun d =>
    stepRes r.1 (r.1.writeToDigest ndebug d) fun arcMgr2 =>
    digestLoop ndebug md5 n arcMgr2 r.2 d

/-- The command `Command::doDigest`: what was written (`none` when the failure came
before the header was out) and how the command ended, the destructor of the local
`arcMgr` included. -/
def doDigest (ndebug : Bool) (lib : TimeLib) (sys : SysEnv) (md5 : List Nat → List Nat)
    (cfg : ArchiveConfig) : Option ArchiveManager × Res Unit :=
  stepRes none (cassert ndebug (cfg.cmd == BackupCommand.CMD_DIGEST)) fun _ =>
  stepRes none (ArchiveManager.new cfg) fun arcMgr =>
  let prevDumpH := VmdkDumpHeader.new lib sys 0 0
  let currDigestH := VmdkDigestHeader.new lib sys 16 1
  stepRes none (arcMgr.unwind ndebug (arcMgr.readDumpHeader ndebug prevDumpH))
    fun prevDumpH1 =>
  stepRes none (arcMgr.unwind ndebug (currDigestH.set ndebug lib prevDumpH1))
    fun currDigestH1 =>
  stepRes none (arcMgr.unwind ndebug (arcMgr.writeDigestHeader ndebug currDigestH1))
    fun arcMgr1 =>
  stepRes (some arcMgr1) (arcMgr1.unwind ndebug (VmdkDumpBlock.new ndebug prevDumpH1.blockSize))
    fun prevDumpB =>
  let r := digestLoop ndebug md5 prevDumpH1.diskSize arcMgr1 prevDumpB VmdkDigestBlock.new
  (some r.1, r.1.leave ndebug r.2)

/-! ## Reading several archives at once (`MultiArchiveManager`) -/

/-- The entries with index `i` of the vectors `dumpInMgrPs_`, `dumpBPs_` and
`dumpEofs_`: the blocks input `i` has still to deliver, the member `blocksize_` its
manager took from the header in `init`, its head block (`none` for a null pointer) and
its end-of-file mark. -/
structure ArchiveInput where
  mgr : List VmdkDumpBlock
  blocksize : Nat
  dumpBP : Option VmdkDumpBlock
  dumpEof : Bool
  deriving DecidableEq, Repr

/-- The class `MultiArchiveManager`. -/
structure MultiArchiveManager where
  inputs : List ArchiveInput
  offset : Nat
  blockSize : Nat
  diskSize : Nat
  uuid : ByteArray
  dumpH : VmdkDumpHeader
  deriving DecidableEq, Repr

/-- Member `SingleDumpInManager::getB` on a stream whose next block is `b`: the block
object is constructed with `new VmdkDumpBlock(blocksize_)`, whose assertion on the
block size applies, and then read from the stream. -/
def getDumpB (ndebug : Bool) (blocksize : Nat) (b : VmdkDumpBlock) : Res VmdkDumpBlock :=
  match VmdkDumpBlock.new ndebug blocksize with
  | Res.ok _ => Res.ok b
  | Res.throw => Res.throw
  | Res.abort => Res.abort

/-- The end of the constructor loop body for one input, whose header gave the block
size `blocksize`: fetch its first block with `getB`, or mark it as ended. -/
def ArchiveInput.open (ndebug : Bool) (blocksize : Nat) (blocks : List VmdkDumpBlock) :
    Res ArchiveInput :=
  match blocks with
  | [] => Res.ok { mgr := [], blocksize := blocksize, dumpBP := none, dumpEof := true }
  | b :: rest =>
    match getDumpB ndebug blocksize b with
    | Res.ok b1 =>
      Res.ok { mgr := rest, blocksize := blocksize, dumpBP := some b1, dumpEof := false }
    | Res.throw => Res.throw
    | Res.abort => Res.abort

/-- The constructor loop of `MultiArchiveManager` from the second archive on: `first`
is the header of archive 0 and `prev` the header of the archive before the current
one. -/
def openRest (ndebug : Bool) (lib : TimeLib) (first : VmdkDumpHeader) :
    VmdkDumpHeader → List Archive → Res (List ArchiveInput)
  | _, [] => Res.ok []
  | prev, a :: rest => do
    let _ ← checkAndThrow (a.header.diskSize == first.diskSize)
    let _ ← checkAndThrow (a.header.blockSize == first.blockSize)
    let u ← a.header.getUUID ndebug
    let _ ← checkAndThrow (u == first.uuid)
    let _ ← (if !prev.isFull && !a.header.isFull then
               checkAndThrow (decide (prev.getTimeStamp lib > a.header.getTimeStamp lib))
             else Res.ok ())
    let inp ← ArchiveInput.open ndebug a.header.blockSize a.blocks
    let tail ← openRest ndebug lib first a.header rest
    pure (inp :: tail)

/-- Constructor `MultiArchiveManager(archiveList)`. -/
def MultiArchiveManager.new (ndebug : Bool) (lib : TimeLib) (archiveList : List Archive) :
    Res MultiArchiveManager :=
  match archiveList with
  | [] => Res.throw
  | a0 :: rest => do
    let uuid ← a0.header.getUUID ndebug
    let inp0 ← ArchiveInput.open ndebug a0.header.blockSize a0.blocks
    let tail ← openRest ndebug lib a0.header a0.header rest
    let back := (archiveList.getLast?.getD a0).header
    pure { inputs := inp0 :: tail
           offset := 0
           blockSize := a0.header.blockSize
           diskSize := a0.header.diskSize
           uuid := uuid
           dumpH := ((back.setFull a0.header.isFull).setTimeStamp lib (back.getTimeStamp lib)) }

/-- Member `MultiArchiveManager::isEOF`. -/
def MultiArchiveManager.isEOF (ndebug : Bool) (m : MultiArchiveManager) : Res Bool :=
  match cassert ndebug (decide (m.offset ≤ m.diskSize)) with
  | Res.ok _ => Res.ok (m.offset == m.diskSize)
  | Res.throw => Res.throw
  | Res.abort => Res.abort

/-- Member `MultiArchiveManager::getDumpHeader`. -/
def MultiArchiveManager.getDumpHeader (m : MultiArchiveManager) : VmdkDumpHeader := m.dumpH

/-- Whether the head of an input is at `offset`: the test
`! dumpEofs_[i] && dumpBPs_[i]->getOffset() == offset_`. -/
def ArchiveInput.isAt (inp : ArchiveInput) (offset : Nat) : Bool :=
  !inp.dumpEof && (match inp.dumpBP with
                   | some b => b.offset == offset
                   | none => false)

/-- The step "read next block data" for a matching input: fetch the next block with
`getB`, or set the end-of-file mark (the head pointer then keeps its old value). -/
def ArchiveInput.advance (ndebug : Bool) (inp : ArchiveInput) : Res ArchiveInput :=
  match inp.mgr with
  | [] => Res.ok { inp with dumpEof := true }
  | b :: rest =>
    match getDumpB ndebug inp.blocksize b with
    | Res.ok b1 => Res.ok { inp with mgr := rest, dumpBP := some b1 }
    | Res.throw => Res.throw
    | Res.abort => Res.abort

/-- The `for` loop of `MultiArchiveManager::readBlock` over the inputs not yet
visited; `dumpBP` is the block selected so far (`isExist` is `dumpBP.isSome`). -/
def readBlockLoop (ndebug : Bool) (offset : Nat) :
    List ArchiveInput → Option VmdkDumpBlock → Res (List ArchiveInput × Option VmdkDumpBlock)
  | [], dumpBP => Res.ok ([], dumpBP)
  | inp :: rest, dumpBP =>
    match cassert ndebug (!inp.dumpEof && inp.dumpBP.isSome) with
    | Res.ok _ =>
      let hit := inp.isAt offset
      match (if hit then inp.advance ndebug else Res.ok inp) with
      | Res.ok inp1 =>
        let dumpBP1 := if hit then inp.dumpBP else dumpBP
        match readBlockLoop ndebug offset rest dumpBP1 with
        | Res.ok (rest1, sel) => Res.ok (inp1 :: rest1, sel)
        | Res.throw => Res.throw
        | Res.abort => Res.abort
      | Res.throw => Res.throw
      | Res.abort => Res.abort
    | Res.throw => Res.throw
    | Res.abort => Res.abort

/-- Member `MultiArchiveManager::readBlock`: the manager afterwards, the caller's block
afterwards and the returned flag. -/
def MultiArchiveManager.readBlock (ndebug : Bool) (m : MultiArchiveManager)
    (dumpB : VmdkDumpBlock) : Res (MultiArchiveManager × VmdkDumpBlock × Bool) := do
  let eof ← m.isEOF ndebug
  if eof then pure (m, dumpB, false)
  else
    let (inputs, sel) ← readBlockLoop ndebug m.offset m.inputs none
    let _ ← cassert ndebug sel.isSome
    match sel with
    | some dumpBP =>
      let b ← dumpB.copyDataFrom ndebug dumpBP
      pure ({ m with inputs := inputs, offset := wrapU64 (m.offset + 1) }, b, true)
    | none =>
      pure ({ m with inputs := inputs, offset := wrapU64 (m.offset + 1) }, dumpB, false)

/-! ## The merge command (`Command::doMerge`) -/

/-- The loop `for (uint64 oft = 0; oft < diskSize; oft ++)` of `Command::doMerge`:
`n` iterations from offset `oft`; `isFull` selects `dump_out` or `rdiff_out`. -/
def mergeLoop (ndebug : Bool) (isFull : Bool) :
    Nat → Nat → MultiArchiveManager → ArchiveManager → VmdkDumpBlock →
    ArchiveManager × Res Unit
  | 0, _, _, arcMgr, _ => (arcMgr, Res.ok ())
  | n + 1, oft, mArcMgr, arcMgr, currDumpB =>
    stepRes arcMgr (mArcMgr.readBlock ndebug currDumpB) fun r =>
    let mArcMgr1 := r.1
    let currDumpB1 := r.2.1
    if r.2.2 then
      stepRes arcMgr (cassert ndebug (oft == currDumpB1.offset)) fun _ =>
      stepRes arcMgr (if isFull then arcMgr.writeToDump ndebug currDumpB1
                      else arcMgr.writeToRdiff ndebug currDumpB1) fun arcMgr1 =>
      mergeLoop ndebug isFull n (oft + 1) mArcMgr1 arcMgr1 currDumpB1
    else mergeLoop ndebug isFull n (oft + 1) mArcMgr1 arcMgr currDumpB1

/-- The command `Command::doMerge`: `archiveList` holds the input archives and `cfg`
names the output files.  The result is what was written (`none` when the failure
came before the output manager existed) and how the command ended, the destructor of
the local `arcMgr` included. -/
def doMerge (ndebug : Bool) (lib : TimeLib) (archiveList : List Archive)
    (cfg : ArchiveConfig) : Option ArchiveManager × Res Unit :=
  stepRes none (cassert ndebug (cfg.cmd == BackupCommand.CMD_MERGE)) fun _ =>
  stepRes none (checkAndThrow (decide (archiveList.length ≥ 2))) fun _ =>
  stepRes none (MultiArchiveManager.new ndebug lib archiveList) fun mArcMgr =>
  let currDumpH := mArcMgr.getDumpHeader
  let isFull := currDumpH.isFull
  let blockSize := currDumpH.blockSize
  let diskSize := currDumpH.diskSize
  stepRes none (ArchiveManager.new cfg) fun arcMgr =>
  stepRes (some arcMgr) (arcMgr.unwind ndebug
                           (if isFull then arcMgr.writeDumpHeader ndebug currDumpH
                            else arcMgr.writeRdiffHeader ndebug currDumpH)) fun arcMgr1 =>
  stepRes (some arcMgr1) (arcMgr1.unwind ndebug (VmdkDumpBlock.new ndebug blockSize))
    fun currDumpB =>
  let r := mergeLoop ndebug isFull diskSize 0 mArcMgr arcMgr1 currDumpB
  (some r.1, r.1.leave ndebug r.2)

/-! ## The check command (`Command::doCheck`) -/

/-- Member `ArchiveManager::canReadFromDigest`. -/
def ArchiveManager.canReadFromDigest (ndebug : Bool) (am : ArchiveManager) : Res Bool := do
  let _ ← cassert ndebug am.isOpenDigestIn
  pure (!am.digestIn.isEmpty)

/-- What `doCheck` prints for one block: the offset at every 64th block, otherwise
`.` for a block that matches, `X` for one that does not and `_` for an offset without
a block. -/
inductive CheckMark where
  | count (offset : Nat) : CheckMark
  | valid : CheckMark
  | invalid : CheckMark
  | absent : CheckMark
  deriving DecidableEq, Repr

/-- The local variables of `doCheck` in its loop, and the marks printed so far. -/
structure CheckState where
  mArcMgr : MultiArchiveManager
  arcMgr : ArchiveManager
  dumpB : VmdkDumpBlock
  digestB : VmdkDigestBlock
  digestCheck : VmdkDigestBlock
  isTheSameAllBlocks : Bool
  offset : Nat
  marks : List CheckMark
  deriving DecidableEq, Repr

/-- The body of the loop of `doCheck`. -/
def checkStep (ndebug : Bool) (md5 : List Nat → List Nat) (st : CheckState) :
    CheckState × Res Unit :=
  stepRes st (st.mArcMgr.readBlock ndebug st.dumpB) fun r =>
  let st1 := { st with mArcMgr := r.1, dumpB := r.2.1 }
  let isExist := r.2.2
  stepRes st1 (st1.arcMgr.readFromDigest ndebug st1.digestB) fun g =>
  let st2 := { st1 with arcMgr := g.1, digestB := g.2 }
  let c : CheckState × Res Bool :=
    if isExist then
      stepRes st2 (cassert ndebug (st2.offset == st2.dumpB.offset)) fun _ =>
      stepRes st2 (st2.digestCheck.set ndebug md5 st2.dumpB) fun dc =>
      let st3 := { st2 with digestCheck := dc }
      stepRes st3 (st3.digestB.ne ndebug st3.digestCheck) fun differs =>
      if differs then ({ st3 with isTheSameAllBlocks := false }, Res.ok false)
      else (st3, Res.ok true)
    else (st2, Res.ok true)
  stepRes c.1 c.2 fun isValid =>
  let mark :=
    if c.1.offset % 64 == 0 then CheckMark.count c.1.offset
    else if isExist && isValid then CheckMark.valid
    else if isExist then CheckMark.invalid
    else CheckMark.absent
  ({ c.1 with marks := c.1.marks ++ [mark], offset := wrapU64 (c.1.offset + 1) }, Res.ok ())

/-- The condition `! mArcMgr.isEOF() && arcMgr.canReadFromDigest()` of the loop of
`doCheck`; the second call is made only when the first returned false. -/
def checkCond (ndebug : Bool) (st : CheckState) : Res Bool :=
  match st.mArcMgr.isEOF ndebug with
  | Res.throw => Res.throw
  | Res.abort => Res.abort
  | Res.ok true => Res.ok false
  | Res.ok false => st.arcMgr.canReadFromDigest ndebug

/-- The loop `while (! mArcMgr.isEOF() && arcMgr.canReadFromDigest())` of `doCheck`,
run for at most `fuel` iterations; `none` when the condition still holds after them.
Every iteration takes a block from `digest_in`, so its length is enough fuel. -/
def checkLoop (ndebug : Bool) (md5 : List Nat → List Nat) :
    Nat → CheckState → Option (CheckState × Res Unit)
  | 0, st =>
    match checkCond ndebug st with
    | Res.throw => some (st, Res.throw)
    | Res.abort => some (st, Res.abort)
    | Res.ok false => some (st, Res.ok ())
    | Res.ok true => none
  | n + 1, st =>
    match checkCond ndebug st with
    | Res.throw => some (st, Res.throw)
    | Res.abort => some (st, Res.abort)
    | Res.ok false => some (st, Res.ok ())
    | Res.ok true =>
      match checkStep ndebug md5 st with
      | (st1, Res.ok _) => checkLoop ndebug md5 n st1
      | (st1, Res.throw) => some (st1, Res.throw)
      | (st1, Res.abort) => some (st1, Res.abort)

/-- What `doCheck` has printed: the marks, and the verdict of the line `Check: OK`
(`true`) or `Check: WRONG` (`false`) when that line was reached. -/
structure CheckOut where
  marks : List CheckMark
  verdict : Option Bool
  deriving DecidableEq, Repr

/-- The part of `doCheck` before its loop: the state with which the loop is entered and
the two header comparisons.  An exception thrown after the construction of the local
`arcMgr` runs its destructor. -/
def checkInit (ndebug : Bool) (lib : TimeLib) (sys : SysEnv) (archiveList : List Archive)
    (cfg : ArchiveConfig) : Res (CheckState × Bool × Bool) := do
  let _ ← cassert ndebug (cfg.cmd == BackupCommand.CMD_CHECK)
  let _ ← checkAndThrow (decide (archiveList.length ≥ 1))
  let mArcMgr ← MultiArchiveManager.new ndebug lib archiveList
  let arcMgr ← ArchiveManager.new cfg
  let dumpH := (VmdkDumpHeader.new lib sys 0 0).copyDataFrom mArcMgr.getDumpHeader
  let digestH ← arcMgr.unwind ndebug
    (arcMgr.readDigestHeader ndebug (VmdkDigestHeader.new lib sys 16 1))
  let isTheSameVMDKHeader ← arcMgr.unwind ndebug (isTheSameVMDK ndebug dumpH digestH)
  let isTheSameSnapshotHeader ← arcMgr.unwind ndebug
    (isTheSameSnapshot ndebug lib dumpH digestH)
  let dumpB ← arcMgr.unwind ndebug (VmdkDumpBlock.new ndebug dumpH.blockSize)
  pure ({ mArcMgr := mArcMgr, arcMgr := arcMgr, dumpB := dumpB
          digestB := VmdkDigestBlock.new, digestCheck := VmdkDigestBlock.new
          isTheSameAllBlocks := true, offset := 0, marks := [] },
        isTheSameVMDKHeader, isTheSameSnapshotHeader)

/-- The command `Command::doCheck`: what it printed and how it ended, the destructor
of the local `arcMgr` included (`none` only if the loop ran out of fuel). -/
def doCheck (ndebug : Bool) (lib : TimeLib) (sys : SysEnv) (md5 : List Nat → List Nat)
    (archiveList : List Archive) (cfg : ArchiveConfig) : Option (CheckOut × Res Unit) :=
  match checkInit ndebug lib sys archiveList cfg with
  | Res.throw => some ({ marks := [], verdict := none }, Res.throw)
  | Res.abort => some ({ marks := [], verdict := none }, Res.abort)
  | Res.ok (st0, isTheSameVMDKHeader, isTheSameSnapshotHeader) =>
    match checkLoop ndebug md5 st0.arcMgr.digestIn.length st0 with
    | none => none
    | some (st, Res.ok _) =>
      some ({ marks := st.marks
              verdict := some (st.isTheSameAllBlocks && isTheSameVMDKHeader &&
                               isTheSameSnapshotHeader) },
            st.arcMgr.leave ndebug (Res.ok ()))
    | some (st, Res.throw) =>
      some ({ marks := st.marks, verdict := none }, st.arcMgr.leave ndebug Res.throw)
    | some (st, Res.abort) => some ({ marks := st.marks, verdict := none }, Res.abort)

/-- The `try` block of `Command::run` around a command that ended as `r`: an exception
is caught and makes `run` return false; a failed assertion ends the process. -/
def runResult (r : Res Unit) : Res Bool :=
  match r with
  | Res.ok _ => Res.ok true
  | Res.throw => Res.ok false
  | Res.abort => Res.abort

/-- The value `main` returns after `cmd.run()` returned `ret2`. -/
def mainReturn (ret2 : Bool) : Int := if ret2 then 0 else -1

/-- The program run on the check command (options parsed): what was printed and
the value `main` returns (`Res.abort` when an assertion ended the process). -/
def mainCheck (ndebug : Bool) (lib : TimeLib) (sys : SysEnv) (md5 : List Nat → List Nat)
    (archiveList : List Archive) (cfg : ArchiveConfig) : Option (CheckOut × Res Int) :=
  (doCheck ndebug lib sys md5 archiveList cfg).map fun r =>
    (r.1, match runResult r.2 with
          | Res.ok ret2 => Res.ok (mainReturn ret2)
          | Res.throw => Res.throw
          | Res.abort => Res.abort)

/-! ## The restore loop (`Command::writeBlocksToVmdk`) -/

/-- The enum `Wflag` of `writeBlocksToVmdk`. -/
inductive Wflag where
  | NONE : Wflag
  | ZERO : Wflag
  | NONZERO : Wflag
  deriving DecidableEq, Repr

/-- What `writeBlocksToVmdk` needs from outside: `isSignal oft` is the value of the
signal flag when iteration `oft` starts, and `writeBlock oft buf` tells whether the
call `vddkCtrl.writeBlock(oft, buf)` returned (`false`: it threw). -/
structure RestoreEnv where
  isSignal : Nat → Bool
  writeBlock : Nat → ByteArray → Bool

/-- The local variables of `writeBlocksToVmdk` in its loop, the calls of
`vddkCtrl.writeBlock` that returned (offset and buffer) and the flags shown. -/
structure RestoreState where
  mArcMgr : MultiArchiveManager
  dumpB : VmdkDumpBlock
  flag : Wflag
  writes : List (Nat × ByteArray)
  shown : List Wflag
  deriving DecidableEq, Repr

/-- The body of the loop of `writeBlocksToVmdk` at `offset`; `zeroBlock` is the zero
buffer prepared before the loop. -/
def writeStep (ndebug : Bool) (env : RestoreEnv) (isWriteZeroBlock : Bool)
    (zeroBlock : ByteArray) (offset : Nat) (st : RestoreState) : RestoreState × Res Unit :=
  stepRes st (checkAndThrow (!env.isSignal offset)) fun _ =>
  stepRes st (st.mArcMgr.readBlock ndebug st.dumpB) fun r =>
  let st1 := { st with mArcMgr := r.1, dumpB := r.2.1 }
  let isExist := r.2.2
  let c : RestoreState × Res Unit :=
    if isExist then
      stepRes st1 (cassert ndebug (offset == st1.dumpB.offset)) fun _ =>
      stepRes st1 (st1.dumpB.getIsAllZero ndebug) fun z =>
      if !z || isWriteZeroBlock then
        stepRes st1 (st1.dumpB.getIsAllZero ndebug) fun z2 =>
        let buf := if z2 then zeroBlock else st1.dumpB.block
        let st2 := { st1 with flag := if z2 then Wflag.ZERO else Wflag.NONZERO }
        if env.writeBlock offset buf then
          ({ st2 with writes := st2.writes ++ [(offset, buf)] }, Res.ok ())
        else (st2, Res.throw)
      else ({ st1 with flag := Wflag.NONE }, Res.ok ())
    else (st1, Res.ok ())
  stepRes c.1 c.2 fun _ =>
  ({ c.1 with shown := c.1.shown ++ [c.1.flag] }, Res.ok ())

/-- The loop `for (uint64 offset = 0; ! mArcMgr.isEOF(); offset ++)` of
`writeBlocksToVmdk`, run for at most `fuel` iterations; `none` when the reader is still
not at its end after them. -/
def writeLoop (ndebug : Bool) (env : RestoreEnv) (isWriteZeroBlock : Bool)
    (zeroBlock : ByteArray) : Nat → Nat → RestoreState → Option (RestoreState × Res Unit)
  | 0, _, st =>
    match st.mArcMgr.isEOF ndebug with
    | Res.throw => some (st, Res.throw)
    | Res.abort => some (st, Res.abort)
    | Res.ok true => some (st, Res.ok ())
    | Res.ok false => none
  | n + 1, offset, st =>
    match st.mArcMgr.isEOF ndebug with
    | Res.throw => some (st, Res.throw)
    | Res.abort => some (st, Res.abort)
    | Res.ok true => some (st, Res.ok ())
    | Res.ok false =>
      match writeStep ndebug env isWriteZeroBlock zeroBlock offset st with
      | (st1, Res.ok _) =>
        writeLoop ndebug env isWriteZeroBlock zeroBlock n (wrapU64 (offset + 1)) st1
      | (st1, Res.throw) => some (st1, Res.throw)
      | (st1, Res.abort) => some (st1, Res.abort)

/-- The function `Command::writeBlocksToVmdk(vddkCtrl, mArcMgr, blockSize)`; the reader
reaches its end after `diskSize - offset` blocks. -/
def writeBlocksToVmdk (ndebug : Bool) (env : RestoreEnv) (cmd : BackupCommand)
    (isWriteZeroBlock : Bool) (mArcMgr : MultiArchiveManager) (blockSize : Nat) :
    Option (Option RestoreState × Res Unit) :=
  match cassert ndebug (cmd == BackupCommand.CMD_RESTORE) with
  | Res.throw => some (none, Res.throw)
  | Res.abort => some (none, Res.abort)
  | Res.ok _ =>
    match VmdkDumpBlock.new ndebug blockSize with
    | Res.throw => some (none, Res.throw)
    | Res.abort => some (none, Res.abort)
    | Res.ok dumpB =>
      (writeLoop ndebug env isWriteZeroBlock (List.replicate blockSize 0)
        (mArcMgr.diskSize - mArcMgr.offset) 0
        { mArcMgr := mArcMgr, dumpB := dumpB, flag := Wflag.NONE, writes := [],
          shown := [] }).map fun r => (some r.1, r.2)

/-! ## The synchronized queue (`queue.hpp`) -/

/-- The class `Queue<Ptr>`: the stored pointers (`none` is a null pointer), the
maximum size and the closed flag. -/
structure Queue (α : Type) where
  items : List (Option α)
  size : Nat
  isClosed : Bool
  deriving DecidableEq, Repr

/-- Constructor `Queue(size)`: empty and open. -/
def Queue.new {α : Type} (size : Nat) : Queue α :=
  { items := [], size := size, isClosed := false }

/-- Member `Queue::put`, executed under the mutex: the queue afterwards and the value
returned, or `none` when the caller waits on the condition variable (the queue is open
and full). -/
def Queue.put {α : Type} (ndebug : Bool) (q : Queue α) (blk : Option α) :
    Res (Option (Queue α × Bool)) :=
  if blk.isNone then Res.ok (some (q, false))
  else
    match cassert ndebug (decide (q.items.length ≤ q.size)) with
    | Res.throw => Res.throw
    | Res.abort => Res.abort
    | Res.ok _ =>
      if !q.isClosed && q.items.length == q.size then Res.ok none
      else if q.isClosed then Res.ok (some (q, false))
      else
        match cassert ndebug (decide (q.items.length < q.size)) with
        | Res.throw => Res.throw
        | Res.abort => Res.abort
        | Res.ok _ => Res.ok (some ({ q with items := q.items ++ [blk] }, true))

/-- Member `Queue::get`: the queue afterwards, the pointer stored into `blk` (`blk`
itself when nothing was taken) and the value returned, or `none` when the caller waits
(the queue is open and empty). -/
def Queue.get {α : Type} (q : Queue α) (blk : Option α) :
    Option (Queue α × Option α × Bool) :=
  if !q.isClosed && q.items.isEmpty then none
  else if q.isClosed && q.items.isEmpty then some (q, blk, false)
  else
    match q.items with
    | [] => some (q, blk, false)
    | x :: rest => some ({ q with items := rest }, x, true)

/-- Member `Queue::open`. -/
def Queue.open {α : Type} (q : Queue α) : Queue α :=
  if q.isClosed then { q with isClosed := false } else q

/-- Member `Queue::close`. -/
def Queue.close {α : Type} (q : Queue α) : Queue α :=
  if !q.isClosed then { q with isClosed := true } else q

/-- Member `Queue::isEmpty`. -/
def Queue.isEmpty {α : Type} (q : Queue α) : Bool := q.items.isEmpty

/-- Where the worker thread of a `DataReader` stands in `readWorker`: no thread, before
`rwd.initialized()`, at the loop test, in `read`, in `enqueue` holding `dataP`, or
finished. -/
inductive WorkerPc (α : Type) where
  | noThread : WorkerPc α
  | init : WorkerPc α
  | test : WorkerPc α
  | read : WorkerPc α
  | enqueue (dataP : α) : WorkerPc α
  | finished : WorkerPc α
  deriving DecidableEq, Repr

/-- The class `DataReader<T>` with its `ReadWorkerData<T>`: the items the input stream
still holds, the queue, `tmpDataP_`, the two flags of the worker data, the worker
thread and the pause flag. -/
structure DataReader (α : Type) where
  input : List α
  queue : Queue α
  tmpDataP : Option α
  isInitialized : Bool
  isEnd : Bool
  th : WorkerPc α
  isPaused : Bool
  deriving DecidableEq, Repr

/-- Constructor `DataReader(is, generatorP, queueSize)`. -/
def DataReader.new {α : Type} (input : List α) (queueSize : Nat) : DataReader α :=
  { input := input, queue := Queue.new queueSize, tmpDataP := none
    isInitialized := false, isEnd := false, th := WorkerPc.noThread, isPaused := false }

/-- One step of the worker thread in `readWorker`: `rwd.initialized()`, the loop test
`! rwd.isEOF() && ! queue.isClosed()` (followed by `rwd.end()` when it fails), `read`,
or `enqueue` with its `queue.put`.  A worker that waits in `put`, has finished or does
not exist stays where it is.  The items come from a stream of well-formed items, so
`operator>>` does not throw. -/
def DataReader.workerStep {α : Type} (ndebug : Bool) (r : DataReader α) :
    Res (DataReader α) :=
  match r.th with
  | WorkerPc.noThread => Res.ok r
  | WorkerPc.finished => Res.ok r
  | WorkerPc.init => Res.ok { r with isInitialized := true, th := WorkerPc.test }
  | WorkerPc.test =>
    if !r.input.isEmpty && !r.queue.isClosed then Res.ok { r with th := WorkerPc.read }
    else Res.ok { r with isEnd := true, th := WorkerPc.finished }
  | WorkerPc.read =>
    match r.tmpDataP with
    | none =>
      match r.input with
      | x :: rest => Res.ok { r with input := rest, th := WorkerPc.enqueue x }
      | [] => Res.ok { r with isEnd := true, queue := r.queue.close, th := WorkerPc.finished }
    | some x => Res.ok { r with tmpDataP := none, th := WorkerPc.enqueue x }
  | WorkerPc.enqueue x =>
    match r.queue.put ndebug (some x) with
    | Res.throw => Res.throw
    | Res.abort => Res.abort
    | Res.ok none => Res.ok r
    | Res.ok (some (q, true)) => Res.ok { r with queue := q, th := WorkerPc.test }
    | Res.ok (some (q, false)) =>
      Res.ok { r with queue := q, tmpDataP := some x, th := WorkerPc.test }

/-- Whether the worker thread has returned from `readWorker` (or does not exist). -/
def WorkerPc.isDone {α : Type} (pc : WorkerPc α) : Bool :=
  match pc with
  | WorkerPc.finished => true
  | WorkerPc.noThread => true
  | _ => false

/-- The call `th_->join()`: the worker runs until it has finished, for at most `fuel`
steps (`none` when it has not finished after them). -/
def DataReader.join {α : Type} (ndebug : Bool) :
    Nat → DataReader α → Option (Res (DataReader α))
  | 0, r => if r.th.isDone then some (Res.ok r) else none
  | n + 1, r =>
    if r.th.isDone then some (Res.ok r)
    else
      match r.workerStep ndebug with
      | Res.ok r1 => DataReader.join ndebug n r1
      | Res.throw => some Res.throw
      | Res.abort => some Res.abort

/-- Member `DataReader::start`: reset the flags, open the queue, create the thread and
wait until it has run `rwd.initialized()`. -/
def DataReader.start {α : Type} (ndebug : Bool) (r : DataReader α) : Res (DataReader α) :=
  match r.th with
  | WorkerPc.noThread =>
    ({ r with isInitialized := false, isEnd := false, queue := r.queue.open
              th := WorkerPc.init } : DataReader α).workerStep ndebug
  | _ => Res.ok r

/-- Member `DataReader::stop`: close the queue, join the worker (which, the queue being
closed, finishes within four steps) and drop the thread. -/
def DataReader.stop {α : Type} (ndebug : Bool) (r : DataReader α) :
    Option (Res (DataReader α)) :=
  match r.th with
  | WorkerPc.noThread => some (Res.ok r)
  | _ =>
    match DataReader.join ndebug 4 { r with queue := r.queue.close } with
    | none => none
    | some (Res.ok r1) => some (Res.ok { r1 with th := WorkerPc.noThread })
    | some Res.throw => some Res.throw
    | some Res.abort => some Res.abort

/-- Member `DataReader::pause`. -/
def DataReader.pause {α : Type} (ndebug : Bool) (r : DataReader α) :
    Option (Res (DataReader α)) :=
  match cassert ndebug (!r.isPaused) with
  | Res.throw => some Res.throw
  | Res.abort => some Res.abort
  | Res.ok _ =>
    match r.stop ndebug with
    | none => none
    | some (Res.ok r1) => some (Res.ok { r1 with isPaused := true })
    | some Res.throw => some Res.throw
    | some Res.abort => some Res.abort

/-- Member `DataReader::resume`. -/
def DataReader.resume {α : Type} (ndebug : Bool) (r : DataReader α) : Res (DataReader α) :=
  match cassert ndebug r.isPaused with
  | Res.throw => Res.throw
  | Res.abort => Res.abort
  | Res.ok _ =>
    match r.start ndebug with
    | Res.ok r1 => Res.ok { r1 with isPaused := false }
    | Res.throw => Res.throw
    | Res.abort => Res.abort

/-- Member `DataReader::isEnd`. -/
def DataReader.isEndAll {α : Type} (r : DataReader α) : Bool := r.isEnd && r.queue.isEmpty

/-- Member `DataReader::get`: the reader afterwards and the pointer returned, or `none`
when the caller waits in `queue_.get`. -/
def DataReader.get {α : Type} (r : DataReader α) : Option (DataReader α × Option α) :=
  (r.queue.get none).map fun g => ({ r with queue := g.1 }, g.2.1)

/-! ## Auxiliary notions for the statements about the dump loop -/

/-- The block that `writeToDump` / `writeToRdiff` hand to `putB` for `b`: a new block
of the same block size that received `b` through `copyDataFrom`. -/
def VmdkDumpBlock.clone (b : VmdkDumpBlock) : VmdkDumpBlock :=
  { offset := b.offset
    isAllZero := b.isAllZero
    block := if b.isAllZero = Boolean.BFALSE then copyInto (List.replicate b.blockSize 0) b.block
             else List.replicate b.blockSize 0
    blockSize := b.blockSize }

/-- The block that `writeToDigest` hands to `putB` for `d`. -/
def VmdkDigestBlock.clone (d : VmdkDigestBlock) : VmdkDigestBlock :=
  VmdkDigestBlock.new.copyDataFrom d

/-- The digest of a dump block: `VmdkDigestBlock::set` applied to it on a newly
constructed digest block. -/
def digestOf (ndebug : Bool) (md5 : List Nat → List Nat) (w : VmdkDumpBlock) :
    Res VmdkDigestBlock :=
  VmdkDigestBlock.new.set ndebug md5 w

/-- The invariant of the dump loop: the current block fills its buffer, the digest
buffer has 16 bytes, the blocks still to come from `dump_in` have resolved flags, and
the blocks written to `dump_out` and `digest_out` correspond. -/
structure DumpInv (ndebug : Bool) (md5 : List Nat → List Nat) (st : DumpState) : Prop where
  curr_len : st.currDumpB.block.length = st.currDumpB.blockSize
  digest_len : st.currDigestB.digest.length = MD5_DIGEST_LENGTH
  in_flags : ∀ b ∈ st.arcMgr.dumpIn, b.isAllZero ≠ Boolean.BNULL
  pairs : List.Forall₂ (fun w d => w.block.length = w.blockSize ∧
              digestOf ndebug md5 w = Res.ok d)
            st.arcMgr.dumpOut st.arcMgr.digestOut

/-- Every digest block written so far is the digest of the dump block written at the
same position. -/
def DigestsMatch (ndebug : Bool) (md5 : List Nat → List Nat) (am : ArchiveManager) : Prop :=
  ∀ (o : Nat) (d : VmdkDigestBlock), am.digestOut[o]? = some d →
    ∃ w, am.dumpOut[o]? = some w ∧ w.block.length = w.blockSize ∧
      digestOf ndebug md5 w = Res.ok d

/-- The input the constructor loop of `MultiArchiveManager` leaves for an archive
whose first block was fetched (or which holds none). -/
def ArchiveInput.opened (blocksize : Nat) (blocks : List VmdkDumpBlock) : ArchiveInput :=
  match blocks with
  | [] => { mgr := [], blocksize := blocksize, dumpBP := none, dumpEof := true }
  | b :: rest => { mgr := rest, blocksize := blocksize, dumpBP := some b, dumpEof := false }

/-- The input after the step "read next block data", when `getB` returned. -/
def ArchiveInput.next (inp : ArchiveInput) : ArchiveInput :=
  match inp.mgr with
  | [] => { inp with dumpEof := true }
  | b :: rest => { inp with mgr := rest, dumpBP := some b }

/-- The bits of a bitmap beyond its size, in the last byte of its vector, are clear. -/
def Bitmap.PaddingClear (b : Bitmap) : Prop :=
  ∀ j v, b.bmpSize ≤ j → b.bmp[j / 8]? = some v → v.testBit (7 - j % 8) = false

/-- The invariant of the rebuild loop of `test_bitmap.cpp` before index `i`: `bmp2`
has the size of `bmp`, and bit `k` of its byte `q`, which is the bit of index
`8 * q + (7 - k)`, is that of `bmp` below `i` and clear from `i` on. -/
structure RebuildInv (bmp bmp2 : Bitmap) (i : Nat) : Prop where
  size_eq : bmp2.bmpSize = bmp.bmpSize
  len_eq : bmp2.bmp.length = bmp.bmp.length
  bytes : ∀ x ∈ bmp2.bmp, x < 256
  bits : ∀ q k, k < 8 → (bmp2.bmp[q]?.getD 0).testBit k =
    (decide (8 * q + (7 - k) < i) && (bmp.bmp[q]?.getD 0).testBit k)

/-- The events of `k` consecutive failed reads of offset `oft`, the first of them
being attempt `a` (counted from 0), each followed by another attempt: after the
`n`-th failure (`n = a + 1`) the provider is reset, between `pause` and `resume` of
the archive streams, exactly when `2 <= n <= 9`. -/
def failEvents (oft : Nat) : Nat → Nat → List DumpEvent
  | 0, _ => []
  | k + 1, a =>
    [DumpEvent.read oft a false] ++
    (if 2 ≤ a + 1 ∧ a + 1 ≤ 9 then
       [DumpEvent.close true, DumpEvent.pause, DumpEvent.reset true, DumpEvent.resume,
        DumpEvent.reopen true]
     else []) ++
    failEvents oft k (a + 1)

/-- The state of the dump loop is ready for the writes of an iteration: the dump and
the digest output are open and have their headers, the current dump block has a block
size that is a multiple of the sector size and fills its buffer, the digest buffer has
16 bytes, and in diff and incr mode the rdiff output is open and has its header and
the previous dump block is of that kind too. -/
def WriteReady (st : DumpState) : Prop :=
  st.arcMgr.isOpenDumpOut = true ∧ st.arcMgr.dumpOutH.isSome = true ∧
  st.arcMgr.isOpenDigestOut = true ∧ st.arcMgr.digestOutH.isSome = true ∧
  st.currDumpB.blockSize % VIXDISKLIB_SECTOR_SIZE = 0 ∧
  st.currDumpB.block.length = st.currDumpB.blockSize ∧
  st.currDigestB.digest.length = MD5_DIGEST_LENGTH ∧
  (st.arcMgr.mode.isDiffOrIncr = true →
    st.arcMgr.isOpenRdiffOut = true ∧ st.arcMgr.rdiffOutH.isSome = true ∧
    st.prevDumpB.blockSize % VIXDISKLIB_SECTOR_SIZE = 0 ∧
    st.prevDumpB.block.length = st.prevDumpB.blockSize)

instance (st : DumpState) : Decidable (WriteReady st) := by
  unfold WriteReady; infer_instance

/-- Whether an event is a call of `readBlock`. -/
def DumpEvent.isRead : DumpEvent → Bool
  | DumpEvent.read _ _ _ => true
  | _ => false

/-- The state of the dump loop before offset `o`, for block size `bs` and the blocks
`P` of `dump_in`: the four block variables keep their sizes, in diff and incr mode
`dump_in` still holds the blocks of `P` from `o` on, and `dump_out` and `digest_out`
hold `o` blocks each, the `k`-th dump block having offset `k` when the `k`-th block of
`P` has. -/
structure RunInv (bs : Nat) (P : List VmdkDumpBlock) (o : Nat) (st : DumpState) : Prop where
  curr_len : st.currDumpB.block.length = bs
  curr_bs : st.currDumpB.blockSize = bs
  prev_len : st.prevDumpB.block.length = bs
  prev_bs : st.prevDumpB.blockSize = bs
  dig_len : st.currDigestB.digest.length = MD5_DIGEST_LENGTH
  din : st.arcMgr.mode.isDiffOrIncr = true → st.arcMgr.dumpIn = P.drop o
  out_len : st.arcMgr.dumpOut.length = o
  dg_len : st.arcMgr.digestOut.length = o
  offs : (∀ (k : Nat) (p : VmdkDumpBlock), P[k]? = some p → p.offset = k) →
    ∀ (k : Nat) (w : VmdkDumpBlock), st.arcMgr.dumpOut[k]? = some w → w.offset = k

/-- The content of a dump block: `blockSize` zero bytes when the block is flagged
all-zero (its payload is not part of the archive), the payload otherwise. -/
def VmdkDumpBlock.content (b : VmdkDumpBlock) : ByteArray :=
  if b.isAllZero = Boolean.BTRUE then List.replicate b.blockSize 0 else b.block

/-- The dump blocks `ws` and the digest blocks `ds` correspond position by position:
each dump block has a resolved flag, the block size `bs` and a payload buffer of that
size, and the digest block is its digest. -/
def FullPairs (ndebug : Bool) (md5 : List Nat → List Nat) (bs : Nat)
    (ws : List VmdkDumpBlock) (ds : List VmdkDigestBlock) : Prop :=
  List.Forall₂ (fun w d => w.isAllZero ≠ Boolean.BNULL ∧ w.blockSize = bs ∧
      w.block.length = bs ∧ digestOf ndebug md5 w = Res.ok d) ws ds

/-- The bitmap an incr dump reads from the bytes `file` of `bmp_in`: what
`readChangedBlockBitmap` hands to `operator>>` after its end-of-file test. -/
def bitmapOfFile (file : List Nat) : Option Bitmap :=
  match readBitmap Bitmap.mk0 (peekIsEOF (IStream.open file)).2 with
  | Res.ok r => some r.1
  | _ => none

/-- The states of a diff dump and of an incr dump of the same inputs before the same
offset: the input streams stand at the same place, the same blocks have been written,
and the previous blocks agree. -/
structure DiffIncrRel (sD sI : DumpState) : Prop where
  modeD : sD.arcMgr.mode = DumpMode.DUMPMODE_DIFF
  modeI : sI.arcMgr.mode = DumpMode.DUMPMODE_INCR
  din : sI.arcMgr.dumpIn = sD.arcMgr.dumpIn
  gin : sI.arcMgr.digestIn = sD.arcMgr.digestIn
  dout : sI.arcMgr.dumpOut = sD.arcMgr.dumpOut
  gout : sI.arcMgr.digestOut = sD.arcMgr.digestOut
  rout : sI.arcMgr.rdiffOut = sD.arcMgr.rdiffOut
  prevB : sI.prevDumpB = sD.prevDumpB
  prevD : sI.prevDigestB = sD.prevDigestB

/-- Whether the iteration of the check loop that starts in `st` reads a block and finds
`digestB != digestCheck`: the block's recomputed digest differs from the digest read at
the same position. -/
def checkMismatch (ndebug : Bool) (md5 : List Nat → List Nat) (st : CheckState) : Bool :=
  match st.mArcMgr.readBlock ndebug st.dumpB with
  | Res.ok (_, b, true) =>
    match st.arcMgr.readFromDigest ndebug st.digestB with
    | Res.ok (_, g) =>
      match st.digestCheck.set ndebug md5 b with
      | Res.ok dc =>
        match g.ne ndebug dc with
        | Res.ok differs => differs
        | _ => false
      | _ => false
    | _ => false
  | _ => false

/-- The states in which the first `n` iterations of the check loop start. -/
def checkStates (ndebug : Bool) (md5 : List Nat → List Nat) : Nat → CheckState → List CheckState
  | 0, _ => []
  | n + 1, st =>
    st :: (match checkStep ndebug md5 st with
           | (st1, Res.ok _) => checkStates ndebug md5 n st1
           | _ => [])

/-- Repeated `get` on a queue, at most `n` times, until it returns false or would
wait: the pointers obtained and the queue afterwards. -/
def Queue.drain {α : Type} : Nat → Queue α → List (Option α) × Queue α
  | 0, q => ([], q)
  | n + 1, q =>
    match q.get none with
    | some (q1, x, true) => (x :: (Queue.drain n q1).1, (Queue.drain n q1).2)
    | _ => ([], q)

/-- A run of `n` steps of the worker thread. -/
def DataReader.workerSteps {α : Type} (ndebug : Bool) :
    Nat → DataReader α → Res (DataReader α)
  | 0, r => Res.ok r
  | n + 1, r =>
    match r.workerStep ndebug with
    | Res.ok r1 => DataReader.workerSteps ndebug n r1
    | Res.throw => Res.throw
    | Res.abort => Res.abort

/-- What the iteration of the restore loop that starts in `s` at offset `o` makes the
provider write: nothing when `readBlock` yields no block or an all-zero block that is
omitted, the zero buffer for an all-zero block that is written, the payload buffer
otherwise. -/
def stepWrites (ndebug : Bool) (isWriteZeroBlock : Bool) (zeroBlock : ByteArray) (o : Nat)
    (s : RestoreState) : List (Nat × ByteArray) :=
  match s.mArcMgr.readBlock ndebug s.dumpB with
  | Res.ok (_, b, true) =>
    if b.isAllZero = Boolean.BTRUE then (if isWriteZeroBlock then [(o, zeroBlock)] else [])
    else [(o, b.block)]
  | _ => []

/-- The states in which the first `n` iterations of the restore loop start, the first
one at offset `o`. -/
def restoreStates (ndebug : Bool) (env : RestoreEnv) (isWriteZeroBlock : Bool)
    (zeroBlock : ByteArray) : Nat → Nat → RestoreState → List RestoreState
  | 0, _, _ => []
  | n + 1, o, st =>
    st :: (match writeStep ndebug env isWriteZeroBlock zeroBlock o st with
           | (st1, Res.ok _) =>
             restoreStates ndebug env isWriteZeroBlock zeroBlock n (wrapU64 (o + 1)) st1
           | _ => [])

/-- The state in which `writeBlocksToVmdk` enters its loop. -/
def RestoreState.init (mArcMgr : MultiArchiveManager) (blockSize : Nat) : RestoreState :=
  { mArcMgr := mArcMgr, dumpB := VmdkDumpBlock.fresh blockSize, flag := Wflag.NONE
    writes := [], shown := [] }

/-! ## Concrete records used by the scenarios -/

/-- A time stamp for 2010-01-01 00:00:00. -/
def tsGen0 : TimeStamp :=
  { timeM := { tm_sec := 0, tm_min := 0, tm_hour := 0, tm_mday := 1, tm_mon := 0,
               tm_year := 110, tm_wday := 5, tm_yday := 0, tm_isdst := 0 } }

/-- A time stamp for 2010-01-02 00:00:00. -/
def tsGen1 : TimeStamp :=
  { timeM := { tm_sec := 0, tm_min := 0, tm_hour := 0, tm_mday := 2, tm_mon := 0,
               tm_year := 110, tm_wday := 6, tm_yday := 1, tm_isdst := 0 } }

/-- The header of a full dump of a disk of 4 blocks of 512 bytes, taken at `tsGen0`. -/
def headerGen0 : VmdkDumpHeader :=
  { diskSize := 4, blockSize := 512, adapterType := 2, isFull := true,
    uuid := List.replicate 16 7, timeStamp := tsGen0, metaData := [] }

/-- A header whose metadata maps the key `a` to the three-byte value `b`, NUL, `c`. -/
def headerNul : VmdkDumpHeader :=
  { headerGen0 with metaData := [([97], [98, 0, 99])] }

/-- A header whose time stamp, 1969-01-01 00:00:00, lies before the epoch. -/
def headerOld : VmdkDumpHeader :=
  { headerGen0 with
    timeStamp := { timeM := { tm_sec := 0, tm_min := 0, tm_hour := 0, tm_mday := 1,
                              tm_mon := 0, tm_year := 69, tm_wday := 3, tm_yday := 0,
                              tm_isdst := 0 } } }

/-- A stand-in for the hash function with a 16-byte result, used to run the concrete
scenarios: fifteen zero bytes and the byte sum of the data. -/
def checksum16 (data : List Nat) : List Nat := List.replicate 15 0 ++ [data.sum % 256]

/-- A block of 512 bytes all equal to `c`. -/
def fill512 (c : Nat) : ByteArray := List.replicate 512 c

/-- The source disk of generation 0: a zero block, 512 times `A`, a zero block,
512 times `B`. -/
def sourceGen0 : List ByteArray := [fill512 0, fill512 65, fill512 0, fill512 66]

/-- The source disk of generation 1: block 2 now holds 512 times `C`. -/
def sourceGen1 : List ByteArray := [fill512 0, fill512 65, fill512 67, fill512 66]

/-- The dump block at offset 1 of generation 0: 512 times `A`. -/
def blockA : VmdkDumpBlock :=
  { offset := 1, isAllZero := Boolean.BFALSE, block := fill512 65, blockSize := 512 }

/-- The all-zero digest block of `TestHeader::testVmdkDigestBlock`, whose buffer
starts with the bytes 123, 56, 9. -/
def digestTest : VmdkDigestBlock :=
  { isAllZero := Boolean.BTRUE, digest := [123, 56, 9] ++ List.replicate 13 0 }

/-- A block provider that delivers the blocks of `source` at the first attempt and
whose `close`, `reset` and `open` succeed, no signal, and an empty change bitmap. -/
def envOf (source : List ByteArray) : DumpEnv :=
  { md5 := checksum16
    readBlock := fun oft _ => source[oft]?
    close := fun _ _ => true
    reset := fun _ _ => true
    reopen := fun _ _ => true
    isSignal := fun _ => false
    changedBlockBitmap := Bitmap.mk0 }

/-- The configuration of a full dump. -/
def cfgFull : ArchiveConfig :=
  { cmd := BackupCommand.CMD_DUMP, mode := DumpMode.DUMPMODE_FULL, isUseSan := false
    blocksize := 512, numReadBlockForTest := 0
    dumpInFile := none, digestInFile := none
    dumpOutFileName := true, digestOutFileName := true
    rdiffOutFileName := false, bmpInFile := none }

/-- A clock that stands at 2010-01-01 00:00:00 UTC and a `rand()` whose `k`-th draw
yields the byte `k`. -/
def sysGen0 : SysEnv := { clock := fun _ => 1262304000, rand := fun k => k }

/-- A disk of 4 blocks behind a SCSI adapter. -/
def vmdkInfoGen0 : VmdkInfo := { adapterType := 2, nBlocks := 4 }

/-- The all-zero dump block of 512 bytes at offset `o`. -/
def zeroBlock (o : Nat) : VmdkDumpBlock :=
  { offset := o, isAllZero := Boolean.BTRUE, block := fill512 0, blockSize := 512 }

/-- The dump block at offset `o` holding 512 times the byte `c`. -/
def dataBlock (o c : Nat) : VmdkDumpBlock :=
  { offset := o, isAllZero := Boolean.BFALSE, block := fill512 c, blockSize := 512 }

/-- The header of generation 1: the same disk, taken at `tsGen1`. -/
def headerGen1 : VmdkDumpHeader := { headerGen0 with timeStamp := tsGen1 }

/-- The full dump of generation 0. -/
def dumpGen0 : Archive :=
  { header := headerGen0
    blocks := [zeroBlock 0, dataBlock 1 65, zeroBlock 2, dataBlock 3 66] }

/-- The full dump of generation 1, whose block 2 holds 512 times `C`. -/
def dumpGen1 : Archive :=
  { header := headerGen1
    blocks := [zeroBlock 0, dataBlock 1 65, dataBlock 2 67, dataBlock 3 66] }

/-- The rdiff from generation 0 to generation 1: the block of generation 0 at offset
2, under the header of generation 0 with `is_full` cleared. -/
def rdiffGen0to1 : Archive :=
  { header := { headerGen0 with isFull := false }, blocks := [zeroBlock 2] }

/-- The rdiff from generation 1 to generation 2: the block of generation 1 at offset
3, under the header of generation 1 with `is_full` cleared. -/
def rdiffGen1to2 : Archive :=
  { header := { headerGen1 with isFull := false }, blocks := [dataBlock 3 66] }

/-- The configuration of a merge into a full dump. -/
def cfgMergeFull : ArchiveConfig :=
  { cmd := BackupCommand.CMD_MERGE, mode := DumpMode.DUMPMODE_UNKNOWN, isUseSan := false
    blocksize := 512, numReadBlockForTest := 0
    dumpInFile := none, digestInFile := none
    dumpOutFileName := true, digestOutFileName := false
    rdiffOutFileName := false, bmpInFile := none }

/-- The reader over `dumpGen1` and `rdiffGen0to1` after three calls of `readBlock`:
the current offset is 3, the dump's head is its block 3, and the rdiff, whose only
block was delivered at offset 2, is at its end. -/
def readerAtOffset3 : MultiArchiveManager :=
  { inputs := [{ mgr := [], blocksize := 512, dumpBP := some (dataBlock 3 66)
                 dumpEof := false },
               { mgr := [], blocksize := 512, dumpBP := some (zeroBlock 2)
                 dumpEof := true }]
    offset := 3, blockSize := 512, diskSize := 4
    uuid := List.replicate 16 7
    dumpH := headerGen0 }

/-- The caller's block after these three calls: offset and flag of the all-zero block
delivered at offset 2, the payload still that of the block delivered at offset 1. -/
def callerBlockAtOffset3 : VmdkDumpBlock :=
  { offset := 2, isAllZero := Boolean.BTRUE, block := fill512 65, blockSize := 512 }

/-- The reader over `rdiffGen0to1` alone, right after construction: the current
offset is 0 and the only head block is at offset 2. -/
def readerRdiffOnly : MultiArchiveManager :=
  { inputs := [{ mgr := [], blocksize := 512, dumpBP := some (zeroBlock 2)
                 dumpEof := false }]
    offset := 0, blockSize := 512, diskSize := 4
    uuid := List.replicate 16 7
    dumpH := { headerGen0 with isFull := false } }

/-- The digest header of generation 0. -/
def digestHeaderGen0 : VmdkDigestHeader :=
  { diskSize := 4, blockSize := 512, uuid := List.replicate 16 7, timeStamp := tsGen0 }

/-- The three headers as `doDumpFork` constructs them before `setHeaders`. -/
def freshHeaders : DumpHeaders :=
  { currDumpH := VmdkDumpHeader.new utcTimeLib sysGen0 16 1
    currDigestH := VmdkDigestHeader.new utcTimeLib sysGen0 48 3
    rdiffH := VmdkDumpHeader.new utcTimeLib sysGen0 64 4 }

/-- A serialized dump block record: offset 1, not all-zero, length prefix 3, payload
`AAA`. -/
def shortBlockBytes : List Nat := [49, 0, 48, 0, 51, 0, 65, 65, 65]

/-- A second stand-in for the hash function, which tells the blocks of the scenarios
apart: fifteen zero bytes and the first byte of the data. -/
def sample16 (data : List Nat) : List Nat := List.replicate 15 0 ++ [data.headD 0 % 256]

/-- The block provider of `envOf` with `sample16` as the hash function. -/
def envSample (source : List ByteArray) : DumpEnv :=
  { envOf source with md5 := sample16 }

/-- The digest block of an all-zero block. -/
def zeroDigest : VmdkDigestBlock :=
  { isAllZero := Boolean.BTRUE, digest := List.replicate 16 0 }

/-- The digest block, under `sample16`, of a block holding 512 times the byte `c`. -/
def dataDigest (c : Nat) : VmdkDigestBlock :=
  { isAllZero := Boolean.BFALSE, digest := List.replicate 15 0 ++ [c] }

/-- The digest file of generation 0. -/
def digestGen0 : DigestArchive :=
  { header := digestHeaderGen0
    blocks := [zeroDigest, dataDigest 65, zeroDigest, dataDigest 66] }

/-- A clock that stands at 2010-01-02 00:00:00 UTC. -/
def sysGen1 : SysEnv := { clock := fun _ => 1262390400, rand := fun k => k }

/-- The configuration of the diff dump of generation 1 against generation 0. -/
def cfgDiffGen1 : ArchiveConfig :=
  { cmd := BackupCommand.CMD_DUMP, mode := DumpMode.DUMPMODE_DIFF, isUseSan := false
    blocksize := 512, numReadBlockForTest := 0
    dumpInFile := some dumpGen0, digestInFile := some digestGen0
    dumpOutFileName := true, digestOutFileName := true
    rdiffOutFileName := true, bmpInFile := none }

/-- The configuration of the incr dump of generation 1 against generation 0; the
bitmap file holds the size 4 and the byte `0x20`, whose only set bit is bit 2. -/
def cfgIncrGen1 : ArchiveConfig :=
  { cfgDiffGen1 with mode := DumpMode.DUMPMODE_INCR, bmpInFile := some [52, 0, 32] }

/-- The archive manager with which the diff dump of generation 1 enters its loop:
the inputs of generation 0 are open and the three headers are written. -/
def amDiffGen1 : ArchiveManager :=
  { cmd := BackupCommand.CMD_DUMP, mode := DumpMode.DUMPMODE_DIFF, isUseSan := false
    isOpenDumpIn := true, isOpenDumpOut := true, isOpenDigestIn := true
    isOpenDigestOut := true, isOpenRdiffOut := true, isOpenBitmapIn := false
    dumpInH := some headerGen0, digestInH := some digestHeaderGen0
    dumpIn := dumpGen0.blocks, digestIn := digestGen0.blocks
    changedBlockBitmapIn := IStream.open []
    dumpOutH := some headerGen1
    digestOutH := some { digestHeaderGen0 with timeStamp := tsGen1 }
    rdiffOutH := some rdiffGen0to1.header
    dumpOut := [], digestOut := [], rdiffOut := [] }

/-- The provider of generation 1 with a flaky block 2: the first two reads of offset 2
fail, every other read succeeds. -/
def envFlaky : DumpEnv :=
  { envSample sourceGen1 with
    readBlock := fun oft attempt =>
      if oft = 2 ∧ attempt < 2 then none else sourceGen1[oft]? }

/-- The state of the diff dump of generation 1 over the flaky provider before the
iteration for offset 2: the blocks 0 and 1 are dumped. -/
def stateFlaky2 : DumpState :=
  (dumpLoop false envFlaky 2 0 (DumpState.init amDiffGen1 512)).1

/-- The archive manager `amDiffGen1` with a corrupted `digest_in`: its first digest
block is the fingerprint of 512 times `X` instead of that of an all-zero block. -/
def amDiffCorrupt : ArchiveManager :=
  { amDiffGen1 with digestIn := [dataDigest 88, dataDigest 65, zeroDigest, dataDigest 66] }

/-- The configuration `cfgFull` with the option `--nread 1`. -/
def cfgFullNread1 : ArchiveConfig := { cfgFull with numReadBlockForTest := 1 }

/-- A source that delivers only the blocks 0 and 1: every read from offset 2 on
fails. -/
def sourceShort : List ByteArray := [fill512 0, fill512 65]

/-- What a dump run has written to `dump_out`: the disk size of its header, the offsets
of its blocks, and the number of blocks on `digest_out`. -/
def DumpState.written (st : DumpState) : Option Nat × List Nat × Nat :=
  (st.arcMgr.dumpOutH.map VmdkDumpHeader.diskSize,
   st.arcMgr.dumpOut.map VmdkDumpBlock.offset, st.arcMgr.digestOut.length)

/-- The configuration of the digest command reading the dump file `a` and writing a
digest file. -/
def cfgDigestOf (a : Archive) : ArchiveConfig :=
  { cmd := BackupCommand.CMD_DIGEST, mode := DumpMode.DUMPMODE_UNKNOWN, isUseSan := false
    blocksize := 0, numReadBlockForTest := 0
    dumpInFile := some a, digestInFile := none
    dumpOutFileName := false, digestOutFileName := true
    rdiffOutFileName := false, bmpInFile := none }

/-- A disk of no block behind a SCSI adapter. -/
def vmdkInfoEmpty : VmdkInfo := { adapterType := 2, nBlocks := 0 }

/-- The dump file a dump run has written: its header and its blocks. -/
def DumpState.dumpFile (st : DumpState) : Option Archive :=
  st.arcMgr.dumpOutH.map fun h => { header := h, blocks := st.arcMgr.dumpOut }

/-- The configuration of the check command reading the digest file `g`. -/
def cfgCheckOf (g : DigestArchive) : ArchiveConfig :=
  { cmd := BackupCommand.CMD_CHECK, mode := DumpMode.DUMPMODE_UNKNOWN, isUseSan := false
    blocksize := 0, numReadBlockForTest := 0
    dumpInFile := none, digestInFile := some g
    dumpOutFileName := false, digestOutFileName := false
    rdiffOutFileName := false, bmpInFile := none }

/-- The digest file of generation 0 with a wrong block 1: the fingerprint, under
`sample16`, of 512 times `X` instead of that of 512 times `A`. -/
def digestWrongGen0 : DigestArchive :=
  { header := digestHeaderGen0
    blocks := [zeroDigest, dataDigest 88, zeroDigest, dataDigest 66] }

/-- The digest file of generation 0 under the hash function `md5`, with a wrong block
1: the fingerprint of 512 times `X` instead of that of 512 times `A`. -/
def digestWrongOf (md5 : List Nat → List Nat) : DigestArchive :=
  { header := digestHeaderGen0
    blocks := [zeroDigest, { isAllZero := Boolean.BFALSE, digest := md5 (fill512 88) },
               zeroDigest, { isAllZero := Boolean.BFALSE, digest := md5 (fill512 66) }] }

/-- The digest file of generation 0 cut after its second block. -/
def digestShortGen0 : DigestArchive :=
  { header := digestHeaderGen0, blocks := [zeroDigest, dataDigest 65] }

/-- The digest file of generation 0 cut after its header. -/
def digestHeaderOnlyGen0 : DigestArchive := { header := digestHeaderGen0, blocks := [] }

/-- A provider that accepts every write, and no signal. -/
def restoreEnvOk : RestoreEnv := { isSignal := fun _ => false, writeBlock := fun _ _ => true }

/-- The reader over the full dump of generation 0 alone. -/
def readerGen0M : MultiArchiveManager :=
  match MultiArchiveManager.new false utcTimeLib [dumpGen0] with
  | Res.ok m => m
  | _ => { inputs := [], offset := 0, blockSize := 0, diskSize := 0, uuid := []
           dumpH := headerGen0 }

/-- The state of the restore loop over `readerGen0M`, zero blocks being written, after
the iterations for the offsets 0 and 1: the caller's block holds block 1, 512 times
`A`. -/
def restoreAfter2 : RestoreState :=
  (writeStep false restoreEnvOk true (List.replicate 512 0) 1
    (writeStep false restoreEnvOk true (List.replicate 512 0) 0
      { mArcMgr := readerGen0M, dumpB := VmdkDumpBlock.fresh 512, flag := Wflag.NONE
        writes := [], shown := [] }).1).1

/-- What `writeBlocksToVmdk` made the provider write and how it ended. -/
def restoreLog (r : Option (Option RestoreState × Res Unit)) :
    Option (Option (List (Nat × ByteArray)) × Res Unit) :=
  r.map fun x => (x.1.map RestoreState.writes, x.2)

/-- A queue of capacity 2 holding the items 1 and 2. -/
def queueFull12 : Queue Nat := { items := [some 1, some 2], size := 2, isClosed := false }

/-- A reader over a stream of the two items 10 and 11 with a queue of capacity 1. -/
def readerTwo : DataReader Nat := DataReader.new [10, 11] 1

/-- The reader `readerTwo` after `start` and five steps of its worker: item 10 is in
the queue, the stream is at its end, and the worker waits in `put` with item 11. -/
def readerWorkerWaits : DataReader Nat :=
  { input := [], queue := { items := [some 10], size := 1, isClosed := false }
    tmpDataP := none, isInitialized := true, isEnd := false
    th := WorkerPc.enqueue 11, isPaused := false }

/-- The reader after the consumer has taken item 10 and called `pause`: the queue is
closed and empty, item 11 is in `tmpDataP_`, and the worker has ended. -/
def readerPaused : DataReader Nat :=
  { input := [], queue := { items := [], size := 1, isClosed := true }
    tmpDataP := some 11, isInitialized := true, isEnd := true
    th := WorkerPc.noThread, isPaused := true }

/-- The reader after `resume` and the one step its new worker takes: the worker found
the stream at its end and has finished; item 11 is still in `tmpDataP_`. -/
def readerResumedDone : DataReader Nat :=
  { input := [], queue := { items := [], size := 1, isClosed := false }
    tmpDataP := some 11, isInitialized := true, isEnd := true
    th := WorkerPc.finished, isPaused := false }

/-! # Theorems -/

/-! ## Results -/

@[simp] theorem res_pure_eq {α : Type} (a : α) : (pure a : Res α) = Res.ok a := rfl

@[simp] theorem res_bind_eq {α β : Type} (x : Res α) (f : α → Res β) :
    (x >>= f) = Res.bind x f := rfl

@[simp] theorem bfalse_beq_btrue : (Boolean.BFALSE == Boolean.BTRUE) = false := rfl

@[simp] theorem btrue_beq_btrue : (Boolean.BTRUE == Boolean.BTRUE) = true := rfl

@[simp] theorem bnull_beq_btrue : (Boolean.BNULL == Boolean.BTRUE) = false := rfl

/-! ## The text-with-NUL framing -/

theorem isDigit_ne_zero {b : Nat} (h : isDigit b = true) : b ≠ 0 := by
  simp [isDigit] at h; omega

theorem isDigit_not_space {b : Nat} (h : isDigit b = true) : isSpace b = false := by
  simp [isDigit] at h
  simp [isSpace]
  omega

theorem natToDecAux_digits (fuel n : Nat) (acc : List Nat)
    (hacc : ∀ b ∈ acc, isDigit b = true) :
    ∀ b ∈ natToDecAux fuel n acc, isDigit b = true := by
  induction fuel generalizing n acc with
  | zero => simpa [natToDecAux] using hacc
  | succ fuel ih =>
    unfold natToDecAux
    split
    · intro b hb
      rcases List.mem_cons.mp hb with rfl | hb
      · simp [isDigit]; omega
      · exact hacc b hb
    · apply ih
      intro b hb
      rcases List.mem_cons.mp hb with rfl | hb
      · simp [isDigit]; omega
      · exact hacc b hb

theorem natToDecAux_ne_nil (fuel n : Nat) (acc : List Nat) :
    natToDecAux (fuel + 1) n acc ≠ [] := by
  induction fuel generalizing n acc with
  | zero =>
    unfold natToDecAux
    split <;> simp [natToDecAux]
  | succ fuel ih =>
    unfold natToDecAux
    split
    · simp
    · exact ih _ _

theorem natToDecAux_value (fuel n : Nat) (acc : List Nat) (h : n < fuel) :
    (natToDecAux fuel n acc).foldl (fun v b => 10 * v + (b - 48)) 0
      = acc.foldl (fun v b => 10 * v + (b - 48)) n := by
  induction fuel generalizing n acc with
  | zero => omega
  | succ fuel ih =>
    unfold natToDecAux
    split
    · simp
    · rw [ih _ _ (by omega)]
      simp only [List.foldl_cons]
      congr 1
      omega

theorem natToDec_digits (n : Nat) : ∀ b ∈ natToDec n, isDigit b = true :=
  natToDecAux_digits _ _ _ (by simp)

theorem natToDec_ne_nil (n : Nat) : natToDec n ≠ [] := natToDecAux_ne_nil _ _ _

theorem decValue_natToDec (n : Nat) : decValue (natToDec n) = n := by
  unfold decValue natToDec
  rw [natToDecAux_value _ _ _ (by omega)]
  simp

theorem natToDec_no_nul (n : Nat) : ∀ b ∈ natToDec n, b ≠ 0 :=
  fun b hb => isDigit_ne_zero (natToDec_digits n b hb)

theorem scanInteger_digits (ds : List Nat) (hne : ds ≠ [])
    (hd : ∀ b ∈ ds, isDigit b = true) : scanInteger ds = some (false, decValue ds) := by
  obtain ⟨d, t, rfl⟩ := List.exists_cons_of_ne_nil hne
  have hd0 : isDigit d = true := hd d (by simp)
  have hsp : isSpace d = false := isDigit_not_space hd0
  have h45 : d ≠ 45 := by simp [isDigit] at hd0; omega
  have h43 : d ≠ 43 := by simp [isDigit] at hd0; omega
  have htw : List.takeWhile isDigit (d :: t) = d :: t :=
    List.takeWhile_eq_self_iff.mpr hd
  simp only [scanInteger, List.dropWhile_cons, hsp, Bool.false_eq_true, if_false,
    List.head?_cons]
  simp [h45, h43, htw]

theorem scanInteger_minus_digits (ds : List Nat) (hne : ds ≠ [])
    (hd : ∀ b ∈ ds, isDigit b = true) :
    scanInteger (45 :: ds) = some (true, decValue ds) := by
  have htw : List.takeWhile isDigit ds = ds := List.takeWhile_eq_self_iff.mpr hd
  have hsp : isSpace 45 = false := by decide
  simp only [scanInteger, List.dropWhile_cons, hsp, Bool.false_eq_true, if_false,
    List.head?_cons]
  simp [htw, hne]

theorem extractU64_natToDec (n : Nat) (h : n < 2 ^ 64) : extractU64 (natToDec n) = n := by
  have h' : n < 18446744073709551616 := by simpa using h
  simp [extractU64, scanInteger_digits _ (natToDec_ne_nil n) (natToDec_digits n),
    decValue_natToDec]
  omega

theorem extractSigned_intToDec (w : Nat) (i : Int)
    (hlo : -(2 ^ (w - 1) : Int) ≤ i) (hhi : i < 2 ^ (w - 1)) :
    extractSigned w (intToDec i) = i := by
  by_cases hneg : i < 0
  · have h1 : ((-i).toNat : Int) = -i := Int.toNat_of_nonneg (by omega)
    have h2 : (-i).toNat ≤ 2 ^ (w - 1) := by
      have : ((-i).toNat : Int) ≤ ((2 ^ (w - 1) : Nat) : Int) := by
        rw [h1]; push_cast; omega
      exact_mod_cast this
    simp only [extractSigned, intToDec, hneg, if_true,
      scanInteger_minus_digits _ (natToDec_ne_nil _) (natToDec_digits _), decValue_natToDec]
    simp [h2, h1]
  · have h1 : (i.toNat : Int) = i := Int.toNat_of_nonneg (by omega)
    have h2 : i.toNat < 2 ^ (w - 1) := by
      have : (i.toNat : Int) < ((2 ^ (w - 1) : Nat) : Int) := by
        rw [h1]; push_cast; omega
      exact_mod_cast this
    simp only [extractSigned, intToDec, hneg, if_false,
      scanInteger_digits _ (natToDec_ne_nil _) (natToDec_digits _), decValue_natToDec]
    simp [h2, h1]

theorem intToDec_no_nul (i : Int) : ∀ b ∈ intToDec i, b ≠ 0 := by
  intro b hb
  unfold intToDec at hb
  split at hb
  · rcases List.mem_cons.mp hb with rfl | hb
    · decide
    · exact natToDec_no_nul _ b hb
  · exact natToDec_no_nul _ b hb

theorem splitNul_append (l rest : List Nat) (h : ∀ b ∈ l, b ≠ 0) :
    splitNul (l ++ 0 :: rest) = some (l, rest) := by
  induction l with
  | nil => simp [splitNul]
  | cons a t ih =>
    have ha : a ≠ 0 := h a (by simp)
    have ht : ∀ b ∈ t, b ≠ 0 := fun b hb => h b (by simp [hb])
    simp [splitNul, ha, ih ht]

theorem getline0_append (l rest : List Nat) (h : ∀ b ∈ l, b ≠ 0) :
    getline0 { buf := l ++ 0 :: rest, eof := false }
      = Res.ok (l, { buf := rest, eof := false }) := by
  simp [getline0, splitNul_append l rest h]

theorem getAsStringU64_put (n : Nat) (rest : List Nat) (h : n < 2 ^ 64) :
    getAsStringU64 { buf := putAsStringU64 n ++ rest, eof := false }
      = Res.ok (n, { buf := rest, eof := false }) := by
  simp [getAsStringU64, putAsStringU64, getline0_append _ rest (natToDec_no_nul n),
    extractU64_natToDec n h]

theorem getAsStringI32_put (i : Int) (rest : List Nat)
    (hlo : -(2 ^ 31 : Int) ≤ i) (hhi : i < 2 ^ 31) :
    getAsStringI32 { buf := putAsStringI32 i ++ rest, eof := false }
      = Res.ok (i, { buf := rest, eof := false }) := by
  simp [getAsStringI32, putAsStringI32, getline0_append _ rest (intToDec_no_nul i),
    extractI32, extractSigned_intToDec 32 i hlo hhi]

theorem getAsStringBool_put (b : Bool) (rest : List Nat) :
    getAsStringBool { buf := putAsStringBool b ++ rest, eof := false }
      = Res.ok (b, { buf := rest, eof := false }) := by
  cases b
  · have : extractBool [48] = false := by decide
    simp [getAsStringBool, putAsStringBool, getline0, splitNul, this]
  · have : extractBool [49] = true := by decide
    simp [getAsStringBool, putAsStringBool, getline0, splitNul, this]

theorem getAsStringStr_put (s rest : List Nat) (h : ∀ b ∈ s, b ≠ 0) :
    getAsStringStr { buf := putAsStringStr s ++ rest, eof := false }
      = Res.ok (s, { buf := rest, eof := false }) := by
  simp [getAsStringStr, putAsStringStr, getline0_append s rest h]

theorem readBytes_append (ary rest : List Nat) :
    readBytes ary.length { buf := ary ++ rest, eof := false }
      = Res.ok (ary, { buf := rest, eof := false }) := by
  simp [readBytes]

theorem readByteArray_write (ary : ByteArray) (rest : List Nat) (h : ary.length < 2 ^ 64) :
    readByteArray { buf := writeByteArray ary ++ rest, eof := false }
      = Res.ok (ary, { buf := rest, eof := false }) := by
  simp only [readByteArray, writeByteArray, List.append_assoc]
  rw [getAsStringU64_put _ _ h]
  exact readBytes_append ary rest

/-! ## Bitmap -/

theorem resizeBytes_length (v : ByteArray) (n : Nat) : (resizeBytes v n).length = n := by
  simp [resizeBytes]; omega

theorem fillBitmap_exact (slots data rest : List Nat) (h : slots.length = data.length) :
    fillBitmap slots { buf := data ++ rest, eof := false }
      = (data, { buf := rest, eof := rest.isEmpty }) := by
  induction slots generalizing data with
  | nil =>
    have hd : data = [] := List.length_eq_zero.mp h.symm
    subst hd
    cases rest <;> simp [fillBitmap, peekIsEOF]
  | cons s slots ih =>
    cases data with
    | nil => simp at h
    | cons c cs =>
      have h' : slots.length = cs.length := by simpa using h
      simp [fillBitmap, peekIsEOF, ih cs h']

theorem readBitmap_write (b b0 : Bitmap) (rest : List Nat) (hwf : b.WF) :
    readBitmap b0 { buf := writeBitmap b ++ rest, eof := false }
      = Res.ok (b, { buf := rest, eof := rest.isEmpty }) := by
  obtain ⟨hsize, hlen⟩ := hwf
  simp only [readBitmap, writeBitmap, List.append_assoc]
  rw [getAsStringU64_put _ _ hsize]
  simp only
  rw [fillBitmap_exact _ b.bmp rest (by rw [resizeBytes_length, hlen])]

/-- **C10 (as amended).** `operator<<` writes the bit count as decimal text, one NUL
and then the bytes of the vector; reading that back with `operator>>` into any bitmap
gives a bitmap with the same size and the same bytes, equal under `operator==`, and
consumes exactly what was written.  When `bit_count + 7` does not wrap around in
`size_t`, the number of raw bytes is `ceil(bit_count / 8)`. -/
theorem bitmap_write_read (b b0 : Bitmap) (rest : List Nat) (hwf : b.WF) :
    writeBitmap b = natToDec b.bmpSize ++ [0] ++ b.bmp ∧
    (∀ c ∈ natToDec b.bmpSize, isDigit c = true) ∧
    decValue (natToDec b.bmpSize) = b.bmpSize ∧
    (b.bmpSize + 7 < 2 ^ 64 → b.bmp.length = (b.bmpSize + 7) / 8) ∧
    ∃ b1, readBitmap b0 { buf := writeBitmap b ++ rest, eof := false }
        = Res.ok (b1, { buf := rest, eof := rest.isEmpty }) ∧
      b1.bmpSize = b.bmpSize ∧ b1.bmp = b.bmp ∧ b.eq b1 = true := by
  refine ⟨by simp [writeBitmap, putAsStringU64], natToDec_digits _, decValue_natToDec _, ?_,
    b, readBitmap_write b b0 rest hwf, rfl, rfl, by simp [Bitmap.eq]⟩
  intro h
  rw [hwf.2, Bitmap.byteCount, wrapU64, Nat.mod_eq_of_lt h]

/-- Witness of `bitmap_write_read`: a bitmap of 9 bits. -/
theorem bitmap_write_read_witness :
    (Bitmap.mk1 9).WF ∧
    writeBitmap (Bitmap.mk1 9) = [57, 0, 0, 0] ∧
    readBitmap Bitmap.mk0 { buf := writeBitmap (Bitmap.mk1 9) ++ [], eof := false }
      = Res.ok (Bitmap.mk1 9, { buf := [], eof := true }) := by
  have hwf : (Bitmap.mk1 9).WF := by decide
  obtain ⟨_, _, _, _, b1, h1, h2, h3, _⟩ := bitmap_write_read (Bitmap.mk1 9) Bitmap.mk0 [] hwf
  refine ⟨hwf, by decide, ?_⟩
  rw [h1]
  cases b1
  simp only [Bitmap.mk1] at h2 h3 ⊢
  simp_all

/-- **C10 (counterexample).** For the bitmap built by `Bitmap(2^64 - 1)` the vector is
empty, because `(size + 7) / 8` wraps around in `size_t`: what `operator<<` writes is
not the decimal bit count, a NUL and `ceil(bit_count / 8)` raw bytes. -/
theorem bitmap_byte_count_wraps :
    (Bitmap.mk1 (2 ^ 64 - 1)).WF ∧
    ¬ ∃ raw : List Nat,
        writeBitmap (Bitmap.mk1 (2 ^ 64 - 1))
          = natToDec (Bitmap.mk1 (2 ^ 64 - 1)).bmpSize ++ [0] ++ raw ∧
        raw.length = ((Bitmap.mk1 (2 ^ 64 - 1)).bmpSize + 7) / 8 := by
  refine ⟨by decide, ?_⟩
  rintro ⟨raw, h1, h2⟩
  have h3 : writeBitmap (Bitmap.mk1 (2 ^ 64 - 1))
      = natToDec (Bitmap.mk1 (2 ^ 64 - 1)).bmpSize ++ [0] ++ [] := by decide
  rw [h3] at h1
  have h4 : raw = [] := (List.append_cancel_left h1).symm
  subst h4
  revert h2
  decide

/-! ## String maps and time stamps -/

theorem stringMap_set_append (acc : StringMap) (k v : List Nat)
    (h : ∀ p ∈ acc, p.1 < k) : acc.set k v = acc ++ [(k, v)] := by
  induction acc with
  | nil => rfl
  | cons p t ih =>
    obtain ⟨k1, v1⟩ := p
    have h1 : k1 < k := h (k1, v1) (by simp)
    have hne : k ≠ k1 := fun e => lt_irrefl k1 (e ▸ h1)
    have hnlt : ¬ k < k1 := lt_asymm h1
    have ht : ∀ p ∈ t, p.1 < k := fun p hp => h p (by simp [hp])
    simp [StringMap.set, hne, hnlt, ih ht]

theorem readPairs_write (m acc : StringMap) (rest : List Nat)
    (hnul : m.NulFree) (hs : StringMap.Sorted (acc ++ m)) :
    readPairs m.length acc { buf := writePairs m ++ rest, eof := false }
      = Res.ok (acc ++ m, { buf := rest, eof := false }) := by
  induction m generalizing acc with
  | nil => simp [readPairs, writePairs]
  | cons p t ih =>
    obtain ⟨k, v⟩ := p
    have hk : ∀ b ∈ k, b ≠ 0 := (hnul (k, v) (by simp)).1
    have hv : ∀ b ∈ v, b ≠ 0 := (hnul (k, v) (by simp)).2
    have ht : StringMap.NulFree t := fun q hq => hnul q (by simp [hq])
    have hacc : ∀ q ∈ acc, q.1 < k := by
      intro q hq
      have := List.pairwise_append.mp hs
      exact this.2.2 q hq (k, v) (by simp)
    have hs' : StringMap.Sorted ((acc ++ [(k, v)]) ++ t) := by
      simpa [StringMap.Sorted] using hs
    simp only [readPairs, writePairs, List.length_cons, List.append_assoc]
    rw [getAsStringStr_put k _ hk]
    simp only
    rw [getAsStringStr_put v _ hv]
    simp only
    rw [stringMap_set_append acc k v hacc, ih _ ht hs']
    simp

theorem readStringMap_write (m : StringMap) (rest : List Nat)
    (hnul : m.NulFree) (hs : m.Sorted) (hlen : m.length < 2 ^ 64) :
    readStringMap { buf := writeStringMap m ++ rest, eof := false }
      = Res.ok (m, { buf := rest, eof := false }) := by
  simp only [readStringMap, writeStringMap, List.append_assoc]
  rw [getAsStringU64_put _ _ hlen]
  simpa using readPairs_write m [] rest hnul (by simpa using hs)

theorem readTimeStamp_write (ts : TimeStamp) (rest : List Nat)
    (h : ∀ x ∈ [ts.timeM.tm_sec, ts.timeM.tm_min, ts.timeM.tm_hour, ts.timeM.tm_mday,
      ts.timeM.tm_mon, ts.timeM.tm_year, ts.timeM.tm_wday, ts.timeM.tm_yday,
      ts.timeM.tm_isdst], -(2 ^ 31 : Int) ≤ x ∧ x < 2 ^ 31) :
    readTimeStamp { buf := writeTimeStamp ts ++ rest, eof := false }
      = Res.ok (ts, { buf := rest, eof := false }) := by
  obtain ⟨⟨sec, min, hour, mday, mon, year, wday, yday, isdst⟩⟩ := ts
  simp only [List.mem_cons, List.mem_singleton, forall_eq_or_imp, forall_eq,
    List.not_mem_nil, false_implies, implies_true, and_true] at h
  obtain ⟨h1, h2, h3, h4, h5, h6, h7, h8, h9⟩ := h
  simp only [readTimeStamp, writeTimeStamp, List.append_assoc, bind, Res.bind]
  rw [getAsStringI32_put _ _ h1.1 h1.2]; simp only
  rw [getAsStringI32_put _ _ h2.1 h2.2]; simp only
  rw [getAsStringI32_put _ _ h3.1 h3.2]; simp only
  rw [getAsStringI32_put _ _ h4.1 h4.2]; simp only
  rw [getAsStringI32_put _ _ h5.1 h5.2]; simp only
  rw [getAsStringI32_put _ _ h6.1 h6.2]; simp only
  rw [getAsStringI32_put _ _ h7.1 h7.2]; simp only
  rw [getAsStringI32_put _ _ h8.1 h8.2]; simp only
  rw [getAsStringI32_put _ _ h9.1 h9.2]
  rfl

/-! ## Dump header -/

theorem readDumpHeader_write (h : VmdkDumpHeader) (rest : List Nat)
    (hwf : h.WF) (hnul : h.metaData.NulFree) :
    readDumpHeader { buf := writeDumpHeader h ++ rest, eof := false }
      = Res.ok (h, { buf := rest, eof := false }) := by
  simp only [readDumpHeader, writeDumpHeader, List.append_assoc, bind, Res.bind]
  rw [getAsStringU64_put _ _ hwf.diskSize_lt]; simp only
  rw [getAsStringU64_put _ _ hwf.blockSize_lt]; simp only
  rw [getAsStringI32_put _ _ hwf.adapterType_ge hwf.adapterType_lt]; simp only
  rw [getAsStringBool_put]; simp only
  rw [readByteArray_write _ _ (by rw [hwf.uuid_len]; norm_num)]; simp only
  rw [readTimeStamp_write _ _ hwf.tm_ge]; simp only
  rw [readStringMap_write _ _ hnul hwf.meta_sorted hwf.meta_len]
  rfl

theorem timeStamp_eq_self (ndebug : Bool) (lib : TimeLib) (ts : TimeStamp)
    (h : ndebug = true ∨ 0 ≤ wrapI64 (ts.getTimeStamp lib)) :
    ts.eq ndebug lib ts = Res.ok true := by
  have hc : cassert ndebug (decide (0 ≤ wrapI64 (ts.getTimeStamp lib))) = Res.ok () := by
    rcases h with h | h <;> simp [cassert, h]
  have hz : wrapI64 (wrapI64 (ts.getTimeStamp lib) - wrapI64 (ts.getTimeStamp lib)) = 0 := by
    simp [wrapI64]
  simp only [TimeStamp.eq, TimeStamp.compareTo, hc, hz]
  rfl

theorem dumpHeader_eq_self (ndebug : Bool) (lib : TimeLib) (h : VmdkDumpHeader)
    (ht : ndebug = true ∨ 0 ≤ wrapI64 (h.getTimeStamp lib)) :
    h.eq ndebug lib h = Res.ok true := by
  simp [VmdkDumpHeader.eq, andThen, timeStamp_eq_self ndebug lib h.timeStamp ht]

/-- **C7 (as amended).** For a header whose metadata keys and values contain no NUL
byte, `operator>>` applied to what `operator<<` wrote returns exactly that header,
field by field, and consumes exactly those bytes; `operator==` then returns `true` in
both directions whenever its assertion on the time stamp holds (the time is not
negative) or assertions are compiled out. -/
theorem dump_header_write_read (ndebug : Bool) (lib : TimeLib) (h : VmdkDumpHeader)
    (rest : List Nat) (hwf : h.WF) (hnul : h.metaData.NulFree) :
    ∃ h1, readDumpHeader { buf := writeDumpHeader h ++ rest, eof := false }
        = Res.ok (h1, { buf := rest, eof := false }) ∧
      h1 = h ∧
      ((ndebug = true ∨ 0 ≤ wrapI64 (h.getTimeStamp lib)) →
        h1.eq ndebug lib h = Res.ok true ∧ h.eq ndebug lib h1 = Res.ok true) :=
  ⟨h, readDumpHeader_write h rest hwf hnul, rfl,
    fun ht => ⟨dumpHeader_eq_self ndebug lib h ht, dumpHeader_eq_self ndebug lib h ht⟩⟩

theorem headerGen0_wf : headerGen0.WF :=
  ⟨by decide, by decide, by decide, by decide, by decide, by decide, by decide, by decide⟩

/-- Witness of `dump_header_write_read`: the header `headerGen0` with empty metadata. -/
theorem dump_header_write_read_witness :
    headerGen0.WF ∧ headerGen0.metaData.NulFree ∧
    ∃ h1, readDumpHeader { buf := writeDumpHeader headerGen0 ++ [1, 2], eof := false }
        = Res.ok (h1, { buf := [1, 2], eof := false }) ∧
      h1 = headerGen0 ∧
      ((false = true ∨ 0 ≤ wrapI64 (headerGen0.getTimeStamp utcTimeLib)) →
        h1.eq false utcTimeLib headerGen0 = Res.ok true ∧
        headerGen0.eq false utcTimeLib h1 = Res.ok true) :=
  ⟨headerGen0_wf, by decide,
    dump_header_write_read false utcTimeLib headerGen0 [1, 2] headerGen0_wf (by decide)⟩

/-- **C7 (counterexample).** A metadata value containing a NUL byte does not survive:
the header read back has the value cut at the NUL, it is not equal under `operator==`
and two of the written bytes are left unread.  And for a header stamped before the
epoch, `operator==` does not return at all when assertions are enabled. -/
theorem dump_header_nul_not_preserved :
    headerNul.WF ∧
    (∃ h1 is1, readDumpHeader (IStream.open (writeDumpHeader headerNul)) = Res.ok (h1, is1) ∧
      h1.metaData = [([97], [98])] ∧ is1.buf = [99, 0] ∧
      h1.eq false utcTimeLib headerNul = Res.ok false ∧
      h1.eq true utcTimeLib headerNul = Res.ok false) ∧
    headerOld.WF ∧
    headerOld.eq false utcTimeLib headerOld = Res.abort := by
  refine ⟨⟨by decide, by decide, by decide, by decide, by decide, by decide, by decide,
    by decide⟩, ⟨{ headerNul with metaData := [([97], [98])] }, { buf := [99, 0], eof := false },
    by decide, rfl, rfl, by decide, by decide⟩,
    ⟨by decide, by decide, by decide, by decide, by decide, by decide, by decide, by decide⟩,
    by decide⟩

/-! ## Dump block and digest block -/

/-- **C8.** For a dump block `B` with a resolved all-zero flag (any offset, any
payload of its block size), `operator>>` into a block `blk` of the same block size,
applied to what `operator<<` wrote, gives a block equal to `B` under `operator==` (in
both directions) with the same `isAllZero()`, and consumes exactly those bytes.  An
all-zero block is written as its offset and the flag only. -/
theorem dump_block_write_read (ndebug : Bool) (B blk : VmdkDumpBlock) (rest : List Nat)
    (hoff : B.offset < 2 ^ 64) (hbs : B.blockSize < 2 ^ 64)
    (hlen : B.block.length = B.blockSize) (hflag : B.isAllZero ≠ Boolean.BNULL)
    (hblk : blk.blockSize = B.blockSize) (hblklen : blk.block.length = blk.blockSize) :
    ∃ bytes B1, writeDumpBlock ndebug B = Res.ok bytes ∧
      readDumpBlock ndebug blk { buf := bytes ++ rest, eof := false }
        = Res.ok (B1, { buf := rest, eof := false }) ∧
      B1.eq B = true ∧ B.eq B1 = true ∧
      B1.getIsAllZero ndebug = B.getIsAllZero ndebug ∧
      B1.offset = B.offset ∧ B1.isAllZero = B.isAllZero ∧ B1.blockSize = B.blockSize ∧
      (B.isAllZero = Boolean.BFALSE → B1.block = B.block) ∧
      (B.isAllZero = Boolean.BTRUE →
        bytes = putAsStringU64 B.offset ++ putAsStringBool true) := by
  obtain ⟨offset, flag, block, blockSize⟩ := B
  simp only at hoff hbs hlen hflag hblk
  subst hlen
  have hw1 : cassert ndebug (block.length == block.length) = Res.ok () := by simp [cassert]
  cases flag with
  | BNULL => exact absurd rfl hflag
  | BTRUE =>
    have hc : cassert ndebug (blk.blockSize == blk.block.length) = Res.ok () := by
      simp [cassert, hblklen]
    refine ⟨putAsStringU64 offset ++ putAsStringBool true,
      { blk with offset := offset, isAllZero := Boolean.BTRUE }, ?_, ?_, ?_⟩
    · simp [writeDumpBlock, cassert]
    · simp only [readDumpBlock, List.append_assoc, bind, Res.bind]
      rw [getAsStringU64_put _ _ hoff]; simp only
      rw [getAsStringBool_put]
      simp [hc]
    · simp [VmdkDumpBlock.eq, VmdkDumpBlock.getIsAllZero, hblk]
  | BFALSE =>
    have hc : cassert ndebug (blk.blockSize == block.length) = Res.ok () := by
      simp [cassert, hblk]
    refine ⟨putAsStringU64 offset ++ putAsStringBool false ++ writeByteArray block,
      { blk with offset := offset, isAllZero := Boolean.BFALSE, block := block }, ?_, ?_, ?_⟩
    · simp [writeDumpBlock, cassert]
    · simp only [readDumpBlock, List.append_assoc, bind, Res.bind]
      rw [getAsStringU64_put _ _ hoff]; simp only
      rw [getAsStringBool_put]
      simp only [Bool.false_eq_true, if_false, if_true]
      rw [readByteArray_write _ _ hbs]
      simp [hc]
    · simp [VmdkDumpBlock.eq, VmdkDumpBlock.getIsAllZero, hblk]

/-- **C9.** For a digest block `D` with a resolved all-zero flag, `operator>>` applied
to what `operator<<` wrote gives a block equal to `D` under `operator==` (in both
directions) and consumes exactly those bytes.  A non-zero block keeps its 16
fingerprint bytes; an all-zero block is written as the flag only and compares equal
whatever `D`'s fingerprint buffer holds. -/
theorem digest_block_write_read (ndebug : Bool) (D blk : VmdkDigestBlock) (rest : List Nat)
    (hflag : D.isAllZero ≠ Boolean.BNULL) (hlen : D.digest.length = MD5_DIGEST_LENGTH)
    (hblk : blk.digest.length = MD5_DIGEST_LENGTH) :
    ∃ bytes D1, writeDigestBlock ndebug D = Res.ok bytes ∧
      readDigestBlock ndebug blk { buf := bytes ++ rest, eof := false }
        = Res.ok (D1, { buf := rest, eof := false }) ∧
      D1.eq ndebug D = Res.ok true ∧ D.eq ndebug D1 = Res.ok true ∧
      D1.isAllZero = D.isAllZero ∧
      (D.isAllZero = Boolean.BFALSE → D1.digest = D.digest ∧ D1.digest.length = 16) ∧
      (D.isAllZero = Boolean.BTRUE → bytes = putAsStringBool true) := by
  obtain ⟨flag, digest⟩ := D
  simp only at hflag hlen
  have hw : cassert ndebug (digest.length == MD5_DIGEST_LENGTH) = Res.ok () := by
    simp [cassert, hlen]
  have hb : cassert ndebug (blk.digest.length == MD5_DIGEST_LENGTH) = Res.ok () := by
    simp [cassert, hblk]
  cases flag with
  | BNULL => exact absurd rfl hflag
  | BTRUE =>
    refine ⟨putAsStringBool true, { isAllZero := Boolean.BTRUE, digest := blk.digest },
      ?_, ?_, ?_⟩
    · simp [writeDigestBlock, cassert, hlen]
    · simp only [readDigestBlock, bind, Res.bind]
      rw [getAsStringBool_put]
      simp [hb]
    · simp [VmdkDigestBlock.eq, cassert]
  | BFALSE =>
    refine ⟨putAsStringBool false ++ writeByteArray digest,
      { isAllZero := Boolean.BFALSE, digest := digest }, ?_, ?_, ?_⟩
    · simp [writeDigestBlock, cassert, hlen]
    · simp only [readDigestBlock, List.append_assoc, bind, Res.bind]
      rw [getAsStringBool_put]
      simp only [Bool.false_eq_true, if_false, if_true]
      rw [readByteArray_write _ _ (by rw [hlen]; decide)]
      simp [hw]
    · simp [VmdkDigestBlock.eq, cassert, hlen, MD5_DIGEST_LENGTH]

/-- Witness of `dump_block_write_read`: the non-zero block at offset 1 of generation 0
(512 times `A`), read into a freshly constructed block of 512 bytes. -/
theorem dump_block_write_read_witness :
    ∃ bytes B1, writeDumpBlock false blockA = Res.ok bytes ∧
      readDumpBlock false (VmdkDumpBlock.fresh 512) { buf := bytes ++ [9], eof := false }
        = Res.ok (B1, { buf := [9], eof := false }) ∧
      B1.eq blockA = true ∧ blockA.eq B1 = true ∧
      B1.getIsAllZero false = blockA.getIsAllZero false ∧
      B1.offset = blockA.offset ∧ B1.isAllZero = blockA.isAllZero ∧
      B1.blockSize = blockA.blockSize ∧
      (blockA.isAllZero = Boolean.BFALSE → B1.block = blockA.block) ∧
      (blockA.isAllZero = Boolean.BTRUE →
        bytes = putAsStringU64 blockA.offset ++ putAsStringBool true) :=
  dump_block_write_read false blockA (VmdkDumpBlock.fresh 512) [9]
    (by decide) (by decide) (List.length_replicate 512 65) (by decide) rfl
    (List.length_replicate 512 0)

/-- Witness of `digest_block_write_read`: an all-zero digest block whose buffer holds
the bytes 123, 56, 9 (the block of `testVmdkDigestBlock`), read into a new block. -/
theorem digest_block_write_read_witness :
    ∃ bytes D1, writeDigestBlock false digestTest = Res.ok bytes ∧
      readDigestBlock false VmdkDigestBlock.new { buf := bytes ++ [], eof := false }
        = Res.ok (D1, { buf := [], eof := false }) ∧
      D1.eq false digestTest = Res.ok true ∧ digestTest.eq false D1 = Res.ok true ∧
      D1.isAllZero = digestTest.isAllZero ∧
      (digestTest.isAllZero = Boolean.BFALSE →
        D1.digest = digestTest.digest ∧ D1.digest.length = 16) ∧
      (digestTest.isAllZero = Boolean.BTRUE → bytes = putAsStringBool true) :=
  digest_block_write_read false digestTest VmdkDigestBlock.new []
    (by decide) (by decide) (by decide)

/-! ## Archive manager operations -/

theorem res_bind_eq_ok {α β : Type} (x : Res α) (f : α → Res β) (b : β) :
    Res.bind x f = Res.ok b ↔ ∃ a, x = Res.ok a ∧ f a = Res.ok b := by
  cases x <;> simp [Res.bind]

theorem cassert_ok_or_abort (ndebug c : Bool) :
    cassert ndebug c = Res.ok () ∨ cassert ndebug c = Res.abort := by
  unfold cassert; split <;> simp

theorem cassert_eq_ok (ndebug c : Bool) :
    cassert ndebug c = Res.ok () ↔ (ndebug = true ∨ c = true) := by
  unfold cassert; split <;> simp_all

theorem cassert_of (ndebug c : Bool) (h : ndebug = true ∨ c = true) :
    cassert ndebug c = Res.ok () := (cassert_eq_ok ndebug c).2 h

theorem copyInto_length (dst src : ByteArray) : (copyInto dst src).length = dst.length := by
  simp [copyInto]; omega

theorem copyInto_same_length (dst src : ByteArray) (h : src.length = dst.length) :
    copyInto dst src = src := by
  simp [copyInto, ← h]

theorem dumpBlock_new_eq_ok (ndebug : Bool) (bs : Nat) (b : VmdkDumpBlock)
    (h : VmdkDumpBlock.new ndebug bs = Res.ok b) : b = VmdkDumpBlock.fresh bs := by
  unfold VmdkDumpBlock.new at h
  split at h <;> simp_all

theorem dumpBlock_copyDataFrom_eq_ok (ndebug : Bool) (dst src b : VmdkDumpBlock)
    (h : dst.copyDataFrom ndebug src = Res.ok b) :
    b = { dst with
          offset := src.offset
          isAllZero := src.isAllZero
          block := if src.isAllZero = Boolean.BFALSE then copyInto dst.block src.block
                   else dst.block } := by
  unfold VmdkDumpBlock.copyDataFrom at h
  split at h
  · split at h <;> simp_all
  · simp at h
  · simp at h

theorem putDumpB_eq_ok (ndebug i s : Bool) (out out1 : List VmdkDumpBlock)
    (b : VmdkDumpBlock) (h : putDumpB ndebug i s out b = Res.ok out1) :
    out1 = out ++ [b] ∧ (ndebug = true ∨ (i = true ∧ s = true)) := by
  unfold putDumpB at h
  split at h
  · rename_i hc
    rw [cassert_eq_ok] at hc
    split at h <;> simp_all
  · simp at h
  · simp at h

theorem putDigestB_eq_ok (ndebug i s : Bool) (out out1 : List VmdkDigestBlock)
    (b : VmdkDigestBlock) (h : putDigestB ndebug i s out b = Res.ok out1) :
    out1 = out ++ [b] ∧ (ndebug = true ∨ (i = true ∧ s = true)) := by
  unfold putDigestB at h
  split at h
  · rename_i hc
    rw [cassert_eq_ok] at hc
    split at h <;> simp_all
  · simp at h
  · simp at h

theorem writeToDump_ok (ndebug : Bool) (am am1 : ArchiveManager) (b : VmdkDumpBlock)
    (h : am.writeToDump ndebug b = Res.ok am1) :
    am1 = { am with dumpOut := am.dumpOut ++ [b.clone] } := by
  simp only [ArchiveManager.writeToDump, res_bind_eq, res_bind_eq_ok, res_pure_eq] at h
  obtain ⟨_, _, fresh, hf, dumpBP, hc, out, ho, he⟩ := h
  have hf' := dumpBlock_new_eq_ok _ _ _ hf
  subst hf'
  have hc' := dumpBlock_copyDataFrom_eq_ok _ _ _ _ hc
  subst hc'
  have ho' := (putDumpB_eq_ok _ _ _ _ _ _ ho).1
  subst ho'
  exact (Res.ok.inj he).symm

theorem writeToRdiff_ok (ndebug : Bool) (am am1 : ArchiveManager) (b : VmdkDumpBlock)
    (h : am.writeToRdiff ndebug b = Res.ok am1) :
    am1 = { am with rdiffOut := am.rdiffOut ++ [b.clone] } := by
  simp only [ArchiveManager.writeToRdiff, res_bind_eq, res_bind_eq_ok, res_pure_eq] at h
  obtain ⟨_, _, fresh, hf, dumpBP, hc, out, ho, he⟩ := h
  have hf' := dumpBlock_new_eq_ok _ _ _ hf
  subst hf'
  have hc' := dumpBlock_copyDataFrom_eq_ok _ _ _ _ hc
  subst hc'
  have ho' := (putDumpB_eq_ok _ _ _ _ _ _ ho).1
  subst ho'
  exact (Res.ok.inj he).symm

theorem writeToDigest_ok (ndebug : Bool) (am am1 : ArchiveManager) (d : VmdkDigestBlock)
    (h : am.writeToDigest ndebug d = Res.ok am1) :
    am1 = { am with digestOut := am.digestOut ++ [d.clone] } := by
  simp only [ArchiveManager.writeToDigest, res_bind_eq, res_bind_eq_ok, res_pure_eq] at h
  obtain ⟨_, _, out, ho, he⟩ := h
  have ho' := (putDigestB_eq_ok _ _ _ _ _ _ ho).1
  subst ho'
  exact (Res.ok.inj he).symm

theorem stepRes_ok {σ α β : Type} (s : σ) (a : α) (k : α → σ × Res β) :
    stepRes s (Res.ok a) k = k a := rfl

theorem stepRes_throw {σ α β : Type} (s : σ) (k : α → σ × Res β) :
    stepRes s (Res.throw : Res α) k = (s, Res.throw) := rfl

theorem stepRes_abort {σ α β : Type} (s : σ) (k : α → σ × Res β) :
    stepRes s (Res.abort : Res α) k = (s, Res.abort) := rfl

theorem stepRes_eq_ok {σ α β : Type} (s : σ) (r : Res α) (k : α → σ × Res β)
    (s1 : σ) (b : β) (h : stepRes s r k = (s1, Res.ok b)) :
    ∃ a, r = Res.ok a ∧ k a = (s1, Res.ok b) := by
  cases r with
  | ok a => exact ⟨a, rfl, h⟩
  | throw => simp [stepRes] at h
  | abort => simp [stepRes] at h

/-- What `getB` delivers when it returns: the next block of the stream; in a build
with assertions the block size of the manager is then a multiple of the sector
size. -/
theorem getDumpB_eq_ok (ndebug : Bool) (bs : Nat) (b b1 : VmdkDumpBlock)
    (h : getDumpB ndebug bs b = Res.ok b1) :
    b1 = b ∧ (ndebug = true ∨ bs % VIXDISKLIB_SECTOR_SIZE = 0) := by
  unfold getDumpB VmdkDumpBlock.new at h
  rcases cassert_ok_or_abort ndebug (bs % VIXDISKLIB_SECTOR_SIZE == 0) with hc | hc
  · rw [hc] at h
    refine ⟨(Res.ok.inj h).symm, ?_⟩
    have := (cassert_eq_ok ndebug _).1 hc
    simpa using this
  · rw [hc] at h
    cases h

/-- Method `getB` returns in a build without assertions, and in every build when the
block size of the manager is a multiple of the sector size. -/
theorem getDumpB_ok (ndebug : Bool) (bs : Nat) (b : VmdkDumpBlock)
    (h : ndebug = true ∨ bs % VIXDISKLIB_SECTOR_SIZE = 0) :
    getDumpB ndebug bs b = Res.ok b := by
  have hc : cassert ndebug (bs % VIXDISKLIB_SECTOR_SIZE == 0) = Res.ok () := by
    rw [cassert_eq_ok]
    rcases h with h | h
    · exact Or.inl h
    · exact Or.inr (by simpa using h)
  unfold getDumpB VmdkDumpBlock.new
  rw [hc]

/-- Method `getB` never throws: it returns or fails the assertion of the block
constructor. -/
theorem getDumpB_ok_or_abort (ndebug : Bool) (bs : Nat) (b : VmdkDumpBlock) :
    getDumpB ndebug bs b = Res.ok b ∨ getDumpB ndebug bs b = Res.abort := by
  unfold getDumpB VmdkDumpBlock.new
  rcases cassert_ok_or_abort ndebug (bs % VIXDISKLIB_SECTOR_SIZE == 0) with hc | hc
  · rw [hc]; exact Or.inl rfl
  · rw [hc]; exact Or.inr rfl

/-- What `readFromStreams` leaves untouched, whatever its outcome. -/
theorem readFromStreams_frame (ndebug : Bool) (md5 : List Nat → List Nat)
    (am : ArchiveManager) (dumpB : VmdkDumpBlock) (digestB : VmdkDigestBlock) :
    let r := am.readFromStreams ndebug md5 dumpB digestB
    (∃ din gin, r.1.1 = { am with dumpIn := din, digestIn := gin } ∧
      (din = am.dumpIn ∨ din = am.dumpIn.tail)) ∧
    r.1.2.1.block.length = dumpB.block.length ∧
    r.1.2.1.blockSize = dumpB.blockSize ∧
    r.1.2.2.digest.length = digestB.digest.length := by
  intro r
  have hself : am = { am with dumpIn := am.dumpIn, digestIn := am.digestIn } := rfl
  simp only [r, ArchiveManager.readFromStreams]
  rcases cassert_ok_or_abort ndebug (am.cmd == BackupCommand.CMD_DUMP) with h0 | h0
  · rw [h0, stepRes_ok]
    split
    · -- diff or incr
      cases h1 : am.readFromDump ndebug dumpB with
      | throw => exact ⟨⟨_, _, hself, Or.inl rfl⟩, rfl, rfl, rfl⟩
      | abort => exact ⟨⟨_, _, hself, Or.inl rfl⟩, rfl, rfl, rfl⟩
      | ok r1 =>
        rw [stepRes_ok]
        simp only [ArchiveManager.readFromDump, res_bind_eq, res_bind_eq_ok] at h1
        obtain ⟨_, _, h1⟩ := h1
        cases hd : am.dumpIn with
        | nil => simp [hd] at h1
        | cons p restP =>
          simp only [hd, res_bind_eq_ok, res_pure_eq] at h1
          obtain ⟨b, hb, h1⟩ := h1
          have hb' := dumpBlock_copyDataFrom_eq_ok _ _ _ _ hb
          have h1' := (Res.ok.inj h1).symm
          subst h1'
          have hblen : b.block.length = dumpB.block.length := by
            rw [hb']; simp only; split
            · exact copyInto_length _ _
            · rfl
          have hbbs : b.blockSize = dumpB.blockSize := by rw [hb']
          cases h2 : ({ am with dumpIn := restP } : ArchiveManager).readFromDigest ndebug digestB with
          | throw => exact ⟨⟨_, _, rfl, Or.inr (by simp)⟩, hblen, hbbs, rfl⟩
          | abort => exact ⟨⟨_, _, rfl, Or.inr (by simp)⟩, hblen, hbbs, rfl⟩
          | ok r2 =>
            rw [stepRes_ok]
            simp only [ArchiveManager.readFromDigest, res_bind_eq, res_bind_eq_ok] at h2
            obtain ⟨_, _, h2⟩ := h2
            cases hg : am.digestIn with
            | nil => simp [hg] at h2
            | cons q restQ =>
              simp only [hg, res_pure_eq] at h2
              have h2' := (Res.ok.inj h2).symm
              subst h2'
              have hdl : (digestB.copyDataFrom q).digest.length = digestB.digest.length := by
                simp only [VmdkDigestBlock.copyDataFrom]; split
                · exact copyInto_length _ _
                · rfl
              have key : (∃ din gin,
                  ({ am with dumpIn := restP, digestIn := restQ } : ArchiveManager)
                    = { am with dumpIn := din, digestIn := gin } ∧
                  (din = p :: restP ∨ din = (p :: restP).tail)) :=
                ⟨_, _, rfl, Or.inr (by simp)⟩
              cases h3 : VmdkDigestBlock.new.set ndebug md5 b with
              | throw => exact ⟨key, hblen, hbbs, hdl⟩
              | abort => exact ⟨key, hblen, hbbs, hdl⟩
              | ok chk =>
                rw [stepRes_ok]
                cases h4 : chk.eq ndebug (digestB.copyDataFrom q) with
                | throw => exact ⟨key, hblen, hbbs, hdl⟩
                | abort => exact ⟨key, hblen, hbbs, hdl⟩
                | ok same => exact ⟨key, hblen, hbbs, hdl⟩
    · exact ⟨⟨_, _, hself, Or.inl rfl⟩, rfl, rfl, rfl⟩
  · rw [h0, stepRes_abort]
    exact ⟨⟨_, _, hself, Or.inl rfl⟩, rfl, rfl, rfl⟩

/-- A successful `readFromStreams` in diff or incr mode took one block from each
input, copied them into the caller's blocks, and found them consistent. -/
theorem readFromStreams_ok (ndebug : Bool) (md5 : List Nat → List Nat)
    (am am1 : ArchiveManager) (dumpB dumpB1 : VmdkDumpBlock)
    (digestB digestB1 : VmdkDigestBlock)
    (h : am.readFromStreams ndebug md5 dumpB digestB = ((am1, dumpB1, digestB1), Res.ok ())) :
    (am.mode.isDiffOrIncr = true →
      ∃ p restP q restQ chk, am.dumpIn = p :: restP ∧ am.digestIn = q :: restQ ∧
        am1 = { am with dumpIn := restP, digestIn := restQ } ∧
        dumpB.copyDataFrom ndebug p = Res.ok dumpB1 ∧
        digestB1 = digestB.copyDataFrom q ∧
        VmdkDigestBlock.new.set ndebug md5 dumpB1 = Res.ok chk ∧
        chk.eq ndebug digestB1 = Res.ok true) ∧
    (am.mode.isDiffOrIncr = false → am1 = am ∧ dumpB1 = dumpB ∧ digestB1 = digestB) := by
  simp only [ArchiveManager.readFromStreams] at h
  obtain ⟨_, _, h⟩ := stepRes_eq_ok _ _ _ _ _ h
  by_cases hm : am.mode.isDiffOrIncr = true
  · refine ⟨fun _ => ?_, fun hc => by simp [hm] at hc⟩
    simp only [hm, if_true] at h
    obtain ⟨r1, h1, h⟩ := stepRes_eq_ok _ _ _ _ _ h
    obtain ⟨r2, h2, h⟩ := stepRes_eq_ok _ _ _ _ _ h
    obtain ⟨chk, h3, h⟩ := stepRes_eq_ok _ _ _ _ _ h
    obtain ⟨same, h4, h⟩ := stepRes_eq_ok _ _ _ _ _ h
    simp only [ArchiveManager.readFromDump, res_bind_eq, res_bind_eq_ok] at h1
    obtain ⟨_, _, h1⟩ := h1
    cases hd : am.dumpIn with
    | nil => simp [hd] at h1
    | cons p restP =>
      simp only [hd, res_bind_eq_ok, res_pure_eq] at h1
      obtain ⟨b, hb, h1⟩ := h1
      have h1' := (Res.ok.inj h1).symm
      subst h1'
      simp only [ArchiveManager.readFromDigest, res_bind_eq, res_bind_eq_ok] at h2
      obtain ⟨_, _, h2⟩ := h2
      cases hg : am.digestIn with
      | nil => simp [hg] at h2
      | cons q restQ =>
        simp only [hg, res_pure_eq] at h2
        have h2' := (Res.ok.inj h2).symm
        subst h2'
        simp only [Prod.mk.injEq] at h
        obtain ⟨⟨ha, hb1, hd1⟩, hchk⟩ := h
        subst ha hb1 hd1
        have hsame : same = true := by
          cases same
          · simp [checkAndThrow] at hchk
          · rfl
        subst hsame
        exact ⟨p, restP, q, restQ, chk, rfl, rfl, rfl, hb, rfl, h3, h4⟩
  · have hm' : am.mode.isDiffOrIncr = false := by simpa using hm
    refine ⟨fun hc => by simp [hm'] at hc, fun _ => ?_⟩
    simp only [hm', Bool.false_eq_true, if_false, Prod.mk.injEq] at h
    obtain ⟨⟨ha, hb1, hd1⟩, _⟩ := h
    exact ⟨ha.symm, hb1.symm, hd1.symm⟩

/-- How far `writeToStreams` got.  Whatever its outcome, the dump block is written
before the digest block and the rdiff block last; a returned flag tells whether the
rdiff block was written. -/
theorem writeToStreams_cases (ndebug : Bool) (am : ArchiveManager)
    (prevDumpB : VmdkDumpBlock) (prevDigestB : VmdkDigestBlock)
    (currDumpB : VmdkDumpBlock) (currDigestB : VmdkDigestBlock) :
    let w := am.writeToStreams ndebug prevDumpB prevDigestB currDumpB currDigestB
    let am1 : ArchiveManager := { am with dumpOut := am.dumpOut ++ [currDumpB.clone] }
    let am2 : ArchiveManager := { am1 with digestOut := am.digestOut ++ [currDigestB.clone] }
    let am3 : ArchiveManager := { am2 with rdiffOut := am.rdiffOut ++ [prevDumpB.clone] }
    (w.1 = am ∧ ∀ b, w.2 ≠ Res.ok b) ∨
    (w.1 = am1 ∧ ∀ b, w.2 ≠ Res.ok b) ∨
    (w.1 = am2 ∧ ∀ b, w.2 ≠ Res.ok b) ∨
    (w.1 = am2 ∧ w.2 = Res.ok true ∧ am.mode.isDiffOrIncr = false) ∨
    (w.1 = am2 ∧ w.2 = Res.ok false ∧ am.mode.isDiffOrIncr = true ∧
      prevDigestB.ne ndebug currDigestB = Res.ok false) ∨
    (w.1 = am3 ∧ w.2 = Res.ok true ∧ am.mode.isDiffOrIncr = true ∧
      prevDigestB.ne ndebug currDigestB = Res.ok true) := by
  intro w am1 am2 am3
  simp only [w, ArchiveManager.writeToStreams]
  rcases cassert_ok_or_abort ndebug (am.cmd == BackupCommand.CMD_DUMP) with h0 | h0
  · rw [h0, stepRes_ok]
    cases h1 : am.writeToDump ndebug currDumpB with
    | throw => exact Or.inl ⟨rfl, fun b => by simp [stepRes]⟩
    | abort => exact Or.inl ⟨rfl, fun b => by simp [stepRes]⟩
    | ok a1 =>
      have e1 := writeToDump_ok _ _ _ _ h1
      subst e1
      rw [stepRes_ok]
      cases h2 : ArchiveManager.writeToDigest ndebug
          { am with dumpOut := am.dumpOut ++ [currDumpB.clone] } currDigestB with
      | throw => exact Or.inr (Or.inl ⟨rfl, fun b => by simp [stepRes]⟩)
      | abort => exact Or.inr (Or.inl ⟨rfl, fun b => by simp [stepRes]⟩)
      | ok a2 =>
        have e2 := writeToDigest_ok _ _ _ _ h2
        subst e2
        rw [stepRes_ok]
        by_cases hm : am.mode.isDiffOrIncr = true
        · rw [if_pos hm]
          cases h3 : prevDigestB.ne ndebug currDigestB with
          | throw => exact Or.inr (Or.inr (Or.inl ⟨rfl, fun b => by simp [stepRes]⟩))
          | abort => exact Or.inr (Or.inr (Or.inl ⟨rfl, fun b => by simp [stepRes]⟩))
          | ok differs =>
            rw [stepRes_ok]
            cases differs with
            | false =>
              rw [if_neg (by simp)]
              exact Or.inr (Or.inr (Or.inr (Or.inr (Or.inl ⟨rfl, rfl, hm, rfl⟩))))
            | true =>
              rw [if_pos rfl]
              cases h4 : ArchiveManager.writeToRdiff ndebug
                  { am with dumpOut := am.dumpOut ++ [currDumpB.clone],
                            digestOut := am.digestOut ++ [currDigestB.clone] } prevDumpB with
              | throw => exact Or.inr (Or.inr (Or.inl ⟨rfl, fun b => by simp [stepRes]⟩))
              | abort => exact Or.inr (Or.inr (Or.inl ⟨rfl, fun b => by simp [stepRes]⟩))
              | ok a3 =>
                have e3 := writeToRdiff_ok _ _ _ _ h4
                subst e3
                exact Or.inr (Or.inr (Or.inr (Or.inr (Or.inr ⟨rfl, rfl, hm, rfl⟩))))
        · have hm' : am.mode.isDiffOrIncr = false := by simpa using hm
          rw [if_neg hm]
          exact Or.inr (Or.inr (Or.inr (Or.inl ⟨rfl, rfl, hm'⟩)))
  · rw [h0, stepRes_abort]
    exact Or.inl ⟨rfl, fun b => by simp⟩

theorem retryRead_length (env : DumpEnv) (oft n : Nat) (buf : ByteArray)
    (ev : List DumpEvent) : (retryRead env oft n buf ev).1.1.length = buf.length := by
  induction n generalizing ev with
  | zero => rfl
  | succ n ih =>
    unfold retryRead
    simp only
    split
    · simp [copyInto_length]
    · split
      · split <;> rfl
      · split
        · split
          · split
            · split
              · exact ih _
              · rfl
            · rfl
          · rfl
        · exact ih _

/-- Anatomy of one loop iteration: either it fails before `writeToStreams`, having
written nothing, or it reaches `writeToStreams` with the blocks described. -/
theorem dumpStep_reach (ndebug : Bool) (env : DumpEnv) (oft : Nat) (st : DumpState) :
    ((dumpStep ndebug env oft st).1.arcMgr.dumpOut = st.arcMgr.dumpOut ∧
     (dumpStep ndebug env oft st).1.arcMgr.digestOut = st.arcMgr.digestOut ∧
     (dumpStep ndebug env oft st).1.arcMgr.rdiffOut = st.arcMgr.rdiffOut ∧
     (dumpStep ndebug env oft st).2 ≠ Res.ok () ∧
     ∃ din gin, (dumpStep ndebug env oft st).1.arcMgr =
       { st.arcMgr with dumpIn := din, digestIn := gin }) ∨
    ∃ am1 prevDumpB1 prevDigestB1 currDumpB1 ev1 d,
      env.isSignal oft = false ∧
      st.arcMgr.readFromStreams ndebug env.md5 st.prevDumpB st.prevDigestB
        = ((am1, prevDumpB1, prevDigestB1), Res.ok ()) ∧
      ((∃ buf, (am1.mode ≠ DumpMode.DUMPMODE_INCR ∨
                env.changedBlockBitmap.get ndebug oft = Res.ok true) ∧
          retryRead env oft 10 st.currDumpB.block st.events = ((buf, ev1), Res.ok ()) ∧
          currDumpB1 = (({ st.currDumpB with block := buf } : VmdkDumpBlock).setIsAllZero).setOffset oft) ∨
       (am1.mode = DumpMode.DUMPMODE_INCR ∧
          env.changedBlockBitmap.get ndebug oft = Res.ok false ∧
          st.currDumpB.copyDataFrom ndebug prevDumpB1 = Res.ok currDumpB1 ∧
          cassert ndebug (currDumpB1.offset == oft) = Res.ok () ∧ ev1 = st.events)) ∧
      st.currDigestB.set ndebug env.md5 currDumpB1 = Res.ok d ∧
      dumpStep ndebug env oft st =
        ({ arcMgr := (am1.writeToStreams ndebug prevDumpB1 prevDigestB1 currDumpB1 d).1,
           prevDumpB := prevDumpB1, currDumpB := currDumpB1,
           prevDigestB := prevDigestB1, currDigestB := d, events := ev1 },
         voidRes (am1.writeToStreams ndebug prevDumpB1 prevDigestB1 currDumpB1 d).2) := by
  have hfr := readFromStreams_frame ndebug env.md5 st.arcMgr st.prevDumpB st.prevDigestB
  simp only at hfr
  obtain ⟨⟨din, gin, hfr1, _⟩, _, _, _⟩ := hfr
  generalize hx : dumpStep ndebug env oft st = x
  unfold dumpStep at hx
  cases hsig : env.isSignal oft with
  | true =>
    simp only [hsig, checkAndThrow, Bool.not_true, Bool.false_eq_true, if_false,
      stepRes_throw] at hx
    subst hx; left; exact ⟨rfl, rfl, rfl, by simp, _, _, rfl⟩
  | false =>
    simp only [hsig, checkAndThrow, Bool.not_false, if_true, stepRes_ok] at hx
    cases hr : st.arcMgr.readFromStreams ndebug env.md5 st.prevDumpB st.prevDigestB with
    | mk s1 r1 =>
      obtain ⟨am1, prevDumpB1, prevDigestB1⟩ := s1
      rw [hr] at hfr1 hx
      simp only at hfr1 hx
      have ho1 : am1.dumpOut = st.arcMgr.dumpOut := by rw [hfr1]
      have ho2 : am1.digestOut = st.arcMgr.digestOut := by rw [hfr1]
      have ho3 : am1.rdiffOut = st.arcMgr.rdiffOut := by rw [hfr1]
      cases r1 with
      | throw =>
        simp only [stepRes_throw] at hx
        subst hx; left; exact ⟨ho1, ho2, ho3, by simp, _, _, hfr1⟩
      | abort =>
        simp only [stepRes_abort] at hx
        subst hx; left; exact ⟨ho1, ho2, ho3, by simp, _, _, hfr1⟩
      | ok _ =>
        simp only [stepRes_ok] at hx
        cases hmc : (if am1.mode != DumpMode.DUMPMODE_INCR then Res.ok true
                     else env.changedBlockBitmap.get ndebug oft) with
        | throw =>
          rw [hmc] at hx; simp only [stepRes_throw] at hx
          subst hx; left; exact ⟨ho1, ho2, ho3, by simp, _, _, hfr1⟩
        | abort =>
          rw [hmc] at hx; simp only [stepRes_abort] at hx
          subst hx; left; exact ⟨ho1, ho2, ho3, by simp, _, _, hfr1⟩
        | ok maybeChanged =>
          rw [hmc] at hx
          simp only [stepRes_ok] at hx
          cases maybeChanged with
          | true =>
            have hmode : am1.mode ≠ DumpMode.DUMPMODE_INCR ∨
                env.changedBlockBitmap.get ndebug oft = Res.ok true := by
              by_cases hm : am1.mode = DumpMode.DUMPMODE_INCR
              · right; simpa [hm] using hmc
              · left; exact hm
            rw [if_pos rfl] at hx
            cases hrr : retryRead env oft 10 st.currDumpB.block st.events with
            | mk s2 r2 =>
              obtain ⟨buf, ev1⟩ := s2
              rw [hrr] at hx
              simp only at hx
              cases r2 with
              | throw =>
                simp only [stepRes_throw] at hx
                subst hx; left; exact ⟨ho1, ho2, ho3, by simp, _, _, hfr1⟩
              | abort =>
                simp only [stepRes_abort] at hx
                subst hx; left; exact ⟨ho1, ho2, ho3, by simp, _, _, hfr1⟩
              | ok _ =>
                simp only [stepRes_ok] at hx
                cases hset : st.currDigestB.set ndebug env.md5
                    ((({ st.currDumpB with block := buf } : VmdkDumpBlock).setIsAllZero).setOffset oft) with
                | throw =>
                  rw [hset] at hx; simp only [stepRes_throw] at hx
                  subst hx; left; exact ⟨ho1, ho2, ho3, by simp, _, _, hfr1⟩
                | abort =>
                  rw [hset] at hx; simp only [stepRes_abort] at hx
                  subst hx; left; exact ⟨ho1, ho2, ho3, by simp, _, _, hfr1⟩
                | ok d =>
                  rw [hset] at hx; simp only [stepRes_ok] at hx
                  right
                  exact ⟨am1, prevDumpB1, prevDigestB1, _, ev1, d, rfl, rfl,
                    Or.inl ⟨buf, hmode, rfl, rfl⟩, hset, hx.symm⟩
          | false =>
            have hmode : am1.mode = DumpMode.DUMPMODE_INCR ∧
                env.changedBlockBitmap.get ndebug oft = Res.ok false := by
              by_cases hm : am1.mode = DumpMode.DUMPMODE_INCR
              · exact ⟨hm, by simpa [hm] using hmc⟩
              · simp [hm] at hmc
            rw [if_neg (by simp)] at hx
            cases hcp : st.currDumpB.copyDataFrom ndebug prevDumpB1 with
            | throw =>
              rw [hcp] at hx; simp only [stepRes_throw] at hx
              subst hx; left; exact ⟨ho1, ho2, ho3, by simp, _, _, hfr1⟩
            | abort =>
              rw [hcp] at hx; simp only [stepRes_abort] at hx
              subst hx; left; exact ⟨ho1, ho2, ho3, by simp, _, _, hfr1⟩
            | ok b =>
              rw [hcp] at hx; simp only [stepRes_ok] at hx
              rcases cassert_ok_or_abort ndebug (b.offset == oft) with hca | hca
              · rw [hca] at hx
                simp only [stepRes_ok] at hx
                cases hset : st.currDigestB.set ndebug env.md5 b with
                | throw =>
                  rw [hset] at hx; simp only [stepRes_throw] at hx
                  subst hx; left; exact ⟨ho1, ho2, ho3, by simp, _, _, hfr1⟩
                | abort =>
                  rw [hset] at hx; simp only [stepRes_abort] at hx
                  subst hx; left; exact ⟨ho1, ho2, ho3, by simp, _, _, hfr1⟩
                | ok d =>
                  rw [hset] at hx; simp only [stepRes_ok] at hx
                  right
                  exact ⟨am1, prevDumpB1, prevDigestB1, b, st.events, d, rfl, rfl,
                    Or.inr ⟨hmode.1, hmode.2, hcp, hca, rfl⟩, hset, hx.symm⟩
              · rw [hca] at hx
                simp only [stepRes_abort] at hx
                subst hx; left; exact ⟨ho1, ho2, ho3, by simp, _, _, hfr1⟩

/-! ## The dump loop: dump and digest stay in step (C1) -/

theorem set_digest_length (ndebug : Bool) (md5 : List Nat → List Nat)
    (d0 d : VmdkDigestBlock) (b : VmdkDumpBlock) (h : d0.set ndebug md5 b = Res.ok d) :
    d.digest.length = d0.digest.length := by
  unfold VmdkDigestBlock.set at h
  split at h
  · have h' := (Res.ok.inj h).symm
    subst h'
    simp only
    split <;> simp [calcMD5, copyInto_length]
  · simp at h
  · simp at h

theorem getIsAllZero_of_resolved (ndebug : Bool) (b : VmdkDumpBlock)
    (h : b.isAllZero ≠ Boolean.BNULL) :
    b.getIsAllZero ndebug = Res.ok (b.isAllZero == Boolean.BTRUE) := by
  have : cassert ndebug (b.isAllZero != Boolean.BNULL) = Res.ok () := by
    rw [cassert_eq_ok]; right; simpa using h
  simp [VmdkDumpBlock.getIsAllZero, this]

theorem digestSet_ok (ndebug : Bool) (md5 : List Nat → List Nat) (d0 d : VmdkDigestBlock)
    (b : VmdkDumpBlock) (h : d0.set ndebug md5 b = Res.ok d) :
    (ndebug = true ∨ b.isAllZero ≠ Boolean.BNULL) ∧
    d.isAllZero = (if b.isAllZero = Boolean.BTRUE then Boolean.BTRUE else Boolean.BFALSE) ∧
    d.digest = (if b.isAllZero = Boolean.BTRUE then d0.digest
                else copyInto d0.digest (md5 (b.block.take b.blockSize))) := by
  unfold VmdkDigestBlock.set VmdkDumpBlock.getIsAllZero at h
  cases hc : cassert ndebug (b.isAllZero != Boolean.BNULL) with
  | throw => rw [hc] at h; simp at h
  | abort => rw [hc] at h; simp at h
  | ok _ =>
    rw [hc] at h
    simp only at h
    have hc' := (cassert_eq_ok ndebug _).1 hc
    have e := (Res.ok.inj h).symm
    subst e
    refine ⟨?_, ?_, ?_⟩
    · rcases hc' with h1 | h1
      · exact Or.inl h1
      · right; simpa using h1
    · cases hb : b.isAllZero <;> simp [calcMD5]
    · cases hb : b.isAllZero <;> simp [calcMD5]

theorem digestEq_ok (ndebug : Bool) (l r : VmdkDigestBlock) (v : Bool)
    (h : l.eq ndebug r = Res.ok v) :
    (ndebug = true ∨ l.isAllZero ≠ Boolean.BNULL) ∧
    v = (l.isAllZero == r.isAllZero && (l.isAllZero == Boolean.BTRUE || l.digest == r.digest)) := by
  unfold VmdkDigestBlock.eq at h
  cases hc : cassert ndebug (l.isAllZero != Boolean.BNULL) with
  | throw => rw [hc] at h; simp at h
  | abort => rw [hc] at h; simp at h
  | ok _ =>
    rw [hc] at h
    have hc' := (cassert_eq_ok ndebug _).1 hc
    refine ⟨?_, (Res.ok.inj h).symm⟩
    rcases hc' with h1 | h1
    · exact Or.inl h1
    · right; simpa using h1

theorem digestNe_ok (ndebug : Bool) (l r : VmdkDigestBlock) (v : Bool)
    (h : l.ne ndebug r = Res.ok v) :
    v = !(l.isAllZero == r.isAllZero && (l.isAllZero == Boolean.BTRUE || l.digest == r.digest)) := by
  unfold VmdkDigestBlock.ne at h
  cases he : l.eq ndebug r with
  | throw => rw [he] at h; simp at h
  | abort => rw [he] at h; simp at h
  | ok e =>
    rw [he] at h
    rw [← (digestEq_ok ndebug l r e he).2]
    exact (Res.ok.inj h).symm

theorem clone_block_length (b : VmdkDumpBlock) : b.clone.block.length = b.blockSize := by
  simp only [VmdkDumpBlock.clone]
  split
  · simp [copyInto_length]
  · simp

/-- The digest of the written copy of `c` is the written copy of the digest of `c`. -/
theorem digestOf_clone (ndebug : Bool) (md5 : List Nat → List Nat)
    (hmd5 : ∀ x, (md5 x).length = MD5_DIGEST_LENGTH)
    (c : VmdkDumpBlock) (d0 d : VmdkDigestBlock)
    (hlen : c.block.length = c.blockSize) (hflag : c.isAllZero ≠ Boolean.BNULL)
    (hd0 : d0.digest.length = MD5_DIGEST_LENGTH)
    (hset : d0.set ndebug md5 c = Res.ok d) :
    digestOf ndebug md5 c.clone = Res.ok d.clone := by
  have hcl : c.clone.isAllZero ≠ Boolean.BNULL := hflag
  unfold digestOf
  unfold VmdkDigestBlock.set at hset ⊢
  rw [getIsAllZero_of_resolved ndebug c hflag] at hset
  rw [getIsAllZero_of_resolved ndebug c.clone hcl]
  simp only at hset ⊢
  have hset' := (Res.ok.inj hset).symm
  subst hset'
  obtain ⟨off, flag, block, bs⟩ := c
  simp only at hlen hflag
  subst hlen
  cases flag with
  | BNULL => exact absurd rfl hflag
  | BTRUE =>
    simp [VmdkDumpBlock.clone, VmdkDigestBlock.clone, VmdkDigestBlock.copyDataFrom,
      VmdkDigestBlock.new]
  | BFALSE =>
    have h1 : copyInto (List.replicate block.length 0) block = block :=
      copyInto_same_length _ _ (by simp)
    have h2 : ∀ x, copyInto d0.digest (md5 x) = md5 x :=
      fun x => copyInto_same_length _ _ (by rw [hmd5, hd0])
    have h3 : ∀ x, copyInto (List.replicate MD5_DIGEST_LENGTH 0) (md5 x) = md5 x :=
      fun x => copyInto_same_length _ _ (by rw [hmd5]; simp)
    simp [VmdkDumpBlock.clone, VmdkDigestBlock.clone, VmdkDigestBlock.copyDataFrom,
      VmdkDigestBlock.new, calcMD5, h1, h2, h3]

theorem digestsMatch_of_forall₂ (ndebug : Bool) (md5 : List Nat → List Nat)
    (ws extra : List VmdkDumpBlock) (ds : List VmdkDigestBlock)
    (h : List.Forall₂ (fun w d => w.block.length = w.blockSize ∧
      digestOf ndebug md5 w = Res.ok d) ws ds) :
    ∀ (o : Nat) (d : VmdkDigestBlock), ds[o]? = some d →
      ∃ w, (ws ++ extra)[o]? = some w ∧ w.block.length = w.blockSize ∧
        digestOf ndebug md5 w = Res.ok d := by
  induction h with
  | nil => intro o d hd; simp at hd
  | cons hwd _ ih =>
    intro o d hd
    cases o with
    | zero =>
      simp only [List.getElem?_cons_zero, Option.some.injEq] at hd
      subst hd
      refine ⟨_, ?_, hwd⟩
      simp
    | succ o =>
      simp only [List.getElem?_cons_succ] at hd
      obtain ⟨w, hw, hr⟩ := ih o d hd
      refine ⟨w, ?_, hr⟩
      simpa using hw

theorem dumpInv_init (ndebug : Bool) (md5 : List Nat → List Nat) (am : ArchiveManager)
    (blocksize : Nat) (hflags : ∀ b ∈ am.dumpIn, b.isAllZero ≠ Boolean.BNULL)
    (hd : am.dumpOut = []) (hg : am.digestOut = []) :
    DumpInv ndebug md5 (DumpState.init am blocksize) where
  curr_len := by simp [DumpState.init, VmdkDumpBlock.fresh]
  digest_len := by simp [DumpState.init, VmdkDigestBlock.new]
  in_flags := hflags
  pairs := by simp [DumpState.init, hd, hg]

/-- One iteration keeps the invariant when it succeeds, and in any case leaves every
written digest block matching the dump block at its position. -/
theorem dumpStep_inv (ndebug : Bool) (env : DumpEnv)
    (hmd5 : ∀ x, (env.md5 x).length = MD5_DIGEST_LENGTH) (oft : Nat) (st : DumpState)
    (hinv : DumpInv ndebug env.md5 st) :
    ((dumpStep ndebug env oft st).2 = Res.ok () →
      DumpInv ndebug env.md5 (dumpStep ndebug env oft st).1) ∧
    DigestsMatch ndebug env.md5 (dumpStep ndebug env oft st).1.arcMgr := by
  rcases dumpStep_reach ndebug env oft st with ⟨h1, h2, h3, h4, _⟩ |
    ⟨am1, prevDumpB1, prevDigestB1, c, ev1, d, _, hr, hcur, hset, hx⟩
  · refine ⟨fun h => absurd h h4, ?_⟩
    intro o dd hdd
    rw [h2] at hdd
    rw [h1]
    simpa using digestsMatch_of_forall₂ ndebug env.md5 _ [] _ hinv.pairs o dd hdd
  · -- the iteration reached `writeToStreams`
    have hfr := readFromStreams_frame ndebug env.md5 st.arcMgr st.prevDumpB st.prevDigestB
    simp only [hr] at hfr
    obtain ⟨⟨din, gin, hfr1, hdin⟩, _, _, _⟩ := hfr
    have hin1 : ∀ b ∈ am1.dumpIn, b.isAllZero ≠ Boolean.BNULL := by
      intro b hb
      rw [hfr1] at hb
      simp only at hb
      rcases hdin with e | e
      · rw [e] at hb; exact hinv.in_flags b hb
      · rw [e] at hb; exact hinv.in_flags b (List.mem_of_mem_tail hb)
    have hmode1 : am1.mode = st.arcMgr.mode := by rw [hfr1]
    have ho1 : am1.dumpOut = st.arcMgr.dumpOut := by rw [hfr1]
    have ho2 : am1.digestOut = st.arcMgr.digestOut := by rw [hfr1]
    -- the current block fills its buffer and carries a resolved flag
    have hc : c.block.length = c.blockSize ∧ c.isAllZero ≠ Boolean.BNULL := by
      rcases hcur with ⟨buf, _, hrr, hceq⟩ | ⟨hm, _, hcp, _, _⟩
      · have hl := retryRead_length env oft 10 st.currDumpB.block st.events
        rw [hrr] at hl
        simp only at hl
        subst hceq
        refine ⟨?_, ?_⟩
        · simp [VmdkDumpBlock.setOffset, VmdkDumpBlock.setIsAllZero, hl, hinv.curr_len]
        · simp only [VmdkDumpBlock.setOffset, VmdkDumpBlock.setIsAllZero]
          split <;> simp
      · have hceq := dumpBlock_copyDataFrom_eq_ok _ _ _ _ hcp
        have hdi : st.arcMgr.mode.isDiffOrIncr = true := by
          rw [← hmode1, hm]; rfl
        obtain ⟨p, restP, q, restQ, chk, hP, _, _, hpc, _⟩ :=
          (readFromStreams_ok _ _ _ _ _ _ _ _ hr).1 hdi
        have hpeq := dumpBlock_copyDataFrom_eq_ok _ _ _ _ hpc
        have hpf : p.isAllZero ≠ Boolean.BNULL := hinv.in_flags p (by rw [hP]; simp)
        subst hceq
        refine ⟨?_, ?_⟩
        · simp only
          split
          · rw [copyInto_length]; exact hinv.curr_len
          · exact hinv.curr_len
        · simp only [hpeq]; exact hpf
    have hdl : d.digest.length = MD5_DIGEST_LENGTH := by
      rw [set_digest_length _ _ _ _ _ hset]; exact hinv.digest_len
    have hR : digestOf ndebug env.md5 c.clone = Res.ok d.clone :=
      digestOf_clone ndebug env.md5 hmd5 c st.currDigestB d hc.1 hc.2 hinv.digest_len hset
    have hpairs : List.Forall₂ (fun w d => w.block.length = w.blockSize ∧
        digestOf ndebug env.md5 w = Res.ok d) am1.dumpOut am1.digestOut := by
      rw [ho1, ho2]; exact hinv.pairs
    have hpairs2 : List.Forall₂ (fun w d => w.block.length = w.blockSize ∧
        digestOf ndebug env.md5 w = Res.ok d)
        (am1.dumpOut ++ [c.clone]) (am1.digestOut ++ [d.clone]) :=
      List.rel_append hpairs
        (List.Forall₂.cons ⟨clone_block_length c, hR⟩ List.Forall₂.nil)
    rw [hx]
    simp only
    have hcases := writeToStreams_cases ndebug am1 prevDumpB1 prevDigestB1 c d
    simp only at hcases
    rcases hcases with ⟨e, hf⟩ | ⟨e, hf⟩ | ⟨e, hf⟩ | ⟨e, hv, _⟩ | ⟨e, hv, _⟩ | ⟨e, hv, _⟩
    · refine ⟨fun h => ?_, ?_⟩
      · exfalso
        cases hw : (am1.writeToStreams ndebug prevDumpB1 prevDigestB1 c d).2 with
        | ok b => exact hf b hw
        | throw => rw [hw] at h; simp [voidRes] at h
        | abort => rw [hw] at h; simp [voidRes] at h
      · rw [e]
        intro o dd hdd
        simpa using digestsMatch_of_forall₂ ndebug env.md5 _ [] _ hpairs o dd hdd
    · refine ⟨fun h => ?_, ?_⟩
      · exfalso
        cases hw : (am1.writeToStreams ndebug prevDumpB1 prevDigestB1 c d).2 with
        | ok b => exact hf b hw
        | throw => rw [hw] at h; simp [voidRes] at h
        | abort => rw [hw] at h; simp [voidRes] at h
      · rw [e]
        intro o dd hdd
        exact digestsMatch_of_forall₂ ndebug env.md5 _ [c.clone] _ hpairs o dd hdd
    · refine ⟨fun h => ?_, ?_⟩
      · exfalso
        cases hw : (am1.writeToStreams ndebug prevDumpB1 prevDigestB1 c d).2 with
        | ok b => exact hf b hw
        | throw => rw [hw] at h; simp [voidRes] at h
        | abort => rw [hw] at h; simp [voidRes] at h
      · rw [e]
        intro o dd hdd
        simpa using digestsMatch_of_forall₂ ndebug env.md5 _ [] _ hpairs2 o dd hdd
    all_goals
      refine ⟨fun _ => ?_, ?_⟩
      · rw [e]
        exact ⟨hc.1, hdl, hin1, hpairs2⟩
      · rw [e]
        intro o dd hdd
        simpa using digestsMatch_of_forall₂ ndebug env.md5 _ [] _ hpairs2 o dd hdd

theorem dumpLoop_digestsMatch (ndebug : Bool) (env : DumpEnv)
    (hmd5 : ∀ x, (env.md5 x).length = MD5_DIGEST_LENGTH) (n oft : Nat) (st : DumpState)
    (hinv : DumpInv ndebug env.md5 st) :
    DigestsMatch ndebug env.md5 (dumpLoop ndebug env n oft st).1.arcMgr := by
  induction n generalizing oft st with
  | zero =>
    intro o dd hdd
    simpa [dumpLoop] using digestsMatch_of_forall₂ ndebug env.md5 _ [] _ hinv.pairs o dd hdd
  | succ n ih =>
    have hs := dumpStep_inv ndebug env hmd5 oft st hinv
    unfold dumpLoop
    cases hx : dumpStep ndebug env oft st with
    | mk st1 r =>
      rw [hx] at hs
      cases r with
      | ok u => exact ih (oft + 1) st1 (hs.1 rfl)
      | throw => exact hs.2
      | abort => exact hs.2

theorem writeDumpHeader_ok (ndebug : Bool) (am am1 : ArchiveManager) (h : VmdkDumpHeader)
    (hw : am.writeDumpHeader ndebug h = Res.ok am1) :
    am1 = { am with dumpOutH := some h } := by
  simp only [ArchiveManager.writeDumpHeader, res_bind_eq, res_bind_eq_ok, res_pure_eq] at hw
  obtain ⟨_, _, _, _, he⟩ := hw
  exact (Res.ok.inj he).symm

theorem writeDigestHeader_ok (ndebug : Bool) (am am1 : ArchiveManager) (h : VmdkDigestHeader)
    (hw : am.writeDigestHeader ndebug h = Res.ok am1) :
    am1 = { am with digestOutH := some h } := by
  simp only [ArchiveManager.writeDigestHeader, res_bind_eq, res_bind_eq_ok, res_pure_eq] at hw
  obtain ⟨_, _, _, _, he⟩ := hw
  exact (Res.ok.inj he).symm

theorem writeRdiffHeader_ok (ndebug : Bool) (am am1 : ArchiveManager) (h : VmdkDumpHeader)
    (hw : am.writeRdiffHeader ndebug h = Res.ok am1) :
    am1 = { am with rdiffOutH := some h } := by
  simp only [ArchiveManager.writeRdiffHeader, res_bind_eq, res_bind_eq_ok, res_pure_eq] at hw
  obtain ⟨_, _, _, _, he⟩ := hw
  exact (Res.ok.inj he).symm

/-- What `writeHeaders` does when it succeeds. -/
theorem writeHeaders_ok (ndebug : Bool) (am am1 : ArchiveManager) (dumpH : VmdkDumpHeader)
    (digestH : VmdkDigestHeader) (rdiffH : VmdkDumpHeader)
    (hw : am.writeHeaders ndebug dumpH digestH rdiffH = Res.ok am1) :
    am1 = { am with dumpOutH := some dumpH, digestOutH := some digestH,
                    rdiffOutH := if am.mode.isDiffOrIncr then some rdiffH
                                 else am.rdiffOutH } := by
  simp only [ArchiveManager.writeHeaders, res_bind_eq, res_bind_eq_ok, res_pure_eq] at hw
  obtain ⟨_, _, a1, h1, a2, h2, h3⟩ := hw
  have e1 := writeDumpHeader_ok _ _ _ _ h1
  subst e1
  have e2 := writeDigestHeader_ok _ _ _ _ h2
  subst e2
  by_cases hm : am.mode.isDiffOrIncr = true
  · simp only [hm, if_true] at h3 ⊢
    have e3 := writeRdiffHeader_ok _ _ _ _ h3
    subst e3
    rfl
  · simp only [hm] at h3 ⊢
    have e3 := (Res.ok.inj h3).symm
    subst e3
    rfl

/-- What `readChangedBlockBitmap` of the dump command does to the manager. -/
theorem readChangedBlockBitmapForDump_ok (ndebug : Bool) (am am1 : ArchiveManager)
    (bmp bmp1 : Bitmap)
    (hr : am.readChangedBlockBitmapForDump ndebug bmp = Res.ok (am1, bmp1)) :
    ∃ is, am1 = { am with changedBlockBitmapIn := is } := by
  simp only [ArchiveManager.readChangedBlockBitmapForDump, res_bind_eq, res_bind_eq_ok,
    res_pure_eq] at hr
  obtain ⟨_, _, h⟩ := hr
  split at h
  · simp only [ArchiveManager.readChangedBlockBitmap, res_bind_eq, res_bind_eq_ok,
      res_pure_eq] at h
    obtain ⟨_, _, _, _, r, _, he⟩ := h
    have e := Res.ok.inj he
    simp only [Prod.mk.injEq] at e
    exact ⟨_, e.1.symm⟩
  · simp only [res_bind_eq_ok] at h
    obtain ⟨_, _, he⟩ := h
    have e := Res.ok.inj he
    simp only [Prod.mk.injEq] at e
    exact ⟨am.changedBlockBitmapIn, e.1.symm⟩

theorem unwind_ok {α : Type} (ndebug : Bool) (am : ArchiveManager) (a : α) :
    am.unwind ndebug (Res.ok a) = Res.ok a := rfl

theorem unwind_abort {α : Type} (ndebug : Bool) (am : ArchiveManager) :
    am.unwind ndebug (Res.abort : Res α) = Res.abort := rfl

/-- The destructor returns or fails an assertion. -/
theorem destroy_ok_or_abort (ndebug : Bool) (am : ArchiveManager) :
    am.destroy ndebug = Res.ok () ∨ am.destroy ndebug = Res.abort := by
  unfold ArchiveManager.destroy
  simp only [res_bind_eq]
  have h1 : ∀ (c : Bool) (x : Bool), (if c = true then cassert ndebug x else Res.ok ()) = Res.ok () ∨
      (if c = true then cassert ndebug x else Res.ok ()) = Res.abort := by
    intro c x
    split
    · exact cassert_ok_or_abort ndebug x
    · exact Or.inl rfl
  rcases h1 am.isOpenDumpOut (am.isOpenDumpOut && am.dumpOutH.isSome) with h | h
  · rw [h]
    simp only [Res.bind]
    rcases h1 am.isOpenDigestOut (am.isOpenDigestOut && am.digestOutH.isSome) with h | h
    · rw [h]
      simp only [Res.bind]
      exact h1 am.isOpenRdiffOut (am.isOpenRdiffOut && am.rdiffOutH.isSome)
    · rw [h]
      exact Or.inr rfl
  · rw [h]
    exact Or.inr rfl

/-- The destructor returns in a build without assertions, and in every build when each
open output manager has been started. -/
theorem destroy_ok (ndebug : Bool) (am : ArchiveManager)
    (h : ndebug = true ∨
      ((am.isOpenDumpOut = true → am.dumpOutH.isSome = true) ∧
       (am.isOpenDigestOut = true → am.digestOutH.isSome = true) ∧
       (am.isOpenRdiffOut = true → am.rdiffOutH.isSome = true))) :
    am.destroy ndebug = Res.ok () := by
  have h1 : ∀ (c x : Bool), (ndebug = true ∨ (c = true → x = true)) →
      (if c = true then cassert ndebug (c && x) else Res.ok ()) = Res.ok () := by
    intro c x hx
    split
    · rename_i hc
      rw [cassert_eq_ok]
      rcases hx with hx | hx
      · exact Or.inl hx
      · exact Or.inr (by simp [hc, hx hc])
    · rfl
  unfold ArchiveManager.destroy
  simp only [res_bind_eq]
  rw [h1 _ _ (h.imp id fun x => x.1)]
  simp only [Res.bind]
  rw [h1 _ _ (h.imp id fun x => x.2.1)]
  simp only [Res.bind]
  exact h1 _ _ (h.imp id fun x => x.2.2)

/-- With assertions, the destructor fails when an open output manager was never
started. -/
theorem destroy_abort (am : ArchiveManager)
    (h : (am.isOpenDumpOut = true ∧ am.dumpOutH.isSome = false) ∨
         (am.isOpenDigestOut = true ∧ am.digestOutH.isSome = false) ∨
         (am.isOpenRdiffOut = true ∧ am.rdiffOutH.isSome = false)) :
    am.destroy false = Res.abort := by
  rcases destroy_ok_or_abort false am with h1 | h1
  · exfalso
    unfold ArchiveManager.destroy at h1
    simp only [res_bind_eq, res_bind_eq_ok] at h1
    obtain ⟨_, h2, _, h3, h4⟩ := h1
    rcases h with h | h | h
    · rw [if_pos h.1, cassert_eq_ok] at h2
      simp [h.1, h.2] at h2
    · rw [if_pos h.1, cassert_eq_ok] at h3
      simp [h.1, h.2] at h3
    · rw [if_pos h.1, cassert_eq_ok] at h4
      simp [h.1, h.2] at h4
  · exact h1

theorem leave_eq_ok {α : Type} (ndebug : Bool) (am : ArchiveManager) (r : Res α) (a : α) :
    am.leave ndebug r = Res.ok a ↔ r = Res.ok a ∧ am.destroy ndebug = Res.ok () := by
  unfold ArchiveManager.leave
  rcases destroy_ok_or_abort ndebug am with h | h <;> cases r <;> simp [h]

theorem leave_of_destroy_ok {α : Type} (ndebug : Bool) (am : ArchiveManager) (r : Res α)
    (h : am.destroy ndebug = Res.ok ()) : am.leave ndebug r = r := by
  unfold ArchiveManager.leave
  cases r <;> simp [h]

theorem unwind_of_destroy_ok {α : Type} (ndebug : Bool) (am : ArchiveManager) (r : Res α)
    (h : am.destroy ndebug = Res.ok ()) : am.unwind ndebug r = r := by
  unfold ArchiveManager.unwind
  cases r with
  | ok a => rfl
  | abort => rfl
  | throw => exact leave_of_destroy_ok ndebug am _ h

theorem unwind_eq_ok {α : Type} (ndebug : Bool) (am : ArchiveManager) (r : Res α) (a : α) :
    am.unwind ndebug r = Res.ok a ↔ r = Res.ok a := by
  unfold ArchiveManager.unwind ArchiveManager.leave
  rcases destroy_ok_or_abort ndebug am with h | h <;> cases r <;> simp [h]

theorem unwind_throw_ne_ok {α : Type} (ndebug : Bool) (am : ArchiveManager) (a : α) :
    am.unwind ndebug (Res.throw : Res α) ≠ Res.ok a := by
  intro h
  have := (unwind_eq_ok ndebug am _ a).1 h
  cases this

theorem stepRes_none_of_not_ok {α β σ : Type} (r : Res α) (k : α → Option σ × Res β)
    (h : ∀ a, r ≠ Res.ok a) : (stepRes none r k).1 = none := by
  cases r with
  | ok a => exact absurd rfl (h a)
  | throw => rfl
  | abort => rfl

theorem stepRes_unwind_throw {α β σ : Type} (ndebug : Bool) (am : ArchiveManager)
    (k : α → Option σ × Res β) :
    (stepRes none (am.unwind ndebug (Res.throw : Res α)) k).1 = none :=
  stepRes_none_of_not_ok _ _ fun a => unwind_throw_ne_ok ndebug am a

/-- A dump run either fails before its loop, or enters the loop with an archive manager
that is the constructed one plus the written headers and the consumed bitmap stream. -/
theorem doDump_reach (ndebug : Bool) (lib : TimeLib) (sys : SysEnv) (env : DumpEnv)
    (vmdkInfo : VmdkInfo) (metadata : StringMap) (cfg : ArchiveConfig) :
    (doDump ndebug lib sys env vmdkInfo metadata cfg).1 = none ∨
    ∃ am0 prev hs amH am1 bmp,
      (ndebug = true ∨ cfg.cmd = BackupCommand.CMD_DUMP) ∧
      ArchiveManager.new cfg = Res.ok am0 ∧
      am0.readHeaders ndebug lib (VmdkDumpHeader.new lib sys 0 0)
        (VmdkDigestHeader.new lib sys 32 2) = Res.ok prev ∧
      am0.setHeaders ndebug lib (sys.clock 5) (sys.uuidFrom 80) cfg.blocksize vmdkInfo
        prev.1 prev.2
        { currDumpH := { VmdkDumpHeader.new lib sys 16 1 with metaData := metadata },
          currDigestH := VmdkDigestHeader.new lib sys 48 3,
          rdiffH := VmdkDumpHeader.new lib sys 64 4 } = Res.ok hs ∧
      amH = { am0 with dumpOutH := some hs.currDumpH, digestOutH := some hs.currDigestH,
                       rdiffOutH := if am0.mode.isDiffOrIncr then some hs.rdiffH
                                    else am0.rdiffOutH } ∧
      am0.writeHeaders ndebug hs.currDumpH hs.currDigestH hs.rdiffH = Res.ok amH ∧
      amH.readChangedBlockBitmapForDump ndebug Bitmap.mk0 = Res.ok (am1, bmp) ∧
      (∃ is, am1 = { amH with changedBlockBitmapIn := is }) ∧
      (cfg.mode = DumpMode.DUMPMODE_INCR → hs.currDumpH.diskSize = bmp.size) ∧
      doDump ndebug lib sys env vmdkInfo metadata cfg =
        (some (doDumpBlocks ndebug { env with changedBlockBitmap := bmp } am1 cfg.blocksize
                (if cfg.numReadBlockForTest == 0 then vmdkInfo.nBlocks
                 else cfg.numReadBlockForTest)).1,
         (doDumpBlocks ndebug { env with changedBlockBitmap := bmp } am1 cfg.blocksize
                (if cfg.numReadBlockForTest == 0 then vmdkInfo.nBlocks
                 else cfg.numReadBlockForTest)).1.arcMgr.leave ndebug
           (doDumpBlocks ndebug { env with changedBlockBitmap := bmp } am1 cfg.blocksize
                (if cfg.numReadBlockForTest == 0 then vmdkInfo.nBlocks
                 else cfg.numReadBlockForTest)).2) := by
  unfold doDump
  cases h0 : cassert ndebug (cfg.cmd == BackupCommand.CMD_DUMP) with
  | throw => left; rfl
  | abort => left; rfl
  | ok u0 =>
  have h0' : ndebug = true ∨ cfg.cmd = BackupCommand.CMD_DUMP := by
    have := (cassert_eq_ok ndebug _).1 h0
    simpa using this
  rw [stepRes_ok]
  simp only
  cases h1 : ArchiveManager.new cfg with
  | throw => left; rfl
  | abort => left; rfl
  | ok am0 =>
  rw [stepRes_ok]
  cases h2 : am0.readHeaders ndebug lib (VmdkDumpHeader.new lib sys 0 0)
      (VmdkDigestHeader.new lib sys 32 2) with
  | throw => left; exact stepRes_unwind_throw _ _ _
  | abort => left; rfl
  | ok prev =>
  rw [unwind_ok, stepRes_ok]
  cases h3 : am0.setHeaders ndebug lib (sys.clock 5) (sys.uuidFrom 80) cfg.blocksize vmdkInfo
      prev.1 prev.2
      { currDumpH := { VmdkDumpHeader.new lib sys 16 1 with metaData := metadata },
        currDigestH := VmdkDigestHeader.new lib sys 48 3,
        rdiffH := VmdkDumpHeader.new lib sys 64 4 } with
  | throw => left; exact stepRes_unwind_throw _ _ _
  | abort => left; rfl
  | ok hs =>
  rw [unwind_ok, stepRes_ok]
  cases h4 : am0.writeHeaders ndebug hs.currDumpH hs.currDigestH hs.rdiffH with
  | throw => left; exact stepRes_unwind_throw _ _ _
  | abort => left; rfl
  | ok amH =>
  rw [unwind_ok, stepRes_ok]
  cases h5 : amH.readChangedBlockBitmapForDump ndebug Bitmap.mk0 with
  | throw => left; exact stepRes_unwind_throw _ _ _
  | abort => left; rfl
  | ok rb =>
  rw [unwind_ok, stepRes_ok]
  obtain ⟨am1, bmp⟩ := rb
  by_cases hm : cfg.mode = DumpMode.DUMPMODE_INCR
  · simp only [hm, beq_self_eq_true, if_true]
    by_cases hsz : hs.currDumpH.diskSize = bmp.size
    · right
      refine ⟨am0, prev, hs, amH, am1, bmp, h0', rfl, h2, h3,
        writeHeaders_ok _ _ _ _ _ _ h4, h4, h5,
        readChangedBlockBitmapForDump_ok _ _ _ _ _ h5, fun _ => hsz, ?_⟩
      simp [checkAndThrow, hsz, stepRes_ok, unwind_ok]
    · left
      have : checkAndThrow (hs.currDumpH.diskSize == bmp.size) = Res.throw := by
        simp [checkAndThrow, hsz]
      rw [this]
      exact stepRes_unwind_throw _ _ _
  · right
    refine ⟨am0, prev, hs, amH, am1, bmp, h0', rfl, h2, h3,
      writeHeaders_ok _ _ _ _ _ _ h4, h4, h5,
      readChangedBlockBitmapForDump_ok _ _ _ _ _ h5, fun h => absurd h hm, ?_⟩
    have : (cfg.mode == DumpMode.DUMPMODE_INCR) = false := by simpa using hm
    simp only [this]
    rfl

theorem archiveManager_new_ok (cfg : ArchiveConfig) (am : ArchiveManager)
    (h : ArchiveManager.new cfg = Res.ok am) :
    am.cmd = cfg.cmd ∧ am.mode = cfg.mode ∧
    am.isOpenDumpIn = cfg.dumpInFile.isSome ∧ am.isOpenDigestIn = cfg.digestInFile.isSome ∧
    am.isOpenDumpOut = cfg.dumpOutFileName ∧ am.isOpenDigestOut = cfg.digestOutFileName ∧
    am.isOpenRdiffOut = cfg.rdiffOutFileName ∧ am.isOpenBitmapIn = cfg.bmpInFile.isSome ∧
    am.dumpIn = cfg.dumpInBlocks ∧ am.digestIn = cfg.digestInBlocks ∧
    am.dumpOut = [] ∧ am.digestOut = [] ∧ am.rdiffOut = [] ∧
    am.dumpInH = cfg.dumpInFile.map Archive.header ∧
    am.digestInH = cfg.digestInFile.map DigestArchive.header ∧
    am.dumpOutH = none ∧ am.digestOutH = none ∧ am.rdiffOutH = none ∧
    am.checkStreams = Res.ok () := by
  unfold ArchiveManager.new at h
  simp only at h
  split at h
  · rename_i hc
    have h' := (Res.ok.inj h).symm
    subst h'
    exact ⟨rfl, rfl, rfl, rfl, rfl, rfl, rfl, rfl, rfl, rfl, rfl, rfl, rfl, rfl, rfl, rfl,
      rfl, rfl, hc⟩
  · simp at h
  · simp at h

theorem digestOf_spec (ndebug : Bool) (md5 : List Nat → List Nat)
    (hmd5 : ∀ x, (md5 x).length = MD5_DIGEST_LENGTH)
    (w : VmdkDumpBlock) (d : VmdkDigestBlock) (hlen : w.block.length = w.blockSize)
    (h : digestOf ndebug md5 w = Res.ok d) :
    (d.isAllZero = Boolean.BTRUE ↔ w.isAllZero = Boolean.BTRUE) ∧
    (w.isAllZero ≠ Boolean.BTRUE → d.isAllZero = Boolean.BFALSE ∧ d.digest = md5 w.block) := by
  unfold digestOf VmdkDigestBlock.set at h
  have h3 : ∀ x, copyInto (List.replicate MD5_DIGEST_LENGTH 0) (md5 x) = md5 x :=
    fun x => copyInto_same_length _ _ (by rw [hmd5]; simp)
  have htake : w.block.take w.blockSize = w.block := by
    rw [← hlen]; simp
  split at h
  · rename_i z hz
    have h' := (Res.ok.inj h).symm
    subst h'
    unfold VmdkDumpBlock.getIsAllZero at hz
    split at hz
    · have hz' := (Res.ok.inj hz).symm
      subst hz'
      cases hw : w.isAllZero <;>
        simp [hw, VmdkDigestBlock.new, calcMD5, h3, htake]
    · simp at hz
    · simp at hz
  · simp at h
  · simp at h

theorem doDumpBlocks_digestsMatch (ndebug : Bool) (env : DumpEnv)
    (hmd5 : ∀ x, (env.md5 x).length = MD5_DIGEST_LENGTH)
    (am : ArchiveManager) (blocksize maxOft : Nat)
    (hflags : ∀ b ∈ am.dumpIn, b.isAllZero ≠ Boolean.BNULL)
    (hd : am.dumpOut = []) (hg : am.digestOut = []) :
    DigestsMatch ndebug env.md5 (doDumpBlocks ndebug env am blocksize maxOft).1.arcMgr := by
  have hinv : DumpInv ndebug env.md5 (DumpState.init am blocksize) :=
    dumpInv_init ndebug env.md5 am blocksize hflags hd hg
  unfold doDumpBlocks
  rcases cassert_ok_or_abort ndebug (blocksize % VIXDISKLIB_SECTOR_SIZE == 0) with h | h
  · rw [h, stepRes_ok]
    exact dumpLoop_digestsMatch ndebug env hmd5 maxOft 0 _ hinv
  · rw [h, stepRes_abort]
    intro o dd hdd
    simpa using digestsMatch_of_forall₂ ndebug env.md5 _ [] _ hinv.pairs o dd hdd

/-- **C1.** In every dump run (any mode, any build, whether the run completes or
fails in its loop), each digest block written to `digest_out` is `VmdkDigestBlock::set`
applied to the dump block written to `dump_out` at the same position: it has the same
all-zero flag and, when the block is not all-zero, its fingerprint is the hash of that
block's payload.  The blocks of `dump_in`, coming from `operator>>`, have resolved
flags; `st` is the state in which the loop of the run ended. -/
theorem dump_digest_is_digest_of_dump (ndebug : Bool) (lib : TimeLib) (sys : SysEnv)
    (env : DumpEnv) (vmdkInfo : VmdkInfo) (metadata : StringMap) (cfg : ArchiveConfig)
    (st : DumpState)
    (hmd5 : ∀ x, (env.md5 x).length = MD5_DIGEST_LENGTH)
    (hflags : ∀ b ∈ cfg.dumpInBlocks, b.isAllZero ≠ Boolean.BNULL)
    (hst : (doDump ndebug lib sys env vmdkInfo metadata cfg).1 = some st) :
    ∀ (o : Nat) (d : VmdkDigestBlock),
      st.arcMgr.digestOut[o]? = some d →
      ∃ w, st.arcMgr.dumpOut[o]? = some w ∧
        VmdkDigestBlock.new.set ndebug env.md5 w = Res.ok d ∧
        (d.isAllZero = Boolean.BTRUE ↔ w.isAllZero = Boolean.BTRUE) ∧
        (w.isAllZero ≠ Boolean.BTRUE →
          d.isAllZero = Boolean.BFALSE ∧ d.digest = env.md5 w.block) := by
  rcases doDump_reach ndebug lib sys env vmdkInfo metadata cfg with hn |
    ⟨am0, prev, hs, amH, am1, bmp, _, hnew, _, _, hH, _, _, ⟨is, h1⟩, _, hrun⟩
  · rw [hn] at hst; cases hst
  obtain ⟨_, _, _, _, _, _, _, _, hin, _, hd, hg, _⟩ := archiveManager_new_ok cfg am0 hnew
  have hmatch := doDumpBlocks_digestsMatch ndebug { env with changedBlockBitmap := bmp }
    hmd5 am1 cfg.blocksize
    (if cfg.numReadBlockForTest == 0 then vmdkInfo.nBlocks else cfg.numReadBlockForTest)
    (by rw [h1, hH]; simpa [hin] using hflags) (by rw [h1, hH]; exact hd)
    (by rw [h1, hH]; exact hg)
  rw [hrun] at hst
  have hst' := Option.some.inj hst
  rw [hst'] at hmatch
  intro o d hd
  obtain ⟨w, hw, hlen, hdig⟩ := hmatch o d hd
  exact ⟨w, hw, hdig, digestOf_spec ndebug env.md5 hmd5 w d hlen hdig⟩

theorem checksum16_length (x : List Nat) : (checksum16 x).length = MD5_DIGEST_LENGTH := by
  simp [checksum16, MD5_DIGEST_LENGTH]

set_option maxRecDepth 100000 in
/-- Witness of `dump_digest_is_digest_of_dump`: the full dump of `sourceGen0`, which
writes four dump blocks and four digest blocks. -/
theorem dump_digest_is_digest_of_dump_witness :
    (∀ x, ((envOf sourceGen0).md5 x).length = MD5_DIGEST_LENGTH) ∧
    (∀ b ∈ cfgFull.dumpInBlocks, b.isAllZero ≠ Boolean.BNULL) ∧
    ∃ st, (doDump false utcTimeLib sysGen0 (envOf sourceGen0) vmdkInfoGen0 []
            cfgFull).1 = some st ∧
      st.arcMgr.digestOut.length = 4 ∧
      ∀ (o : Nat) (d : VmdkDigestBlock),
        st.arcMgr.digestOut[o]? = some d →
        ∃ w, st.arcMgr.dumpOut[o]? = some w ∧
          VmdkDigestBlock.new.set false (envOf sourceGen0).md5 w = Res.ok d ∧
          (d.isAllZero = Boolean.BTRUE ↔ w.isAllZero = Boolean.BTRUE) ∧
          (w.isAllZero ≠ Boolean.BTRUE →
            d.isAllZero = Boolean.BFALSE ∧ d.digest = (envOf sourceGen0).md5 w.block) := by
  have hlen : ((doDump false utcTimeLib sysGen0 (envOf sourceGen0) vmdkInfoGen0 []
      cfgFull).1.map fun st => st.arcMgr.digestOut.length) = some 4 := by decide
  cases hst : (doDump false utcTimeLib sysGen0 (envOf sourceGen0) vmdkInfoGen0 []
      cfgFull).1 with
  | none => rw [hst] at hlen; cases hlen
  | some st =>
    rw [hst] at hlen
    exact ⟨checksum16_length, by simp [cfgFull, ArchiveConfig.dumpInBlocks], st, rfl,
      Option.some.inj hlen,
      dump_digest_is_digest_of_dump false utcTimeLib sysGen0 (envOf sourceGen0)
        vmdkInfoGen0 [] cfgFull st checksum16_length
        (by simp [cfgFull, ArchiveConfig.dumpInBlocks]) hst⟩

/-! ## Reading several archives at once -/

theorem getUUID_eq_ok (ndebug : Bool) (h : VmdkDumpHeader)
    (hu : ndebug = true ∨ h.uuid.length = 16) : h.getUUID ndebug = Res.ok h.uuid := by
  have : cassert ndebug (h.uuid.length == 16) = Res.ok () := by
    rw [cassert_eq_ok]
    rcases hu with hu | hu
    · exact Or.inl hu
    · exact Or.inr (by simpa using hu)
  simp [VmdkDumpHeader.getUUID, this, Res.bind]

theorem checkAndThrow_false : checkAndThrow false = Res.throw := rfl

/-- With assertions, the first-block read of the constructor fails the assertion of
the block constructor for an archive that holds a block and whose block size is not a
multiple of the sector size. -/
theorem archiveInput_open_abort (bs : Nat) (blocks : List VmdkDumpBlock)
    (hne : blocks ≠ []) (hbs : bs % VIXDISKLIB_SECTOR_SIZE ≠ 0) :
    ArchiveInput.open false bs blocks = Res.abort := by
  cases blocks with
  | nil => exact absurd rfl hne
  | cons b rest =>
    rcases getDumpB_ok_or_abort false bs b with hb | hb
    · obtain ⟨_, h⟩ := getDumpB_eq_ok _ _ _ _ hb
      rcases h with h | h
      · cases h
      · exact absurd h hbs
    · simp only [ArchiveInput.open, hb]

/-- What a first-block read that returned has left. -/
theorem archiveInput_open_eq_ok (ndebug : Bool) (bs : Nat) (blocks : List VmdkDumpBlock)
    (inp : ArchiveInput) (h : ArchiveInput.open ndebug bs blocks = Res.ok inp) :
    inp = ArchiveInput.opened bs blocks ∧
    (ndebug = true ∨ (blocks ≠ [] → bs % VIXDISKLIB_SECTOR_SIZE = 0)) := by
  cases blocks with
  | nil => exact ⟨(Res.ok.inj h).symm, Or.inr fun hc => absurd rfl hc⟩
  | cons b rest =>
    cases hb : getDumpB ndebug bs b with
    | ok b1 =>
      obtain ⟨e, hh⟩ := getDumpB_eq_ok _ _ _ _ hb
      simp only [ArchiveInput.open, hb] at h
      subst e
      exact ⟨(Res.ok.inj h).symm, hh.imp id fun x _ => x⟩
    | throw => simp [ArchiveInput.open, hb] at h
    | abort => simp [ArchiveInput.open, hb] at h

/-- The step "read next block data" returns in a build without assertions, for an
input whose stream is at its end, and for a block size that is a multiple of the
sector size. -/
theorem advance_ok (ndebug : Bool) (inp : ArchiveInput)
    (h : ndebug = true ∨ (inp.mgr ≠ [] → inp.blocksize % VIXDISKLIB_SECTOR_SIZE = 0)) :
    inp.advance ndebug = Res.ok inp.next := by
  unfold ArchiveInput.advance ArchiveInput.next
  cases hm : inp.mgr with
  | nil => rfl
  | cons b rest =>
    have hb : getDumpB ndebug inp.blocksize b = Res.ok b :=
      getDumpB_ok ndebug _ b (h.imp id fun x => x (by simp [hm]))
    simp only [hb]

/-- The step "read next block data" returns or fails the assertion of the block
constructor. -/
theorem advance_ok_or_abort (ndebug : Bool) (inp : ArchiveInput) :
    inp.advance ndebug = Res.ok inp.next ∨ inp.advance ndebug = Res.abort := by
  unfold ArchiveInput.advance ArchiveInput.next
  cases hm : inp.mgr with
  | nil => exact Or.inl rfl
  | cons b rest =>
    rcases getDumpB_ok_or_abort ndebug inp.blocksize b with hb | hb
    · simp only [hb]; exact Or.inl trivial
    · simp only [hb]; exact Or.inr trivial

/-- The loop of `readBlock` when no assertion fires: every input at the offset
advances, and the block selected is the head of the last of them. -/
theorem readBlockLoop_eq (ndebug : Bool) (offset : Nat) :
    ∀ (inputs : List ArchiveInput) (sel : Option VmdkDumpBlock),
    (ndebug = true ∨ ∀ inp ∈ inputs, inp.dumpEof = false ∧ inp.dumpBP.isSome = true ∧
      (inp.isAt offset = true → inp.mgr ≠ [] →
        inp.blocksize % VIXDISKLIB_SECTOR_SIZE = 0)) →
    readBlockLoop ndebug offset inputs sel =
      Res.ok (inputs.map (fun inp => if inp.isAt offset then inp.next else inp),
              inputs.foldl (fun s inp => if inp.isAt offset then inp.dumpBP else s) sel) := by
  intro inputs
  induction inputs with
  | nil => intro sel _; rfl
  | cons inp rest ih =>
    intro sel h
    have hc : cassert ndebug (!inp.dumpEof && inp.dumpBP.isSome) = Res.ok () := by
      rw [cassert_eq_ok]
      rcases h with h | h
      · exact Or.inl h
      · right
        have := h inp (List.mem_cons_self _ _)
        simp [this.1, this.2.1]
    have hr : ndebug = true ∨ ∀ x ∈ rest, x.dumpEof = false ∧ x.dumpBP.isSome = true ∧
        (x.isAt offset = true → x.mgr ≠ [] →
          x.blocksize % VIXDISKLIB_SECTOR_SIZE = 0) := by
      rcases h with h | h
      · exact Or.inl h
      · exact Or.inr fun x hx => h x (List.mem_cons_of_mem _ hx)
    have ha : (if inp.isAt offset = true then inp.advance ndebug else Res.ok inp) =
        Res.ok (if inp.isAt offset = true then inp.next else inp) := by
      by_cases hat : inp.isAt offset = true
      · rw [if_pos hat, if_pos hat]
        apply advance_ok
        rcases h with h | h
        · exact Or.inl h
        · exact Or.inr ((h inp (List.mem_cons_self _ _)).2.2 hat)
      · rw [if_neg hat, if_neg hat]
    unfold readBlockLoop
    rw [hc]
    simp only [ha, ih _ hr, List.map_cons, List.foldl_cons]

/-- The loop of `readBlock` when no input is at the offset and no assertion fires:
nothing is selected and nothing changes. -/
theorem readBlockLoop_none (ndebug : Bool) (offset : Nat) :
    ∀ (inputs : List ArchiveInput) (sel : Option VmdkDumpBlock),
    (∀ x ∈ inputs, x.isAt offset = false) →
    (ndebug = true ∨ ∀ inp ∈ inputs, inp.dumpEof = false ∧ inp.dumpBP.isSome = true) →
    readBlockLoop ndebug offset inputs sel = Res.ok (inputs, sel) := by
  intro inputs
  induction inputs with
  | nil => intro sel _ _; rfl
  | cons inp rest ih =>
    intro sel hn h
    have hc : cassert ndebug (!inp.dumpEof && inp.dumpBP.isSome) = Res.ok () := by
      rw [cassert_eq_ok]
      rcases h with h | h
      · exact Or.inl h
      · right
        have := h inp (List.mem_cons_self _ _)
        simp [this.1, this.2]
    have hr : ndebug = true ∨ ∀ x ∈ rest, x.dumpEof = false ∧ x.dumpBP.isSome = true := by
      rcases h with h | h
      · exact Or.inl h
      · exact Or.inr fun x hx => h x (List.mem_cons_of_mem _ hx)
    have hat := hn inp (List.mem_cons_self _ _)
    unfold readBlockLoop
    rw [hc]
    simp only [hat, Bool.false_eq_true, if_false,
      ih sel (fun x hx => hn x (List.mem_cons_of_mem _ hx)) hr]

/-- The loop of `readBlock` stops with a failed assertion when some input is at its end
or has no head block, and assertions are compiled in. -/
theorem readBlockLoop_abort (offset : Nat) :
    ∀ (inputs : List ArchiveInput) (sel : Option VmdkDumpBlock),
    (∃ inp ∈ inputs, inp.dumpEof = true ∨ inp.dumpBP.isSome = false) →
    readBlockLoop false offset inputs sel = Res.abort := by
  intro inputs
  induction inputs with
  | nil => intro sel h; obtain ⟨_, hm, _⟩ := h; cases hm
  | cons inp rest ih =>
    intro sel h
    unfold readBlockLoop
    by_cases hi : inp.dumpEof = true ∨ inp.dumpBP.isSome = false
    · have : (!inp.dumpEof && inp.dumpBP.isSome) = false := by
        rcases hi with hi | hi <;> simp [hi]
      rw [this]
      rfl
    · have : (!inp.dumpEof && inp.dumpBP.isSome) = true := by
        push_neg at hi
        simp [hi.1, hi.2]
      rw [this]
      have hr : ∃ x ∈ rest, x.dumpEof = true ∨ x.dumpBP.isSome = false := by
        obtain ⟨x, hx, hp⟩ := h
        rcases List.mem_cons.1 hx with rfl | hx
        · exact absurd hp hi
        · exact ⟨x, hx, hp⟩
      simp only [cassert]
      have hadv : (if inp.isAt offset = true then inp.advance false else Res.ok inp) =
          Res.ok (if inp.isAt offset = true then inp.next else inp) ∨
          (if inp.isAt offset = true then inp.advance false else Res.ok inp) = Res.abort := by
        by_cases hat : inp.isAt offset = true
        · simp only [if_pos hat]
          exact advance_ok_or_abort false inp
        · simp only [if_neg hat]
          exact Or.inl trivial
      rcases hadv with ha | ha
      · simp [ha, ih _ hr]
      · simp [ha]

/-- The block selected by the loop of `readBlock` when `inp` is the last input at
the offset. -/
theorem foldl_select_last (offset : Nat) (pre post : List ArchiveInput) (inp : ArchiveInput)
    (sel : Option VmdkDumpBlock) (hat : inp.isAt offset = true)
    (hpost : ∀ x ∈ post, x.isAt offset = false) :
    (pre ++ inp :: post).foldl (fun s x => if x.isAt offset then x.dumpBP else s) sel =
      inp.dumpBP := by
  rw [List.foldl_append, List.foldl_cons]
  simp only [hat, if_true]
  induction post generalizing inp with
  | nil => rfl
  | cons x post ih =>
    rw [List.foldl_cons]
    have hx := hpost x (List.mem_cons_self _ _)
    simp only [hx]
    exact ih inp hat fun y hy => hpost y (List.mem_cons_of_mem _ hy)

theorem isEOF_eq_ok (ndebug : Bool) (m : MultiArchiveManager) (h : m.offset < m.diskSize) :
    m.isEOF ndebug = Res.ok false := by
  have hc : cassert ndebug (decide (m.offset ≤ m.diskSize)) = Res.ok () := by
    rw [cassert_eq_ok]; right; simpa using h.le
  simp only [MultiArchiveManager.isEOF, hc]
  simp [Nat.ne_of_lt h]

theorem multiArchive_new_ok (ndebug : Bool) (lib : TimeLib) (a0 : Archive)
    (rest : List Archive) (m : MultiArchiveManager)
    (h : MultiArchiveManager.new ndebug lib (a0 :: rest) = Res.ok m) :
    ∃ tail, openRest ndebug lib a0.header a0.header rest = Res.ok tail ∧
      ArchiveInput.open ndebug a0.header.blockSize a0.blocks =
        Res.ok (ArchiveInput.opened a0.header.blockSize a0.blocks) ∧
      m = { inputs := ArchiveInput.opened a0.header.blockSize a0.blocks :: tail
            offset := 0
            blockSize := a0.header.blockSize
            diskSize := a0.header.diskSize
            uuid := a0.header.uuid
            dumpH := (((((a0 :: rest).getLast?.getD a0).header).setFull
                        a0.header.isFull).setTimeStamp lib
                        ((((a0 :: rest).getLast?.getD a0).header).getTimeStamp lib)) } := by
  simp only [MultiArchiveManager.new, res_bind_eq, res_bind_eq_ok, res_pure_eq] at h
  obtain ⟨u, hu, inp0, hi, tail, ht, he⟩ := h
  obtain ⟨hi', _⟩ := archiveInput_open_eq_ok _ _ _ _ hi
  refine ⟨tail, ht, by rw [hi, hi'], ?_⟩
  have hu' : u = a0.header.uuid := by
    simp only [VmdkDumpHeader.getUUID, res_bind_eq, res_bind_eq_ok, res_pure_eq] at hu
    obtain ⟨_, _, hu⟩ := hu
    exact (Res.ok.inj hu).symm
  subst hu'
  subst hi'
  exact (Res.ok.inj he).symm

/-- **C14.** After a successful construction of `MultiArchiveManager`, `getDumpHeader`
returns a header whose disk size, block size, adapter type, uuid and metadata are
those of the last input's header, whose time stamp is the last input's time stamp
passed through `setTimeStamp(getTimeStamp())` and so denotes the same time
(`getTimeStamp()`) when `mktime` inverts `localtime_r` there, and whose `is_full` flag
is that of the first input's header. -/
theorem multi_archive_synthetic_header (ndebug : Bool) (lib : TimeLib) (l : List Archive)
    (m : MultiArchiveManager) (first last : Archive)
    (hfirst : l.head? = some first) (hlast : l.getLast? = some last)
    (hlib : lib.mktime (lib.localtime_r (last.header.getTimeStamp lib)) =
      last.header.getTimeStamp lib)
    (h : MultiArchiveManager.new ndebug lib l = Res.ok m) :
    m.getDumpHeader.diskSize = last.header.diskSize ∧
    m.getDumpHeader.blockSize = last.header.blockSize ∧
    m.getDumpHeader.adapterType = last.header.adapterType ∧
    m.getDumpHeader.uuid = last.header.uuid ∧
    m.getDumpHeader.metaData = last.header.metaData ∧
    m.getDumpHeader.timeStamp = TimeStamp.setTimeStamp lib (last.header.getTimeStamp lib) ∧
    m.getDumpHeader.getTimeStamp lib = last.header.getTimeStamp lib ∧
    m.getDumpHeader.isFull = first.header.isFull := by
  cases l with
  | nil => simp at hfirst
  | cons a0 rest =>
    obtain ⟨tail, _, _, hm⟩ := multiArchive_new_ok ndebug lib a0 rest m h
    have hf : first = a0 := by simpa using hfirst.symm
    subst hf
    subst hm
    rw [hlast]
    refine ⟨rfl, rfl, rfl, rfl, rfl, rfl, ?_, rfl⟩
    exact hlib

set_option maxRecDepth 100000 in
/-- Witness of `multi_archive_synthetic_header`: the list of `dumpGen1` and
`rdiffGen0to1`. -/
theorem multi_archive_synthetic_header_witness :
    ∃ m, MultiArchiveManager.new false utcTimeLib [dumpGen1, rdiffGen0to1] = Res.ok m ∧
      m.getDumpHeader.diskSize = 4 ∧ m.getDumpHeader.isFull = true ∧
      m.getDumpHeader.getTimeStamp utcTimeLib =
        rdiffGen0to1.header.getTimeStamp utcTimeLib := by
  cases hnew : MultiArchiveManager.new false utcTimeLib [dumpGen1, rdiffGen0to1] with
  | throw => exact absurd hnew (by decide)
  | abort => exact absurd hnew (by decide)
  | ok m =>
    have h := multi_archive_synthetic_header false utcTimeLib [dumpGen1, rdiffGen0to1] m
      dumpGen1 rdiffGen0to1 rfl rfl (by decide) hnew
    exact ⟨m, rfl, h.1, h.2.2.2.2.2.2.2, h.2.2.2.2.2.2.1⟩

set_option maxRecDepth 100000 in
/-- **C6.** The list (full_gen0, rdiff_gen0_to_1, rdiff_gen1_to_2) of the scenario is
rejected by the constructor of `MultiArchiveManager` with the time-stamp-order error:
the two rdiffs are consecutive non-full inputs and the first of them does not have
the greater time stamp.  `doMerge` therefore ends with that error before it opens its
output. -/
theorem merge_scenario_rejected (ndebug : Bool) :
    MultiArchiveManager.new ndebug utcTimeLib [dumpGen0, rdiffGen0to1, rdiffGen1to2] =
      Res.throw ∧
    doMerge ndebug utcTimeLib [dumpGen0, rdiffGen0to1, rdiffGen1to2] cfgMergeFull =
      (none, Res.throw) := by
  cases ndebug <;> exact ⟨by decide, by decide⟩

set_option maxRecDepth 100000 in
/-- The list (full_gen0, rdiff_gen0_to_1, rdiff_gen1_to_2) is not accepted, and the
merge does not write generation 0's dump. -/
theorem merge_scenario_not_accepted :
    (¬ ∃ m, MultiArchiveManager.new false utcTimeLib
        [dumpGen0, rdiffGen0to1, rdiffGen1to2] = Res.ok m) ∧
    (¬ ∃ am, (doMerge false utcTimeLib [dumpGen0, rdiffGen0to1, rdiffGen1to2]
        cfgMergeFull).1 = some am ∧ am.dumpOutH = some dumpGen0.header ∧
        am.dumpOut = dumpGen0.blocks) := by
  have h1 : MultiArchiveManager.new false utcTimeLib [dumpGen0, rdiffGen0to1, rdiffGen1to2] =
      Res.throw := by decide
  have h2 : (doMerge false utcTimeLib [dumpGen0, rdiffGen0to1, rdiffGen1to2]
      cfgMergeFull).1 = none := by decide
  constructor
  · rintro ⟨m, hm⟩
    rw [h1] at hm
    cases hm
  · rintro ⟨am, ham, _⟩
    rw [h2] at ham
    cases ham

/-- In a build without assertions, or while no input is at its end and every block
size is a multiple of the sector size, `readBlock` at an offset that some input holds
selects the head of the last such input, copies it into the caller's block, advances
every input at the offset and returns true. -/
theorem readBlock_last_wins (ndebug : Bool) (m : MultiArchiveManager)
    (dumpB : VmdkDumpBlock) (pre post : List ArchiveInput) (inp : ArchiveInput)
    (head : VmdkDumpBlock)
    (hbuild : ndebug = true ∨
      ∀ x ∈ m.inputs, x.dumpEof = false ∧ x.dumpBP.isSome = true ∧
        (x.isAt m.offset = true → x.mgr ≠ [] →
          x.blocksize % VIXDISKLIB_SECTOR_SIZE = 0))
    (hnoteof : m.offset < m.diskSize)
    (hsplit : m.inputs = pre ++ inp :: post)
    (hat : inp.isAt m.offset = true) (hhead : inp.dumpBP = some head)
    (hpost : ∀ x ∈ post, x.isAt m.offset = false) :
    m.readBlock ndebug dumpB =
      (dumpB.copyDataFrom ndebug head).bind fun b =>
        Res.ok ({ m with inputs := m.inputs.map fun x =>
                           if x.isAt m.offset then x.next else x,
                         offset := wrapU64 (m.offset + 1) }, b, true) := by
  have hsel := foldl_select_last m.offset pre post inp none hat hpost
  rw [← hsplit, hhead] at hsel
  simp only [MultiArchiveManager.readBlock, res_bind_eq, res_pure_eq,
    isEOF_eq_ok ndebug m hnoteof, readBlockLoop_eq ndebug m.offset m.inputs none hbuild,
    hsel, Res.bind]
  simp [cassert]

/-- In a build without assertions, `readBlock` at an offset that no input holds
returns false, leaves the caller's block and the inputs as they are, and moves to the
next offset. -/
theorem readBlock_no_block_ndebug (m : MultiArchiveManager) (dumpB : VmdkDumpBlock)
    (hnoteof : m.offset < m.diskSize)
    (hnone : ∀ x ∈ m.inputs, x.isAt m.offset = false) :
    m.readBlock true dumpB =
      Res.ok ({ m with offset := wrapU64 (m.offset + 1) }, dumpB, false) := by
  simp only [MultiArchiveManager.readBlock, res_bind_eq, res_pure_eq,
    isEOF_eq_ok true m hnoteof, readBlockLoop_none true m.offset m.inputs none hnone
      (Or.inl rfl), Res.bind]
  simp [cassert]

/-- **C5.** With assertions compiled in (the build the sources are set up for),
`readBlock` called when the reader is not at the end of the stream and no input's head
block has the current offset does not return false: it ends in a failed assertion,
either `assert(! dumpEofs_[i] && ...)` inside the loop or `assert(isExist && ...)`
after it.  (`readBlock_no_block_ndebug` shows the behaviour without assertions.) -/
theorem readBlock_no_block_debug (m : MultiArchiveManager) (dumpB : VmdkDumpBlock)
    (hnoteof : m.offset < m.diskSize)
    (hnone : ∀ x ∈ m.inputs, x.isAt m.offset = false) :
    m.readBlock false dumpB = Res.abort := by
  by_cases hall : ∀ x ∈ m.inputs, x.dumpEof = false ∧ x.dumpBP.isSome = true
  · simp only [MultiArchiveManager.readBlock, res_bind_eq, res_pure_eq,
      isEOF_eq_ok false m hnoteof, readBlockLoop_none false m.offset m.inputs none hnone
        (Or.inr hall), Res.bind]
    simp [cassert]
  · push_neg at hall
    obtain ⟨x, hx, hp⟩ := hall
    have hab := readBlockLoop_abort m.offset m.inputs none
      ⟨x, hx, by
        by_cases he : x.dumpEof = true
        · exact Or.inl he
        · right
          have := hp (by simpa using he)
          simpa using this⟩
    simp only [MultiArchiveManager.readBlock, res_bind_eq, res_pure_eq,
      isEOF_eq_ok false m hnoteof, hab, Res.bind]
    simp

set_option maxRecDepth 100000 in
/-- Witness of `readBlock_no_block_debug`: the reader over `rdiffGen0to1` alone, as
built by the constructor, at offset 0. -/
theorem readBlock_no_block_debug_witness :
    MultiArchiveManager.new false utcTimeLib [rdiffGen0to1] = Res.ok readerRdiffOnly ∧
    readerRdiffOnly.offset < readerRdiffOnly.diskSize ∧
    (∀ x ∈ readerRdiffOnly.inputs, x.isAt readerRdiffOnly.offset = false) ∧
    readerRdiffOnly.readBlock false (VmdkDumpBlock.fresh 512) = Res.abort :=
  ⟨by decide, by decide, by decide,
   readBlock_no_block_debug readerRdiffOnly (VmdkDumpBlock.fresh 512) (by decide)
     (by decide)⟩

set_option maxRecDepth 100000 in
/-- **C4.** The reader over `dumpGen1` and `rdiffGen0to1` reaches, after three calls
of `readBlock`, a state that is not at the end of the stream and in which the dump's
head block has the current offset 3 while the rdiff is at its end.  There `readBlock`
does not return the dump's block: with assertions compiled in it ends in the failed
assertion `assert(! dumpEofs_[i] && dumpBPs_[i].get() != NULL)`.  Without assertions
it returns true with a copy of that block. -/
theorem readBlock_aborts_after_input_end :
    (do let m0 ← MultiArchiveManager.new false utcTimeLib [dumpGen1, rdiffGen0to1]
        let r1 ← m0.readBlock false (VmdkDumpBlock.fresh 512)
        let r2 ← r1.1.readBlock false r1.2.1
        r2.1.readBlock false r2.2.1) =
      Res.ok (readerAtOffset3, callerBlockAtOffset3, true) ∧
    readerAtOffset3.isEOF false = Res.ok false ∧
    (readerAtOffset3.inputs.map fun x => x.isAt readerAtOffset3.offset) = [true, false] ∧
    readerAtOffset3.readBlock false callerBlockAtOffset3 = Res.abort ∧
    readerAtOffset3.readBlock true callerBlockAtOffset3 =
      Res.ok ({ readerAtOffset3 with
                inputs := [{ mgr := [], blocksize := 512, dumpBP := some (dataBlock 3 66)
                             dumpEof := true },
                           { mgr := [], blocksize := 512, dumpBP := some (zeroBlock 2)
                             dumpEof := true }]
                offset := 4 }, dataBlock 3 66, true) := by
  refine ⟨by decide, by decide, by decide, by decide, by decide⟩

/-! ## Header identity, stream requirements, file names -/

theorem digest_getUUID_eq_ok (ndebug : Bool) (h : VmdkDigestHeader)
    (hu : ndebug = true ∨ h.uuid.length = 16) : h.getUUID ndebug = Res.ok h.uuid := by
  have : cassert ndebug (h.uuid.length == 16) = Res.ok () := by
    rw [cassert_eq_ok]
    rcases hu with hu | hu
    · exact Or.inl hu
    · exact Or.inr (by simpa using hu)
  simp [VmdkDigestHeader.getUUID, this, Res.bind]

theorem isTheSameVMDK_eq (ndebug : Bool) (dumpH : VmdkDumpHeader) (digestH : VmdkDigestHeader)
    (hu1 : ndebug = true ∨ dumpH.uuid.length = 16)
    (hu2 : ndebug = true ∨ digestH.uuid.length = 16) :
    isTheSameVMDK ndebug dumpH digestH =
      Res.ok (decide (dumpH.diskSize = digestH.diskSize ∧
        dumpH.blockSize = digestH.blockSize ∧ dumpH.uuid = digestH.uuid)) := by
  simp only [isTheSameVMDK, res_bind_eq, res_pure_eq, getUUID_eq_ok ndebug dumpH hu1,
    digest_getUUID_eq_ok ndebug digestH hu2, Res.bind]
  congr 1
  rw [Bool.eq_iff_iff]
  simp [and_assoc]

theorem isTheSameSnapshot_eq (ndebug : Bool) (lib : TimeLib) (dumpH : VmdkDumpHeader)
    (digestH : VmdkDigestHeader)
    (hu1 : ndebug = true ∨ dumpH.uuid.length = 16)
    (hu2 : ndebug = true ∨ digestH.uuid.length = 16) :
    isTheSameSnapshot ndebug lib dumpH digestH =
      Res.ok (decide ((dumpH.diskSize = digestH.diskSize ∧
        dumpH.blockSize = digestH.blockSize ∧ dumpH.uuid = digestH.uuid) ∧
        dumpH.getTimeStamp lib = digestH.getTimeStamp lib)) := by
  simp only [isTheSameSnapshot, res_bind_eq, res_pure_eq,
    isTheSameVMDK_eq ndebug dumpH digestH hu1 hu2, Res.bind]
  congr 1
  rw [Bool.eq_iff_iff]
  simp [and_assoc]

/-- **C11.** For a dump header and a digest header (uuids of 16 bytes, as the classes
keep them), `isTheSameVMDK` returns true if and only if disk size, block size and uuid
are all equal, and `isTheSameSnapshot` returns true if and only if `isTheSameVMDK`
holds and the time stamps (`getTimeStamp()`) are equal; adapter type, `is_full` and
metadata of the dump header influence neither result.  The member
`VmdkDumpHeader::isTheSameVMDK` compares the same three fields. -/
theorem same_vmdk_same_snapshot (ndebug : Bool) (lib : TimeLib) (dumpH : VmdkDumpHeader)
    (digestH : VmdkDigestHeader) (hu1 : dumpH.uuid.length = 16)
    (hu2 : digestH.uuid.length = 16) :
    (isTheSameVMDK ndebug dumpH digestH = Res.ok true ↔
      (dumpH.diskSize = digestH.diskSize ∧ dumpH.blockSize = digestH.blockSize ∧
        dumpH.uuid = digestH.uuid)) ∧
    (isTheSameVMDK ndebug dumpH digestH = Res.ok false ↔
      ¬ (dumpH.diskSize = digestH.diskSize ∧ dumpH.blockSize = digestH.blockSize ∧
        dumpH.uuid = digestH.uuid)) ∧
    (isTheSameSnapshot ndebug lib dumpH digestH = Res.ok true ↔
      (isTheSameVMDK ndebug dumpH digestH = Res.ok true ∧
        dumpH.getTimeStamp lib = digestH.getTimeStamp lib)) ∧
    (isTheSameSnapshot ndebug lib dumpH digestH = Res.ok false ↔
      ¬ (isTheSameVMDK ndebug dumpH digestH = Res.ok true ∧
        dumpH.getTimeStamp lib = digestH.getTimeStamp lib)) ∧
    (∀ (adapterType : Int) (isFull : Bool) (metaData : StringMap),
      isTheSameVMDK ndebug { dumpH with adapterType := adapterType, isFull := isFull,
                                        metaData := metaData } digestH =
        isTheSameVMDK ndebug dumpH digestH ∧
      isTheSameSnapshot ndebug lib { dumpH with adapterType := adapterType, isFull := isFull,
                                                metaData := metaData } digestH =
        isTheSameSnapshot ndebug lib dumpH digestH) ∧
    (∀ rhs : VmdkDumpHeader, dumpH.isTheSameVMDK rhs = true ↔
      (dumpH.diskSize = rhs.diskSize ∧ dumpH.blockSize = rhs.blockSize ∧
        dumpH.uuid = rhs.uuid)) := by
  have e1 := isTheSameVMDK_eq ndebug dumpH digestH (Or.inr hu1) (Or.inr hu2)
  have e2 := isTheSameSnapshot_eq ndebug lib dumpH digestH (Or.inr hu1) (Or.inr hu2)
  refine ⟨?_, ?_, ?_, ?_, ?_, ?_⟩
  · rw [e1]; simp
  · rw [e1]; simp
  · rw [e2, e1]; simp
  · rw [e2, e1]; simp
  · intro a f md
    exact ⟨rfl, rfl⟩
  · intro rhs
    simp [VmdkDumpHeader.isTheSameVMDK, and_assoc]

/-- Witness of `same_vmdk_same_snapshot`: `headerGen0` and the digest header of the
same snapshot. -/
theorem same_vmdk_same_snapshot_witness :
    headerGen0.uuid.length = 16 ∧
    isTheSameSnapshot false utcTimeLib headerGen0
      { diskSize := 4, blockSize := 512, uuid := List.replicate 16 7,
        timeStamp := tsGen0 } = Res.ok true :=
  ⟨by decide,
   ((same_vmdk_same_snapshot false utcTimeLib headerGen0
      { diskSize := 4, blockSize := 512, uuid := List.replicate 16 7, timeStamp := tsGen0 }
      (by decide) (by decide)).2.2.1).2
     ⟨((same_vmdk_same_snapshot false utcTimeLib headerGen0
        { diskSize := 4, blockSize := 512, uuid := List.replicate 16 7,
          timeStamp := tsGen0 } (by decide) (by decide)).1).2 (by decide), by decide⟩⟩

/-- **C12.** `checkStreams` succeeds if and only if the streams the command and mode
require are open, and throws otherwise: dump/full needs `dump_out` and `digest_out`;
dump/diff needs `dump_in`, `digest_in`, `dump_out`, `digest_out` and `rdiff_out`;
dump/incr needs those five and the bitmap file; digest needs `dump_in` and
`digest_out`; check needs `digest_in`; print needs `dump_in` or `digest_in`; merge
needs `dump_out` or `rdiff_out`; restore needs `digest_in` exactly when SAN is
requested; dump with an unknown mode and every other command always fail. -/
theorem checkStreams_table (am : ArchiveManager) :
    (am.checkStreams = Res.ok () ↔
      match am.cmd, am.mode with
      | BackupCommand.CMD_DUMP, DumpMode.DUMPMODE_FULL =>
          am.isOpenDumpOut = true ∧ am.isOpenDigestOut = true
      | BackupCommand.CMD_DUMP, DumpMode.DUMPMODE_DIFF =>
          am.isOpenDumpIn = true ∧ am.isOpenDigestIn = true ∧ am.isOpenDumpOut = true ∧
          am.isOpenDigestOut = true ∧ am.isOpenRdiffOut = true
      | BackupCommand.CMD_DUMP, DumpMode.DUMPMODE_INCR =>
          am.isOpenDumpIn = true ∧ am.isOpenDigestIn = true ∧ am.isOpenDumpOut = true ∧
          am.isOpenDigestOut = true ∧ am.isOpenRdiffOut = true ∧ am.isOpenBitmapIn = true
      | BackupCommand.CMD_DUMP, DumpMode.DUMPMODE_UNKNOWN => False
      | BackupCommand.CMD_DIGEST, _ => am.isOpenDumpIn = true ∧ am.isOpenDigestOut = true
      | BackupCommand.CMD_CHECK, _ => am.isOpenDigestIn = true
      | BackupCommand.CMD_PRINT, _ => am.isOpenDumpIn = true ∨ am.isOpenDigestIn = true
      | BackupCommand.CMD_MERGE, _ => am.isOpenDumpOut = true ∨ am.isOpenRdiffOut = true
      | BackupCommand.CMD_RESTORE, _ => (am.isUseSan = true → am.isOpenDigestIn = true)
      | _, _ => False) ∧
    (am.checkStreams = Res.ok () ∨ am.checkStreams = Res.throw) := by
  unfold ArchiveManager.checkStreams
  cases hc : am.cmd <;> cases hm : am.mode <;> simp only [checkAndThrow] <;>
    first
    | (split <;> simp_all <;> intros <;> simp_all)
    | simp

/-- **C26.** `isGzipFileName` returns true if and only if the name has more than three
characters and ends with `.gz`. -/
theorem isGzipFileName_iff (fileName : List Nat) :
    isGzipFileName fileName = true ↔
      (3 < fileName.length ∧ [46, 103, 122] <:+ fileName) := by
  unfold isGzipFileName
  simp only [Bool.and_eq_true, decide_eq_true_eq, beq_iff_eq, gt_iff_lt]
  constructor
  · rintro ⟨hlen, hd⟩
    exact ⟨hlen, ⟨fileName.take (fileName.length - 3), by rw [← hd]; simp⟩⟩
  · rintro ⟨hlen, ⟨pre, hp⟩⟩
    refine ⟨hlen, ?_⟩
    have hl : pre.length = fileName.length - 3 := by
      have := congrArg List.length hp
      simp at this
      omega
    subst hp
    simp

/-- The name `.gz` ends with the three characters `.gz`, yet `isGzipFileName` returns
false for it. -/
theorem isGzipFileName_dot_gz :
    [46, 103, 122] <:+ [46, 103, 122] ∧ isGzipFileName [46, 103, 122] = false :=
  ⟨List.suffix_refl _, by decide⟩

/-! ## Bitmap bits -/

theorem and_two_pow_pos_iff (v k : Nat) : 0 < v &&& 2 ^ k ↔ v.testBit k = true := by
  constructor
  · intro h
    obtain ⟨j, hj⟩ := Nat.ne_zero_implies_bit_true (Nat.pos_iff_ne_zero.1 h)
    rw [Nat.testBit_and, Nat.testBit_two_pow] at hj
    simp only [Bool.and_eq_true, decide_eq_true_eq] at hj
    rw [hj.2]
    exact hj.1
  · intro h
    apply Nat.pos_iff_ne_zero.2
    intro h0
    have := congrArg (fun x => Nat.testBit x k) h0
    simp [Nat.testBit_two_pow_self, h] at this

theorem testBit_255_sub (k j : Nat) (hk : k < 8) :
    (255 - 2 ^ k).testBit j = (decide (j < 8) && decide (j ≠ k)) := by
  by_cases hj : j < 8
  · interval_cases k <;> interval_cases j <;> decide
  · have h8 : 8 ≤ j := Nat.le_of_not_lt hj
    have hlt : 255 - 2 ^ k < 2 ^ j :=
      lt_of_lt_of_le (lt_of_le_of_lt (Nat.sub_le _ _) (by norm_num) : 255 - 2 ^ k < 2 ^ 8)
        (Nat.pow_le_pow_right (by omega) h8)
    rw [Nat.testBit_lt_two_pow hlt]
    simp [hj]

theorem testBit_byte_high (v j : Nat) (hv : v < 256) (hj : 8 ≤ j) : v.testBit j = false :=
  Nat.testBit_lt_two_pow (lt_of_lt_of_le hv (Nat.pow_le_pow_right (by omega) hj : 2 ^ 8 ≤ 2 ^ j))

theorem getMask_eq (ndebug : Bool) (b : Bitmap) (i : Nat) (hi : i < b.bmpSize) :
    b.getMask ndebug i = Res.ok (2 ^ (7 - i % 8)) := by
  have hc : cassert ndebug (decide (i < b.bmpSize)) = Res.ok () := by
    rw [cassert_eq_ok]; right; simpa using hi
  simp only [Bitmap.getMask, hc]
  congr 1
  rw [Nat.shiftLeft_eq, Nat.one_mul]
  apply Nat.mod_eq_of_lt
  have : 7 - i % 8 ≤ 7 := Nat.sub_le _ _
  calc 2 ^ (7 - i % 8) ≤ 2 ^ 7 := Nat.pow_le_pow_right (by omega) this
    _ < 256 := by norm_num

theorem byteCount_index (n i : Nat) (hno : n + 7 < 2 ^ 64) (hi : i < n) :
    i / 8 < Bitmap.byteCount n := by
  unfold Bitmap.byteCount wrapU64
  rw [Nat.mod_eq_of_lt hno]
  omega

/-- What `get` and `set` do at an index inside a bitmap whose vector has the byte of
that index. -/
theorem bitmap_get_set_at (ndebug : Bool) (b : Bitmap) (i v : Nat)
    (hi : i < b.bmpSize) (hv : b.bmp[i / 8]? = some v) (hbyte : v < 256) :
    b.get ndebug i = Res.ok (v.testBit (7 - i % 8)) ∧
    ∀ flag : Bool, ∃ v1,
      b.set ndebug i flag = Res.ok { b with bmp := b.bmp.set (i / 8) v1 } ∧
      v1 < 256 ∧
      v1.testBit (7 - i % 8) = flag ∧
      (∀ k, k ≠ 7 - i % 8 → v1.testBit k = v.testBit k) := by
  have hm := getMask_eq ndebug b i hi
  have hk : 7 - i % 8 < 8 := by omega
  have hc : cassert ndebug (decide (i < b.bmpSize)) = Res.ok () := by
    rw [cassert_eq_ok]; right; simpa using hi
  constructor
  · have hge : ¬ i ≥ b.bmpSize := by omega
    simp only [Bitmap.get, hge, if_false, Bitmap.byteAt, Bitmap.getIdx, hv, hm]
    congr 1
    rw [Bool.eq_iff_iff]
    simp [and_two_pow_pos_iff]
  · intro flag
    simp only [Bitmap.set, res_bind_eq, res_pure_eq, hc, Bitmap.byteAt, Bitmap.getIdx, hv, hm,
      Res.bind]
    cases flag with
    | true =>
      by_cases hb : v.testBit (7 - i % 8) = true
      · have hpos : ¬ (v &&& 2 ^ (7 - i % 8)) = 0 :=
          Nat.pos_iff_ne_zero.1 ((and_two_pow_pos_iff v _).2 hb)
        refine ⟨v, by simp [hpos], hbyte, hb, fun _ _ => rfl⟩
      · have hz : (v &&& 2 ^ (7 - i % 8)) = 0 := by
          by_contra hne
          exact hb ((and_two_pow_pos_iff v _).1 (Nat.pos_iff_ne_zero.2 hne))
        refine ⟨v ||| 2 ^ (7 - i % 8), by simp [hz], ?_, ?_, ?_⟩
        · exact Nat.or_lt_two_pow (n := 8) hbyte
            (lt_of_le_of_lt (Nat.pow_le_pow_right (by omega) (Nat.le_of_lt_succ hk))
              (by norm_num))
        · simp [Nat.testBit_two_pow_self]
        · intro k hkne
          rw [Nat.testBit_or, Nat.testBit_two_pow_of_ne (Ne.symm hkne)]
          simp
    | false =>
      by_cases hb : v.testBit (7 - i % 8) = true
      · have hpos : ¬ (v &&& 2 ^ (7 - i % 8)) = 0 :=
          Nat.pos_iff_ne_zero.1 ((and_two_pow_pos_iff v _).2 hb)
        refine ⟨v &&& (255 - 2 ^ (7 - i % 8)), by simp [hpos], ?_, ?_, ?_⟩
        · exact lt_of_le_of_lt Nat.and_le_left hbyte
        · rw [Nat.testBit_and, testBit_255_sub _ _ hk]
          simp
        · intro k hkne
          rw [Nat.testBit_and, testBit_255_sub _ _ hk]
          by_cases hk8 : k < 8
          · simp [hk8, hkne]
          · simp [hk8, testBit_byte_high v k hbyte (Nat.le_of_not_lt hk8)]
      · have hz : (v &&& 2 ^ (7 - i % 8)) = 0 := by
          by_contra hne
          exact hb ((and_two_pow_pos_iff v _).1 (Nat.pos_iff_ne_zero.2 hne))
        refine ⟨v, by simp [hz], hbyte, by simpa using hb, fun _ _ => rfl⟩

/-- **C24.** For every Bitmap of size `n` with `n + 7 < 2^64` (its vector then has a
byte for every index below `n`) and every index `i < n`, `get(i)` is true if and only
if bit `0x80 >> (i mod 8)` (bit number `7 - i mod 8`) of byte `i / 8` is set, and
`set(i, flag)` makes that one bit equal to `flag` and changes no other bit of the byte
vector and not the size; for every `i >= n`, `get(i)` is false. -/
theorem bitmap_get_set (ndebug : Bool) (b : Bitmap) (i : Nat) (hwf : b.WF)
    (hno : b.bmpSize + 7 < 2 ^ 64) (hbytes : ∀ x ∈ b.bmp, x < 256) :
    (i < b.bmpSize →
      ∃ v, b.bmp[i / 8]? = some v ∧
        b.get ndebug i = Res.ok (v.testBit (7 - i % 8)) ∧
        ∀ flag : Bool, ∃ v1,
          b.set ndebug i flag = Res.ok { b with bmp := b.bmp.set (i / 8) v1 } ∧
          v1.testBit (7 - i % 8) = flag ∧
          (∀ k, k ≠ 7 - i % 8 → v1.testBit k = v.testBit k)) ∧
    (b.bmpSize ≤ i → b.get ndebug i = Res.ok false) := by
  constructor
  · intro hi
    have hlt : i / 8 < b.bmp.length := by
      rw [hwf.2]; exact byteCount_index _ _ hno hi
    have hv : b.bmp[i / 8]? = some (b.bmp[i / 8]) := List.getElem?_eq_getElem hlt
    have hb : b.bmp[i / 8] < 256 := hbytes _ (List.getElem_mem hlt)
    obtain ⟨hg, hs⟩ := bitmap_get_set_at ndebug b i _ hi hv hb
    refine ⟨_, hv, hg, fun flag => ?_⟩
    obtain ⟨v1, h1, _, h3, h4⟩ := hs flag
    exact ⟨v1, h1, h3, h4⟩
  · intro hi
    simp [Bitmap.get, hi]

/-- Witness of `bitmap_get_set`: a bitmap of 10 bits with the bytes `0x80`, `0x40`. -/
theorem bitmap_get_set_witness :
    (({ bmp := [128, 64], bmpSize := 10 } : Bitmap).get false 9 = Res.ok true) ∧
    (({ bmp := [128, 64], bmpSize := 10 } : Bitmap).get false 10 = Res.ok false) := by
  have h := bitmap_get_set false { bmp := [128, 64], bmpSize := 10 } 9 (by decide)
    (by decide) (by decide)
  have h2 := bitmap_get_set false { bmp := [128, 64], bmpSize := 10 } 10 (by decide)
    (by decide) (by decide)
  obtain ⟨v, hv, hg, _⟩ := h.1 (by decide)
  have hv' : v = 64 := by
    have : ({ bmp := [128, 64], bmpSize := 10 } : Bitmap).bmp[9 / 8]? = some 64 := by decide
    rw [this] at hv
    exact (Option.some.inj hv).symm
  subst hv'
  exact ⟨hg, h2.2 (by decide)⟩

/-- A bitmap of `2^64 - 1` bits is built with an empty vector, because `size + 7`
wraps around; `get(0)` and `set(0, true)` then access the vector outside its bounds. -/
theorem bitmap_get_outside_vector :
    (Bitmap.mk1 (2 ^ 64 - 1)).WF ∧ 0 < (Bitmap.mk1 (2 ^ 64 - 1)).size ∧
    (Bitmap.mk1 (2 ^ 64 - 1)).bmp = [] ∧
    (Bitmap.mk1 (2 ^ 64 - 1)).get false 0 = Res.abort ∧
    (Bitmap.mk1 (2 ^ 64 - 1)).get true 0 = Res.abort ∧
    (Bitmap.mk1 (2 ^ 64 - 1)).set false 0 true = Res.abort ∧
    (Bitmap.mk1 (2 ^ 64 - 1)).set true 0 true = Res.abort := by
  refine ⟨by decide, by decide, by decide, by decide, by decide, by decide, by decide⟩

theorem set_getElem?_bit (l : List Nat) (q0 q v1 : Nat) (hq0 : q0 < l.length) :
    ((l.set q0 v1)[q]?.getD 0) = if q = q0 then v1 else (l[q]?.getD 0) := by
  rw [List.getElem?_set]
  by_cases h : q0 = q
  · subst h
    simp [hq0]
  · simp [h, Ne.symm h]

theorem rebuildLoop_inv (ndebug : Bool) (bmp : Bitmap) (hwf : bmp.WF)
    (hno : bmp.bmpSize + 7 < 2 ^ 64) (hbytes : ∀ x ∈ bmp.bmp, x < 256) :
    ∀ (n i : Nat) (bmp2 : Bitmap), i + n = bmp.bmpSize → RebuildInv bmp bmp2 i →
      ∃ r, rebuildLoop ndebug bmp n i bmp2 = Res.ok r ∧ RebuildInv bmp r bmp.bmpSize := by
  intro n
  induction n with
  | zero =>
    intro i bmp2 hi hinv
    have : i = bmp.bmpSize := by omega
    subst this
    exact ⟨bmp2, rfl, hinv⟩
  | succ n ih =>
    intro i bmp2 hi hinv
    have hilt : i < bmp.bmpSize := by omega
    have hlt : i / 8 < bmp.bmp.length := by
      rw [hwf.2]; exact byteCount_index _ _ hno hilt
    have hv : bmp.bmp[i / 8]? = some (bmp.bmp[i / 8]) := List.getElem?_eq_getElem hlt
    have hb : bmp.bmp[i / 8] < 256 := hbytes _ (List.getElem_mem hlt)
    obtain ⟨hg, _⟩ := bitmap_get_set_at ndebug bmp i _ hilt hv hb
    have hlt2 : i / 8 < bmp2.bmp.length := by rw [hinv.len_eq]; exact hlt
    have hv2 : bmp2.bmp[i / 8]? = some (bmp2.bmp[i / 8]) := List.getElem?_eq_getElem hlt2
    have hb2 : bmp2.bmp[i / 8] < 256 := hinv.bytes _ (List.getElem_mem hlt2)
    obtain ⟨_, hs⟩ := bitmap_get_set_at ndebug bmp2 i _ (by rw [hinv.size_eq]; exact hilt)
      hv2 hb2
    unfold rebuildLoop
    simp only [res_bind_eq, hg, Res.bind]
    by_cases hbit : (bmp.bmp[i / 8]).testBit (7 - i % 8) = true
    · obtain ⟨v1, hset, hv1, hbit1, hother⟩ := hs true
      simp only [hbit, if_true, Bitmap.set1, hset]
      apply ih (i + 1) _ (by omega)
      refine ⟨hinv.size_eq, by simp [hinv.len_eq], ?_, ?_⟩
      · intro x hx
        rcases List.mem_or_eq_of_mem_set hx with hx | hx
        · exact hinv.bytes x hx
        · rw [hx]; exact hv1
      · intro q k hk
        simp only
        rw [set_getElem?_bit _ _ _ _ hlt2]
        by_cases hq : q = i / 8
        · rw [if_pos hq]
          by_cases hkk : k = 7 - i % 8
          · have hp : 8 * q + (7 - k) = i := by omega
            rw [hkk, hbit1, hq, hv]
            simp only [Option.getD_some, hbit, Bool.and_true]
            have : 8 * (i / 8) + (7 - (7 - i % 8)) < i + 1 := by omega
            simp [this]
          · rw [hother k hkk]
            have h0 := hinv.bits q k hk
            rw [hq, hv2] at h0
            simp only [Option.getD_some] at h0
            rw [h0, hq]
            have hp : 8 * (i / 8) + (7 - k) ≠ i := by omega
            have : (8 * (i / 8) + (7 - k) < i + 1) ↔ (8 * (i / 8) + (7 - k) < i) := by omega
            simp [this]
        · rw [if_neg hq, hinv.bits q k hk]
          have hp : 8 * q + (7 - k) ≠ i := by omega
          have : (8 * q + (7 - k) < i + 1) ↔ (8 * q + (7 - k) < i) := by omega
          simp [this]
    · have hbit' : (bmp.bmp[i / 8]).testBit (7 - i % 8) = false := by simpa using hbit
      simp only [hbit', Bool.false_eq_true, if_false]
      apply ih (i + 1) _ (by omega)
      refine ⟨hinv.size_eq, hinv.len_eq, hinv.bytes, ?_⟩
      intro q k hk
      rw [hinv.bits q k hk]
      by_cases hp : 8 * q + (7 - k) = i
      · have hq : q = i / 8 := by omega
        have hkk : k = 7 - i % 8 := by omega
        rw [hq, hv, hkk]
        simp [hbit']
      · have : (8 * q + (7 - k) < i + 1) ↔ (8 * q + (7 - k) < i) := by omega
        simp [this]

/-- A Bitmap `bmp` of size `n` with `n + 7 < 2^64` whose bits beyond `n` in the last
byte are clear compares equal, under `operator==`, to the fresh Bitmap of the same size
on which `set(i)` is called for exactly the indices `i` with `bmp.get(i)` true. -/
theorem bitmap_rebuild_equal (ndebug : Bool) (bmp : Bitmap) (hwf : bmp.WF)
    (hno : bmp.bmpSize + 7 < 2 ^ 64) (hbytes : ∀ x ∈ bmp.bmp, x < 256)
    (hpad : bmp.PaddingClear) :
    rebuildAndCompare ndebug bmp = Res.ok true := by
  have hinit : RebuildInv bmp (Bitmap.mk1 bmp.size) 0 := by
    refine ⟨rfl, ?_, ?_, ?_⟩
    · simp [Bitmap.mk1, Bitmap.size, hwf.2]
    · intro x hx
      simp only [Bitmap.mk1] at hx
      rw [List.eq_of_mem_replicate hx]
      norm_num
    · intro q k _
      simp only [Bitmap.mk1, Nat.not_lt_zero, decide_False, Bool.false_and]
      by_cases hq : q < Bitmap.byteCount bmp.size
      · simp [List.getElem?_replicate, hq]
      · simp [List.getElem?_replicate, hq]
  obtain ⟨r, hr, hinv⟩ := rebuildLoop_inv ndebug bmp hwf hno hbytes bmp.bmpSize 0
    (Bitmap.mk1 bmp.size) (by omega) hinit
  simp only [rebuildAndCompare, res_bind_eq, res_pure_eq, Bitmap.size] at hr ⊢
  rw [hr]
  simp only [Res.bind]
  congr 1
  have hbmp : bmp.bmp = r.bmp := by
    apply List.ext_getElem hinv.len_eq.symm
    intro q h1 h2
    apply Nat.eq_of_testBit_eq
    intro k
    have hb1 : bmp.bmp[q] < 256 := hbytes _ (List.getElem_mem h1)
    have hb2 : r.bmp[q] < 256 := hinv.bytes _ (List.getElem_mem h2)
    by_cases hk : k < 8
    · have h := hinv.bits q k hk
      rw [List.getElem?_eq_getElem h1, List.getElem?_eq_getElem h2] at h
      simp only [Option.getD_some] at h
      rw [h]
      by_cases hp : 8 * q + (7 - k) < bmp.bmpSize
      · simp [hp]
      · have hz := hpad (8 * q + (7 - k)) bmp.bmp[q] (Nat.le_of_not_lt hp)
          (by rw [show (8 * q + (7 - k)) / 8 = q by omega]; exact List.getElem?_eq_getElem h1)
        rw [show 7 - (8 * q + (7 - k)) % 8 = k by omega] at hz
        simp [hp, hz]
    · rw [testBit_byte_high _ _ hb1 (Nat.le_of_not_lt hk),
        testBit_byte_high _ _ hb2 (Nat.le_of_not_lt hk)]
  simp [Bitmap.eq, hinv.size_eq, hbmp]

/-- Witness of `bitmap_rebuild_equal`: the bitmap of 10 bits with the bytes `0x80`,
`0x40`. -/
theorem bitmap_rebuild_equal_witness :
    rebuildAndCompare false { bmp := [128, 64], bmpSize := 10 } = Res.ok true :=
  bitmap_rebuild_equal false { bmp := [128, 64], bmpSize := 10 } (by decide) (by decide)
    (by decide)
    (by
      intro j v hj hv
      simp only at hj hv
      have hj8 : j / 8 < 2 := by
        by_contra h
        have : ([128, 64] : List Nat)[j / 8]? = none := by
          apply List.getElem?_eq_none; simp; omega
        rw [this] at hv; cases hv
      have hj16 : j < 16 := by omega
      interval_cases j <;> simp at hv <;> subst hv <;> decide)

theorem rebuildLoop_abort_first (ndebug : Bool) (bmp bmp2 : Bitmap) (n i : Nat)
    (hn : 0 < n) (h : bmp.get ndebug i = Res.abort) :
    rebuildLoop ndebug bmp n i bmp2 = Res.abort := by
  cases n with
  | zero => omega
  | succ n => simp only [rebuildLoop, res_bind_eq, h, Res.bind]

set_option maxRecDepth 100000 in
/-- **C29.** The rebuilt bitmap does not always compare equal.  From the bytes `1`,
NUL, `0xff`, `operator>>` reads a bitmap of size 1 with the byte `0xff`; the bitmap
rebuilt from its bits has the byte `0x80`, `operator==` is false, and the unit test
`test_bitmap.cpp`, run with the argument `in` on these bytes, fails its own
`assert(bmp == bmp2)` (without assertions it returns 0).  The bitmap
`Bitmap(16)` after `set(15)` and `resize(9)` has the bytes `0x00`, `0x01`, of which the
rebuilt bitmap has `0x00`, `0x00`: `operator==` is false as well.  The bitmap of
`2^64 - 1` bits has an empty vector, and rebuilding it accesses that vector outside its
bounds at the first index. -/
theorem bitmap_rebuild_differs :
    readBitmap Bitmap.mk0 (IStream.open [49, 0, 255]) =
      Res.ok ({ bmp := [255], bmpSize := 1 }, { buf := [], eof := true }) ∧
    rebuildLoop false { bmp := [255], bmpSize := 1 } 1 0 (Bitmap.mk1 1) =
      Res.ok { bmp := [128], bmpSize := 1 } ∧
    rebuildAndCompare false { bmp := [255], bmpSize := 1 } = Res.ok false ∧
    testBitmapIn false [49, 0, 255] = Res.abort ∧
    testBitmapIn true [49, 0, 255] = Res.ok ([49], 0) ∧
    ((Bitmap.mk1 16).set1 false 15).bind (fun b => Res.ok (b.resize 9)) =
      Res.ok { bmp := [0, 1], bmpSize := 9 } ∧
    rebuildLoop false { bmp := [0, 1], bmpSize := 9 } 9 0 (Bitmap.mk1 9) =
      Res.ok { bmp := [0, 0], bmpSize := 9 } ∧
    rebuildAndCompare false { bmp := [0, 1], bmpSize := 9 } = Res.ok false ∧
    rebuildAndCompare false (Bitmap.mk1 (2 ^ 64 - 1)) = Res.abort := by
  refine ⟨by decide, by decide, by decide, by decide, by decide, by decide, by decide,
    by decide, ?_⟩
  have h1 : 0 < (Bitmap.mk1 (2 ^ 64 - 1)).size := by decide
  have h2 : (Bitmap.mk1 (2 ^ 64 - 1)).get false 0 = Res.abort := by decide
  simp only [rebuildAndCompare, res_bind_eq,
    rebuildLoop_abort_first false _ _ _ 0 h1 h2, Res.bind]

/-! ## Block deserialization and header setup -/

/-- With assertions compiled in, a block that `operator>>` returns fills its buffer. -/
theorem readDumpBlock_debug_length (blk b : VmdkDumpBlock) (is is1 : IStream)
    (h : readDumpBlock false blk is = Res.ok (b, is1)) :
    b.block.length = b.blockSize := by
  simp only [readDumpBlock, res_bind_eq, res_bind_eq_ok, res_pure_eq] at h
  obtain ⟨_, _, _, _, r, _, _, hc, he⟩ := h
  have hc' := (cassert_eq_ok false _).1 hc
  have e := Res.ok.inj he
  simp only [Prod.mk.injEq] at e
  rw [← e.1]
  simp only
  rcases hc' with hc' | hc'
  · cases hc'
  · have := hc'
    simp only [beq_iff_eq] at this
    exact this.symm

set_option maxRecDepth 100000 in
/-- **C25.** A non-zero block record whose length prefix (3) differs from the block
size of the receiving block (512) is not rejected with an error: with assertions
compiled in `operator>>` ends in the failed assertion
`assert(blk.blockSize_ == blk.block_.size())`, and without them it succeeds and
yields a block whose payload has 3 bytes. -/
theorem read_dump_block_length_mismatch :
    readDumpBlock false (VmdkDumpBlock.fresh 512) (IStream.open shortBlockBytes) =
      Res.abort ∧
    readDumpBlock true (VmdkDumpBlock.fresh 512) (IStream.open shortBlockBytes) =
      Res.ok ({ offset := 1, isAllZero := Boolean.BFALSE, block := [65, 65, 65],
                blockSize := 512 }, { buf := [], eof := false }) := by
  refine ⟨by decide, by decide⟩

theorem setUUIDLocal_ok (ndebug : Bool) (dst src u : ByteArray)
    (h : setUUIDLocal ndebug dst src = Res.ok u) :
    u = src ∧ (ndebug = true ∨ (dst.length = 16 ∧ src.length = 16)) := by
  simp only [setUUIDLocal, res_bind_eq, res_bind_eq_ok, res_pure_eq] at h
  obtain ⟨_, hc, he⟩ := h
  refine ⟨(Res.ok.inj he).symm, ?_⟩
  rcases (cassert_eq_ok ndebug _).1 hc with hc | hc
  · exact Or.inl hc
  · right; simpa using hc

theorem setUUIDLocalRandom_ok (ndebug : Bool) (uuid u : ByteArray) (rnd : Nat → Nat)
    (h : setUUIDLocalRandom ndebug uuid rnd = Res.ok u) :
    u = copyInto uuid ((List.range 16).map fun i => rnd i % 256) ∧
    (ndebug = true ∨ uuid.length = 16) := by
  simp only [setUUIDLocalRandom, res_bind_eq, res_bind_eq_ok, res_pure_eq] at h
  obtain ⟨_, hc, he⟩ := h
  refine ⟨(Res.ok.inj he).symm, ?_⟩
  rcases (cassert_eq_ok ndebug _).1 hc with hc | hc
  · exact Or.inl hc
  · right; simpa using hc

theorem getUUID_ok (ndebug : Bool) (h : VmdkDumpHeader) (u : ByteArray)
    (hg : h.getUUID ndebug = Res.ok u) :
    u = h.uuid ∧ (ndebug = true ∨ h.uuid.length = 16) := by
  simp only [VmdkDumpHeader.getUUID, res_bind_eq, res_bind_eq_ok, res_pure_eq] at hg
  obtain ⟨_, hc, he⟩ := hg
  refine ⟨(Res.ok.inj he).symm, ?_⟩
  rcases (cassert_eq_ok ndebug _).1 hc with hc | hc
  · exact Or.inl hc
  · right; simpa using hc

/-- What `setHeaders` returns when it returns. -/
theorem setHeaders_ok (ndebug : Bool) (lib : TimeLib) (now : Int) (rnd : Nat → Nat)
    (am : ArchiveManager) (blocksize : Nat) (vmdkInfo : VmdkInfo)
    (prevDumpH : VmdkDumpHeader) (prevDigestH : VmdkDigestHeader) (hs hs1 : DumpHeaders)
    (h : am.setHeaders ndebug lib now rnd blocksize vmdkInfo prevDumpH prevDigestH hs =
      Res.ok hs1) :
    hs1.currDumpH = { hs.currDumpH with
        diskSize := vmdkInfo.nBlocks, blockSize := blocksize
        adapterType := vmdkInfo.adapterType
        timeStamp := TimeStamp.setTimeStamp lib now
        uuid := hs1.currDumpH.uuid } ∧
    hs1.currDigestH = { diskSize := vmdkInfo.nBlocks, blockSize := blocksize
                        uuid := hs1.currDumpH.uuid
                        timeStamp := TimeStamp.setTimeStamp lib now } ∧
    (ndebug = true ∨ hs1.currDumpH.uuid.length = 16) ∧
    (am.mode.isDiffOrIncr = true →
      hs1.currDumpH.uuid = prevDumpH.uuid ∧
      hs1.rdiffH = { prevDumpH with isFull := false }) ∧
    (am.mode.isDiffOrIncr = false →
      hs1.currDumpH.uuid = copyInto hs.currDumpH.uuid ((List.range 16).map fun i => rnd i % 256) ∧
      hs1.rdiffH = hs.rdiffH) := by
  unfold ArchiveManager.setHeaders at h
  simp only [res_bind_eq, res_bind_eq_ok, res_pure_eq] at h
  obtain ⟨_, _, _, _, h⟩ := h
  by_cases hm : am.mode.isDiffOrIncr = true
  · rw [if_pos hm] at h
    simp only [res_bind_eq, res_bind_eq_ok, res_pure_eq] at h
    obtain ⟨_, _, u, hu, c1, hc1, u1, hu1, g1, hg1, he⟩ := h
    have e := (Res.ok.inj he).symm
    subst e
    obtain ⟨eu, _⟩ := getUUID_ok _ _ _ hu
    subst eu
    simp only [VmdkDumpHeader.setUUID, res_bind_eq, res_bind_eq_ok, res_pure_eq] at hc1
    obtain ⟨x, hx, hc1⟩ := hc1
    obtain ⟨ex, _⟩ := setUUIDLocal_ok _ _ _ _ hx
    subst ex
    have ec := (Res.ok.inj hc1).symm
    subst ec
    obtain ⟨eu1, hlen⟩ := getUUID_ok _ _ _ hu1
    subst eu1
    simp only [VmdkDigestHeader.setUUID, res_bind_eq, res_bind_eq_ok, res_pure_eq] at hg1
    obtain ⟨y, hy, hg1⟩ := hg1
    obtain ⟨ey, _⟩ := setUUIDLocal_ok _ _ _ _ hy
    subst ey
    have eg := (Res.ok.inj hg1).symm
    subst eg
    refine ⟨rfl, rfl, hlen, fun _ => ⟨rfl, rfl⟩, fun hf => ?_⟩
    rw [hm] at hf
    cases hf
  · rw [if_neg hm] at h
    simp only [res_bind_eq, res_bind_eq_ok, res_pure_eq] at h
    obtain ⟨c1, hc1, u1, hu1, g1, hg1, he⟩ := h
    have e := (Res.ok.inj he).symm
    subst e
    simp only [VmdkDumpHeader.setUUIDRandom, res_bind_eq, res_bind_eq_ok, res_pure_eq] at hc1
    obtain ⟨x, hx, hc1⟩ := hc1
    obtain ⟨ex, _⟩ := setUUIDLocalRandom_ok _ _ _ _ hx
    subst ex
    have ec := (Res.ok.inj hc1).symm
    subst ec
    obtain ⟨eu1, hlen⟩ := getUUID_ok _ _ _ hu1
    subst eu1
    simp only [VmdkDigestHeader.setUUID, res_bind_eq, res_bind_eq_ok, res_pure_eq] at hg1
    obtain ⟨y, hy, hg1⟩ := hg1
    obtain ⟨ey, _⟩ := setUUIDLocal_ok _ _ _ _ hy
    subst ey
    have eg := (Res.ok.inj hg1).symm
    subst eg
    refine ⟨rfl, rfl, hlen, fun hf => absurd hf hm, fun _ => ⟨rfl, rfl⟩⟩

/-- **C28.** When `setHeaders` returns in diff or incr mode, the new dump header has
the previous dump's uuid and keeps `is_full = true` of the freshly constructed header,
the rdiff header equals the previous dump header in every field except `is_full`,
which is false, and the new digest header has the new dump header's disk size, block
size, uuid and time stamp, so that `isTheSameSnapshot(currDumpH, currDigestH)` holds;
in any other mode the digest header likewise matches the new dump header and the rdiff
header is left untouched. -/
theorem setHeaders_headers (ndebug : Bool) (lib : TimeLib) (now : Int) (rnd : Nat → Nat)
    (am : ArchiveManager) (blocksize : Nat) (vmdkInfo : VmdkInfo)
    (prevDumpH : VmdkDumpHeader) (prevDigestH : VmdkDigestHeader) (hs hs1 : DumpHeaders)
    (hfull : hs.currDumpH.isFull = true)
    (h : am.setHeaders ndebug lib now rnd blocksize vmdkInfo prevDumpH prevDigestH hs =
      Res.ok hs1) :
    (am.mode.isDiffOrIncr = true →
      hs1.currDumpH.uuid = prevDumpH.uuid ∧ hs1.currDumpH.isFull = true ∧
      hs1.rdiffH = { prevDumpH with isFull := false }) ∧
    (am.mode.isDiffOrIncr = false → hs1.rdiffH = hs.rdiffH) ∧
    hs1.currDigestH.diskSize = hs1.currDumpH.diskSize ∧
    hs1.currDigestH.blockSize = hs1.currDumpH.blockSize ∧
    hs1.currDigestH.uuid = hs1.currDumpH.uuid ∧
    hs1.currDigestH.timeStamp = hs1.currDumpH.timeStamp ∧
    isTheSameSnapshot ndebug lib hs1.currDumpH hs1.currDigestH = Res.ok true := by
  obtain ⟨h1, h2, hlen, hd, hf⟩ := setHeaders_ok ndebug lib now rnd am blocksize vmdkInfo
    prevDumpH prevDigestH hs hs1 h
  have e1 : hs1.currDigestH.diskSize = hs1.currDumpH.diskSize := by rw [h2, h1]
  have e2 : hs1.currDigestH.blockSize = hs1.currDumpH.blockSize := by rw [h2, h1]
  have e3 : hs1.currDigestH.uuid = hs1.currDumpH.uuid := by rw [h2]
  have e4 : hs1.currDigestH.timeStamp = hs1.currDumpH.timeStamp := by rw [h2, h1]
  refine ⟨fun hm => ⟨(hd hm).1, by rw [h1]; exact hfull, (hd hm).2⟩,
    fun hm => (hf hm).2, e1, e2, e3, e4, ?_⟩
  rw [isTheSameSnapshot_eq ndebug lib _ _ hlen (by rw [e3]; exact hlen)]
  congr 1
  simp [e1, e2, e3, VmdkDumpHeader.getTimeStamp, VmdkDigestHeader.getTimeStamp, e4]

set_option maxRecDepth 100000 in
/-- Witness of `setHeaders_headers`: the headers of a diff dump against generation 0. -/
theorem setHeaders_headers_witness :
    ∃ hs1, ({ (ArchiveManager.mk BackupCommand.CMD_DUMP DumpMode.DUMPMODE_DIFF false
                true true true true true false (some headerGen0) (some digestHeaderGen0)
                [] [] (IStream.open []) none none none [] [] []) with
              mode := DumpMode.DUMPMODE_DIFF }).setHeaders false utcTimeLib 1262390400
        (sysGen0.uuidFrom 80) 512 vmdkInfoGen0 headerGen0 digestHeaderGen0 freshHeaders =
        Res.ok hs1 ∧
      hs1.currDumpH.uuid = headerGen0.uuid ∧ hs1.currDumpH.isFull = true ∧
      hs1.rdiffH = { headerGen0 with isFull := false } := by
  cases hres : ({ (ArchiveManager.mk BackupCommand.CMD_DUMP DumpMode.DUMPMODE_DIFF false
                true true true true true false (some headerGen0) (some digestHeaderGen0)
                [] [] (IStream.open []) none none none [] [] []) with
              mode := DumpMode.DUMPMODE_DIFF }).setHeaders false utcTimeLib 1262390400
        (sysGen0.uuidFrom 80) 512 vmdkInfoGen0 headerGen0 digestHeaderGen0 freshHeaders with
  | throw => exact absurd hres (by decide)
  | abort => exact absurd hres (by decide)
  | ok hs1 =>
    exact ⟨hs1, rfl, (setHeaders_headers false utcTimeLib 1262390400 (sysGen0.uuidFrom 80) _
      512 vmdkInfoGen0 headerGen0 digestHeaderGen0 freshHeaders hs1 (by decide) hres).1
      (by decide)⟩

/-! ## One iteration of the dump loop, in detail -/

/-- What a returned `writeToStreams` has done. -/
theorem writeToStreams_ok (ndebug : Bool) (am am2 : ArchiveManager)
    (prevDumpB : VmdkDumpBlock) (prevDigestB : VmdkDigestBlock)
    (currDumpB : VmdkDumpBlock) (currDigestB : VmdkDigestBlock) (flag : Bool)
    (h : am.writeToStreams ndebug prevDumpB prevDigestB currDumpB currDigestB =
      (am2, Res.ok flag)) :
    am2 = { am with dumpOut := am.dumpOut ++ [currDumpB.clone],
                    digestOut := am.digestOut ++ [currDigestB.clone],
                    rdiffOut := am.rdiffOut ++
                      (if am.mode.isDiffOrIncr && flag then [prevDumpB.clone] else []) } ∧
    (am.mode.isDiffOrIncr = true → prevDigestB.ne ndebug currDigestB = Res.ok flag) ∧
    (am.mode.isDiffOrIncr = false → flag = true) := by
  have hc := writeToStreams_cases ndebug am prevDumpB prevDigestB currDumpB currDigestB
  simp only [h] at hc
  rcases hc with ⟨_, hf⟩ | ⟨_, hf⟩ | ⟨_, hf⟩ | ⟨e, hv, hm⟩ | ⟨e, hv, hm, hn⟩ | ⟨e, hv, hm, hn⟩
  · exact absurd rfl (hf flag)
  · exact absurd rfl (hf flag)
  · exact absurd rfl (hf flag)
  · have hv' := Res.ok.inj hv
    subst hv'
    refine ⟨?_, ?_, ?_⟩
    · rw [e, hm]; simp
    · intro h; rw [hm] at h; cases h
    · intro _; rfl
  · have hv' := Res.ok.inj hv
    subst hv'
    refine ⟨?_, ?_, ?_⟩
    · rw [e, hm]; simp
    · intro _; exact hn
    · intro h; rw [hm] at h; cases h
  · have hv' := Res.ok.inj hv
    subst hv'
    refine ⟨?_, ?_, ?_⟩
    · rw [e, hm]; simp
    · intro _; exact hn
    · intro _; rfl

/-- Anatomy of an iteration that succeeded. -/
theorem dumpStep_ok (ndebug : Bool) (env : DumpEnv) (oft : Nat) (st st1 : DumpState)
    (h : dumpStep ndebug env oft st = (st1, Res.ok ())) :
    ∃ am1 flag,
      env.isSignal oft = false ∧
      st.arcMgr.readFromStreams ndebug env.md5 st.prevDumpB st.prevDigestB
        = ((am1, st1.prevDumpB, st1.prevDigestB), Res.ok ()) ∧
      ((∃ buf, (am1.mode ≠ DumpMode.DUMPMODE_INCR ∨
                env.changedBlockBitmap.get ndebug oft = Res.ok true) ∧
          retryRead env oft 10 st.currDumpB.block st.events = ((buf, st1.events), Res.ok ()) ∧
          st1.currDumpB =
            (({ st.currDumpB with block := buf } : VmdkDumpBlock).setIsAllZero).setOffset oft) ∨
       (am1.mode = DumpMode.DUMPMODE_INCR ∧
          env.changedBlockBitmap.get ndebug oft = Res.ok false ∧
          st.currDumpB.copyDataFrom ndebug st1.prevDumpB = Res.ok st1.currDumpB ∧
          cassert ndebug (st1.currDumpB.offset == oft) = Res.ok () ∧
          st1.events = st.events)) ∧
      st.currDigestB.set ndebug env.md5 st1.currDumpB = Res.ok st1.currDigestB ∧
      am1.writeToStreams ndebug st1.prevDumpB st1.prevDigestB st1.currDumpB st1.currDigestB =
        (st1.arcMgr, Res.ok flag) ∧
      st1.arcMgr = { am1 with
        dumpOut := am1.dumpOut ++ [st1.currDumpB.clone],
        digestOut := am1.digestOut ++ [st1.currDigestB.clone],
        rdiffOut := am1.rdiffOut ++
          (if am1.mode.isDiffOrIncr && flag then [st1.prevDumpB.clone] else []) } ∧
      (am1.mode.isDiffOrIncr = true →
        st1.prevDigestB.ne ndebug st1.currDigestB = Res.ok flag) ∧
      (am1.mode.isDiffOrIncr = false → flag = true) := by
  rcases dumpStep_reach ndebug env oft st with ⟨_, _, _, h4, _⟩ |
    ⟨am1, prevDumpB1, prevDigestB1, c, ev1, d, hsig, hr, hcur, hset, hx⟩
  · rw [h] at h4; exact absurd rfl h4
  · rw [h] at hx
    have hx1 := congrArg Prod.fst hx
    have hx2 := congrArg Prod.snd hx
    simp only at hx1 hx2
    cases hw : am1.writeToStreams ndebug prevDumpB1 prevDigestB1 c d with
    | mk am2 r =>
      rw [hw] at hx1 hx2
      simp only at hx1 hx2
      cases r with
      | throw => simp [voidRes] at hx2
      | abort => simp [voidRes] at hx2
      | ok flag =>
        subst hx1
        obtain ⟨e1, e2, e3⟩ := writeToStreams_ok ndebug am1 am2 prevDumpB1 prevDigestB1 c d
          flag hw
        exact ⟨am1, flag, hsig, hr, hcur, hset, hw, e1, e2, e3⟩

/-- A retry loop that succeeded has filled the buffer with the data of one successful
read of the provider. -/
theorem retryRead_ok_data (env : DumpEnv) (oft : Nat) :
    ∀ (n : Nat) (buf buf1 : ByteArray) (ev ev1 : List DumpEvent), 0 < n →
      retryRead env oft n buf ev = ((buf1, ev1), Res.ok ()) →
      ∃ k data, env.readBlock oft k = some data ∧ buf1 = copyInto buf data := by
  intro n
  induction n with
  | zero => intro _ _ _ _ h; omega
  | succ n ih =>
    intro buf buf1 ev ev1 _ h
    unfold retryRead at h
    simp only at h
    cases hrd : env.readBlock oft (10 - (n + 1)) with
    | some data =>
      rw [hrd] at h
      simp only [Prod.mk.injEq] at h
      exact ⟨_, data, hrd, h.1.1.symm⟩
    | none =>
      rw [hrd] at h
      simp only at h
      by_cases h0 : n ≤ 0
      · rw [if_pos h0] at h
        split at h <;> simp at h
      · rw [if_neg h0] at h
        by_cases h8 : n ≤ 8
        · rw [if_pos h8] at h
          by_cases hcl : env.close oft (10 - (n + 1)) = true
          · rw [if_pos hcl] at h
            by_cases hrs : env.reset oft (10 - (n + 1)) = true
            · rw [if_pos hrs] at h
              by_cases hop : env.reopen oft (10 - (n + 1)) = true
              · rw [if_pos hop] at h
                exact ih _ _ _ _ (by omega) h
              · rw [if_neg hop] at h
                simp at h
            · rw [if_neg hrs] at h
              simp at h
          · rw [if_neg hcl] at h
            simp at h
        · rw [if_neg h8] at h
          exact ih _ _ _ _ (by omega) h

theorem clone_of_copy (ndebug : Bool) (dst p b : VmdkDumpBlock)
    (h : dst.copyDataFrom ndebug p = Res.ok b) :
    b.clone.offset = p.offset ∧ b.clone.isAllZero = p.isAllZero ∧
    b.clone.blockSize = dst.blockSize ∧
    (p.isAllZero = Boolean.BFALSE → p.block.length = dst.blockSize →
      dst.block.length = dst.blockSize → b.clone.block = p.block) ∧
    (p.isAllZero ≠ Boolean.BFALSE → b.clone.block = List.replicate dst.blockSize 0) := by
  have e := dumpBlock_copyDataFrom_eq_ok _ _ _ _ h
  subst e
  refine ⟨rfl, rfl, rfl, ?_, ?_⟩
  · intro hz hl hd
    simp only [VmdkDumpBlock.clone, hz, if_true]
    rw [copyInto_same_length dst.block p.block (by rw [hl, hd])]
    exact copyInto_same_length _ _ (by simp [hl])
  · intro hz
    simp only [VmdkDumpBlock.clone, hz, if_false]

/-- Whatever its outcome, an iteration changes the archive manager only in its five
block streams, and in a mode other than diff and incr not in `rdiff_out`. -/
theorem dumpStep_frame (ndebug : Bool) (env : DumpEnv) (oft : Nat) (st : DumpState) :
    ∃ din gin dout gout rout,
      (dumpStep ndebug env oft st).1.arcMgr =
        { st.arcMgr with dumpIn := din, digestIn := gin, dumpOut := dout,
                         digestOut := gout, rdiffOut := rout } ∧
      (st.arcMgr.mode.isDiffOrIncr = false → rout = st.arcMgr.rdiffOut) := by
  rcases dumpStep_reach ndebug env oft st with ⟨_, _, _, _, din, gin, hf⟩ |
    ⟨am1, prevDumpB1, prevDigestB1, c, ev1, d, hsig, hr, hcur, hset, hx1⟩
  · exact ⟨din, gin, _, _, _, hf, fun _ => rfl⟩
  · have hfr := readFromStreams_frame ndebug env.md5 st.arcMgr st.prevDumpB st.prevDigestB
    simp only [hr] at hfr
    obtain ⟨⟨din, gin, hfr1, _⟩, _, _, _⟩ := hfr
    rw [hx1]
    simp only
    have hcases := writeToStreams_cases ndebug am1 prevDumpB1 prevDigestB1 c d
    simp only at hcases
    have hmode : am1.mode = st.arcMgr.mode := by rw [hfr1]
    rcases hcases with ⟨e, _⟩ | ⟨e, _⟩ | ⟨e, _⟩ | ⟨e, _⟩ | ⟨e, _⟩ | ⟨e, _, hm, _⟩
    · rw [e, hfr1]; exact ⟨_, _, _, _, _, rfl, fun _ => rfl⟩
    · rw [e, hfr1]; exact ⟨_, _, _, _, _, rfl, fun _ => rfl⟩
    · rw [e, hfr1]; exact ⟨_, _, _, _, _, rfl, fun _ => rfl⟩
    · rw [e, hfr1]; exact ⟨_, _, _, _, _, rfl, fun _ => rfl⟩
    · rw [e, hfr1]; exact ⟨_, _, _, _, _, rfl, fun _ => rfl⟩
    · rw [e, hfr1]
      refine ⟨_, _, _, _, _, rfl, fun hf => ?_⟩
      rw [hmode, hf] at hm
      cases hm

/-- The loop changes the archive manager only in its five block streams, and in a
mode other than diff and incr not in `rdiff_out`. -/
theorem dumpLoop_frame (ndebug : Bool) (env : DumpEnv) (n oft : Nat) (st : DumpState) :
    ∃ din gin dout gout rout,
      (dumpLoop ndebug env n oft st).1.arcMgr =
        { st.arcMgr with dumpIn := din, digestIn := gin, dumpOut := dout,
                         digestOut := gout, rdiffOut := rout } ∧
      (st.arcMgr.mode.isDiffOrIncr = false → rout = st.arcMgr.rdiffOut) := by
  induction n generalizing oft st with
  | zero => exact ⟨_, _, _, _, _, rfl, fun _ => rfl⟩
  | succ n ih =>
    obtain ⟨din, gin, dout, gout, rout, hf, hr⟩ := dumpStep_frame ndebug env oft st
    unfold dumpLoop
    cases hx : dumpStep ndebug env oft st with
    | mk st1 r =>
      rw [hx] at hf
      simp only at hf
      cases r with
      | throw => exact ⟨din, gin, dout, gout, rout, hf, hr⟩
      | abort => exact ⟨din, gin, dout, gout, rout, hf, hr⟩
      | ok _ =>
        simp only
        obtain ⟨din2, gin2, dout2, gout2, rout2, hf2, hr2⟩ := ih (oft + 1) st1
        rw [hf2, hf]
        refine ⟨_, _, _, _, _, rfl, fun hm => ?_⟩
        rw [hr2 (by rw [hf]; exact hm), hf]
        exact hr hm

/-- **C2.** In a diff or incr dump, an iteration that returns has written a block to
`rdiff_out` if and only if the current digest block differs (`operator!=`) from the
previous digest block; when it writes, it writes exactly one block, the copy of the
previous dump block read for the offset (same offset, same all-zero flag, and the same
payload when the block is not all-zero), and the flag `writeToStreams` returns is true
exactly in that case.  In any other mode nothing is ever written to `rdiff_out`,
whatever the outcome of the iteration or of the loop. -/
theorem rdiff_written_iff_digest_differs (ndebug : Bool) (env : DumpEnv) (oft : Nat)
    (st : DumpState) :
    (∀ st1, dumpStep ndebug env oft st = (st1, Res.ok ()) →
      ∃ (am1 : ArchiveManager) (isChanged : Bool),
        am1.writeToStreams ndebug st1.prevDumpB st1.prevDigestB st1.currDumpB
          st1.currDigestB = (st1.arcMgr, Res.ok isChanged) ∧
        am1.rdiffOut = st.arcMgr.rdiffOut ∧ am1.mode = st.arcMgr.mode ∧
        (st.arcMgr.mode.isDiffOrIncr = true →
          ∃ p restP, st.arcMgr.dumpIn = p :: restP ∧
            st1.prevDigestB.ne ndebug st1.currDigestB = Res.ok isChanged ∧
            st1.arcMgr.rdiffOut =
              st.arcMgr.rdiffOut ++ (if isChanged then [st1.prevDumpB.clone] else []) ∧
            st1.prevDumpB.clone.offset = p.offset ∧
            st1.prevDumpB.clone.isAllZero = p.isAllZero ∧
            (p.isAllZero = Boolean.BFALSE → p.block.length = st.prevDumpB.blockSize →
              st.prevDumpB.block.length = st.prevDumpB.blockSize →
              st1.prevDumpB.clone.block = p.block))) ∧
    (st.arcMgr.mode.isDiffOrIncr = false →
      (dumpStep ndebug env oft st).1.arcMgr.rdiffOut = st.arcMgr.rdiffOut ∧
      ∀ n, (dumpLoop ndebug env n oft st).1.arcMgr.rdiffOut = st.arcMgr.rdiffOut) := by
  constructor
  · intro st1 h
    obtain ⟨am1, flag, _, hr, _, _, hw, hst, hne, _⟩ := dumpStep_ok ndebug env oft st st1 h
    have hfr := readFromStreams_frame ndebug env.md5 st.arcMgr st.prevDumpB st.prevDigestB
    simp only [hr] at hfr
    obtain ⟨⟨din, gin, hfr1, _⟩, _, _, _⟩ := hfr
    have hro : am1.rdiffOut = st.arcMgr.rdiffOut := by rw [hfr1]
    have hmode : am1.mode = st.arcMgr.mode := by rw [hfr1]
    refine ⟨am1, flag, hw, hro, hmode, fun hm => ?_⟩
    obtain ⟨p, restP, q, restQ, chk, hP, _, _, hpc, _⟩ :=
      (readFromStreams_ok _ _ _ _ _ _ _ _ hr).1 hm
    obtain ⟨c1, c2, _, c4, _⟩ := clone_of_copy ndebug st.prevDumpB p st1.prevDumpB hpc
    refine ⟨p, restP, hP, hne (by rw [hmode]; exact hm), ?_, c1, c2, c4⟩
    rw [hst]
    simp only [hmode, hm, Bool.true_and, hro]
  · intro hm
    obtain ⟨_, _, _, _, rout, hf, hr⟩ := dumpStep_frame ndebug env oft st
    refine ⟨by rw [hf]; exact hr hm, fun n => ?_⟩
    obtain ⟨_, _, _, _, rout, hf, hr⟩ := dumpLoop_frame ndebug env n oft st
    rw [hf]; exact hr hm

set_option maxRecDepth 100000 in
/-- Witness of `rdiff_written_iff_digest_differs`: the iteration at offset 0 of the
diff dump of generation 1 returns and leaves `rdiff_out` empty. -/
theorem rdiff_written_iff_digest_differs_witness :
    ∃ st1, dumpStep false (envSample sourceGen1) 0 (DumpState.init amDiffGen1 512) =
        (st1, Res.ok ()) ∧
      st1.prevDigestB.ne false st1.currDigestB = Res.ok false ∧
      st1.arcMgr.rdiffOut = [] := by
  have hok : (dumpStep false (envSample sourceGen1) 0 (DumpState.init amDiffGen1 512)).2 =
      Res.ok () := by decide
  cases hx : dumpStep false (envSample sourceGen1) 0 (DumpState.init amDiffGen1 512) with
  | mk st1 r =>
    rw [hx] at hok
    simp only at hok
    subst hok
    obtain ⟨am1, isChanged, _, _, _, h⟩ :=
      (rdiff_written_iff_digest_differs false (envSample sourceGen1) 0
        (DumpState.init amDiffGen1 512)).1 st1 hx
    obtain ⟨p, restP, _, hne, hro, _⟩ := h (by decide)
    have hne' : ((dumpStep false (envSample sourceGen1) 0
        (DumpState.init amDiffGen1 512)).1.prevDigestB.ne false
        (dumpStep false (envSample sourceGen1) 0
          (DumpState.init amDiffGen1 512)).1.currDigestB) = Res.ok false := by decide
    rw [hx] at hne'
    simp only at hne'
    rw [hne'] at hne
    have hc : isChanged = false := (Res.ok.inj hne).symm
    subst hc
    exact ⟨st1, rfl, hne', by rw [hro]; rfl⟩

/-! ## The retry loop -/

/-- The retry loop when the first `k` attempts (counted from attempt `a`) fail, attempt
`a + k` delivers `data`, and the `close`, `reset` and `open` of every handler in
between succeed. -/
theorem retryRead_fail_then_ok (env : DumpEnv) (oft : Nat) (data : ByteArray) :
    ∀ (k a : Nat) (buf : ByteArray) (ev : List DumpEvent), a + k < 10 →
      (∀ j, a ≤ j → j < a + k → env.readBlock oft j = none) →
      env.readBlock oft (a + k) = some data →
      (∀ j, a ≤ j → j < a + k → 1 ≤ j →
        env.close oft j = true ∧ env.reset oft j = true ∧ env.reopen oft j = true) →
      retryRead env oft (10 - a) buf ev =
        ((copyInto buf data,
          ev ++ failEvents oft k a ++ [DumpEvent.read oft (a + k) true]), Res.ok ()) := by
  intro k
  induction k with
  | zero =>
    intro a buf ev ha _ hs _
    obtain ⟨t, ht⟩ : ∃ t, 10 - a = t + 1 := ⟨9 - a, by omega⟩
    rw [ht]
    unfold retryRead
    have hatt : 10 - (t + 1) = a := by omega
    simp only [hatt]
    simp only [Nat.add_zero] at hs
    rw [hs]
    simp [failEvents]
  | succ k ih =>
    intro a buf ev ha hf hs hr
    obtain ⟨t, ht⟩ : ∃ t, 10 - a = t + 1 := ⟨9 - a, by omega⟩
    rw [ht]
    unfold retryRead
    have hatt : 10 - (t + 1) = a := by omega
    simp only [hatt]
    rw [hf a (le_refl _) (by omega)]
    simp only
    have ht0 : ¬ t ≤ 0 := by omega
    rw [if_neg ht0]
    have htt : t = 10 - (a + 1) := by omega
    have hnext := ih (a + 1) buf
    by_cases h8 : t ≤ 8
    · rw [if_pos h8]
      have h1 : 1 ≤ a := by omega
      obtain ⟨hc, hrs, hop⟩ := hr a (le_refl _) (by omega) h1
      rw [if_pos hc, if_pos hrs, if_pos hop]
      rw [htt, hnext _ (by omega) (fun j h1 h2 => hf j (by omega) (by omega))
        (by rw [show a + 1 + k = a + (k + 1) by omega]; exact hs)
        (fun j h1 h2 h3 => hr j (by omega) (by omega) h3)]
      have hc : 2 ≤ a + 1 ∧ a + 1 ≤ 9 := by omega
      simp [failEvents, hc, show a + 1 + k = a + (k + 1) by omega]
    · rw [if_neg h8]
      rw [htt, hnext _ (by omega) (fun j h1 h2 => hf j (by omega) (by omega))
        (by rw [show a + 1 + k = a + (k + 1) by omega]; exact hs)
        (fun j h1 h2 h3 => hr j (by omega) (by omega) h3)]
      have ha0 : a = 0 := by omega
      subst ha0
      simp [failEvents, show 0 + 1 + k = 0 + (k + 1) by omega]

/-- The retry loop when all ten attempts fail and the handlers in between succeed: the
provider is closed (and stopped when `close` returned) and the loop ends with an
exception. -/
theorem retryRead_all_fail (env : DumpEnv) (oft : Nat) (buf : ByteArray)
    (ev : List DumpEvent)
    (hf : ∀ j, j < 10 → env.readBlock oft j = none)
    (hr : ∀ j, 1 ≤ j → j < 9 →
      env.close oft j = true ∧ env.reset oft j = true ∧ env.reopen oft j = true) :
    retryRead env oft 10 buf ev =
      ((buf, ev ++ failEvents oft 9 0 ++
        ([DumpEvent.read oft 9 false] ++
          (if env.close oft 9 = true then [DumpEvent.close true, DumpEvent.stop]
           else [DumpEvent.close false]))), Res.throw) := by
  have h1 := hr 1 (by omega) (by omega)
  have h2 := hr 2 (by omega) (by omega)
  have h3 := hr 3 (by omega) (by omega)
  have h4 := hr 4 (by omega) (by omega)
  have h5 := hr 5 (by omega) (by omega)
  have h6 := hr 6 (by omega) (by omega)
  have h7 := hr 7 (by omega) (by omega)
  have h8 := hr 8 (by omega) (by omega)
  by_cases hc : env.close oft 9 = true
  · simp [retryRead, failEvents, hf, h1, h2, h3, h4, h5, h6, h7, h8, hc]
  · simp [retryRead, failEvents, hf, h1, h2, h3, h4, h5, h6, h7, h8, hc]

/-- The retry loop calls `readBlock` at most `tryalTimes` times. -/
theorem retryRead_attempts (env : DumpEnv) (oft : Nat) :
    ∀ (n : Nat) (buf : ByteArray) (ev : List DumpEvent),
      ∃ es, (retryRead env oft n buf ev).1.2 = ev ++ es ∧
        (es.filter DumpEvent.isRead).length ≤ n := by
  intro n
  induction n with
  | zero => intro buf ev; exact ⟨[], by simp [retryRead], by simp⟩
  | succ n ih =>
    intro buf ev
    unfold retryRead
    simp only
    cases hrd : env.readBlock oft (10 - (n + 1)) with
    | some data => exact ⟨[_], rfl, by simp [DumpEvent.isRead]⟩
    | none =>
      simp only
      by_cases h0 : n ≤ 0
      · rw [if_pos h0]
        by_cases hc : env.close oft (10 - (n + 1)) = true
        · rw [if_pos hc]
          exact ⟨[DumpEvent.read oft (10 - (n + 1)) false, DumpEvent.close true,
            DumpEvent.stop], by simp, by simp [DumpEvent.isRead]⟩
        · rw [if_neg hc]
          exact ⟨[DumpEvent.read oft (10 - (n + 1)) false, DumpEvent.close false],
            by simp, by simp [DumpEvent.isRead]⟩
      · rw [if_neg h0]
        by_cases h8 : n ≤ 8
        · rw [if_pos h8]
          by_cases hc : env.close oft (10 - (n + 1)) = true
          · rw [if_pos hc]
            by_cases hrs : env.reset oft (10 - (n + 1)) = true
            · rw [if_pos hrs]
              by_cases hop : env.reopen oft (10 - (n + 1)) = true
              · rw [if_pos hop]
                obtain ⟨es, he, hl⟩ := ih buf
                  (ev ++ [DumpEvent.read oft (10 - (n + 1)) false] ++
                  [DumpEvent.close true, DumpEvent.pause, DumpEvent.reset true,
                   DumpEvent.resume, DumpEvent.reopen true])
                refine ⟨[DumpEvent.read oft (10 - (n + 1)) false] ++
                  [DumpEvent.close true, DumpEvent.pause, DumpEvent.reset true,
                   DumpEvent.resume, DumpEvent.reopen true] ++ es, by rw [he]; simp, ?_⟩
                simp [DumpEvent.isRead, List.filter_cons]
                omega
              · rw [if_neg hop]
                exact ⟨[DumpEvent.read oft (10 - (n + 1)) false] ++
                  [DumpEvent.close true, DumpEvent.pause, DumpEvent.reset true,
                   DumpEvent.resume, DumpEvent.reopen false], by simp,
                  by simp [DumpEvent.isRead, List.filter_cons]⟩
            · rw [if_neg hrs]
              exact ⟨[DumpEvent.read oft (10 - (n + 1)) false] ++
                [DumpEvent.close true, DumpEvent.pause, DumpEvent.reset false], by simp,
                by simp [DumpEvent.isRead, List.filter_cons]⟩
          · rw [if_neg hc]
            exact ⟨[DumpEvent.read oft (10 - (n + 1)) false, DumpEvent.close false],
              by simp, by simp [DumpEvent.isRead]⟩
        · rw [if_neg h8]
          obtain ⟨es, he, hl⟩ := ih buf (ev ++ [DumpEvent.read oft (10 - (n + 1)) false])
          refine ⟨[DumpEvent.read oft (10 - (n + 1)) false] ++ es, by rw [he]; simp, ?_⟩
          simp [DumpEvent.isRead, List.filter_cons]
          omega

/-- A failed reset ends the process: the `close()` that follows it finds `sockP_`
null. -/
theorem retryRead_reset_fails (env : DumpEnv) (oft : Nat) (buf : ByteArray)
    (ev : List DumpEvent)
    (h0 : env.readBlock oft 0 = none) (h1 : env.readBlock oft 1 = none)
    (hc : env.close oft 1 = true) (hr : env.reset oft 1 = false) :
    (retryRead env oft 10 buf ev).2 = Res.abort := by
  simp [retryRead, h0, h1, hc, hr]

/-- An iteration whose `readFromStreams` throws ends with that error, having changed
only the input side. -/
theorem dumpStep_gate_throws (ndebug : Bool) (env : DumpEnv) (oft : Nat) (st : DumpState)
    (am1 : ArchiveManager) (p1 : VmdkDumpBlock) (g1 : VmdkDigestBlock)
    (hr : st.arcMgr.readFromStreams ndebug env.md5 st.prevDumpB st.prevDigestB =
      ((am1, p1, g1), Res.throw)) :
    (dumpStep ndebug env oft st).2 = Res.throw ∧
    (dumpStep ndebug env oft st).1.arcMgr.dumpOut = st.arcMgr.dumpOut ∧
    (dumpStep ndebug env oft st).1.arcMgr.digestOut = st.arcMgr.digestOut ∧
    (dumpStep ndebug env oft st).1.arcMgr.rdiffOut = st.arcMgr.rdiffOut := by
  rcases dumpStep_reach ndebug env oft st with ⟨h1, h2, h3, _, _⟩ |
    ⟨_, _, _, _, _, _, _, hr2, _⟩
  · refine ⟨?_, h1, h2, h3⟩
    unfold dumpStep
    cases hs : env.isSignal oft
    · simp only [checkAndThrow, Bool.not_false, if_true, stepRes_ok, hr, stepRes_throw]
    · rfl
  · rw [hr] at hr2
    simp at hr2

/-- An iteration that has to read the provider and whose retry loop throws ends with
that error, having written nothing. -/
theorem dumpStep_read_throws (ndebug : Bool) (env : DumpEnv) (oft : Nat) (st : DumpState)
    (am1 : ArchiveManager) (p1 : VmdkDumpBlock) (g1 : VmdkDigestBlock)
    (hsig : env.isSignal oft = false)
    (hr : st.arcMgr.readFromStreams ndebug env.md5 st.prevDumpB st.prevDigestB =
      ((am1, p1, g1), Res.ok ()))
    (hmc : am1.mode ≠ DumpMode.DUMPMODE_INCR ∨
      env.changedBlockBitmap.get ndebug oft = Res.ok true)
    (hrr : (retryRead env oft 10 st.currDumpB.block st.events).2 = Res.throw) :
    (dumpStep ndebug env oft st).2 = Res.throw ∧
    (dumpStep ndebug env oft st).1.arcMgr.dumpOut = st.arcMgr.dumpOut ∧
    (dumpStep ndebug env oft st).1.arcMgr.digestOut = st.arcMgr.digestOut ∧
    (dumpStep ndebug env oft st).1.arcMgr.rdiffOut = st.arcMgr.rdiffOut := by
  rcases dumpStep_reach ndebug env oft st with ⟨h1, h2, h3, _, _⟩ |
    ⟨_, _, _, _, _, _, _, hr2, hcur, _⟩
  · refine ⟨?_, h1, h2, h3⟩
    have hmc' : (if (am1.mode != DumpMode.DUMPMODE_INCR) = true then Res.ok true
        else env.changedBlockBitmap.get ndebug oft) = Res.ok true := by
      rcases hmc with h | h
      · rw [if_pos (by simpa using h)]
      · by_cases hm : (am1.mode != DumpMode.DUMPMODE_INCR) = true
        · rw [if_pos hm]
        · rw [if_neg hm]; exact h
    unfold dumpStep
    simp only [hsig, checkAndThrow, Bool.not_false, if_true, stepRes_ok, hr, hmc']
    cases hx : retryRead env oft 10 st.currDumpB.block st.events with
    | mk s r =>
      rw [hx] at hrr
      simp only at hrr
      subst hrr
      rfl
  · rw [hr] at hr2
    simp only [Prod.mk.injEq, and_true] at hr2
    obtain ⟨e1, e2, e3⟩ := hr2
    subst e1 e2 e3
    rcases hcur with ⟨buf, _, hx, _⟩ | ⟨hm, hb, _⟩
    · rw [hx] at hrr; simp at hrr
    · rcases hmc with h | h
      · exact absurd hm h
      · rw [hb] at h; simp at h

/-- The constructor of a dump block returns in a build without assertions, and in
every build for a block size that is a multiple of the sector size. -/
theorem dumpBlock_new_ok (ndebug : Bool) (bs : Nat)
    (h : ndebug = true ∨ bs % VIXDISKLIB_SECTOR_SIZE = 0) :
    VmdkDumpBlock.new ndebug bs = Res.ok (VmdkDumpBlock.fresh bs) := by
  unfold VmdkDumpBlock.new
  rw [cassert_of ndebug _ (h.imp id fun x => by simpa using x)]

theorem dumpBlock_copyDataFrom_ok (ndebug : Bool) (dst src : VmdkDumpBlock)
    (h : ndebug = true ∨
      (dst.blockSize = src.blockSize ∧ dst.block.length = src.block.length)) :
    dst.copyDataFrom ndebug src = Res.ok { dst with
          offset := src.offset
          isAllZero := src.isAllZero
          block := if src.isAllZero = Boolean.BFALSE then copyInto dst.block src.block
                   else dst.block } := by
  unfold VmdkDumpBlock.copyDataFrom
  rw [cassert_of ndebug _ (h.imp id fun x => by simpa using x.1)]
  simp only
  rw [cassert_of ndebug _ (h.imp id fun x => by simpa using x.2)]

/-- The copy of a block into a newly constructed block of the same block size is the
block `writeToDump` hands to `putB`. -/
theorem copyDataFrom_fresh (ndebug : Bool) (b : VmdkDumpBlock)
    (h : ndebug = true ∨ b.block.length = b.blockSize) :
    (VmdkDumpBlock.fresh b.blockSize).copyDataFrom ndebug b = Res.ok b.clone := by
  rw [dumpBlock_copyDataFrom_ok ndebug (VmdkDumpBlock.fresh b.blockSize) b
    (h.imp id fun x => ⟨rfl, by simp [VmdkDumpBlock.fresh, x]⟩)]
  rfl

theorem putDumpB_ok (ndebug i s : Bool) (out : List VmdkDumpBlock) (b : VmdkDumpBlock)
    (h : ndebug = true ∨ (i = true ∧ s = true ∧ b.blockSize = b.block.length ∧
      b.isAllZero ≠ Boolean.BNULL)) :
    putDumpB ndebug i s out b = Res.ok (out ++ [b]) := by
  unfold putDumpB writeDumpBlock
  rw [cassert_of ndebug _ (h.imp id fun x => by simp [x.1, x.2.1])]
  simp only
  rw [cassert_of ndebug _ (h.imp id fun x => by simpa using x.2.2.1)]
  simp only
  rw [cassert_of ndebug _ (h.imp id fun x => by simpa using x.2.2.2)]

theorem putDigestB_ok (ndebug i s : Bool) (out : List VmdkDigestBlock) (b : VmdkDigestBlock)
    (h : ndebug = true ∨ (i = true ∧ s = true ∧ b.digest.length = MD5_DIGEST_LENGTH ∧
      b.isAllZero ≠ Boolean.BNULL)) :
    putDigestB ndebug i s out b = Res.ok (out ++ [b]) := by
  unfold putDigestB writeDigestBlock
  rw [cassert_of ndebug _ (h.imp id fun x => by simp [x.1, x.2.1])]
  simp only
  rw [cassert_of ndebug _ (h.imp id fun x => by simpa using x.2.2.1)]
  simp only
  rw [cassert_of ndebug _ (h.imp id fun x => by simpa using x.2.2.2)]

/-- Member `writeToDump` returns in a build without assertions, and in every build
when the output is open and has its header and the block is well formed. -/
theorem writeToDump_total (ndebug : Bool) (am : ArchiveManager) (b : VmdkDumpBlock)
    (h : ndebug = true ∨ (am.isOpenDumpOut = true ∧ am.dumpOutH.isSome = true ∧
      b.blockSize % VIXDISKLIB_SECTOR_SIZE = 0 ∧ b.block.length = b.blockSize ∧
      b.isAllZero ≠ Boolean.BNULL)) :
    ∃ am1, am.writeToDump ndebug b = Res.ok am1 := by
  simp only [ArchiveManager.writeToDump, res_bind_eq, res_pure_eq]
  rw [cassert_of ndebug _ (h.imp id fun x => x.1)]
  simp only [Res.bind]
  rw [dumpBlock_new_ok ndebug _ (h.imp id fun x => x.2.2.1)]
  simp only
  rw [copyDataFrom_fresh ndebug b (h.imp id fun x => x.2.2.2.1)]
  simp only
  rw [putDumpB_ok ndebug _ _ _ b.clone (h.imp id fun x =>
    ⟨x.1, x.2.1, (clone_block_length b).symm, x.2.2.2.2⟩)]
  exact ⟨_, rfl⟩

theorem writeToRdiff_total (ndebug : Bool) (am : ArchiveManager) (b : VmdkDumpBlock)
    (h : ndebug = true ∨ (am.isOpenRdiffOut = true ∧ am.rdiffOutH.isSome = true ∧
      b.blockSize % VIXDISKLIB_SECTOR_SIZE = 0 ∧ b.block.length = b.blockSize ∧
      b.isAllZero ≠ Boolean.BNULL)) :
    ∃ am1, am.writeToRdiff ndebug b = Res.ok am1 := by
  simp only [ArchiveManager.writeToRdiff, res_bind_eq, res_pure_eq]
  rw [cassert_of ndebug _ (h.imp id fun x => x.1)]
  simp only [Res.bind]
  rw [dumpBlock_new_ok ndebug _ (h.imp id fun x => x.2.2.1)]
  simp only
  rw [copyDataFrom_fresh ndebug b (h.imp id fun x => x.2.2.2.1)]
  simp only
  rw [putDumpB_ok ndebug _ _ _ b.clone (h.imp id fun x =>
    ⟨x.1, x.2.1, (clone_block_length b).symm, x.2.2.2.2⟩)]
  exact ⟨_, rfl⟩

theorem writeToDigest_total (ndebug : Bool) (am : ArchiveManager) (d : VmdkDigestBlock)
    (h : ndebug = true ∨ (am.isOpenDigestOut = true ∧ am.digestOutH.isSome = true ∧
      d.digest.length = MD5_DIGEST_LENGTH ∧ d.isAllZero ≠ Boolean.BNULL)) :
    ∃ am1, am.writeToDigest ndebug d = Res.ok am1 := by
  simp only [ArchiveManager.writeToDigest, res_bind_eq, res_pure_eq]
  rw [cassert_of ndebug _ (h.imp id fun x => x.1)]
  simp only [Res.bind]
  rw [putDigestB_ok ndebug _ _ _ (VmdkDigestBlock.new.copyDataFrom d)
    (h.imp id fun x => ⟨x.1, x.2.1, by
      simp only [VmdkDigestBlock.copyDataFrom, VmdkDigestBlock.new]
      split
      · simp [copyInto_length]
      · simp, x.2.2.2⟩)]
  exact ⟨_, rfl⟩

/-- The comparison `operator!=` of digest blocks returns in a build without
assertions, and in every build when the flag of the left block is resolved. -/
theorem digestNe_total (ndebug : Bool) (l r : VmdkDigestBlock)
    (h : ndebug = true ∨ l.isAllZero ≠ Boolean.BNULL) :
    ∃ v, l.ne ndebug r = Res.ok v := by
  unfold VmdkDigestBlock.ne VmdkDigestBlock.eq
  rw [cassert_of ndebug _ (h.imp id fun x => by simpa using x)]
  exact ⟨_, rfl⟩

/-- Member `writeToStreams` returns in a build without assertions, and in every build
when the outputs it writes are open and have their headers and the blocks it writes
are well formed. -/
theorem writeToStreams_total (ndebug : Bool) (am : ArchiveManager)
    (p : VmdkDumpBlock) (g : VmdkDigestBlock) (c : VmdkDumpBlock) (d : VmdkDigestBlock)
    (h : ndebug = true ∨ (am.cmd = BackupCommand.CMD_DUMP ∧
      am.isOpenDumpOut = true ∧ am.dumpOutH.isSome = true ∧
      am.isOpenDigestOut = true ∧ am.digestOutH.isSome = true ∧
      c.blockSize % VIXDISKLIB_SECTOR_SIZE = 0 ∧ c.block.length = c.blockSize ∧
      c.isAllZero ≠ Boolean.BNULL ∧
      d.digest.length = MD5_DIGEST_LENGTH ∧ d.isAllZero ≠ Boolean.BNULL ∧
      (am.mode.isDiffOrIncr = true →
        g.isAllZero ≠ Boolean.BNULL ∧
        am.isOpenRdiffOut = true ∧ am.rdiffOutH.isSome = true ∧
        p.blockSize % VIXDISKLIB_SECTOR_SIZE = 0 ∧ p.block.length = p.blockSize ∧
        p.isAllZero ≠ Boolean.BNULL))) :
    ∃ flag, (am.writeToStreams ndebug p g c d).2 = Res.ok flag := by
  unfold ArchiveManager.writeToStreams
  rw [cassert_of ndebug _ (h.imp id fun x => by simp [x.1]), stepRes_ok]
  obtain ⟨am1, h1⟩ := writeToDump_total ndebug am c
    (h.imp id fun x => ⟨x.2.1, x.2.2.1, x.2.2.2.2.2.1, x.2.2.2.2.2.2.1, x.2.2.2.2.2.2.2.1⟩)
  have e1 := writeToDump_ok _ _ _ _ h1
  rw [h1, stepRes_ok]
  subst e1
  obtain ⟨am2, h2⟩ := writeToDigest_total ndebug
    { am with dumpOut := am.dumpOut ++ [c.clone] } d
    (h.imp id fun x => ⟨x.2.2.2.1, x.2.2.2.2.1, x.2.2.2.2.2.2.2.2.1, x.2.2.2.2.2.2.2.2.2.1⟩)
  have e2 := writeToDigest_ok _ _ _ _ h2
  rw [h2, stepRes_ok]
  subst e2
  by_cases hm : am.mode.isDiffOrIncr = true
  · simp only [hm, if_true]
    obtain ⟨v, hv⟩ := digestNe_total ndebug g d
      (h.imp id fun x => (x.2.2.2.2.2.2.2.2.2.2 hm).1)
    rw [hv, stepRes_ok]
    cases v with
    | false => exact ⟨false, rfl⟩
    | true =>
      simp only [if_true]
      obtain ⟨am3, h3⟩ := writeToRdiff_total ndebug
        { am with dumpOut := am.dumpOut ++ [c.clone],
                  digestOut := am.digestOut ++ [d.clone] } p
        (h.imp id fun x => (x.2.2.2.2.2.2.2.2.2.2 hm).2)
      rw [h3, stepRes_ok]
      exact ⟨true, rfl⟩
  · simp only [hm]
    exact ⟨true, rfl⟩

/-- In a build with assertions, a `readFromStreams` that returned was called by the
dump command. -/
theorem readFromStreams_cmd (ndebug : Bool) (md5 : List Nat → List Nat)
    (am : ArchiveManager) (dumpB : VmdkDumpBlock) (digestB : VmdkDigestBlock)
    (h : (am.readFromStreams ndebug md5 dumpB digestB).2 = Res.ok ()) :
    ndebug = true ∨ am.cmd = BackupCommand.CMD_DUMP := by
  unfold ArchiveManager.readFromStreams at h
  rcases cassert_ok_or_abort ndebug (am.cmd == BackupCommand.CMD_DUMP) with h0 | h0
  · have := (cassert_eq_ok ndebug _).1 h0
    simpa using this
  · rw [h0, stepRes_abort] at h
    cases h

theorem setIsAllZero_resolved (b : VmdkDumpBlock) (oft : Nat) :
    ((b.setIsAllZero).setOffset oft).isAllZero ≠ Boolean.BNULL := by
  simp only [VmdkDumpBlock.setIsAllZero, VmdkDumpBlock.setOffset]
  split <;> simp

/-- An iteration of the dump loop that has read the previous streams and whose retry
loop has delivered a block goes on to its end: it returns, in a build without
assertions and in every build when the state is ready for its writes. -/
theorem dumpStep_after_read (ndebug : Bool) (env : DumpEnv) (oft : Nat) (st : DumpState)
    (buf : ByteArray) (ev1 : List DumpEvent)
    (hsig : env.isSignal oft = false)
    (hr2 : (st.arcMgr.readFromStreams ndebug env.md5 st.prevDumpB st.prevDigestB).2 =
      Res.ok ())
    (hmc : st.arcMgr.mode ≠ DumpMode.DUMPMODE_INCR ∨
      env.changedBlockBitmap.get ndebug oft = Res.ok true)
    (hrr : retryRead env oft 10 st.currDumpB.block st.events = ((buf, ev1), Res.ok ()))
    (hready : ndebug = true ∨ WriteReady st) :
    ∃ st1, dumpStep ndebug env oft st = (st1, Res.ok ()) := by
  have hcmd := readFromStreams_cmd ndebug env.md5 st.arcMgr st.prevDumpB st.prevDigestB hr2
  have hfr := readFromStreams_frame ndebug env.md5 st.arcMgr st.prevDumpB st.prevDigestB
  simp only at hfr
  obtain ⟨⟨din, gin, hfr1, _⟩, hpl, hpb, _⟩ := hfr
  cases hr : st.arcMgr.readFromStreams ndebug env.md5 st.prevDumpB st.prevDigestB with
  | mk s1 r1 =>
    obtain ⟨am1, p1, g1⟩ := s1
    rw [hr] at hr2 hfr1 hpl hpb
    simp only at hr2 hfr1 hpl hpb
    subst hr2
    have hro := readFromStreams_ok ndebug env.md5 st.arcMgr am1 st.prevDumpB p1
      st.prevDigestB g1 hr
    have hmode : am1.mode = st.arcMgr.mode := by rw [hfr1]
    have hmc' : (if (am1.mode != DumpMode.DUMPMODE_INCR) = true then Res.ok true
        else env.changedBlockBitmap.get ndebug oft) = Res.ok true := by
      rcases hmc with h | h
      · rw [if_pos (by rw [hmode]; simpa using h)]
      · by_cases hm : (am1.mode != DumpMode.DUMPMODE_INCR) = true
        · rw [if_pos hm]
        · rw [if_neg hm]; exact h
    generalize hc : ((({ st.currDumpB with block := buf } : VmdkDumpBlock).setIsAllZero).setOffset
      oft) = c
    have hcf : c.isAllZero ≠ Boolean.BNULL := by
      rw [← hc]; exact setIsAllZero_resolved _ _
    have hcb : c.blockSize = st.currDumpB.blockSize := by rw [← hc]; rfl
    have hcl : c.block.length = st.currDumpB.block.length := by
      rw [← hc]
      have := retryRead_length env oft 10 st.currDumpB.block st.events
      rw [hrr] at this
      exact this
    have hgz := getIsAllZero_of_resolved ndebug c hcf
    cases hset : st.currDigestB.set ndebug env.md5 c with
    | throw => simp [VmdkDigestBlock.set, hgz] at hset
    | abort => simp [VmdkDigestBlock.set, hgz] at hset
    | ok d =>
      have hdl := set_digest_length _ _ _ _ _ hset
      obtain ⟨_, hdf, _⟩ := digestSet_ok _ _ _ _ _ hset
      have hdf' : d.isAllZero ≠ Boolean.BNULL := by
        rw [hdf]; split <;> simp
      obtain ⟨flag, hw⟩ := writeToStreams_total ndebug am1 p1 g1 c d (by
        by_cases hn : ndebug = true
        · exact Or.inl hn
        · right
          have hcmd' := hcmd.resolve_left hn
          obtain ⟨w1, w2, w3, w4, w5, w6, w7, w8⟩ := hready.resolve_left hn
          refine ⟨by rw [hfr1]; exact hcmd', by rw [hfr1]; exact w1, by rw [hfr1]; exact w2,
            by rw [hfr1]; exact w3, by rw [hfr1]; exact w4, by rw [hcb]; exact w5,
            by rw [hcl, hcb]; exact w6, hcf, by rw [hdl]; exact w7, hdf', ?_⟩
          intro hm
          rw [hmode] at hm
          obtain ⟨v1, v2, v3, v4⟩ := w8 hm
          obtain ⟨pp, restP, q, restQ, chk, _, _, _, _, _, hchk, heq⟩ := hro.1 hm
          obtain ⟨hpf, hchkf, _⟩ := digestSet_ok _ _ _ _ _ hchk
          obtain ⟨_, heq2⟩ := digestEq_ok _ _ _ _ heq
          have hgf : g1.isAllZero ≠ Boolean.BNULL := by
            have h1 : chk.isAllZero = g1.isAllZero := by
              have := heq2.symm
              simp only [Bool.and_eq_true, beq_iff_eq] at this
              exact this.1
            rw [← h1, hchkf]
            split <;> simp
          exact ⟨hgf, by rw [hfr1]; exact v1, by rw [hfr1]; exact v2,
            by rw [hpb]; exact v3, by rw [hpl, hpb]; exact v4, hpf.resolve_left hn⟩)
      unfold dumpStep
      simp only [hsig, checkAndThrow, Bool.not_false, if_true, stepRes_ok, hr, hmc', hrr, hc,
        hset, hw, voidRes]
      exact ⟨_, rfl⟩

theorem all_zero_eq_replicate (l : List Nat) (h : l.all (fun x => x == 0) = true) :
    l = List.replicate l.length 0 := by
  induction l with
  | nil => rfl
  | cons a l ih =>
    simp only [List.all_cons, Bool.and_eq_true, beq_iff_eq] at h
    simp only [List.length_cons, List.replicate_succ, h.1]
    rw [← ih h.2]

/-- The content of the block an iteration writes for a buffer that was filled with
`data`: the data itself. -/
theorem written_content (b : VmdkDumpBlock) (data : ByteArray) (oft : Nat)
    (hd : data.length = b.blockSize) :
    ((({ b with block := data } : VmdkDumpBlock).setIsAllZero).setOffset oft).clone.content =
      data := by
  simp only [VmdkDumpBlock.setIsAllZero, VmdkDumpBlock.setOffset, VmdkDumpBlock.clone,
    VmdkDumpBlock.content]
  by_cases hz : data.all (fun x => x == 0) = true
  · simp only [hz, if_true]
    rw [← hd]
    exact (all_zero_eq_replicate data hz).symm
  · simp only [hz, Bool.false_eq_true, if_false, reduceCtorEq, if_true]
    exact copyInto_same_length _ _ (by simp [hd])

/-- **C27.** In an iteration of the dump loop that has to read the provider,
`readBlock` is called at most 10 times.  If it fails `k < 10` consecutive times and
then succeeds (the `close`, `reset` and `open` of the handlers in between having
succeeded, without which the next attempt is not made), the retry loop returns with
the data of the successful read in the buffer, and the iteration goes on: when no
signal is pending, the previous streams were read and the state is ready for the
writes (or assertions are off), it returns, having put exactly one block, carrying that
data, on `dump_out`, one on `digest_out` and at most one on `rdiff_out`.  The provider
is reset, between `pause` and `resume` of the archive streams, after the `n`-th
consecutive failure exactly when `2 <= n <= 9` (`failEvents`).  If all 10 attempts fail
the iteration ends with an exception and writes nothing. -/
theorem read_retry (ndebug : Bool) (env : DumpEnv) (oft : Nat) (st : DumpState) :
    (∃ es, (retryRead env oft 10 st.currDumpB.block st.events).1.2 = st.events ++ es ∧
      (es.filter DumpEvent.isRead).length ≤ 10) ∧
    (∀ k data, k < 10 → (∀ j, j < k → env.readBlock oft j = none) →
      env.readBlock oft k = some data →
      (∀ j, j < k → 1 ≤ j →
        env.close oft j = true ∧ env.reset oft j = true ∧ env.reopen oft j = true) →
      retryRead env oft 10 st.currDumpB.block st.events =
        ((copyInto st.currDumpB.block data,
          st.events ++ failEvents oft k 0 ++ [DumpEvent.read oft k true]), Res.ok ()) ∧
      (env.isSignal oft = false →
        (st.arcMgr.readFromStreams ndebug env.md5 st.prevDumpB st.prevDigestB).2 =
          Res.ok () →
        (st.arcMgr.mode ≠ DumpMode.DUMPMODE_INCR ∨
          env.changedBlockBitmap.get ndebug oft = Res.ok true) →
        (ndebug = true ∨ WriteReady st) →
        ∃ st1, dumpStep ndebug env oft st = (st1, Res.ok ()) ∧
          st1.currDumpB.block = copyInto st.currDumpB.block data ∧
          st1.currDumpB.offset = oft ∧
          (data.length = st.currDumpB.blockSize →
            st.currDumpB.block.length = st.currDumpB.blockSize →
            st1.currDumpB.clone.content = data) ∧
          st1.events = st.events ++ failEvents oft k 0 ++ [DumpEvent.read oft k true] ∧
          st1.arcMgr.dumpOut = st.arcMgr.dumpOut ++ [st1.currDumpB.clone] ∧
          st1.arcMgr.digestOut = st.arcMgr.digestOut ++ [st1.currDigestB.clone] ∧
          (st1.arcMgr.rdiffOut = st.arcMgr.rdiffOut ∨
            st1.arcMgr.rdiffOut = st.arcMgr.rdiffOut ++ [st1.prevDumpB.clone]))) ∧
    ((∀ j, j < 10 → env.readBlock oft j = none) →
      (∀ j, 1 ≤ j → j < 9 →
        env.close oft j = true ∧ env.reset oft j = true ∧ env.reopen oft j = true) →
      retryRead env oft 10 st.currDumpB.block st.events =
        ((st.currDumpB.block, st.events ++ failEvents oft 9 0 ++
          ([DumpEvent.read oft 9 false] ++
            (if env.close oft 9 = true then [DumpEvent.close true, DumpEvent.stop]
             else [DumpEvent.close false]))), Res.throw) ∧
      ∀ am1 p1 g1, env.isSignal oft = false →
        st.arcMgr.readFromStreams ndebug env.md5 st.prevDumpB st.prevDigestB =
          ((am1, p1, g1), Res.ok ()) →
        (am1.mode ≠ DumpMode.DUMPMODE_INCR ∨
          env.changedBlockBitmap.get ndebug oft = Res.ok true) →
        (dumpStep ndebug env oft st).2 = Res.throw ∧
        (dumpStep ndebug env oft st).1.arcMgr.dumpOut = st.arcMgr.dumpOut ∧
        (dumpStep ndebug env oft st).1.arcMgr.digestOut = st.arcMgr.digestOut ∧
        (dumpStep ndebug env oft st).1.arcMgr.rdiffOut = st.arcMgr.rdiffOut) := by
  refine ⟨retryRead_attempts env oft 10 _ _, ?_, ?_⟩
  · intro k data hk hf hs hrs
    have h1 := retryRead_fail_then_ok env oft data k 0 st.currDumpB.block st.events
      (by omega) (fun j _ h => hf j (by omega)) (by simpa using hs)
      (fun j _ h h1 => hrs j (by omega) h1)
    simp only [Nat.sub_zero, Nat.zero_add] at h1
    refine ⟨h1, ?_⟩
    intro hsig hr2 hneed hready
    obtain ⟨st1, hstep⟩ := dumpStep_after_read ndebug env oft st _ _ hsig hr2 hneed h1 hready
    refine ⟨st1, hstep, ?_⟩
    obtain ⟨am1, flag, _, hr, hcur, _, _, hst, _, _⟩ := dumpStep_ok ndebug env oft st st1 hstep
    have hfr := readFromStreams_frame ndebug env.md5 st.arcMgr st.prevDumpB st.prevDigestB
    simp only [hr] at hfr
    obtain ⟨⟨din, gin, hfr1, _⟩, _, _, _⟩ := hfr
    have hmode : am1.mode = st.arcMgr.mode := by rw [hfr1]
    have ho1 : am1.dumpOut = st.arcMgr.dumpOut := by rw [hfr1]
    have ho2 : am1.digestOut = st.arcMgr.digestOut := by rw [hfr1]
    have ho3 : am1.rdiffOut = st.arcMgr.rdiffOut := by rw [hfr1]
    rcases hcur with ⟨buf, _, hx, hc⟩ | ⟨hm, hb, _⟩
    · rw [h1] at hx
      simp only [Prod.mk.injEq, and_true] at hx
      obtain ⟨hb, he⟩ := hx
      refine ⟨?_, ?_, ?_, he.symm, ?_, ?_, ?_⟩
      · rw [hc, ← hb]; rfl
      · rw [hc]; rfl
      · intro hd hl
        rw [hc, ← hb, copyInto_same_length _ _ (by rw [hd, hl])]
        exact written_content st.currDumpB data oft hd
      · rw [hst]; simp only [ho1]
      · rw [hst]; simp only [ho2]
      · rw [hst]; simp only [ho3]
        by_cases hq : (am1.mode.isDiffOrIncr && flag) = true
        · right; rw [if_pos hq]
        · left; rw [if_neg hq]; simp
    · rcases hneed with h | h
      · rw [hmode] at hm; exact absurd hm h
      · rw [hb] at h; simp at h
  · intro hf hrs
    have h1 := retryRead_all_fail env oft st.currDumpB.block st.events hf hrs
    refine ⟨h1, ?_⟩
    intro am1 p1 g1 hsig hr hneed
    exact dumpStep_read_throws ndebug env oft st am1 p1 g1 hsig hr hneed (by rw [h1])

set_option maxRecDepth 100000 in
/-- Witness of `read_retry`: in the diff dump of generation 1 over the flaky provider,
the iteration for offset 2 reads twice in vain, resets the provider after the second
failure, gets the block at the third attempt and returns, having written that block;
the whole dump then completes with the four blocks of generation 1 on `dump_out`. -/
theorem read_retry_witness :
    (∀ j, j < 2 → envFlaky.readBlock 2 j = none) ∧
    envFlaky.readBlock 2 2 = some (fill512 67) ∧
    WriteReady stateFlaky2 ∧
    (∃ st1, dumpStep false envFlaky 2 stateFlaky2 = (st1, Res.ok ()) ∧
      st1.currDumpB.clone.content = fill512 67 ∧
      st1.events = [DumpEvent.read 0 0 true, DumpEvent.read 1 0 true,
        DumpEvent.read 2 0 false, DumpEvent.read 2 1 false, DumpEvent.close true,
        DumpEvent.pause, DumpEvent.reset true, DumpEvent.resume, DumpEvent.reopen true,
        DumpEvent.read 2 2 true] ∧
      st1.arcMgr.dumpOut = stateFlaky2.arcMgr.dumpOut ++ [st1.currDumpB.clone] ∧
      st1.arcMgr.digestOut = stateFlaky2.arcMgr.digestOut ++ [st1.currDigestB.clone]) ∧
    (doDump false utcTimeLib sysGen1 envFlaky vmdkInfoGen0 [] cfgDiffGen1).2 = Res.ok () ∧
    (doDump false utcTimeLib sysGen1 envFlaky vmdkInfoGen0 [] cfgDiffGen1).1.map
      (fun st => st.arcMgr.dumpOut) = some dumpGen1.blocks := by
  have hw : WriteReady stateFlaky2 := by decide
  obtain ⟨st1, h1, _, _, h4, h5, h6, h7, _⟩ :=
    ((read_retry false envFlaky 2 stateFlaky2).2.1 2 (fill512 67) (by decide)
      (by decide) (by decide) (by decide)).2 (by decide) (by decide) (by decide)
      (Or.inr hw)
  exact ⟨by decide, by decide, hw,
    ⟨st1, h1, h4 (by decide) (by decide), h5, h6, h7⟩, by decide, by decide⟩

/-! ## The consistency gate of `readFromStreams` -/

/-- **C22.** In a diff or incr dump, if the digest computed from the previous dump
block read for the offset differs from the previous digest block read for it,
`readFromStreams` throws, the iteration ends with that error, and so does the loop,
before anything is written to `dump_out`, `digest_out` or `rdiff_out` for the offset.
In full mode `readFromStreams` reads nothing and returns. -/
theorem digest_gate (ndebug : Bool) (env : DumpEnv) (oft : Nat) (st : DumpState)
    (hcmd : st.arcMgr.cmd = BackupCommand.CMD_DUMP) :
    (st.arcMgr.mode.isDiffOrIncr = true →
      st.arcMgr.isOpenDumpIn = true → st.arcMgr.isOpenDigestIn = true →
      ∀ p restP q restQ dumpB1 chk,
        st.arcMgr.dumpIn = p :: restP → st.arcMgr.digestIn = q :: restQ →
        st.prevDumpB.copyDataFrom ndebug p = Res.ok dumpB1 →
        VmdkDigestBlock.new.set ndebug env.md5 dumpB1 = Res.ok chk →
        chk.eq ndebug (st.prevDigestB.copyDataFrom q) = Res.ok false →
        st.arcMgr.readFromStreams ndebug env.md5 st.prevDumpB st.prevDigestB =
          (({ st.arcMgr with dumpIn := restP, digestIn := restQ }, dumpB1,
            st.prevDigestB.copyDataFrom q), Res.throw) ∧
        (dumpStep ndebug env oft st).2 = Res.throw ∧
        (dumpStep ndebug env oft st).1.arcMgr.dumpOut = st.arcMgr.dumpOut ∧
        (dumpStep ndebug env oft st).1.arcMgr.digestOut = st.arcMgr.digestOut ∧
        (dumpStep ndebug env oft st).1.arcMgr.rdiffOut = st.arcMgr.rdiffOut ∧
        ∀ n, (dumpLoop ndebug env (n + 1) oft st).2 = Res.throw ∧
          (dumpLoop ndebug env (n + 1) oft st).1.arcMgr.dumpOut = st.arcMgr.dumpOut ∧
          (dumpLoop ndebug env (n + 1) oft st).1.arcMgr.digestOut = st.arcMgr.digestOut ∧
          (dumpLoop ndebug env (n + 1) oft st).1.arcMgr.rdiffOut = st.arcMgr.rdiffOut) ∧
    (st.arcMgr.mode = DumpMode.DUMPMODE_FULL →
      st.arcMgr.readFromStreams ndebug env.md5 st.prevDumpB st.prevDigestB =
        ((st.arcMgr, st.prevDumpB, st.prevDigestB), Res.ok ())) := by
  have hc0 : cassert ndebug (st.arcMgr.cmd == BackupCommand.CMD_DUMP) = Res.ok () :=
    cassert_of _ _ (Or.inr (by simp [hcmd]))
  constructor
  · intro hm hod hog p restP q restQ dumpB1 chk hP hQ hcp hset hne
    have hread : st.arcMgr.readFromStreams ndebug env.md5 st.prevDumpB st.prevDigestB =
        (({ st.arcMgr with dumpIn := restP, digestIn := restQ }, dumpB1,
          st.prevDigestB.copyDataFrom q), Res.throw) := by
      have h1 : st.arcMgr.readFromDump ndebug st.prevDumpB =
          Res.ok ({ st.arcMgr with dumpIn := restP }, dumpB1) := by
        simp [ArchiveManager.readFromDump, cassert_of _ _ (Or.inr hod), hP, hcp, Res.bind]
      have h2 : ArchiveManager.readFromDigest ndebug { st.arcMgr with dumpIn := restP }
          st.prevDigestB =
          Res.ok ({ st.arcMgr with dumpIn := restP, digestIn := restQ },
            st.prevDigestB.copyDataFrom q) := by
        simp [ArchiveManager.readFromDigest, cassert_of _ _ (Or.inr hog), hQ, Res.bind]
      simp only [ArchiveManager.readFromStreams, hc0, stepRes_ok, hm, if_true, h1, h2, hset,
        hne, checkAndThrow]
      rfl
    obtain ⟨g1, g2, g3, g4⟩ := dumpStep_gate_throws ndebug env oft st _ _ _ hread
    refine ⟨hread, g1, g2, g3, g4, fun n => ?_⟩
    unfold dumpLoop
    cases hx : dumpStep ndebug env oft st with
    | mk st1 r =>
      rw [hx] at g1 g2 g3 g4
      simp only at g1 g2 g3 g4
      subst g1
      exact ⟨rfl, g2, g3, g4⟩
  · intro hm
    have hnd : st.arcMgr.mode.isDiffOrIncr = false := by rw [hm]; rfl
    simp only [ArchiveManager.readFromStreams, hc0, stepRes_ok, hnd, Bool.false_eq_true,
      if_false]
    rw [cassert_of _ _ (Or.inr (by simp [hm]))]

set_option maxRecDepth 100000 in
/-- Witness of `digest_gate`: with the corrupted `digest_in` of `amDiffCorrupt` the
first iteration of the diff dump of generation 1 ends with the exception of the
consistency check and writes nothing. -/
theorem digest_gate_witness :
    (DumpState.init amDiffCorrupt 512).arcMgr.cmd = BackupCommand.CMD_DUMP ∧
    (dumpStep false (envSample sourceGen1) 0 (DumpState.init amDiffCorrupt 512)).2 =
      Res.throw ∧
    (dumpStep false (envSample sourceGen1) 0
      (DumpState.init amDiffCorrupt 512)).1.arcMgr.dumpOut = [] := by
  have h := (digest_gate false (envSample sourceGen1) 0 (DumpState.init amDiffCorrupt 512)
    rfl).1 rfl rfl rfl (zeroBlock 0) [dataBlock 1 65, zeroBlock 2, dataBlock 3 66]
    (dataDigest 88) [dataDigest 65, zeroDigest, dataDigest 66]
    { VmdkDumpBlock.fresh 512 with offset := 0, isAllZero := Boolean.BTRUE }
    { isAllZero := Boolean.BTRUE, digest := List.replicate 16 0 }
    rfl rfl (by decide) (by decide) (by decide)
  exact ⟨rfl, h.2.1, h.2.2.1⟩

/-! ## Invariants of a dump run -/

/-- A successful iteration takes the loop invariant from offset `o` to `o + 1`. -/
theorem dumpStep_runInv (ndebug : Bool) (env : DumpEnv) (bs : Nat) (P : List VmdkDumpBlock)
    (o : Nat) (st st1 : DumpState) (hinv : RunInv bs P o st)
    (h : dumpStep ndebug env o st = (st1, Res.ok ())) :
    RunInv bs P (o + 1) st1 ∧ st1.arcMgr.mode = st.arcMgr.mode := by
  obtain ⟨am1, flag, _, hr, hcur, hset, _, hst, _, _⟩ := dumpStep_ok ndebug env o st st1 h
  have hfr := readFromStreams_frame ndebug env.md5 st.arcMgr st.prevDumpB st.prevDigestB
  simp only [hr] at hfr
  obtain ⟨⟨din, gin, hfr1, _⟩, hpl, hpb, _⟩ := hfr
  have hmode : am1.mode = st.arcMgr.mode := by rw [hfr1]
  have ho1 : am1.dumpOut = st.arcMgr.dumpOut := by rw [hfr1]
  have ho2 : am1.digestOut = st.arcMgr.digestOut := by rw [hfr1]
  have hmode1 : st1.arcMgr.mode = st.arcMgr.mode := by rw [hst]; exact hmode
  have hrest := readFromStreams_ok _ _ _ _ _ _ _ _ hr
  -- the current block
  have hc : st1.currDumpB.block.length = bs ∧ st1.currDumpB.blockSize = bs ∧
      ((∀ (k : Nat) (p : VmdkDumpBlock), P[k]? = some p → p.offset = k) →
        st1.currDumpB.offset = o) := by
    rcases hcur with ⟨buf, _, hrr, hceq⟩ | ⟨hm, _, hcp, hca, _⟩
    · have hl := retryRead_length env o 10 st.currDumpB.block st.events
      rw [hrr] at hl
      simp only at hl
      rw [hceq]
      refine ⟨?_, ?_, fun _ => rfl⟩
      · simp [VmdkDumpBlock.setOffset, VmdkDumpBlock.setIsAllZero, hl, hinv.curr_len]
      · simp [VmdkDumpBlock.setOffset, VmdkDumpBlock.setIsAllZero, hinv.curr_bs]
    · have hceq := dumpBlock_copyDataFrom_eq_ok _ _ _ _ hcp
      have hdi : st.arcMgr.mode.isDiffOrIncr = true := by rw [← hmode, hm]; rfl
      obtain ⟨p, restP, q, restQ, chk, hPi, _, _, hpc, _⟩ := hrest.1 hdi
      have hpeq := dumpBlock_copyDataFrom_eq_ok _ _ _ _ hpc
      have hdrop := hinv.din hdi
      rw [hPi] at hdrop
      have hpo : P[o]? = some p := by
        have := congrArg (fun l => l[0]?) hdrop
        simpa using this.symm
      rw [hceq]
      refine ⟨?_, hinv.curr_bs, ?_⟩
      · simp only
        split
        · rw [copyInto_length]; exact hinv.curr_len
        · exact hinv.curr_len
      · intro hP
        simp only [hpeq]
        exact hP o p hpo
  refine ⟨⟨hc.1, hc.2.1, by rw [hpl]; exact hinv.prev_len, by rw [hpb]; exact hinv.prev_bs,
    by rw [set_digest_length _ _ _ _ _ hset]; exact hinv.dig_len, ?_, ?_, ?_, ?_⟩, hmode1⟩
  · intro hdi
    rw [hmode1] at hdi
    obtain ⟨p, restP, q, restQ, chk, hPi, _, ham1, _⟩ := hrest.1 hdi
    have hdrop := hinv.din hdi
    rw [hPi] at hdrop
    rw [hst]
    simp only
    rw [ham1]
    simp only
    have : P.drop (o + 1) = (P.drop o).tail := by simp [List.tail_drop]
    rw [this, ← hdrop]
    rfl
  · rw [hst]; simp [ho1, hinv.out_len]
  · rw [hst]; simp [ho2, hinv.dg_len]
  · intro hP k w hk
    rw [hst] at hk
    simp only [ho1] at hk
    by_cases hlt : k < st.arcMgr.dumpOut.length
    · rw [List.getElem?_append_left hlt] at hk
      exact hinv.offs hP k w hk
    · rw [List.getElem?_append_right (Nat.le_of_not_lt hlt)] at hk
      have hk0 : k - st.arcMgr.dumpOut.length = 0 := by
        by_contra hne
        rw [List.getElem?_eq_none (by simp; omega)] at hk
        cases hk
      rw [hk0] at hk
      simp only [List.getElem?_cons_zero, Option.some.injEq] at hk
      rw [← hk]
      simp only [VmdkDumpBlock.clone, hc.2.2 hP]
      have := hinv.out_len
      omega

/-- A loop that returns has run the invariant from offset `o` to `o + n`. -/
theorem dumpLoop_runInv (ndebug : Bool) (env : DumpEnv) (bs : Nat) (P : List VmdkDumpBlock) :
    ∀ (n o : Nat) (st st1 : DumpState), RunInv bs P o st →
      dumpLoop ndebug env n o st = (st1, Res.ok ()) → RunInv bs P (o + n) st1 := by
  intro n
  induction n with
  | zero =>
    intro o st st1 hinv h
    simp only [dumpLoop, Prod.mk.injEq, and_true] at h
    subst h
    exact hinv
  | succ n ih =>
    intro o st st1 hinv h
    unfold dumpLoop at h
    cases hx : dumpStep ndebug env o st with
    | mk s r =>
      rw [hx] at h
      cases r with
      | throw => simp at h
      | abort => simp at h
      | ok _ =>
        simp only at h
        have := (dumpStep_runInv ndebug env bs P o st s hinv hx).1
        have h2 := ih (o + 1) s st1 this h
        rw [show o + (n + 1) = o + 1 + n by omega]
        exact h2

theorem runInv_init (am : ArchiveManager) (bs : Nat) (P : List VmdkDumpBlock)
    (hin : am.dumpIn = P) (hd : am.dumpOut = []) (hg : am.digestOut = []) :
    RunInv bs P 0 (DumpState.init am bs) := by
  refine ⟨?_, rfl, ?_, rfl, ?_, ?_, ?_, ?_, ?_⟩
  · simp [DumpState.init, VmdkDumpBlock.fresh]
  · simp [DumpState.init, VmdkDumpBlock.fresh]
  · simp [DumpState.init, VmdkDigestBlock.new]
  · intro _; simp [DumpState.init, hin]
  · simp [DumpState.init, hd]
  · simp [DumpState.init, hg]
  · intro _ k w hk; simp [DumpState.init, hd] at hk

/-- A dump command that completes leaves the loop invariant at the last offset, with the
header it wrote to `dump_out` describing `vmdkInfo.nBlocks` blocks. -/
theorem doDump_runInv (ndebug : Bool) (lib : TimeLib) (sys : SysEnv) (env : DumpEnv)
    (vmdkInfo : VmdkInfo) (metadata : StringMap) (cfg : ArchiveConfig) (st : DumpState)
    (hrun : doDump ndebug lib sys env vmdkInfo metadata cfg = (some st, Res.ok ())) :
    RunInv cfg.blocksize cfg.dumpInBlocks
      (if cfg.numReadBlockForTest == 0 then vmdkInfo.nBlocks else cfg.numReadBlockForTest) st ∧
    ∃ h, st.arcMgr.dumpOutH = some h ∧ h.diskSize = vmdkInfo.nBlocks ∧
      h.blockSize = cfg.blocksize := by
  rcases doDump_reach ndebug lib sys env vmdkInfo metadata cfg with hn |
    ⟨am0, prev, hs, amH, am1, bmp, _, hnew, _, hset, hH, _, _, ⟨is, h1⟩, _, hrun1⟩
  · rw [hrun] at hn; cases hn
  obtain ⟨_, _, _, _, _, _, _, _, hin, _, hd, hg, _⟩ := archiveManager_new_ok cfg am0 hnew
  obtain ⟨hcd, _⟩ := setHeaders_ok _ _ _ _ _ _ _ _ _ _ _ hset
  rw [hrun] at hrun1
  simp only [Prod.mk.injEq, Option.some.injEq] at hrun1
  obtain ⟨e1, e2⟩ := hrun1
  have e2 := ((leave_eq_ok _ _ _ _).1 e2.symm).1.symm
  generalize hmax : (if cfg.numReadBlockForTest == 0 then vmdkInfo.nBlocks
    else cfg.numReadBlockForTest) = maxOft at e1 e2 ⊢
  have hfr := dumpLoop_frame ndebug { env with changedBlockBitmap := bmp } maxOft 0
    (DumpState.init am1 cfg.blocksize)
  unfold doDumpBlocks at e1 e2
  cases hc : cassert ndebug (cfg.blocksize % VIXDISKLIB_SECTOR_SIZE == 0) with
  | throw => rw [hc] at e2; simp [stepRes] at e2
  | abort => rw [hc] at e2; simp [stepRes] at e2
  | ok _ =>
    rw [hc, stepRes_ok] at e1 e2
    have hloop : dumpLoop ndebug { env with changedBlockBitmap := bmp } maxOft 0
        (DumpState.init am1 cfg.blocksize) = (st, Res.ok ()) := by
      rw [Prod.ext_iff]; exact ⟨e1.symm, e2.symm⟩
    have hinit : RunInv cfg.blocksize cfg.dumpInBlocks 0 (DumpState.init am1 cfg.blocksize) :=
      runInv_init am1 cfg.blocksize cfg.dumpInBlocks (by rw [h1, hH]; exact hin)
        (by rw [h1, hH]; exact hd) (by rw [h1, hH]; exact hg)
    have hfin := dumpLoop_runInv ndebug _ cfg.blocksize cfg.dumpInBlocks maxOft 0 _ st
      hinit hloop
    rw [Nat.zero_add] at hfin
    refine ⟨hfin, hs.currDumpH, ?_, ?_, ?_⟩
    · obtain ⟨din, gin, dout, gout, rout, hf, _⟩ := hfr
      rw [hloop] at hf
      simp only at hf
      rw [hf]
      simp [DumpState.init, h1, hH]
    · rw [hcd]
    · rw [hcd]

/-- **C18.** A dump command run without the test option `--nread`
(`numReadBlockForTest = 0`) that completes, in any mode and any build, has put on
`dump_out` exactly one block per offset below the disk size `vmdkInfo.nBlocks` it wrote
into the header, the `k`-th block having offset `k`, and on `digest_out` exactly that
many digest blocks.  In incr mode the blocks at offsets with a clear bit are copies of
the blocks of `dump_in`, whose `k`-th block has offset `k`. -/
theorem dump_covers_every_offset (ndebug : Bool) (lib : TimeLib) (sys : SysEnv)
    (env : DumpEnv) (vmdkInfo : VmdkInfo) (metadata : StringMap) (cfg : ArchiveConfig)
    (st : DumpState)
    (hnread : cfg.numReadBlockForTest = 0)
    (hP : ∀ (k : Nat) (p : VmdkDumpBlock), cfg.dumpInBlocks[k]? = some p → p.offset = k)
    (hrun : doDump ndebug lib sys env vmdkInfo metadata cfg = (some st, Res.ok ())) :
    (∃ h, st.arcMgr.dumpOutH = some h ∧ h.diskSize = vmdkInfo.nBlocks) ∧
    st.arcMgr.dumpOut.length = vmdkInfo.nBlocks ∧
    st.arcMgr.digestOut.length = vmdkInfo.nBlocks ∧
    (∀ k, k < vmdkInfo.nBlocks → ∃ w, st.arcMgr.dumpOut[k]? = some w ∧ w.offset = k) := by
  obtain ⟨hinv, h, hh, hd, _⟩ := doDump_runInv ndebug lib sys env vmdkInfo metadata cfg st hrun
  simp only [hnread, beq_self_eq_true, if_true] at hinv
  refine ⟨⟨h, hh, hd⟩, hinv.out_len, hinv.dg_len, fun k hk => ?_⟩
  have hlt : k < st.arcMgr.dumpOut.length := by rw [hinv.out_len]; exact hk
  exact ⟨st.arcMgr.dumpOut[k], List.getElem?_eq_getElem hlt,
    hinv.offs hP k _ (List.getElem?_eq_getElem hlt)⟩

set_option maxRecDepth 100000 in
/-- Witness of `dump_covers_every_offset`: the incr dump of `sourceGen1` against
`dumpGen0`, with the bitmap `[52,0,32]`-encoded in `cfgIncrGen1`. -/
theorem dump_covers_every_offset_witness :
    cfgIncrGen1.numReadBlockForTest = 0 ∧
    (∀ (k : Nat) (p : VmdkDumpBlock), cfgIncrGen1.dumpInBlocks[k]? = some p → p.offset = k) ∧
    ∃ st, doDump false utcTimeLib sysGen1 (envSample sourceGen1) vmdkInfoGen0 []
            cfgIncrGen1 = (some st, Res.ok ()) ∧
      (∃ h, st.arcMgr.dumpOutH = some h ∧ h.diskSize = vmdkInfoGen0.nBlocks) ∧
      st.arcMgr.dumpOut.length = vmdkInfoGen0.nBlocks ∧
      st.arcMgr.digestOut.length = vmdkInfoGen0.nBlocks ∧
      (∀ k, k < vmdkInfoGen0.nBlocks →
        ∃ w, st.arcMgr.dumpOut[k]? = some w ∧ w.offset = k) := by
  have hok : (doDump false utcTimeLib sysGen1 (envSample sourceGen1) vmdkInfoGen0 []
      cfgIncrGen1).2 = Res.ok () := by decide
  have hsome : (doDump false utcTimeLib sysGen1 (envSample sourceGen1) vmdkInfoGen0 []
      cfgIncrGen1).1.isSome = true := by decide
  have hP : ∀ (k : Nat) (p : VmdkDumpBlock),
      cfgIncrGen1.dumpInBlocks[k]? = some p → p.offset = k := by
    intro k p hk
    have e : cfgIncrGen1.dumpInBlocks =
        [zeroBlock 0, dataBlock 1 65, zeroBlock 2, dataBlock 3 66] := rfl
    rw [e] at hk
    rcases k with _ | _ | _ | _ | k <;> simp at hk <;> (subst hk; rfl)
  cases hst : doDump false utcTimeLib sysGen1 (envSample sourceGen1) vmdkInfoGen0 []
      cfgIncrGen1 with
  | mk s r =>
    rw [hst] at hok hsome
    simp only at hok hsome
    cases s with
    | none => cases hsome
    | some st =>
      subst hok
      exact ⟨rfl, hP, st, rfl,
        dump_covers_every_offset false utcTimeLib sysGen1 (envSample sourceGen1)
          vmdkInfoGen0 [] cfgIncrGen1 st rfl hP hst⟩

/-! ## A dump of an unchanged source writes no rdiff block -/

theorem all_zero_replicate (n : Nat) :
    (List.replicate n 0).all (fun x => x == 0) = true := by
  induction n with
  | zero => rfl
  | succ n ih => rw [List.replicate_succ, List.all_cons, ih]; rfl

/-- An iteration over a block that the source holds unchanged leaves `rdiff_out` as it
was, however the iteration ends. -/
theorem dumpStep_no_rdiff (ndebug : Bool) (env : DumpEnv) (bs : Nat) (P : List VmdkDumpBlock)
    (hmd5 : ∀ x, (env.md5 x).length = MD5_DIGEST_LENGTH)
    (hPwf : ∀ p ∈ P, p.isAllZero ≠ Boolean.BNULL ∧ p.blockSize = bs ∧
      (p.isAllZero = Boolean.BFALSE →
        p.block.length = bs ∧ p.block.all (fun x => x == 0) = false))
    (hsame : ∀ (o k : Nat) (data : ByteArray), env.readBlock o k = some data →
      ∃ p, P[o]? = some p ∧ data = p.content)
    (o : Nat) (st : DumpState) (hinv : RunInv bs P o st)
    (hdi : st.arcMgr.mode.isDiffOrIncr = true) :
    (dumpStep ndebug env o st).1.arcMgr.rdiffOut = st.arcMgr.rdiffOut := by
  rcases dumpStep_reach ndebug env o st with ⟨_, _, h3, _⟩ |
    ⟨am1, prevDumpB1, prevDigestB1, c, ev1, d, hsig, hr, hcur, hset, hx1⟩
  · exact h3
  have hrest := (readFromStreams_ok _ _ _ _ _ _ _ _ hr).1 hdi
  obtain ⟨p, restP, q, restQ, chk, hPi, _, ham1, hpc, hq, hchk, hchkeq⟩ := hrest
  have hdrop := hinv.din hdi
  rw [hPi] at hdrop
  have hpo : P[o]? = some p := by
    have := congrArg (fun l => l[0]?) hdrop
    simpa using this.symm
  have hpmem : p ∈ P := by
    obtain ⟨hlt, heq⟩ := List.getElem?_eq_some.1 hpo
    rw [← heq]
    exact List.getElem_mem hlt
  obtain ⟨hpn, hpbs, hpf⟩ := hPwf p hpmem
  have hpeq := dumpBlock_copyDataFrom_eq_ok _ _ _ _ hpc
  have hmode : am1.mode = st.arcMgr.mode := by rw [ham1]
  have hro : am1.rdiffOut = st.arcMgr.rdiffOut := by rw [ham1]
  -- the check block and the digest read
  obtain ⟨_, hchkf, hchkd⟩ := digestSet_ok _ _ _ _ _ hchk
  obtain ⟨_, hce⟩ := digestEq_ok _ _ _ _ hchkeq
  have hp1f : prevDumpB1.isAllZero = p.isAllZero := by rw [hpeq]
  have hflag : p.isAllZero = Boolean.BTRUE ∨ p.isAllZero = Boolean.BFALSE := by
    generalize p.isAllZero = f at hpn
    cases f <;> simp at hpn ⊢
  -- the current block has the flag of `p` and, when not all-zero, its payload
  have hcf : c.isAllZero = p.isAllZero ∧ c.blockSize = bs ∧
      (p.isAllZero = Boolean.BFALSE → c.block = p.block) := by
    rcases hcur with ⟨buf, _, hrr, hceq⟩ | ⟨_, _, hcp, _, _⟩
    · obtain ⟨k, data, hrd, hbuf⟩ := retryRead_ok_data env o 10 _ _ _ _ (by omega) hrr
      obtain ⟨p1, hp1, hdata⟩ := hsame o k data hrd
      rw [hpo] at hp1
      have e := Option.some.inj hp1
      subst e
      have hdl : data.length = st.currDumpB.block.length := by
        rw [hdata, hinv.curr_len]
        unfold VmdkDumpBlock.content
        rcases hflag with hf | hf
        · rw [if_pos hf, List.length_replicate]; exact hpbs
        · rw [if_neg (by rw [hf]; decide)]; exact (hpf hf).1
      have hb : buf = data := by rw [hbuf]; exact copyInto_same_length _ _ hdl
      rw [hceq]
      refine ⟨?_, hinv.curr_bs, ?_⟩
      · simp only [VmdkDumpBlock.setOffset, VmdkDumpBlock.setIsAllZero, hb, hdata]
        unfold VmdkDumpBlock.content
        rcases hflag with hf | hf
        · rw [if_pos hf, all_zero_replicate, hf]; rfl
        · have hz := (hpf hf).2
          simp only [hf, reduceCtorEq, if_false, hz]
      · intro hf
        simp only [VmdkDumpBlock.setOffset, VmdkDumpBlock.setIsAllZero, hb, hdata]
        unfold VmdkDumpBlock.content
        simp only [hf, reduceCtorEq, if_false]
    · have hceq := dumpBlock_copyDataFrom_eq_ok _ _ _ _ hcp
      rw [hceq]
      refine ⟨hp1f, hinv.curr_bs, ?_⟩
      intro hf
      simp only [hp1f, hf, if_true]
      have hpl : prevDumpB1.block = p.block := by
        rw [hpeq]
        simp only [hf, if_true]
        exact copyInto_same_length _ _ (by rw [(hpf hf).1, hinv.prev_len])
      rw [hpl]
      exact copyInto_same_length _ _ (by rw [(hpf hf).1, hinv.curr_len])
  obtain ⟨_, hdf, hdd⟩ := digestSet_ok _ _ _ _ _ hset
  have hp1 : prevDumpB1.blockSize = bs ∧
      (p.isAllZero = Boolean.BFALSE → prevDumpB1.block = p.block) := by
    rw [hpeq]
    refine ⟨hinv.prev_bs, fun hf => ?_⟩
    simp only [hf, if_true]
    exact copyInto_same_length _ _ (by rw [(hpf hf).1, hinv.prev_len])
  -- the digest block read equals the digest of the current block
  have hne : ∀ v, prevDigestB1.ne ndebug d = Res.ok v → v = false := by
    intro v hv
    rw [digestNe_ok _ _ _ _ hv]
    have hce' := hce.symm
    simp only [Bool.and_eq_true, Bool.or_eq_true, beq_iff_eq] at hce'
    obtain ⟨hf1, hd1⟩ := hce'
    simp only [Bool.not_eq_false', Bool.and_eq_true, Bool.or_eq_true, beq_iff_eq]
    rcases hflag with hf | hf
    · rw [hp1f, hf] at hchkf
      simp only [if_true] at hchkf
      rw [hcf.1, hf] at hdf
      simp only [if_true] at hdf
      rw [← hf1, hchkf, hdf]
      exact ⟨rfl, Or.inl rfl⟩
    · rw [hp1f, hf] at hchkf hchkd
      simp only [reduceCtorEq, if_false] at hchkf hchkd
      rw [hcf.1, hf] at hdf hdd
      simp only [reduceCtorEq, if_false] at hdf hdd
      rw [hchkf] at hf1 hd1
      rcases hd1 with hd1 | hd1
      · cases hd1
      rw [← hf1, hdf]
      refine ⟨rfl, Or.inr ?_⟩
      rw [← hd1, hchkd, hdd, hcf.2.2 hf, hcf.2.1, (hp1.2 hf), hp1.1]
      rw [copyInto_same_length VmdkDigestBlock.new.digest _ (by rw [hmd5]; rfl)]
      rw [copyInto_same_length st.currDigestB.digest _ (by rw [hmd5, hinv.dig_len])]
  rw [hx1]
  simp only
  have hcases := writeToStreams_cases ndebug am1 prevDumpB1 prevDigestB1 c d
  simp only at hcases
  rcases hcases with ⟨e, _⟩ | ⟨e, _⟩ | ⟨e, _⟩ | ⟨e, _⟩ | ⟨e, _⟩ | ⟨e, _, _, hn⟩
  · rw [e, hro]
  · rw [e]; exact hro
  · rw [e]; exact hro
  · rw [e]; exact hro
  · rw [e]; exact hro
  · cases hne true hn

/-- The loop over a source that holds every block unchanged leaves `rdiff_out` as it
was, however it ends. -/
theorem dumpLoop_no_rdiff (ndebug : Bool) (env : DumpEnv) (bs : Nat) (P : List VmdkDumpBlock)
    (hmd5 : ∀ x, (env.md5 x).length = MD5_DIGEST_LENGTH)
    (hPwf : ∀ p ∈ P, p.isAllZero ≠ Boolean.BNULL ∧ p.blockSize = bs ∧
      (p.isAllZero = Boolean.BFALSE →
        p.block.length = bs ∧ p.block.all (fun x => x == 0) = false))
    (hsame : ∀ (o k : Nat) (data : ByteArray), env.readBlock o k = some data →
      ∃ p, P[o]? = some p ∧ data = p.content) :
    ∀ (n o : Nat) (st : DumpState), RunInv bs P o st →
      st.arcMgr.mode.isDiffOrIncr = true →
      (dumpLoop ndebug env n o st).1.arcMgr.rdiffOut = st.arcMgr.rdiffOut := by
  intro n
  induction n with
  | zero => intro o st _ _; rfl
  | succ n ih =>
    intro o st hinv hdi
    have hstep := dumpStep_no_rdiff ndebug env bs P hmd5 hPwf hsame o st hinv hdi
    unfold dumpLoop
    cases hx : dumpStep ndebug env o st with
    | mk s r =>
      rw [hx] at hstep
      simp only at hstep
      cases r with
      | throw => exact hstep
      | abort => exact hstep
      | ok _ =>
        simp only
        obtain ⟨hinv1, hm1⟩ := dumpStep_runInv ndebug env bs P o st s hinv hx
        rw [ih (o + 1) s hinv1 (by rw [hm1]; exact hdi)]
        exact hstep

/-- **C17.** In a diff or incr dump (any build, whether the run completes or fails in
its loop) in which every block the provider delivers has the content of the block of
`dump_in` at the same offset, and in which the blocks of `dump_in` have resolved flags,
the block size of the run, and, when not flagged all-zero, a payload of that size that
is not all zero, no block is written to `rdiff_out`: it holds only its header. -/
theorem no_rdiff_when_source_unchanged (ndebug : Bool) (lib : TimeLib) (sys : SysEnv)
    (env : DumpEnv) (vmdkInfo : VmdkInfo) (metadata : StringMap) (cfg : ArchiveConfig)
    (st : DumpState)
    (hmd5 : ∀ x, (env.md5 x).length = MD5_DIGEST_LENGTH)
    (hmode : cfg.mode.isDiffOrIncr = true)
    (hPwf : ∀ p ∈ cfg.dumpInBlocks, p.isAllZero ≠ Boolean.BNULL ∧ p.blockSize = cfg.blocksize ∧
      (p.isAllZero = Boolean.BFALSE →
        p.block.length = cfg.blocksize ∧ p.block.all (fun x => x == 0) = false))
    (hsame : ∀ (o k : Nat) (data : ByteArray), env.readBlock o k = some data →
      ∃ p, cfg.dumpInBlocks[o]? = some p ∧ data = p.content)
    (hst : (doDump ndebug lib sys env vmdkInfo metadata cfg).1 = some st) :
    st.arcMgr.rdiffOut = [] ∧ ∃ h, st.arcMgr.rdiffOutH = some h := by
  rcases doDump_reach ndebug lib sys env vmdkInfo metadata cfg with hn |
    ⟨am0, prev, hs, amH, am1, bmp, _, hnew, _, hset, hH, _, _, ⟨is, h1⟩, _, hrun1⟩
  · rw [hn] at hst; cases hst
  obtain ⟨_, hm0, _, _, _, _, _, _, hin, _, hd, hg, hr0, _⟩ := archiveManager_new_ok cfg am0 hnew
  rw [hrun1] at hst
  have e1 := Option.some.inj hst
  generalize hmax : (if cfg.numReadBlockForTest == 0 then vmdkInfo.nBlocks
    else cfg.numReadBlockForTest) = maxOft at e1
  have hm1 : am1.mode.isDiffOrIncr = true := by rw [h1, hH]; simp only; rw [hm0]; exact hmode
  have hloop := dumpLoop_no_rdiff ndebug { env with changedBlockBitmap := bmp } cfg.blocksize
    cfg.dumpInBlocks hmd5 hPwf hsame maxOft 0 (DumpState.init am1 cfg.blocksize)
    (runInv_init am1 cfg.blocksize cfg.dumpInBlocks (by rw [h1, hH]; exact hin)
      (by rw [h1, hH]; exact hd) (by rw [h1, hH]; exact hg)) hm1
  have hfr := dumpLoop_frame ndebug { env with changedBlockBitmap := bmp } maxOft 0
    (DumpState.init am1 cfg.blocksize)
  have hr1 : am1.rdiffOut = [] := by rw [h1, hH]; exact hr0
  have hh1 : am1.rdiffOutH = some hs.rdiffH := by
    rw [h1, hH]; simp only; rw [hm0, if_pos hmode]
  unfold doDumpBlocks at e1
  cases hc : cassert ndebug (cfg.blocksize % VIXDISKLIB_SECTOR_SIZE == 0) with
  | throw =>
    rw [hc] at e1
    simp only [stepRes] at e1
    rw [← e1]
    exact ⟨hr1, _, hh1⟩
  | abort =>
    rw [hc] at e1
    simp only [stepRes] at e1
    rw [← e1]
    exact ⟨hr1, _, hh1⟩
  | ok _ =>
    rw [hc, stepRes_ok] at e1
    rw [e1] at hloop hfr
    refine ⟨by rw [hloop]; exact hr1, hs.rdiffH, ?_⟩
    obtain ⟨din, gin, dout, gout, rout, hf, _⟩ := hfr
    rw [hf]
    exact hh1

set_option maxRecDepth 100000 in
/-- Witness of `no_rdiff_when_source_unchanged`: the diff dump of the unchanged source
`sourceGen0` against `dumpGen0`, which completes. -/
theorem no_rdiff_when_source_unchanged_witness :
    (∀ x, ((envSample sourceGen0).md5 x).length = MD5_DIGEST_LENGTH) ∧
    cfgDiffGen1.mode.isDiffOrIncr = true ∧
    (∀ p ∈ cfgDiffGen1.dumpInBlocks,
      p.isAllZero ≠ Boolean.BNULL ∧ p.blockSize = cfgDiffGen1.blocksize ∧
      (p.isAllZero = Boolean.BFALSE →
        p.block.length = cfgDiffGen1.blocksize ∧ p.block.all (fun x => x == 0) = false)) ∧
    (∀ (o k : Nat) (data : ByteArray), (envSample sourceGen0).readBlock o k = some data →
      ∃ p, cfgDiffGen1.dumpInBlocks[o]? = some p ∧ data = p.content) ∧
    ∃ st, doDump false utcTimeLib sysGen1 (envSample sourceGen0) vmdkInfoGen0 []
            cfgDiffGen1 = (some st, Res.ok ()) ∧
      st.arcMgr.dumpOut.length = 4 ∧
      st.arcMgr.rdiffOut = [] ∧ ∃ h, st.arcMgr.rdiffOutH = some h := by
  have hmd5 : ∀ x, ((envSample sourceGen0).md5 x).length = MD5_DIGEST_LENGTH := by
    intro x; simp [envSample, sample16, MD5_DIGEST_LENGTH]
  have hPwf : ∀ p ∈ cfgDiffGen1.dumpInBlocks,
      p.isAllZero ≠ Boolean.BNULL ∧ p.blockSize = cfgDiffGen1.blocksize ∧
      (p.isAllZero = Boolean.BFALSE →
        p.block.length = cfgDiffGen1.blocksize ∧ p.block.all (fun x => x == 0) = false) := by
    have e : cfgDiffGen1.dumpInBlocks =
        [zeroBlock 0, dataBlock 1 65, zeroBlock 2, dataBlock 3 66] := rfl
    rw [e]
    decide
  have hsame : ∀ (o k : Nat) (data : ByteArray),
      (envSample sourceGen0).readBlock o k = some data →
      ∃ p, cfgDiffGen1.dumpInBlocks[o]? = some p ∧ data = p.content := by
    intro o k data h
    have e : cfgDiffGen1.dumpInBlocks =
        [zeroBlock 0, dataBlock 1 65, zeroBlock 2, dataBlock 3 66] := rfl
    have e2 : (envSample sourceGen0).readBlock o k = sourceGen0[o]? := rfl
    rw [e2] at h
    rw [e]
    rcases o with _ | _ | _ | _ | o
    · exact ⟨_, rfl, by simp [sourceGen0] at h; rw [← h]; decide⟩
    · exact ⟨_, rfl, by simp [sourceGen0] at h; rw [← h]; decide⟩
    · exact ⟨_, rfl, by simp [sourceGen0] at h; rw [← h]; decide⟩
    · exact ⟨_, rfl, by simp [sourceGen0] at h; rw [← h]; decide⟩
    · simp [sourceGen0] at h
  have hok : (doDump false utcTimeLib sysGen1 (envSample sourceGen0) vmdkInfoGen0 []
      cfgDiffGen1).2 = Res.ok () := by decide
  have hlen : ((doDump false utcTimeLib sysGen1 (envSample sourceGen0) vmdkInfoGen0 []
      cfgDiffGen1).1.map fun st => st.arcMgr.dumpOut.length) = some 4 := by decide
  cases hst : doDump false utcTimeLib sysGen1 (envSample sourceGen0) vmdkInfoGen0 []
      cfgDiffGen1 with
  | mk s r =>
    rw [hst] at hok hlen
    simp only at hok hlen
    cases s with
    | none => cases hlen
    | some st =>
      subst hok
      exact ⟨hmd5, rfl, hPwf, hsame, st, rfl, Option.some.inj hlen,
        no_rdiff_when_source_unchanged false utcTimeLib sysGen1 (envSample sourceGen0)
          vmdkInfoGen0 [] cfgDiffGen1 st hmd5 rfl hPwf hsame (by rw [hst])⟩

set_option maxRecDepth 100000 in
/-- Counterexample to C18 as stated: with `--nread 1` the full dump of the 4-block disk
`sourceGen0` completes with a header of disk size 4 and a single block on `dump_out`
and on `digest_out`; and a run whose provider fails at offset 2 ends with an exception
after two blocks. -/
theorem dump_nread_stops_early :
    (doDump false utcTimeLib sysGen0 (envOf sourceGen0) vmdkInfoGen0 [] cfgFullNread1).2
      = Res.ok () ∧
    (doDump false utcTimeLib sysGen0 (envOf sourceGen0) vmdkInfoGen0 [] cfgFullNread1).1.map
      DumpState.written = some (some 4, [0], 1) ∧
    (doDump false utcTimeLib sysGen0 (envOf sourceShort) vmdkInfoGen0 [] cfgFull).2
      = Res.throw ∧
    (doDump false utcTimeLib sysGen0 (envOf sourceShort) vmdkInfoGen0 [] cfgFull).1.map
      DumpState.written = some (some 4, [0, 1], 2) := by
  refine ⟨by decide, by decide, by decide, by decide⟩

set_option maxRecDepth 100000 in
/-- **C3.** The diff dump of `sourceGen1` against the well-formed full dump `dumpGen0`
writes the dump `dumpGen1` and the rdiff `rdiffGen0to1`.  Reading the archive list
`[dumpGen1, rdiffGen0to1]` with `readBlock` from offset 0 to the disk size 4 does not
yield the blocks of `dumpGen0`: with assertions compiled in, the fourth call ends in
the failed assertion `assert(! dumpEofs_[i] && dumpBPs_[i].get() != NULL)`, the rdiff
having ended at offset 2.  Without assertions the four calls yield the four blocks of
`dumpGen0`. -/
theorem reverse_delta_read_aborts :
    (doDump false utcTimeLib sysGen1 (envSample sourceGen1) vmdkInfoGen0 [] cfgDiffGen1).2
      = Res.ok () ∧
    ((doDump false utcTimeLib sysGen1 (envSample sourceGen1) vmdkInfoGen0 []
        cfgDiffGen1).1.map fun st =>
      (st.arcMgr.dumpOutH, st.arcMgr.dumpOut, st.arcMgr.rdiffOutH, st.arcMgr.rdiffOut)) =
      some (some dumpGen1.header, dumpGen1.blocks,
            some rdiffGen0to1.header, rdiffGen0to1.blocks) ∧
    (do let m0 ← MultiArchiveManager.new false utcTimeLib [dumpGen1, rdiffGen0to1]
        let r1 ← m0.readBlock false (VmdkDumpBlock.fresh 512)
        let r2 ← r1.1.readBlock false r1.2.1
        let r3 ← r2.1.readBlock false r2.2.1
        let r4 ← r3.1.readBlock false r3.2.1
        pure [r1.2, r2.2, r3.2, r4.2]) = Res.abort ∧
    (do let m0 ← MultiArchiveManager.new true utcTimeLib [dumpGen1, rdiffGen0to1]
        let r1 ← m0.readBlock true (VmdkDumpBlock.fresh 512)
        let r2 ← r1.1.readBlock true r1.2.1
        let r3 ← r2.1.readBlock true r2.2.1
        let r4 ← r3.1.readBlock true r3.2.1
        pure [r1.2, r2.2, r3.2, r4.2]) =
      Res.ok [(zeroBlock 0, true), (dataBlock 1 65, true),
              ({ zeroBlock 2 with block := fill512 65 }, true), (dataBlock 3 66, true)] := by
  refine ⟨by decide, by decide, by decide, by decide⟩

/-! ## The digest of a full dump -/

/-- A successful iteration of a full dump appends a corresponding pair of blocks. -/
theorem dumpStep_fullPairs (ndebug : Bool) (env : DumpEnv)
    (hmd5 : ∀ x, (env.md5 x).length = MD5_DIGEST_LENGTH)
    (bs : Nat) (P : List VmdkDumpBlock) (o : Nat) (st st1 : DumpState)
    (hinv : RunInv bs P o st)
    (hp : FullPairs ndebug env.md5 bs st.arcMgr.dumpOut st.arcMgr.digestOut)
    (hm : st.arcMgr.mode.isDiffOrIncr = false)
    (h : dumpStep ndebug env o st = (st1, Res.ok ())) :
    FullPairs ndebug env.md5 bs st1.arcMgr.dumpOut st1.arcMgr.digestOut := by
  obtain ⟨hinv1, _⟩ := dumpStep_runInv ndebug env bs P o st st1 hinv h
  obtain ⟨am1, flag, _, hr, hcur, hset, _, hst, _, _⟩ := dumpStep_ok ndebug env o st st1 h
  obtain ⟨e1, _, _⟩ := (readFromStreams_ok _ _ _ _ _ _ _ _ hr).2 hm
  subst e1
  have hflag : st1.currDumpB.isAllZero ≠ Boolean.BNULL := by
    rcases hcur with ⟨buf, _, _, hceq⟩ | ⟨hmi, _⟩
    · rw [hceq]
      simp only [VmdkDumpBlock.setOffset, VmdkDumpBlock.setIsAllZero]
      split <;> simp
    · rw [hmi] at hm; cases hm
  have hlen : st1.currDumpB.block.length = st1.currDumpB.blockSize := by
    rw [hinv1.curr_len, hinv1.curr_bs]
  have hR := digestOf_clone ndebug env.md5 hmd5 st1.currDumpB st.currDigestB st1.currDigestB
    hlen hflag hinv.dig_len hset
  rw [hst]
  simp only
  unfold FullPairs
  refine List.rel_append hp (List.Forall₂.cons ⟨hflag, hinv1.curr_bs, ?_, hR⟩ List.Forall₂.nil)
  rw [clone_block_length]
  exact hinv1.curr_bs

theorem dumpLoop_fullPairs (ndebug : Bool) (env : DumpEnv)
    (hmd5 : ∀ x, (env.md5 x).length = MD5_DIGEST_LENGTH)
    (bs : Nat) (P : List VmdkDumpBlock) :
    ∀ (n o : Nat) (st st1 : DumpState), RunInv bs P o st →
      FullPairs ndebug env.md5 bs st.arcMgr.dumpOut st.arcMgr.digestOut →
      st.arcMgr.mode.isDiffOrIncr = false →
      dumpLoop ndebug env n o st = (st1, Res.ok ()) →
      FullPairs ndebug env.md5 bs st1.arcMgr.dumpOut st1.arcMgr.digestOut := by
  intro n
  induction n with
  | zero =>
    intro o st st1 _ hp _ h
    simp only [dumpLoop, Prod.mk.injEq, and_true] at h
    subst h
    exact hp
  | succ n ih =>
    intro o st st1 hinv hp hm h
    unfold dumpLoop at h
    cases hx : dumpStep ndebug env o st with
    | mk s r =>
      rw [hx] at h
      cases r with
      | throw => simp at h
      | abort => simp at h
      | ok _ =>
        simp only at h
        obtain ⟨hinv1, hm1⟩ := dumpStep_runInv ndebug env bs P o st s hinv hx
        exact ih (o + 1) s st1 hinv1
          (dumpStep_fullPairs ndebug env hmd5 bs P o st s hinv hp hm hx)
          (by rw [hm1]; exact hm) h

/-- The loop of `doDigest` over a well-formed list of dump blocks: it returns, having
consumed `dump_in` and appended the digest of every block to `digest_out`. -/
theorem digestLoop_spec (ndebug : Bool) (md5 : List Nat → List Nat)
    (hmd5 : ∀ x, (md5 x).length = MD5_DIGEST_LENGTH) (bs : Nat)
    (ws : List VmdkDumpBlock) (ds : List VmdkDigestBlock)
    (hp : FullPairs ndebug md5 bs ws ds) :
    ∀ (am : ArchiveManager) (prevDumpB : VmdkDumpBlock) (currDigestB : VmdkDigestBlock),
      am.dumpIn = ws → am.isOpenDumpIn = true → am.isOpenDigestOut = true →
      am.digestOutH.isSome = true →
      prevDumpB.blockSize = bs → prevDumpB.block.length = bs →
      currDigestB.digest.length = MD5_DIGEST_LENGTH →
      digestLoop ndebug md5 ws.length am prevDumpB currDigestB =
        ({ am with dumpIn := [], digestOut := am.digestOut ++ ds }, Res.ok ()) := by
  unfold FullPairs at hp
  induction hp with
  | nil =>
    intro am _ _ hin _ _ _ _ _ _
    simp only [List.length_nil, digestLoop, List.append_nil]
    rw [← hin]
  | @cons w d ws ds hwd _ ih =>
    intro am prevDumpB currDigestB hin hoi hoo hoh hpb hpl hdl
    obtain ⟨hwf, hwb, hwl, hwd⟩ := hwd
    have hread : am.readFromDump ndebug prevDumpB =
        Res.ok ({ am with dumpIn := ws },
          { prevDumpB with
            offset := w.offset
            isAllZero := w.isAllZero
            block := if w.isAllZero = Boolean.BFALSE then w.block else prevDumpB.block }) := by
      have hc1 : cassert ndebug am.isOpenDumpIn = Res.ok () := by
        rw [cassert_eq_ok]; exact Or.inr hoi
      have hc2 : cassert ndebug (prevDumpB.blockSize == w.blockSize) = Res.ok () := by
        rw [cassert_eq_ok]; right; simp [hpb, hwb]
      have hc3 : cassert ndebug (prevDumpB.block.length == w.block.length) = Res.ok () := by
        rw [cassert_eq_ok]; right; simp [hpl, hwl]
      have hci : copyInto prevDumpB.block w.block = w.block :=
        copyInto_same_length _ _ (by rw [hwl, hpl])
      simp only [ArchiveManager.readFromDump, res_bind_eq, hc1, Res.bind, hin,
        VmdkDumpBlock.copyDataFrom, hc2, hc3, res_pure_eq, hci]
    generalize hb : ({ prevDumpB with
        offset := w.offset
        isAllZero := w.isAllZero
        block := if w.isAllZero = Boolean.BFALSE then w.block else prevDumpB.block } :
        VmdkDumpBlock) = b at hread
    have hbf : b.isAllZero = w.isAllZero := by rw [← hb]
    have hbb : b.blockSize = bs := by rw [← hb]; exact hpb
    have hbl : b.block.length = bs := by
      rw [← hb]; simp only; split
      · exact hwl
      · exact hpl
    have hbk : w.isAllZero = Boolean.BFALSE → b.block = w.block := by
      intro hf; rw [← hb]; simp only [hf, if_true]
    -- the digest of the block read
    have hgz : b.getIsAllZero ndebug = Res.ok (b.isAllZero == Boolean.BTRUE) :=
      getIsAllZero_of_resolved ndebug b (by rw [hbf]; exact hwf)
    have hgw : w.getIsAllZero ndebug = Res.ok (w.isAllZero == Boolean.BTRUE) :=
      getIsAllZero_of_resolved ndebug w hwf
    cases hset : currDigestB.set ndebug md5 b with
    | throw => simp [VmdkDigestBlock.set, hgz] at hset
    | abort => simp [VmdkDigestBlock.set, hgz] at hset
    | ok d1 =>
      have hd1l : d1.digest.length = MD5_DIGEST_LENGTH := by
        rw [set_digest_length _ _ _ _ _ hset]; exact hdl
      obtain ⟨_, hd1f, hd1d⟩ := digestSet_ok _ _ _ _ _ hset
      obtain ⟨_, hdf, hdd⟩ := digestSet_ok _ _ _ _ _ hwd
      have hflag : w.isAllZero = Boolean.BTRUE ∨ w.isAllZero = Boolean.BFALSE := by
        generalize w.isAllZero = f at hwf
        cases f <;> simp at hwf ⊢
      have hclone : d1.clone = d := by
        have hdc : ∀ (x y : VmdkDigestBlock), x.isAllZero = y.isAllZero →
            x.digest = y.digest → x = y := by
          intro x y h1 h2; cases x; cases y; simp_all
        rcases hflag with hf | hf
        · rw [hbf, hf] at hd1f
          rw [hf] at hdf hdd
          simp only [if_true] at hd1f hdf hdd
          apply hdc
          · simp [VmdkDigestBlock.clone, VmdkDigestBlock.copyDataFrom, hd1f, hdf]
          · simp [VmdkDigestBlock.clone, VmdkDigestBlock.copyDataFrom, hd1f, hdd]
        · rw [hbf, hf] at hd1f hd1d
          rw [hf] at hdf hdd
          simp only [reduceCtorEq, if_false] at hd1f hd1d hdf hdd
          rw [copyInto_same_length currDigestB.digest _ (by rw [hmd5, hdl])] at hd1d
          rw [copyInto_same_length VmdkDigestBlock.new.digest _ (by rw [hmd5]; rfl)] at hdd
          apply hdc
          · simp [VmdkDigestBlock.clone, VmdkDigestBlock.copyDataFrom, hd1f, hdf]
          · simp only [VmdkDigestBlock.clone, VmdkDigestBlock.copyDataFrom, hd1f, if_true]
            rw [copyInto_same_length VmdkDigestBlock.new.digest _ (by rw [hd1l]; rfl)]
            rw [hd1d, hdd, hbk hf, hbb, hwb]
      have hwrite : ArchiveManager.writeToDigest ndebug { am with dumpIn := ws } d1 =
          Res.ok { am with dumpIn := ws, digestOut := am.digestOut ++ [d] } := by
        have hc1 : cassert ndebug am.isOpenDigestOut = Res.ok () := by
          rw [cassert_eq_ok]; exact Or.inr hoo
        have hc2 : cassert ndebug (am.isOpenDigestOut && am.digestOutH.isSome) = Res.ok () := by
          rw [cassert_eq_ok]; right; simp [hoo, hoh]
        have hc3 : cassert ndebug (d.digest.length == MD5_DIGEST_LENGTH) = Res.ok () := by
          rw [cassert_eq_ok]; right
          rw [← hclone]
          simp only [VmdkDigestBlock.clone, VmdkDigestBlock.copyDataFrom, beq_iff_eq]
          split
          · rw [copyInto_length]; rfl
          · rfl
        have hc4 : cassert ndebug (d.isAllZero != Boolean.BNULL) = Res.ok () := by
          rw [cassert_eq_ok]; right
          rw [hdf]
          split <;> rfl
        have hcl : VmdkDigestBlock.new.copyDataFrom d1 = d := hclone
        simp only [ArchiveManager.writeToDigest, res_bind_eq, hc1, Res.bind, hcl, putDigestB,
          hc2, writeDigestBlock, hc3, hc4, res_pure_eq]
      have hnext := ih { am with dumpIn := ws, digestOut := am.digestOut ++ [d] } b d1
        rfl hoi hoo hoh hbb hbl hd1l
      simp only [List.length_cons, digestLoop, hread, stepRes_ok, hset, hwrite]
      rw [hnext]
      simp [List.append_assoc]

theorem archiveManager_new_bitmap (cfg : ArchiveConfig) (am : ArchiveManager)
    (h : ArchiveManager.new cfg = Res.ok am) :
    am.changedBlockBitmapIn = IStream.open (cfg.bmpInFile.getD []) ∧
    am.digestIn = cfg.digestInBlocks := by
  unfold ArchiveManager.new at h
  simp only at h
  split at h
  · have h' := (Res.ok.inj h).symm
    subst h'
    exact ⟨rfl, rfl⟩
  · simp at h
  · simp at h

/-- What a dump command that completes went through: the manager `am1` with which the
loop was entered and the headers `hs` written. -/
theorem doDump_ok (ndebug : Bool) (lib : TimeLib) (sys : SysEnv) (env : DumpEnv)
    (vmdkInfo : VmdkInfo) (metadata : StringMap) (cfg : ArchiveConfig) (st : DumpState)
    (hrun : doDump ndebug lib sys env vmdkInfo metadata cfg = (some st, Res.ok ())) :
    ∃ (am1 : ArchiveManager) (bmp : Bitmap) (dumpH : VmdkDumpHeader)
      (digestH : VmdkDigestHeader),
      am1.mode = cfg.mode ∧ am1.dumpIn = cfg.dumpInBlocks ∧
      am1.digestIn = cfg.digestInBlocks ∧ am1.rdiffOut = [] ∧
      am1.dumpOut = [] ∧ am1.digestOut = [] ∧
      am1.dumpOutH = some dumpH ∧ am1.digestOutH = some digestH ∧
      dumpH.diskSize = vmdkInfo.nBlocks ∧ dumpH.blockSize = cfg.blocksize ∧
      dumpH.timeStamp = TimeStamp.setTimeStamp lib (sys.clock 5) ∧
      (ndebug = true ∨ dumpH.uuid.length = 16) ∧
      digestH = { diskSize := vmdkInfo.nBlocks, blockSize := cfg.blocksize
                  uuid := dumpH.uuid
                  timeStamp := TimeStamp.setTimeStamp lib (sys.clock 5) } ∧
      cassert ndebug (cfg.blocksize % VIXDISKLIB_SECTOR_SIZE == 0) = Res.ok () ∧
      (cfg.mode = DumpMode.DUMPMODE_INCR →
        bitmapOfFile (cfg.bmpInFile.getD []) = some bmp) ∧
      dumpLoop ndebug { env with changedBlockBitmap := bmp }
        (if cfg.numReadBlockForTest == 0 then vmdkInfo.nBlocks else cfg.numReadBlockForTest)
        0 (DumpState.init am1 cfg.blocksize) = (st, Res.ok ()) := by
  rcases doDump_reach ndebug lib sys env vmdkInfo metadata cfg with hn |
    ⟨am0, prev, hs, amH, am1, bmp, _, hnew, _, hset, hH, _, hrb, ⟨is, h1⟩, _, hrun1⟩
  · rw [hrun] at hn; cases hn
  obtain ⟨_, hm0, _, _, _, _, _, _, hin, _, hd, hg, hr0, _⟩ :=
    archiveManager_new_ok cfg am0 hnew
  obtain ⟨hcd, hcg, hu, _⟩ := setHeaders_ok _ _ _ _ _ _ _ _ _ _ _ hset
  have hbmp : cfg.mode = DumpMode.DUMPMODE_INCR →
      bitmapOfFile (cfg.bmpInFile.getD []) = some bmp := by
    intro hmi
    have hbi := (archiveManager_new_bitmap cfg am0 hnew).1
    have hmH : amH.mode = DumpMode.DUMPMODE_INCR := by rw [hH]; simp only; rw [hm0, hmi]
    have hbH : amH.changedBlockBitmapIn = IStream.open (cfg.bmpInFile.getD []) := by
      rw [hH]; exact hbi
    simp only [ArchiveManager.readChangedBlockBitmapForDump, res_bind_eq, res_bind_eq_ok,
      res_pure_eq, hmH, beq_self_eq_true, if_true, ArchiveManager.readChangedBlockBitmap,
      hbH] at hrb
    obtain ⟨_, _, _, _, _, _, r, hr, he⟩ := hrb
    have e := Res.ok.inj he
    simp only [Prod.mk.injEq] at e
    unfold bitmapOfFile
    rw [hr]
    simp only [e.2]
  rw [hrun] at hrun1
  simp only [Prod.mk.injEq, Option.some.injEq] at hrun1
  obtain ⟨e1, e2⟩ := hrun1
  have e2 := ((leave_eq_ok _ _ _ _).1 e2.symm).1.symm
  unfold doDumpBlocks at e1 e2
  cases hc : cassert ndebug (cfg.blocksize % VIXDISKLIB_SECTOR_SIZE == 0) with
  | throw => rw [hc] at e2; simp [stepRes] at e2
  | abort => rw [hc] at e2; simp [stepRes] at e2
  | ok _ =>
    rw [hc, stepRes_ok] at e1 e2
    refine ⟨am1, bmp, hs.currDumpH, hs.currDigestH, ?_, ?_, ?_, ?_, ?_, ?_, ?_, ?_, ?_, ?_, ?_,
      hu, hcg, rfl, hbmp, ?_⟩
    · rw [h1, hH]; exact hm0
    · rw [h1, hH]; exact hin
    · rw [h1, hH]; exact (archiveManager_new_bitmap cfg am0 hnew).2
    · rw [h1, hH]; exact hr0
    · rw [h1, hH]; exact hd
    · rw [h1, hH]; exact hg
    · rw [h1, hH]
    · rw [h1, hH]
    · rw [hcd]
    · rw [hcd]
    · rw [hcd]
    · rw [Prod.ext_iff]; exact ⟨e1.symm, e2.symm⟩

/-- **C20.** For every full dump that the dump command completes without the test
option `--nread` (`numReadBlockForTest = 0`) on a disk of at least one block, in any
build, `doDigest` run on its `dump_out` (header `h` and blocks), with the digest file
as the only output file it names, returns and writes a digest header equal to the
digest header the dump wrote and a digest block sequence equal to the dump's
`digest_out`.  The C library is assumed to map the time stamp of the dump through
`mktime` and `localtime_r` back to itself. -/
theorem digest_of_full_dump (ndebug : Bool) (lib : TimeLib) (sys sysD : SysEnv)
    (env : DumpEnv) (vmdkInfo : VmdkInfo) (metadata : StringMap) (cfg cfgD : ArchiveConfig)
    (st : DumpState) (h : VmdkDumpHeader)
    (hmd5 : ∀ x, (env.md5 x).length = MD5_DIGEST_LENGTH)
    (hmode : cfg.mode = DumpMode.DUMPMODE_FULL)
    (hnread : cfg.numReadBlockForTest = 0)
    (hpos : 0 < vmdkInfo.nBlocks)
    (hlib : lib.localtime_r (lib.mktime (lib.localtime_r (sys.clock 5))) =
      lib.localtime_r (sys.clock 5))
    (hrun : doDump ndebug lib sys env vmdkInfo metadata cfg = (some st, Res.ok ()))
    (hh : st.arcMgr.dumpOutH = some h)
    (hcmd : cfgD.cmd = BackupCommand.CMD_DIGEST)
    (hin : cfgD.dumpInFile = some { header := h, blocks := st.arcMgr.dumpOut })
    (hout : cfgD.digestOutFileName = true)
    (honly : cfgD.dumpOutFileName = false ∧ cfgD.rdiffOutFileName = false) :
    ∃ am, doDigest ndebug lib sysD env.md5 cfgD = (some am, Res.ok ()) ∧
      st.arcMgr.digestOutH.isSome = true ∧
      am.digestOutH = st.arcMgr.digestOutH ∧
      am.digestOut = st.arcMgr.digestOut := by
  obtain ⟨am1, bmp, dumpH, digestH, hm1, hi1, _, _, hd1, hg1, hdh, hgh, hds, hbs, hts, hu, hdg,
    hc, _, hloop⟩ := doDump_ok ndebug lib sys env vmdkInfo metadata cfg st hrun
  simp only [hnread, beq_self_eq_true, if_true] at hloop
  have hinit := runInv_init am1 cfg.blocksize cfg.dumpInBlocks hi1 hd1 hg1
  have hm : (DumpState.init am1 cfg.blocksize).arcMgr.mode.isDiffOrIncr = false := by
    simp only [DumpState.init]; rw [hm1, hmode]; rfl
  have hfin := dumpLoop_runInv ndebug _ cfg.blocksize cfg.dumpInBlocks vmdkInfo.nBlocks 0 _ st
    hinit hloop
  rw [Nat.zero_add] at hfin
  have hpairs := dumpLoop_fullPairs ndebug { env with changedBlockBitmap := bmp } hmd5
    cfg.blocksize cfg.dumpInBlocks vmdkInfo.nBlocks 0 _ st hinit
    (by simp only [DumpState.init, hd1, hg1]; exact List.Forall₂.nil) hm hloop
  -- the headers the dump wrote
  obtain ⟨din, gin, dout, gout, rout, hf, _⟩ := dumpLoop_frame ndebug
    { env with changedBlockBitmap := bmp } vmdkInfo.nBlocks 0 (DumpState.init am1 cfg.blocksize)
  rw [hloop] at hf
  simp only [DumpState.init] at hf
  have hsth : st.arcMgr.dumpOutH = some dumpH := by rw [hf]; exact hdh
  have hstg : st.arcMgr.digestOutH = some digestH := by rw [hf]; exact hgh
  rw [hsth] at hh
  have ehh := Option.some.inj hh
  subst ehh
  -- the digest command
  have hne : st.arcMgr.dumpOut ≠ [] := by
    intro he
    have := hfin.out_len
    rw [he] at this
    simp at this
    omega
  have hnew0 : ∃ am0, ArchiveManager.new cfgD = Res.ok am0 := by
    simp only [ArchiveManager.new, ArchiveManager.checkStreams, hcmd, hin, hout,
      Option.isSome_some, Bool.and_self, checkAndThrow, if_true]
    exact ⟨_, rfl⟩
  obtain ⟨am0, hnew⟩ := hnew0
  obtain ⟨_, _, hoi, _, hod, hoo, hor, _, hii, _, _, hog, _, hih, _, _, hoh, _⟩ :=
    archiveManager_new_ok cfgD am0 hnew
  rw [honly.1] at hod
  rw [honly.2] at hor
  rw [hin] at hoi hih
  rw [hout] at hoo
  simp only [Option.isSome_some, Option.map_some'] at hoi hih
  have hii : am0.dumpIn = st.arcMgr.dumpOut := by
    rw [hii]; simp [ArchiveConfig.dumpInBlocks, hin]
  have hc0 : cassert ndebug (cfgD.cmd == BackupCommand.CMD_DIGEST) = Res.ok () := by
    rw [cassert_eq_ok]; right; simp [hcmd]
  have hguuid : dumpH.getUUID ndebug = Res.ok dumpH.uuid := getUUID_eq_ok ndebug dumpH hu
  have hblk : VmdkDumpBlock.new ndebug dumpH.blockSize =
      Res.ok (VmdkDumpBlock.fresh cfg.blocksize) := by
    rw [hbs]
    simp only [VmdkDumpBlock.new, hc]
  have hempty : am0.dumpIn.isEmpty = false := by
    rw [hii]
    cases hd : st.arcMgr.dumpOut with
    | nil => exact absurd hd hne
    | cons _ _ => rfl
  have hrd : am0.readDumpHeader ndebug (VmdkDumpHeader.new lib sysD 0 0) = Res.ok dumpH := by
    have hc1 : cassert ndebug am0.isOpenDumpIn = Res.ok () := by
      rw [cassert_eq_ok]; exact Or.inr hoi
    simp only [ArchiveManager.readDumpHeader, res_bind_eq, hc1, Res.bind, checkAndThrow, hempty,
      hih, VmdkDumpHeader.copyDataFrom, res_pure_eq, Bool.not_false, if_true]
  have hsetH : (VmdkDigestHeader.new lib sysD 16 1).set ndebug lib dumpH = Res.ok digestH := by
    simp only [VmdkDigestHeader.set, res_bind_eq, hguuid, Res.bind, res_pure_eq,
      VmdkDigestHeader.setTimeStamp, VmdkDumpHeader.getTimeStamp, TimeStamp.getTimeStamp,
      hts, TimeStamp.setTimeStamp, hlib, hdg, hds, hbs]
  have hwr : am0.writeDigestHeader ndebug digestH =
      Res.ok { am0 with digestOutH := some digestH } := by
    have hc1 : cassert ndebug am0.isOpenDigestOut = Res.ok () := by
      rw [cassert_eq_ok]; exact Or.inr hoo
    have hc2 : cassert ndebug (am0.isOpenDigestOut && !am0.digestOutH.isSome) = Res.ok () := by
      rw [cassert_eq_ok]; right; simp [hoo, hoh]
    simp only [ArchiveManager.writeDigestHeader, res_bind_eq, hc1, hc2, Res.bind, res_pure_eq]
  have hdig := digestLoop_spec ndebug env.md5 hmd5 cfg.blocksize st.arcMgr.dumpOut
    st.arcMgr.digestOut hpairs { am0 with digestOutH := some digestH }
    (VmdkDumpBlock.fresh cfg.blocksize) VmdkDigestBlock.new hii hoi hoo rfl rfl
    (by simp [VmdkDumpBlock.fresh]) (by simp [VmdkDigestBlock.new])
  rw [hfin.out_len] at hdig
  have hdo : doDigest ndebug lib sysD env.md5 cfgD =
      (some { am0 with digestOutH := some digestH, dumpIn := [],
                       digestOut := am0.digestOut ++ st.arcMgr.digestOut }, Res.ok ()) := by
    unfold doDigest
    rw [hc0, stepRes_ok, hnew, stepRes_ok]
    simp only [hrd, unwind_ok, stepRes_ok, hsetH, hwr, hblk, hds, hdig]
    rw [leave_of_destroy_ok]
    exact destroy_ok ndebug _ (Or.inr
      ⟨fun hx => by simp [hod] at hx, fun _ => rfl, fun hx => by simp [hor] at hx⟩)
  refine ⟨_, hdo, by rw [hstg]; rfl, by rw [hstg], ?_⟩
  simp only [hog, List.nil_append]

set_option maxRecDepth 100000 in
/-- Witness of `digest_of_full_dump`: the full dump of `sourceGen0` and the digest
command run on the dump file it wrote. -/
theorem digest_of_full_dump_witness :
    ∃ st h, doDump false utcTimeLib sysGen0 (envOf sourceGen0) vmdkInfoGen0 [] cfgFull =
        (some st, Res.ok ()) ∧
      st.arcMgr.dumpOutH = some h ∧
      ∃ am, doDigest false utcTimeLib sysGen1 (envOf sourceGen0).md5
          (cfgDigestOf { header := h, blocks := st.arcMgr.dumpOut }) = (some am, Res.ok ()) ∧
        st.arcMgr.digestOutH.isSome = true ∧
        am.digestOutH = st.arcMgr.digestOutH ∧
        am.digestOut = st.arcMgr.digestOut := by
  have hok : (doDump false utcTimeLib sysGen0 (envOf sourceGen0) vmdkInfoGen0 []
      cfgFull).2 = Res.ok () := by decide
  have hsome : ((doDump false utcTimeLib sysGen0 (envOf sourceGen0) vmdkInfoGen0 []
      cfgFull).1.map fun st => st.arcMgr.dumpOutH.isSome) = some true := by decide
  cases hst : doDump false utcTimeLib sysGen0 (envOf sourceGen0) vmdkInfoGen0 []
      cfgFull with
  | mk s r =>
    rw [hst] at hok hsome
    simp only at hok hsome
    cases s with
    | none => cases hsome
    | some st =>
      subst hok
      simp only [Option.map_some', Option.some.injEq] at hsome
      cases hh : st.arcMgr.dumpOutH with
      | none => rw [hh] at hsome; cases hsome
      | some h =>
        exact ⟨st, h, rfl, hh,
          digest_of_full_dump false utcTimeLib sysGen0 sysGen1 (envOf sourceGen0)
            vmdkInfoGen0 [] cfgFull (cfgDigestOf { header := h, blocks := st.arcMgr.dumpOut })
            st h checksum16_length rfl rfl (by decide) (by decide) hst hh rfl rfl rfl
            ⟨rfl, rfl⟩⟩

set_option maxRecDepth 100000 in
/-- Counterexample to C20 as stated.  The full dump of a disk of no block completes and
writes a dump file and a digest file that hold only their headers; the digest command
run on that dump file throws `End of stream.` before it writes its header, and the
destructor of its archive manager then stops a digest output that was never started:
with assertions the process is aborted, without them the command ends with the
exception.  The full dump of the 4-block disk `sourceGen0` with `--nread 1` completes
with one block; the digest command run on its dump file ends with an exception after
one digest block.  The digest command run on the full dump of generation 0 with a dump
output file named as well writes the four digest blocks and is then aborted by the
destructor, which stops the dump output that was never started. -/
theorem digest_of_full_dump_fails :
    (doDump false utcTimeLib sysGen0 (envOf []) vmdkInfoEmpty [] cfgFull).2 = Res.ok () ∧
    ((doDump false utcTimeLib sysGen0 (envOf []) vmdkInfoEmpty [] cfgFull).1.map
      DumpState.written) = some (some 0, [], 0) ∧
    ((doDump false utcTimeLib sysGen0 (envOf []) vmdkInfoEmpty [] cfgFull).1.bind
      DumpState.dumpFile).map (fun a => doDigest false utcTimeLib sysGen1 checksum16
        (cfgDigestOf a)) = some (none, Res.abort) ∧
    ((doDump true utcTimeLib sysGen0 (envOf []) vmdkInfoEmpty [] cfgFull).1.bind
      DumpState.dumpFile).map (fun a => doDigest true utcTimeLib sysGen1 checksum16
        (cfgDigestOf a)) = some (none, Res.throw) ∧
    (doDump false utcTimeLib sysGen0 (envOf sourceGen0) vmdkInfoGen0 [] cfgFullNread1).2
      = Res.ok () ∧
    ((doDump false utcTimeLib sysGen0 (envOf sourceGen0) vmdkInfoGen0 [] cfgFullNread1).1.bind
      DumpState.dumpFile).map (fun a =>
        ((doDigest false utcTimeLib sysGen1 checksum16 (cfgDigestOf a)).1.map
          (fun am => am.digestOut.length),
         (doDigest false utcTimeLib sysGen1 checksum16 (cfgDigestOf a)).2)) =
      some (some 1, Res.throw) ∧
    ((doDigest false utcTimeLib sysGen1 sample16
        { cfgDigestOf dumpGen0 with dumpOutFileName := true }).1.map
          (fun am => am.digestOut),
     (doDigest false utcTimeLib sysGen1 sample16
        { cfgDigestOf dumpGen0 with dumpOutFileName := true }).2) =
      (some digestGen0.blocks, Res.abort) := by
  refine ⟨by decide, by decide, by decide, by decide, by decide, by decide, by decide⟩

/-! ## An incr dump writes what a diff dump writes -/

/-- Two retry loops over the same provider at the same offset that both succeed have
stored the same data. -/
theorem retryRead_same_data (env envI : DumpEnv) (hrb : envI.readBlock = env.readBlock)
    (hrs : envI.reset = env.reset) (hcl : envI.close = env.close)
    (hro : envI.reopen = env.reopen) (oft : Nat) :
    ∀ (n : Nat) (buf bufI b1 b1I : ByteArray) (ev evI e1 e1I : List DumpEvent), 0 < n →
      retryRead env oft n buf ev = ((b1, e1), Res.ok ()) →
      retryRead envI oft n bufI evI = ((b1I, e1I), Res.ok ()) →
      ∃ k data, env.readBlock oft k = some data ∧ b1 = copyInto buf data ∧
        b1I = copyInto bufI data := by
  intro n
  induction n with
  | zero => intro _ _ _ _ _ _ _ _ h; omega
  | succ n ih =>
    intro buf bufI b1 b1I ev evI e1 e1I _ h hI
    unfold retryRead at h hI
    simp only [hrb, hrs, hcl, hro] at hI
    simp only at h
    cases hrd : env.readBlock oft (10 - (n + 1)) with
    | some data =>
      rw [hrd] at h hI
      simp only [Prod.mk.injEq] at h hI
      exact ⟨_, data, hrd, h.1.1.symm, hI.1.1.symm⟩
    | none =>
      rw [hrd] at h hI
      simp only at h hI
      by_cases h0 : n ≤ 0
      · rw [if_pos h0] at h
        split at h <;> simp at h
      · rw [if_neg h0] at h hI
        by_cases h8 : n ≤ 8
        · rw [if_pos h8] at h hI
          by_cases hc1 : env.close oft (10 - (n + 1)) = true
          · rw [if_pos hc1] at h hI
            by_cases hrs1 : env.reset oft (10 - (n + 1)) = true
            · rw [if_pos hrs1] at h hI
              by_cases hro1 : env.reopen oft (10 - (n + 1)) = true
              · rw [if_pos hro1] at h hI
                exact ih _ _ _ _ _ _ _ _ (by omega) h hI
              · rw [if_neg hro1] at h
                simp at h
            · rw [if_neg hrs1] at h
              simp at h
          · rw [if_neg hc1] at h
            simp at h
        · rw [if_neg h8] at h hI
          exact ih _ _ _ _ _ _ _ _ (by omega) h hI

theorem dumpClone_congr (c cI : VmdkDumpBlock) (ho : c.offset = cI.offset)
    (hf : c.isAllZero = cI.isAllZero) (hb : c.blockSize = cI.blockSize)
    (hp : c.isAllZero = Boolean.BFALSE → c.block = cI.block) : c.clone = cI.clone := by
  unfold VmdkDumpBlock.clone
  rw [← ho, ← hf, ← hb]
  by_cases h : c.isAllZero = Boolean.BFALSE
  · rw [if_pos h, if_pos h, hp h]
  · rw [if_neg h, if_neg h]

theorem digestClone_congr (d dI : VmdkDigestBlock) (hf : d.isAllZero = dI.isAllZero)
    (hp : d.isAllZero = Boolean.BFALSE → d.digest = dI.digest) : d.clone = dI.clone := by
  unfold VmdkDigestBlock.clone VmdkDigestBlock.copyDataFrom
  rw [← hf]
  by_cases h : d.isAllZero = Boolean.BFALSE
  · rw [if_pos h, if_pos h, hp h]
  · rw [if_neg h, if_neg h]

/-- One iteration of a diff dump and of an incr dump from related states, both
successful, leads to related states. -/
theorem dumpStep_diff_incr (ndebug : Bool) (env envI : DumpEnv)
    (hrb : envI.readBlock = env.readBlock) (hrs : envI.reset = env.reset)
    (hcl : envI.close = env.close) (hro : envI.reopen = env.reopen)
    (hm5 : envI.md5 = env.md5)
    (hmd5 : ∀ x, (env.md5 x).length = MD5_DIGEST_LENGTH)
    (bs : Nat) (P : List VmdkDumpBlock)
    (hPwf : ∀ p ∈ P, p.isAllZero ≠ Boolean.BNULL ∧ p.blockSize = bs ∧
      (p.isAllZero = Boolean.BFALSE →
        p.block.length = bs ∧ p.block.all (fun x => x == 0) = false))
    (hPoff : ∀ (k : Nat) (p : VmdkDumpBlock), P[k]? = some p → p.offset = k)
    (hlen : ∀ (o k : Nat) (data : ByteArray), env.readBlock o k = some data →
      data.length = bs)
    (hbits : ∀ (o k : Nat) (data : ByteArray),
      envI.changedBlockBitmap.get ndebug o = Res.ok false →
      env.readBlock o k = some data → ∃ p, P[o]? = some p ∧ data = p.content)
    (o : Nat) (sD sI sD1 sI1 : DumpState)
    (hiD : RunInv bs P o sD) (hiI : RunInv bs P o sI) (hrel : DiffIncrRel sD sI)
    (hD : dumpStep ndebug env o sD = (sD1, Res.ok ()))
    (hI : dumpStep ndebug envI o sI = (sI1, Res.ok ())) :
    DiffIncrRel sD1 sI1 := by
  obtain ⟨hiD1, hmD1⟩ := dumpStep_runInv ndebug env bs P o sD sD1 hiD hD
  obtain ⟨hiI1, hmI1⟩ := dumpStep_runInv ndebug envI bs P o sI sI1 hiI hI
  obtain ⟨amD, flagD, _, hrD, hcurD, hsetD, _, hstD, hneD, _⟩ := dumpStep_ok ndebug env o sD sD1 hD
  obtain ⟨amI, flagI, _, hrI, hcurI, hsetI, _, hstI, hneI, _⟩ :=
    dumpStep_ok ndebug envI o sI sI1 hI
  have hdiD : sD.arcMgr.mode.isDiffOrIncr = true := by rw [hrel.modeD]; rfl
  have hdiI : sI.arcMgr.mode.isDiffOrIncr = true := by rw [hrel.modeI]; rfl
  obtain ⟨p, restP, q, restQ, _, hPi, hQi, hamD, hpcD, hqD, _, _⟩ :=
    (readFromStreams_ok _ _ _ _ _ _ _ _ hrD).1 hdiD
  obtain ⟨pI, restPI, qI, restQI, _, hPiI, hQiI, hamI, hpcI, hqI, _, _⟩ :=
    (readFromStreams_ok _ _ _ _ _ _ _ _ hrI).1 hdiI
  rw [hrel.din, hPi] at hPiI
  rw [hrel.gin, hQi] at hQiI
  simp only [List.cons.injEq] at hPiI hQiI
  obtain ⟨ep, erP⟩ := hPiI
  obtain ⟨eq, erQ⟩ := hQiI
  subst ep erP eq erQ
  rw [hrel.prevB] at hpcI
  rw [hrel.prevD] at hqI
  have hprevB : sI1.prevDumpB = sD1.prevDumpB := Res.ok.inj (hpcI.symm.trans hpcD)
  have hprevD : sI1.prevDigestB = sD1.prevDigestB := by rw [hqI, hqD]
  have hmodeD : amD.mode = DumpMode.DUMPMODE_DIFF := by rw [hamD]; exact hrel.modeD
  have hmodeI : amI.mode = DumpMode.DUMPMODE_INCR := by rw [hamI]; exact hrel.modeI
  -- the block of `dump_in` at this offset
  have hdrop := hiD.din hdiD
  rw [hPi] at hdrop
  have hpo : P[o]? = some p := by
    have := congrArg (fun l => l[0]?) hdrop
    simpa using this.symm
  have hpmem : p ∈ P := by
    obtain ⟨hlt, heq⟩ := List.getElem?_eq_some.1 hpo
    rw [← heq]
    exact List.getElem_mem hlt
  obtain ⟨hpn, hpbs, hpf⟩ := hPwf p hpmem
  have hflag : p.isAllZero = Boolean.BTRUE ∨ p.isAllZero = Boolean.BFALSE := by
    generalize p.isAllZero = f at hpn
    cases f <;> simp at hpn ⊢
  have hpeq := dumpBlock_copyDataFrom_eq_ok _ _ _ _ hpcD
  -- the current block of the diff dump
  obtain ⟨bufD, hrrD, hcD⟩ : ∃ bufD, retryRead env o 10 sD.currDumpB.block sD.events =
      ((bufD, sD1.events), Res.ok ()) ∧ sD1.currDumpB =
        (({ sD.currDumpB with block := bufD } : VmdkDumpBlock).setIsAllZero).setOffset o := by
    rcases hcurD with ⟨buf, _, h1, h2⟩ | ⟨hmi, _⟩
    · exact ⟨buf, h1, h2⟩
    · rw [hmodeD] at hmi; cases hmi
  obtain ⟨kD, dataD, hrdD, hbD⟩ := retryRead_ok_data env o 10 _ _ _ _ (by omega) hrrD
  have hbD' : bufD = dataD := by
    rw [hbD]; exact copyInto_same_length _ _ (by rw [hlen o kD dataD hrdD, hiD.curr_len])
  -- the two current blocks agree in what is written
  have hcur : sD1.currDumpB.offset = sI1.currDumpB.offset ∧
      sD1.currDumpB.isAllZero = sI1.currDumpB.isAllZero ∧
      sD1.currDumpB.isAllZero ≠ Boolean.BNULL ∧
      (sD1.currDumpB.isAllZero = Boolean.BFALSE →
        sD1.currDumpB.block = sI1.currDumpB.block) := by
    rcases hcurI with ⟨bufI, _, hrrI, hcI⟩ | ⟨_, hbit, hcp, _, _⟩
    · obtain ⟨k, data, hrd, hb1, hb2⟩ := retryRead_same_data env envI hrb hrs hcl hro o 10 _ _ _ _ _ _
        _ _ (by omega) hrrD hrrI
      have hdl := hlen o k data hrd
      have e1 : bufD = data := by
        rw [hb1]; exact copyInto_same_length _ _ (by rw [hdl, hiD.curr_len])
      have e2 : bufI = data := by
        rw [hb2]; exact copyInto_same_length _ _ (by rw [hdl, hiI.curr_len])
      rw [hcD, hcI, e1, e2]
      refine ⟨rfl, rfl, ?_, fun _ => rfl⟩
      simp only [VmdkDumpBlock.setOffset, VmdkDumpBlock.setIsAllZero]
      split <;> simp
    · obtain ⟨p1, hp1, hdata⟩ := hbits o kD dataD hbit hrdD
      rw [hpo] at hp1
      have e := Option.some.inj hp1
      subst e
      have hceq := dumpBlock_copyDataFrom_eq_ok _ _ _ _ hcp
      rw [hprevB] at hceq
      rw [hcD, hceq, hbD', hdata, hpeq]
      simp only [VmdkDumpBlock.setOffset, VmdkDumpBlock.setIsAllZero]
      unfold VmdkDumpBlock.content
      rcases hflag with hf | hf
      · rw [if_pos hf, all_zero_replicate]
        simp [hf, hPoff o p hpo]
      · have hz := (hpf hf).2
        have hl := (hpf hf).1
        simp only [hf, reduceCtorEq, if_false, hz, if_true]
        refine ⟨(hPoff o p hpo).symm, by simp, by simp, fun _ => ?_⟩
        rw [copyInto_same_length sD.prevDumpB.block p.block (by rw [hl, hiD.prev_len])]
        rw [copyInto_same_length sI.currDumpB.block p.block (by rw [hl, hiI.curr_len])]
  obtain ⟨hco, hcf, hcn, hcb⟩ := hcur
  have hclone : sD1.currDumpB.clone = sI1.currDumpB.clone :=
    dumpClone_congr _ _ hco hcf (by rw [hiD1.curr_bs, hiI1.curr_bs]) hcb
  -- the two digests agree in what is written
  rw [hm5] at hsetI
  obtain ⟨_, hdfD, hddD⟩ := digestSet_ok _ _ _ _ _ hsetD
  obtain ⟨_, hdfI, hddI⟩ := digestSet_ok _ _ _ _ _ hsetI
  have hdf : sD1.currDigestB.isAllZero = sI1.currDigestB.isAllZero := by
    rw [hdfD, hdfI, hcf]
  have hdd : sD1.currDigestB.isAllZero = Boolean.BFALSE →
      sD1.currDigestB.digest = sI1.currDigestB.digest := by
    intro hf
    have hcB : sD1.currDumpB.isAllZero ≠ Boolean.BTRUE := by
      intro hc; rw [hdfD, if_pos hc] at hf; cases hf
    have hcBF : sD1.currDumpB.isAllZero = Boolean.BFALSE := by
      generalize sD1.currDumpB.isAllZero = f at hcB hcn
      cases f <;> simp at hcB hcn ⊢
    rw [hddD, hddI, ← hcf, if_neg hcB, if_neg hcB, ← hcb hcBF, hiD1.curr_bs, hiI1.curr_bs]
    rw [copyInto_same_length sD.currDigestB.digest _ (by rw [hmd5, hiD.dig_len])]
    rw [copyInto_same_length sI.currDigestB.digest _ (by rw [hmd5, hiI.dig_len])]
  have hdclone : sD1.currDigestB.clone = sI1.currDigestB.clone := digestClone_congr _ _ hdf hdd
  have hflagEq : flagD = flagI := by
    have h1 := digestNe_ok _ _ _ _ (hneD (by rw [hmodeD]; rfl))
    have h2 := digestNe_ok _ _ _ _ (hneI (by rw [hmodeI]; rfl))
    rw [h1, h2, hprevD, ← hdf]
    by_cases hl : sD1.prevDigestB.isAllZero = sD1.currDigestB.isAllZero
    · by_cases hb : sD1.currDigestB.isAllZero = Boolean.BFALSE
      · rw [hdd hb]
      · have hbt : sD1.currDigestB.isAllZero = Boolean.BTRUE := by
          rw [hdfD] at hb ⊢
          split
          · rfl
          · rename_i hne; rw [if_neg hne] at hb; exact absurd rfl hb
        simp [hl, hbt]
    · have : (sD1.prevDigestB.isAllZero == sD1.currDigestB.isAllZero) = false := by
        simpa using hl
      simp [this]
  refine ⟨by rw [hmD1]; exact hrel.modeD, by rw [hmI1]; exact hrel.modeI, ?_, ?_, ?_, ?_, ?_,
    hprevB, hprevD⟩
  · rw [hstD, hstI, hamD, hamI]
  · rw [hstD, hstI, hamD, hamI]
  · rw [hstD, hstI, hamD, hamI]; simp only; rw [hrel.dout, hclone]
  · rw [hstD, hstI, hamD, hamI]; simp only; rw [hrel.gout, hdclone]
  · rw [hstD, hstI]
    simp only [hmodeD, hmodeI, hflagEq, hprevB]
    rw [hamD, hamI]
    simp only [hrel.rout]
    rfl

theorem dumpLoop_diff_incr (ndebug : Bool) (env envI : DumpEnv)
    (hrb : envI.readBlock = env.readBlock) (hrs : envI.reset = env.reset)
    (hcl : envI.close = env.close) (hro : envI.reopen = env.reopen)
    (hm5 : envI.md5 = env.md5)
    (hmd5 : ∀ x, (env.md5 x).length = MD5_DIGEST_LENGTH)
    (bs : Nat) (P : List VmdkDumpBlock)
    (hPwf : ∀ p ∈ P, p.isAllZero ≠ Boolean.BNULL ∧ p.blockSize = bs ∧
      (p.isAllZero = Boolean.BFALSE →
        p.block.length = bs ∧ p.block.all (fun x => x == 0) = false))
    (hPoff : ∀ (k : Nat) (p : VmdkDumpBlock), P[k]? = some p → p.offset = k)
    (hlen : ∀ (o k : Nat) (data : ByteArray), env.readBlock o k = some data →
      data.length = bs)
    (hbits : ∀ (o k : Nat) (data : ByteArray),
      envI.changedBlockBitmap.get ndebug o = Res.ok false →
      env.readBlock o k = some data → ∃ p, P[o]? = some p ∧ data = p.content) :
    ∀ (n o : Nat) (sD sI sD1 sI1 : DumpState),
      RunInv bs P o sD → RunInv bs P o sI → DiffIncrRel sD sI →
      dumpLoop ndebug env n o sD = (sD1, Res.ok ()) →
      dumpLoop ndebug envI n o sI = (sI1, Res.ok ()) →
      DiffIncrRel sD1 sI1 := by
  intro n
  induction n with
  | zero =>
    intro o sD sI sD1 sI1 _ _ hrel hD hI
    simp only [dumpLoop, Prod.mk.injEq, and_true] at hD hI
    subst hD hI
    exact hrel
  | succ n ih =>
    intro o sD sI sD1 sI1 hiD hiI hrel hD hI
    unfold dumpLoop at hD hI
    cases hxD : dumpStep ndebug env o sD with
    | mk s r =>
      rw [hxD] at hD
      cases r with
      | throw => simp at hD
      | abort => simp at hD
      | ok _ =>
        cases hxI : dumpStep ndebug envI o sI with
        | mk sI' rI =>
          rw [hxI] at hI
          cases rI with
          | throw => simp at hI
          | abort => simp at hI
          | ok _ =>
            simp only at hD hI
            exact ih (o + 1) s sI' sD1 sI1
              (dumpStep_runInv ndebug env bs P o sD s hiD hxD).1
              (dumpStep_runInv ndebug envI bs P o sI sI' hiI hxI).1
              (dumpStep_diff_incr ndebug env envI hrb hrs hcl hro hm5 hmd5 bs P hPwf hPoff hlen hbits
                o sD sI s sI' hiD hiI hrel hxD hxI)
              hD hI

/-- **C19.** A diff dump and an incr dump of the same disk and provider against the same
well-formed previous generation (the `k`-th block of `dump_in` has offset `k`, a
resolved flag, the block size of the run and, when not flagged all-zero, a payload of
that size that is not all zero), both completing, write the same block sequences to
`dump_out`, `digest_out` and `rdiff_out`, provided the bitmap read from `bmp_in` has
bit `o` set at every offset `o` where the block the provider delivers is not the
content of the block of `dump_in`.  The provider delivers blocks of the block size. -/
theorem incr_dump_equals_diff_dump (ndebug : Bool) (lib : TimeLib) (sysD sysI : SysEnv)
    (env : DumpEnv) (vmdkInfo : VmdkInfo) (metaD metaI : StringMap)
    (cfgD cfgI : ArchiveConfig) (stD stI : DumpState)
    (hmd5 : ∀ x, (env.md5 x).length = MD5_DIGEST_LENGTH)
    (hmD : cfgD.mode = DumpMode.DUMPMODE_DIFF) (hmI : cfgI.mode = DumpMode.DUMPMODE_INCR)
    (hin : cfgI.dumpInFile = cfgD.dumpInFile) (hgin : cfgI.digestInFile = cfgD.digestInFile)
    (hbs : cfgI.blocksize = cfgD.blocksize)
    (hnr : cfgI.numReadBlockForTest = cfgD.numReadBlockForTest)
    (hPwf : ∀ p ∈ cfgD.dumpInBlocks, p.isAllZero ≠ Boolean.BNULL ∧
      p.blockSize = cfgD.blocksize ∧
      (p.isAllZero = Boolean.BFALSE →
        p.block.length = cfgD.blocksize ∧ p.block.all (fun x => x == 0) = false))
    (hPoff : ∀ (k : Nat) (p : VmdkDumpBlock), cfgD.dumpInBlocks[k]? = some p → p.offset = k)
    (hlen : ∀ (o k : Nat) (data : ByteArray), env.readBlock o k = some data →
      data.length = cfgD.blocksize)
    (hbits : ∀ bmp, bitmapOfFile (cfgI.bmpInFile.getD []) = some bmp →
      ∀ (o k : Nat) (data : ByteArray), bmp.get ndebug o = Res.ok false →
        env.readBlock o k = some data →
        ∃ p, cfgD.dumpInBlocks[o]? = some p ∧ data = p.content)
    (hD : doDump ndebug lib sysD env vmdkInfo metaD cfgD = (some stD, Res.ok ()))
    (hI : doDump ndebug lib sysI env vmdkInfo metaI cfgI = (some stI, Res.ok ())) :
    stI.arcMgr.dumpOut = stD.arcMgr.dumpOut ∧
    stI.arcMgr.digestOut = stD.arcMgr.digestOut ∧
    stI.arcMgr.rdiffOut = stD.arcMgr.rdiffOut := by
  obtain ⟨amD, bmpD, _, _, hmD1, hiD1, hgD1, hrD1, hdD1, hqD1, _, _, _, _, _, _, _, _, _,
    hloopD⟩ := doDump_ok ndebug lib sysD env vmdkInfo metaD cfgD stD hD
  obtain ⟨amI, bmpI, _, _, hmI1, hiI1, hgI1, hrI1, hdI1, hqI1, _, _, _, _, _, _, _, _, hbmp,
    hloopI⟩ := doDump_ok ndebug lib sysI env vmdkInfo metaI cfgI stI hI
  have hPI : cfgI.dumpInBlocks = cfgD.dumpInBlocks := by
    simp only [ArchiveConfig.dumpInBlocks, hin]
  have hQI : cfgI.digestInBlocks = cfgD.digestInBlocks := by
    simp only [ArchiveConfig.digestInBlocks, hgin]
  rw [hbs, hnr] at hloopI
  rw [hPI] at hiI1
  rw [hQI] at hgI1
  have hinvD := runInv_init amD cfgD.blocksize cfgD.dumpInBlocks hiD1 hdD1 hqD1
  have hinvI := runInv_init amI cfgD.blocksize cfgD.dumpInBlocks hiI1 hdI1 hqI1
  have hrel : DiffIncrRel (DumpState.init amD cfgD.blocksize)
      (DumpState.init amI cfgD.blocksize) := by
    refine ⟨?_, ?_, ?_, ?_, ?_, ?_, ?_, rfl, rfl⟩
    · simp only [DumpState.init]; rw [hmD1, hmD]
    · simp only [DumpState.init]; rw [hmI1, hmI]
    · simp only [DumpState.init]; rw [hiI1, hiD1]
    · simp only [DumpState.init]; rw [hgI1, hgD1]
    · simp only [DumpState.init]; rw [hdI1, hdD1]
    · simp only [DumpState.init]; rw [hqI1, hqD1]
    · simp only [DumpState.init]; rw [hrI1, hrD1]
  have hfin := dumpLoop_diff_incr ndebug { env with changedBlockBitmap := bmpD }
    { env with changedBlockBitmap := bmpI } rfl rfl rfl rfl rfl hmd5 cfgD.blocksize cfgD.dumpInBlocks
    hPwf hPoff hlen (hbits bmpI (hbmp hmI)) _ 0 _ _ stD stI hinvD hinvI hrel hloopD hloopI
  exact ⟨hfin.dout, hfin.gout, hfin.rout⟩

set_option maxRecDepth 100000 in
/-- Witness of `incr_dump_equals_diff_dump`: the diff dump and the incr dump of
`sourceGen1` against generation 0, the bitmap having bit 2 set. -/
theorem incr_dump_equals_diff_dump_witness :
    ∃ stD stI,
      doDump false utcTimeLib sysGen1 (envSample sourceGen1) vmdkInfoGen0 [] cfgDiffGen1 =
        (some stD, Res.ok ()) ∧
      doDump false utcTimeLib sysGen1 (envSample sourceGen1) vmdkInfoGen0 [] cfgIncrGen1 =
        (some stI, Res.ok ()) ∧
      stD.arcMgr.rdiffOut.length = 1 ∧
      stI.arcMgr.dumpOut = stD.arcMgr.dumpOut ∧
      stI.arcMgr.digestOut = stD.arcMgr.digestOut ∧
      stI.arcMgr.rdiffOut = stD.arcMgr.rdiffOut := by
  have hmd5 : ∀ x, ((envSample sourceGen1).md5 x).length = MD5_DIGEST_LENGTH := by
    intro x; simp [envSample, sample16, MD5_DIGEST_LENGTH]
  have e : cfgDiffGen1.dumpInBlocks =
      [zeroBlock 0, dataBlock 1 65, zeroBlock 2, dataBlock 3 66] := rfl
  have hPwf : ∀ p ∈ cfgDiffGen1.dumpInBlocks,
      p.isAllZero ≠ Boolean.BNULL ∧ p.blockSize = cfgDiffGen1.blocksize ∧
      (p.isAllZero = Boolean.BFALSE →
        p.block.length = cfgDiffGen1.blocksize ∧ p.block.all (fun x => x == 0) = false) := by
    rw [e]
    decide
  have hPoff : ∀ (k : Nat) (p : VmdkDumpBlock),
      cfgDiffGen1.dumpInBlocks[k]? = some p → p.offset = k := by
    intro k p hk
    rw [e] at hk
    rcases k with _ | _ | _ | _ | k <;> simp at hk <;> (subst hk; rfl)
  have e2 : ∀ o k, (envSample sourceGen1).readBlock o k = sourceGen1[o]? := fun _ _ => rfl
  have hlen : ∀ (o k : Nat) (data : ByteArray),
      (envSample sourceGen1).readBlock o k = some data →
      data.length = cfgDiffGen1.blocksize := by
    intro o k data h
    rw [e2] at h
    rcases o with _ | _ | _ | _ | o <;> simp [sourceGen1] at h <;> (subst h; rfl)
  have hbits : ∀ bmp, bitmapOfFile (cfgIncrGen1.bmpInFile.getD []) = some bmp →
      ∀ (o k : Nat) (data : ByteArray), bmp.get false o = Res.ok false →
        (envSample sourceGen1).readBlock o k = some data →
        ∃ p, cfgDiffGen1.dumpInBlocks[o]? = some p ∧ data = p.content := by
    intro bmp hb o k data hget h
    have eb : bitmapOfFile (cfgIncrGen1.bmpInFile.getD []) =
        some { bmp := [32], bmpSize := 4 } := by decide
    rw [eb] at hb
    have hb' := Option.some.inj hb
    subst hb'
    rw [e2] at h
    rw [e]
    rcases o with _ | _ | _ | _ | o
    · exact ⟨_, rfl, by simp [sourceGen1] at h; rw [← h]; decide⟩
    · exact ⟨_, rfl, by simp [sourceGen1] at h; rw [← h]; decide⟩
    · exact absurd hget (by decide)
    · exact ⟨_, rfl, by simp [sourceGen1] at h; rw [← h]; decide⟩
    · simp [sourceGen1] at h
  have hokD : (doDump false utcTimeLib sysGen1 (envSample sourceGen1) vmdkInfoGen0 []
      cfgDiffGen1).2 = Res.ok () := by decide
  have hlenD : ((doDump false utcTimeLib sysGen1 (envSample sourceGen1) vmdkInfoGen0 []
      cfgDiffGen1).1.map fun st => st.arcMgr.rdiffOut.length) = some 1 := by decide
  have hokI : (doDump false utcTimeLib sysGen1 (envSample sourceGen1) vmdkInfoGen0 []
      cfgIncrGen1).2 = Res.ok () := by decide
  have hsomeI : (doDump false utcTimeLib sysGen1 (envSample sourceGen1) vmdkInfoGen0 []
      cfgIncrGen1).1.isSome = true := by decide
  cases hstD : doDump false utcTimeLib sysGen1 (envSample sourceGen1) vmdkInfoGen0 []
      cfgDiffGen1 with
  | mk sD rD =>
    cases hstI : doDump false utcTimeLib sysGen1 (envSample sourceGen1) vmdkInfoGen0 []
        cfgIncrGen1 with
    | mk sI rI =>
      rw [hstD] at hokD hlenD
      rw [hstI] at hokI hsomeI
      simp only at hokD hlenD hokI hsomeI
      cases sD with
      | none => cases hlenD
      | some stD =>
        cases sI with
        | none => cases hsomeI
        | some stI =>
          subst hokD hokI
          exact ⟨stD, stI, rfl, rfl, Option.some.inj hlenD,
            incr_dump_equals_diff_dump false utcTimeLib sysGen1 sysGen1 (envSample sourceGen1)
              vmdkInfoGen0 [] [] cfgDiffGen1 cfgIncrGen1 stD stI hmd5 rfl rfl rfl rfl rfl rfl
              hPwf hPoff hlen hbits hstD hstI⟩

/-! ## The check command -/

theorem readBlock_advance (ndebug : Bool) (m m1 : MultiArchiveManager) (b b1 : VmdkDumpBlock)
    (e : Bool) (heof : m.isEOF ndebug = Res.ok false)
    (h : m.readBlock ndebug b = Res.ok (m1, b1, e)) :
    m1.offset = wrapU64 (m.offset + 1) ∧ m1.diskSize = m.diskSize := by
  simp only [MultiArchiveManager.readBlock, res_bind_eq, heof, Res.bind, Bool.false_eq_true,
    if_false] at h
  cases hl : readBlockLoop ndebug m.offset m.inputs none with
  | throw => rw [hl] at h; simp at h
  | abort => rw [hl] at h; simp at h
  | ok r =>
    obtain ⟨inputs, sel⟩ := r
    rw [hl] at h
    simp only at h
    cases hc : cassert ndebug sel.isSome with
    | throw => rw [hc] at h; simp at h
    | abort => rw [hc] at h; simp at h
    | ok _ =>
      rw [hc] at h
      simp only at h
      cases sel with
      | none =>
        simp only [res_pure_eq, Res.ok.injEq, Prod.mk.injEq] at h
        rw [← h.1]
        exact ⟨rfl, rfl⟩
      | some dumpBP =>
        simp only at h
        cases hcp : b.copyDataFrom ndebug dumpBP with
        | throw => rw [hcp] at h; simp [Res.bind] at h
        | abort => rw [hcp] at h; simp [Res.bind] at h
        | ok b2 =>
          rw [hcp] at h
          simp only [Res.bind, res_pure_eq, Res.ok.injEq, Prod.mk.injEq] at h
          rw [← h.1]
          exact ⟨rfl, rfl⟩

/-- What a successful iteration of the check loop did. -/
theorem checkStep_ok (ndebug : Bool) (md5 : List Nat → List Nat) (st st1 : CheckState)
    (h : checkStep ndebug md5 st = (st1, Res.ok ())) :
    ∃ m1 b isExist q rest,
      st.mArcMgr.readBlock ndebug st.dumpB = Res.ok (m1, b, isExist) ∧
      st.arcMgr.digestIn = q :: rest ∧
      st1.arcMgr = { st.arcMgr with digestIn := rest } ∧
      st1.mArcMgr = m1 ∧
      st1.offset = wrapU64 (st.offset + 1) ∧
      st1.marks.length = st.marks.length + 1 ∧
      st1.isTheSameAllBlocks = (st.isTheSameAllBlocks && !checkMismatch ndebug md5 st) := by
  unfold checkStep at h
  cases hr : st.mArcMgr.readBlock ndebug st.dumpB with
  | throw => rw [hr] at h; simp [stepRes] at h
  | abort => rw [hr] at h; simp [stepRes] at h
  | ok r =>
    obtain ⟨m1, b, isExist⟩ := r
    rw [hr, stepRes_ok] at h
    simp only at h
    cases hg : st.arcMgr.readFromDigest ndebug st.digestB with
    | throw => rw [hg] at h; simp [stepRes] at h
    | abort => rw [hg] at h; simp [stepRes] at h
    | ok g =>
      obtain ⟨am1, g1⟩ := g
      rw [hg, stepRes_ok] at h
      simp only at h
      have hg' := hg
      simp only [ArchiveManager.readFromDigest, res_bind_eq, res_bind_eq_ok] at hg'
      obtain ⟨_, _, hg'⟩ := hg'
      cases hq : st.arcMgr.digestIn with
      | nil => rw [hq] at hg'; simp at hg'
      | cons q rest =>
        rw [hq] at hg'
        simp only [res_pure_eq, Res.ok.injEq, Prod.mk.injEq] at hg'
        obtain ⟨eam, eg⟩ := hg'
        refine ⟨m1, b, isExist, q, rest, rfl, rfl, ?_⟩
        cases isExist with
        | false =>
          simp only [Bool.false_eq_true, if_false, stepRes_ok, Prod.mk.injEq, and_true] at h
          rw [← h]
          refine ⟨eam.symm, rfl, rfl, by simp, ?_⟩
          simp [checkMismatch, hr]
        | true =>
          simp only [if_true] at h
          cases hc : cassert ndebug (st.offset == b.offset) with
          | throw => rw [hc] at h; simp [stepRes] at h
          | abort => rw [hc] at h; simp [stepRes] at h
          | ok _ =>
            rw [hc, stepRes_ok] at h
            cases hs : st.digestCheck.set ndebug md5 b with
            | throw => rw [hs] at h; simp [stepRes] at h
            | abort => rw [hs] at h; simp [stepRes] at h
            | ok dc =>
              rw [hs, stepRes_ok] at h
              cases hn : g1.ne ndebug dc with
              | throw => rw [hn] at h; simp [stepRes] at h
              | abort => rw [hn] at h; simp [stepRes] at h
              | ok differs =>
                rw [hn, stepRes_ok] at h
                have hm : checkMismatch ndebug md5 st = differs := by
                  simp [checkMismatch, hr, hg, hs, hn]
                cases differs with
                | true =>
                  simp only [if_true, stepRes_ok, Prod.mk.injEq, and_true] at h
                  rw [← h]
                  refine ⟨eam.symm, rfl, rfl, by simp, ?_⟩
                  simp [hm]
                | false =>
                  simp only [Bool.false_eq_true, if_false, stepRes_ok, Prod.mk.injEq,
                    and_true] at h
                  rw [← h]
                  refine ⟨eam.symm, rfl, rfl, by simp, ?_⟩
                  simp [hm]

theorem isEOF_ok (ndebug : Bool) (m : MultiArchiveManager) (v : Bool)
    (h : m.isEOF ndebug = Res.ok v) : v = (m.offset == m.diskSize) := by
  unfold MultiArchiveManager.isEOF at h
  split at h
  · exact (Res.ok.inj h).symm
  · simp at h
  · simp at h

theorem canReadFromDigest_ok (ndebug : Bool) (am : ArchiveManager) (v : Bool)
    (h : am.canReadFromDigest ndebug = Res.ok v) : v = !am.digestIn.isEmpty := by
  simp only [ArchiveManager.canReadFromDigest, res_bind_eq, res_bind_eq_ok, res_pure_eq] at h
  obtain ⟨_, _, h⟩ := h
  exact (Res.ok.inj h).symm

theorem checkCond_ok (ndebug : Bool) (st : CheckState) (v : Bool)
    (h : checkCond ndebug st = Res.ok v) :
    (v = false → st.mArcMgr.offset = st.mArcMgr.diskSize ∨ st.arcMgr.digestIn = []) ∧
    (v = true → st.mArcMgr.isEOF ndebug = Res.ok false ∧
      st.mArcMgr.offset ≠ st.mArcMgr.diskSize ∧ st.arcMgr.digestIn ≠ []) := by
  unfold checkCond at h
  cases he : st.mArcMgr.isEOF ndebug with
  | throw => rw [he] at h; simp at h
  | abort => rw [he] at h; simp at h
  | ok e =>
    have hv := isEOF_ok _ _ _ he
    rw [he] at h
    cases e with
    | true =>
      simp only [Res.ok.injEq] at h
      subst h
      refine ⟨fun _ => Or.inl (by simpa using hv.symm), fun hc => by cases hc⟩
    | false =>
      simp only at h
      have hcv := canReadFromDigest_ok _ _ _ h
      have hne : st.mArcMgr.offset ≠ st.mArcMgr.diskSize := by simpa using hv.symm
      refine ⟨fun hf => Or.inr ?_, fun ht => ⟨rfl, hne, ?_⟩⟩
      · subst hf
        cases hd : st.arcMgr.digestIn with
        | nil => rfl
        | cons _ _ => rw [hd] at hcv; simp at hcv
      · subst ht
        intro hd
        rw [hd] at hcv
        simp at hcv

/-- The check loop, when it returns, has run one iteration per offset from the
reader's offset up to the disk size or the end of `digest_in`, whichever comes first,
and its flag is the conjunction over these iterations. -/
theorem checkLoop_spec (ndebug : Bool) (md5 : List Nat → List Nat) :
    ∀ (n : Nat) (st st1 : CheckState),
      st.mArcMgr.offset ≤ st.mArcMgr.diskSize → st.mArcMgr.diskSize < 2 ^ 64 →
      st.offset = st.mArcMgr.offset →
      checkLoop ndebug md5 n st = some (st1, Res.ok ()) →
      st1.marks.length = st.marks.length +
        min (st.mArcMgr.diskSize - st.mArcMgr.offset) st.arcMgr.digestIn.length ∧
      st1.offset = st.offset +
        min (st.mArcMgr.diskSize - st.mArcMgr.offset) st.arcMgr.digestIn.length ∧
      st1.isTheSameAllBlocks = (st.isTheSameAllBlocks &&
        (checkStates ndebug md5
          (min (st.mArcMgr.diskSize - st.mArcMgr.offset) st.arcMgr.digestIn.length) st).all
          fun s => !checkMismatch ndebug md5 s) := by
  have hstop : ∀ (st : CheckState),
      st.mArcMgr.offset = st.mArcMgr.diskSize ∨ st.arcMgr.digestIn = [] →
      min (st.mArcMgr.diskSize - st.mArcMgr.offset) st.arcMgr.digestIn.length = 0 := by
    intro st h
    rcases h with h | h
    · rw [h]; simp
    · rw [h]; simp
  intro n
  induction n with
  | zero =>
    intro st st1 hle hds hoff h
    unfold checkLoop at h
    cases hc : checkCond ndebug st with
    | throw => rw [hc] at h; simp at h
    | abort => rw [hc] at h; simp at h
    | ok c =>
      rw [hc] at h
      cases c with
      | true => simp at h
      | false =>
        simp only [Option.some.injEq, Prod.mk.injEq, and_true] at h
        subst h
        rw [hstop st ((checkCond_ok _ _ _ hc).1 rfl)]
        simp [checkStates]
  | succ n ih =>
    intro st st1 hle hds hoff h
    unfold checkLoop at h
    cases hc : checkCond ndebug st with
    | throw => rw [hc] at h; simp at h
    | abort => rw [hc] at h; simp at h
    | ok c =>
      rw [hc] at h
      cases c with
      | false =>
        simp only [Option.some.injEq, Prod.mk.injEq, and_true] at h
        subst h
        rw [hstop st ((checkCond_ok _ _ _ hc).1 rfl)]
        simp [checkStates]
      | true =>
        obtain ⟨he, hne, _⟩ := (checkCond_ok _ _ _ hc).2 rfl
        simp only at h
        cases hs : checkStep ndebug md5 st with
        | mk s r =>
          rw [hs] at h
          cases r with
          | throw => simp at h
          | abort => simp at h
          | ok _ =>
            simp only at h
            obtain ⟨m1, b, isExist, q, rest, hr, hq, ham, hm1, ho1, hmk, hsame⟩ :=
              checkStep_ok ndebug md5 st s hs
            obtain ⟨hoff1, hds1⟩ := readBlock_advance ndebug _ _ _ _ _ he hr
            have hlt : st.mArcMgr.offset < st.mArcMgr.diskSize := by omega
            have hw : wrapU64 (st.mArcMgr.offset + 1) = st.mArcMgr.offset + 1 := by
              unfold wrapU64
              exact Nat.mod_eq_of_lt (by omega)
            rw [← hm1] at hoff1 hds1
            rw [hw] at hoff1
            have hrest : s.arcMgr.digestIn = rest := by rw [ham]
            obtain ⟨i1, i2, i3⟩ := ih s st1 (by rw [hoff1, hds1]; omega)
              (by rw [hds1]; exact hds) (by rw [ho1, hoff, hoff1, hw]) h
            rw [hoff1, hds1, hrest] at i1 i2 i3
            have hk : min (st.mArcMgr.diskSize - st.mArcMgr.offset) (q :: rest).length =
                min (st.mArcMgr.diskSize - (st.mArcMgr.offset + 1)) rest.length + 1 := by
              simp only [List.length_cons]
              omega
            rw [hq, hk]
            refine ⟨by rw [i1, hmk]; omega, by rw [i2, ho1, hoff, hw]; omega, ?_⟩
            rw [i3, hsame]
            simp only [checkStates, hs, List.all_cons, Bool.and_assoc]

/-- The length of `digest_in` is enough fuel for the check loop. -/
theorem checkLoop_total (ndebug : Bool) (md5 : List Nat → List Nat) :
    ∀ (n : Nat) (st : CheckState), st.arcMgr.digestIn.length ≤ n →
      (checkLoop ndebug md5 n st).isSome = true := by
  intro n
  induction n with
  | zero =>
    intro st hn
    unfold checkLoop
    cases hc : checkCond ndebug st with
    | throw => rfl
    | abort => rfl
    | ok c =>
      cases c with
      | false => rfl
      | true =>
        exfalso
        obtain ⟨_, _, hd⟩ := (checkCond_ok _ _ _ hc).2 rfl
        apply hd
        exact List.eq_nil_of_length_eq_zero (by omega)
  | succ n ih =>
    intro st hn
    unfold checkLoop
    cases hc : checkCond ndebug st with
    | throw => rfl
    | abort => rfl
    | ok c =>
      cases c with
      | false => rfl
      | true =>
        simp only
        cases hs : checkStep ndebug md5 st with
        | mk s r =>
          cases r with
          | throw => rfl
          | abort => rfl
          | ok _ =>
            simp only
            obtain ⟨m1, b, isExist, q, rest, _, hq, ham, _⟩ := checkStep_ok ndebug md5 st s hs
            apply ih
            rw [ham]
            rw [hq] at hn
            simp only [List.length_cons] at hn
            simp only
            omega

/-- The check command always returns a result: its loop never runs out of fuel. -/
theorem doCheck_total (ndebug : Bool) (lib : TimeLib) (sys : SysEnv)
    (md5 : List Nat → List Nat) (archiveList : List Archive) (cfg : ArchiveConfig) :
    (doCheck ndebug lib sys md5 archiveList cfg).isSome = true := by
  unfold doCheck
  cases hi : checkInit ndebug lib sys archiveList cfg with
  | throw => rfl
  | abort => rfl
  | ok r =>
    obtain ⟨st0, v, s⟩ := r
    simp only
    have := checkLoop_total ndebug md5 st0.arcMgr.digestIn.length st0 (Nat.le_refl _)
    cases hl : checkLoop ndebug md5 st0.arcMgr.digestIn.length st0 with
    | none => rw [hl] at this; cases this
    | some x =>
      obtain ⟨st, r⟩ := x
      cases r <;> rfl

/-- What the part of `doCheck` before the loop has established when it returns. -/
theorem checkInit_ok (ndebug : Bool) (lib : TimeLib) (sys : SysEnv)
    (archiveList : List Archive) (cfg : ArchiveConfig) (st0 : CheckState) (sameV sameS : Bool)
    (h : checkInit ndebug lib sys archiveList cfg = Res.ok (st0, sameV, sameS)) :
    ∃ a0 rest digestH, archiveList = a0 :: rest ∧
      MultiArchiveManager.new ndebug lib archiveList = Res.ok st0.mArcMgr ∧
      ArchiveManager.new cfg = Res.ok st0.arcMgr ∧
      st0.arcMgr.digestInH = some digestH ∧
      isTheSameVMDK ndebug st0.mArcMgr.getDumpHeader digestH = Res.ok sameV ∧
      isTheSameSnapshot ndebug lib st0.mArcMgr.getDumpHeader digestH = Res.ok sameS ∧
      st0.arcMgr.digestIn ≠ [] ∧ st0.arcMgr.digestIn = cfg.digestInBlocks ∧
      st0.mArcMgr.offset = 0 ∧ st0.mArcMgr.diskSize = a0.header.diskSize ∧
      st0.offset = 0 ∧ st0.marks = [] ∧ st0.isTheSameAllBlocks = true := by
  simp only [checkInit, res_bind_eq, res_bind_eq_ok, res_pure_eq, unwind_eq_ok] at h
  obtain ⟨_, _, _, hlen, m, hm, am, ham, dH, hdH, v, hv, s, hs, b, hb, he⟩ := h
  have e := Res.ok.inj he
  simp only [Prod.mk.injEq] at e
  obtain ⟨e1, e2, e3⟩ := e
  subst e1 e2 e3
  cases archiveList with
  | nil => simp [checkAndThrow] at hlen
  | cons a0 rest =>
    obtain ⟨tail, _, _, hmeq⟩ := multiArchive_new_ok ndebug lib a0 rest m hm
    simp only [ArchiveManager.readDigestHeader, res_bind_eq, res_bind_eq_ok, res_pure_eq,
      checkAndThrow] at hdH
    obtain ⟨_, _, _, hne, hdH⟩ := hdH
    cases hH : am.digestInH with
    | none => rw [hH] at hdH; simp at hdH
    | some digestH =>
      rw [hH] at hdH
      simp only [VmdkDigestHeader.copyDataFrom, Res.ok.injEq] at hdH
      subst hdH
      simp only [VmdkDumpHeader.copyDataFrom] at hv hs
      refine ⟨a0, rest, digestH, rfl, hm, ham, rfl, hv, hs, ?_,
        (archiveManager_new_bitmap cfg am ham).2, ?_, ?_, rfl, rfl, rfl⟩
      · intro hd
        rw [hd] at hne
        simp at hne
      · rw [hmeq]
      · rw [hmeq]

theorem sameSnapshot_sameVMDK (ndebug : Bool) (lib : TimeLib) (dumpH : VmdkDumpHeader)
    (digestH : VmdkDigestHeader) (v s : Bool)
    (hv : isTheSameVMDK ndebug dumpH digestH = Res.ok v)
    (hs : isTheSameSnapshot ndebug lib dumpH digestH = Res.ok s) :
    (v && s) = s := by
  simp only [isTheSameSnapshot, res_bind_eq, hv, Res.bind, res_pure_eq, Res.ok.injEq] at hs
  rw [← hs]
  cases v <;> simp

/-- **C30.** A check command that runs to its end (its digest file then holds at least
one block, for `readDigestHeader` throws on a digest file that ends after its header)
has compared a block with a digest at exactly the offsets below the minimum of the disk
size of the first archive and the number of blocks in the digest file, one mark each.
Its verdict is `OK` exactly when the header of the reader and the digest header are the
same snapshot and none of these iterations read a block whose recomputed digest differs
from the digest read at the same position; so it is `OK` also when the digest file holds
fewer blocks than the disk size.  The disk size is a `uint64`. -/
theorem check_verdict (ndebug : Bool) (lib : TimeLib) (sys : SysEnv)
    (md5 : List Nat → List Nat) (archiveList : List Archive) (cfg : ArchiveConfig)
    (out : CheckOut)
    (hds : ∀ a ∈ archiveList.head?, a.header.diskSize < 2 ^ 64)
    (h : doCheck ndebug lib sys md5 archiveList cfg = some (out, Res.ok ())) :
    ∃ a0 st0 digestH sameV sameS,
      archiveList.head? = some a0 ∧
      checkInit ndebug lib sys archiveList cfg = Res.ok (st0, sameV, sameS) ∧
      st0.arcMgr.digestInH = some digestH ∧
      isTheSameSnapshot ndebug lib st0.mArcMgr.getDumpHeader digestH = Res.ok sameS ∧
      cfg.digestInBlocks ≠ [] ∧
      out.marks.length = min a0.header.diskSize cfg.digestInBlocks.length ∧
      out.verdict = some (sameS &&
        (checkStates ndebug md5 (min a0.header.diskSize cfg.digestInBlocks.length) st0).all
          fun s => !checkMismatch ndebug md5 s) := by
  unfold doCheck at h
  cases hi : checkInit ndebug lib sys archiveList cfg with
  | throw => rw [hi] at h; simp at h
  | abort => rw [hi] at h; simp at h
  | ok r =>
    obtain ⟨st0, sameV, sameS⟩ := r
    rw [hi] at h
    simp only at h
    obtain ⟨a0, rest, digestH, hal, _, _, hH, hv, hs, hne, hin, hoff, hdisk, ho, hmk, hall⟩ :=
      checkInit_ok ndebug lib sys archiveList cfg st0 sameV sameS hi
    cases hl : checkLoop ndebug md5 st0.arcMgr.digestIn.length st0 with
    | none => rw [hl] at h; simp at h
    | some x =>
      obtain ⟨st, r⟩ := x
      rw [hl] at h
      cases r with
      | throw =>
        simp only [Option.some.injEq, Prod.mk.injEq] at h
        exact absurd h.2 (by rw [leave_eq_ok]; simp)
      | abort => simp at h
      | ok _ =>
        simp only [Option.some.injEq, Prod.mk.injEq] at h
        replace h := h.1
        have hd : a0.header.diskSize < 2 ^ 64 := hds a0 (by rw [hal]; rfl)
        obtain ⟨i1, _, i3⟩ := checkLoop_spec ndebug md5 _ st0 st (by rw [hoff]; omega)
          (by rw [hdisk]; exact hd) (by rw [ho, hoff]) hl
        rw [hoff, hdisk, hin, Nat.sub_zero] at i1 i3
        rw [hmk] at i1
        rw [hall, Bool.true_and] at i3
        refine ⟨a0, st0, digestH, sameV, sameS, by rw [hal]; rfl, rfl, hH, hs,
          by rw [← hin]; exact hne, ?_, ?_⟩
        · rw [← h]; simpa using i1
        · rw [← h]
          simp only [Option.some.injEq]
          rw [i3, Bool.and_assoc, sameSnapshot_sameVMDK ndebug lib _ _ _ _ hv hs, Bool.and_comm]

set_option maxRecDepth 100000 in
/-- Witness of `check_verdict`: the check of the full dump of generation 0 against its
digest file cut after two blocks prints two marks and `Check: OK`. -/
theorem check_verdict_witness :
    (∀ a ∈ [dumpGen0].head?, a.header.diskSize < 2 ^ 64) ∧
    doCheck false utcTimeLib sysGen1 sample16 [dumpGen0] (cfgCheckOf digestShortGen0) =
      some ({ marks := [CheckMark.count 0, CheckMark.valid], verdict := some true },
            Res.ok ()) ∧
    ∃ a0 st0 digestH sameV sameS,
      [dumpGen0].head? = some a0 ∧
      checkInit false utcTimeLib sysGen1 [dumpGen0] (cfgCheckOf digestShortGen0) =
        Res.ok (st0, sameV, sameS) ∧
      st0.arcMgr.digestInH = some digestH ∧
      isTheSameSnapshot false utcTimeLib st0.mArcMgr.getDumpHeader digestH = Res.ok sameS ∧
      (cfgCheckOf digestShortGen0).digestInBlocks ≠ [] ∧
      ({ marks := [CheckMark.count 0, CheckMark.valid], verdict := some true } :
        CheckOut).marks.length =
        min a0.header.diskSize (cfgCheckOf digestShortGen0).digestInBlocks.length ∧
      ({ marks := [CheckMark.count 0, CheckMark.valid], verdict := some true } :
        CheckOut).verdict = some (sameS &&
        (checkStates false sample16
          (min a0.header.diskSize (cfgCheckOf digestShortGen0).digestInBlocks.length) st0).all
          fun s => !checkMismatch false sample16 s) :=
  ⟨by decide, by decide,
   check_verdict false utcTimeLib sysGen1 sample16 [dumpGen0] (cfgCheckOf digestShortGen0)
     _ (by decide) (by decide)⟩

set_option maxRecDepth 100000 in
/-- Counterexample to C30 as stated: for the full dump of generation 0 and its digest
file cut after the header, the headers are the same snapshot and no block is compared,
yet the check command prints no verdict: it ends with the exception `End of stream.`
of `readDigestHeader`, and `main` returns -1. -/
theorem check_header_only_digest_throws :
    isTheSameSnapshot false utcTimeLib dumpGen0.header digestHeaderOnlyGen0.header =
      Res.ok true ∧
    digestHeaderOnlyGen0.blocks.length < dumpGen0.header.diskSize ∧
    mainCheck false utcTimeLib sysGen1 sample16 [dumpGen0] (cfgCheckOf digestHeaderOnlyGen0) =
      some ({ marks := [], verdict := none }, Res.ok (-1)) := by
  refine ⟨by decide, by decide, by decide⟩

/-- An iteration of the check loop over an all-zero block whose digest block is marked
all-zero. -/
theorem checkStep_zero (ndebug : Bool) (md5 : List Nat → List Nat) (st : CheckState)
    (m1 : MultiArchiveManager) (b : VmdkDumpBlock) (q : VmdkDigestBlock)
    (rest : List VmdkDigestBlock)
    (hr : st.mArcMgr.readBlock ndebug st.dumpB = Res.ok (m1, b, true))
    (hopen : st.arcMgr.isOpenDigestIn = true)
    (hq : st.arcMgr.digestIn = q :: rest)
    (ho : st.offset = b.offset)
    (hz : b.getIsAllZero ndebug = Res.ok true)
    (hqz : q.isAllZero = Boolean.BTRUE) :
    checkStep ndebug md5 st =
      ({ mArcMgr := m1, arcMgr := { st.arcMgr with digestIn := rest }, dumpB := b,
         digestB := { isAllZero := Boolean.BTRUE, digest := st.digestB.digest },
         digestCheck := { isAllZero := Boolean.BTRUE, digest := st.digestCheck.digest },
         isTheSameAllBlocks := st.isTheSameAllBlocks,
         offset := wrapU64 (st.offset + 1),
         marks := st.marks ++ [if st.offset % 64 == 0 then CheckMark.count st.offset
                               else CheckMark.valid] }, Res.ok ()) := by
  unfold checkStep
  rw [hr, stepRes_ok]
  simp only [ArchiveManager.readFromDigest, hopen, hq, cassert, Bool.or_true, if_true,
    res_bind_eq, Res.bind, res_pure_eq, stepRes_ok, ho, beq_self_eq_true,
    VmdkDigestBlock.set, hz, VmdkDigestBlock.ne, VmdkDigestBlock.eq,
    VmdkDigestBlock.copyDataFrom, hqz]
  simp [stepRes]

/-- An iteration of the check loop over a block that is not all-zero and whose digest
block is not marked all-zero: `same` tells whether the digest read is the digest of the
block. -/
theorem checkStep_data (ndebug : Bool) (md5 : List Nat → List Nat) (st : CheckState)
    (m1 : MultiArchiveManager) (b : VmdkDumpBlock) (q : VmdkDigestBlock)
    (rest : List VmdkDigestBlock) (x : List Nat) (same : Bool)
    (hlen : ∀ y, (md5 y).length = MD5_DIGEST_LENGTH)
    (hr : st.mArcMgr.readBlock ndebug st.dumpB = Res.ok (m1, b, true))
    (hopen : st.arcMgr.isOpenDigestIn = true)
    (hq : st.arcMgr.digestIn = q :: rest)
    (ho : st.offset = b.offset)
    (hz : b.getIsAllZero ndebug = Res.ok false)
    (hqz : q.isAllZero = Boolean.BFALSE)
    (hx : b.block.take b.blockSize = x)
    (hl1 : st.digestB.digest.length = MD5_DIGEST_LENGTH)
    (hl2 : st.digestCheck.digest.length = MD5_DIGEST_LENGTH)
    (hl3 : q.digest.length = MD5_DIGEST_LENGTH)
    (hd : (q.digest == md5 x) = same) :
    checkStep ndebug md5 st =
      ({ mArcMgr := m1, arcMgr := { st.arcMgr with digestIn := rest }, dumpB := b,
         digestB := { isAllZero := Boolean.BFALSE, digest := q.digest },
         digestCheck := { isAllZero := Boolean.BFALSE, digest := md5 x },
         isTheSameAllBlocks := st.isTheSameAllBlocks && same,
         offset := wrapU64 (st.offset + 1),
         marks := st.marks ++ [if st.offset % 64 == 0 then CheckMark.count st.offset
                               else if same then CheckMark.valid
                               else CheckMark.invalid] }, Res.ok ()) := by
  unfold checkStep
  rw [hr, stepRes_ok]
  simp only [ArchiveManager.readFromDigest, hopen, hq, cassert, Bool.or_true, if_true,
    res_bind_eq, Res.bind, res_pure_eq, stepRes_ok, ho, beq_self_eq_true,
    VmdkDigestBlock.set, hz, VmdkDigestBlock.ne, VmdkDigestBlock.eq,
    VmdkDigestBlock.copyDataFrom, hqz, calcMD5, hx,
    copyInto_same_length _ _ (hl3.trans hl1.symm),
    copyInto_same_length _ _ ((hlen x).trans hl2.symm)]
  subst hd
  cases hd : (q.digest == md5 x) <;> simp [stepRes, hd]

/-- One iteration of the check loop, from the fuel `n1 + 1`. -/
theorem checkLoop_succ (ndebug : Bool) (md5 : List Nat → List Nat) (n n1 : Nat)
    (st st1 : CheckState) (r : Option (CheckState × Res Unit))
    (hn : n = n1 + 1)
    (hc : checkCond ndebug st = Res.ok true)
    (hs : checkStep ndebug md5 st = (st1, Res.ok ()))
    (hrest : checkLoop ndebug md5 n1 st1 = r) :
    checkLoop ndebug md5 n st = r := by
  subst hn
  rw [checkLoop, hc]
  simp only [hs, hrest]

/-- The check loop ends when its condition is false. -/
theorem checkLoop_stop (ndebug : Bool) (md5 : List Nat → List Nat) (n : Nat)
    (st : CheckState) (hc : checkCond ndebug st = Res.ok false) :
    checkLoop ndebug md5 n st = some (st, Res.ok ()) := by
  cases n <;> simp [checkLoop, hc]

/-- The result of `doCheck` from the result of its loop. -/
theorem doCheck_of_loop (ndebug : Bool) (lib : TimeLib) (sys : SysEnv)
    (md5 : List Nat → List Nat) (archiveList : List Archive) (cfg : ArchiveConfig)
    (st0 st : CheckState) (v s : Bool)
    (h0 : checkInit ndebug lib sys archiveList cfg = Res.ok (st0, v, s))
    (hl : checkLoop ndebug md5 st0.arcMgr.digestIn.length st0 = some (st, Res.ok ())) :
    doCheck ndebug lib sys md5 archiveList cfg =
      some ({ marks := st.marks, verdict := some (st.isTheSameAllBlocks && v && s) },
            st.arcMgr.leave ndebug (Res.ok ())) := by
  unfold doCheck
  rw [h0]
  simp only [hl]

set_option maxRecDepth 100000 in
set_option maxHeartbeats 1000000 in
/-- The run of `doCheck` on the scenario of a wrong digest block, for a hash function
`md5` of 16 bytes that tells 512 times `X` from 512 times `A`. -/
theorem doCheck_wrong_digest (ndebug : Bool) (md5 : List Nat → List Nat)
    (hlen : ∀ x, (md5 x).length = MD5_DIGEST_LENGTH)
    (hne : md5 (fill512 88) ≠ md5 (fill512 65)) :
    doCheck ndebug utcTimeLib sysGen1 md5 [dumpGen0] (cfgCheckOf (digestWrongOf md5)) =
      some ({ marks := [CheckMark.count 0, CheckMark.invalid, CheckMark.valid,
                        CheckMark.valid],
              verdict := some false }, Res.ok ()) := by
  have hX : (md5 (fill512 88) == md5 (fill512 65)) = false := by simpa using hne
  have hB : (md5 (fill512 66) == md5 (fill512 66)) = true := by simp
  cases ndebug
  all_goals
    refine (doCheck_of_loop _ utcTimeLib sysGen1 md5 [dumpGen0]
      (cfgCheckOf (digestWrongOf md5)) ?st0 ?st true true ?h0 ?hl).trans ?hout
    case h0 => exact rfl
    case hl =>
      refine checkLoop_succ _ md5 4 3 _ ?_ _ rfl ?_ ?_ ?_
      case refine_2 => rfl
      case refine_3 =>
        refine checkStep_zero _ md5 _ ?_ ?_ ?_ ?_ ?_ ?_ ?_ ?_ ?_ ?_
        case refine_5 => exact rfl
        case refine_6 => exact rfl
        case refine_7 => exact rfl
        case refine_8 => exact rfl
        case refine_9 => exact rfl
        case refine_10 => exact rfl
      refine checkLoop_succ _ md5 3 2 _ ?_ _ rfl ?_ ?_ ?_
      case refine_2 => rfl
      case refine_3 =>
        refine checkStep_data _ md5 _ ?_ ?_ ?_ ?_ (fill512 65) false hlen ?_ ?_ ?_ ?_ ?_ ?_
          ?_ ?_ ?_ ?_ ?_
        case refine_5 => exact rfl
        case refine_6 => exact rfl
        case refine_7 => exact rfl
        case refine_8 => exact rfl
        case refine_9 => exact rfl
        case refine_10 => exact rfl
        case refine_11 => exact rfl
        case refine_12 => exact rfl
        case refine_13 => exact rfl
        case refine_14 => exact hlen _
        case refine_15 => exact hX
      refine checkLoop_succ _ md5 2 1 _ ?_ _ rfl ?_ ?_ ?_
      case refine_2 => rfl
      case refine_3 =>
        refine checkStep_zero _ md5 _ ?_ ?_ ?_ ?_ ?_ ?_ ?_ ?_ ?_ ?_
        case refine_5 => exact rfl
        case refine_6 => exact rfl
        case refine_7 => exact rfl
        case refine_8 => exact rfl
        case refine_9 => exact rfl
        case refine_10 => exact rfl
      refine checkLoop_succ _ md5 1 0 _ ?_ _ rfl ?_ ?_ ?_
      case refine_2 => rfl
      case refine_3 =>
        refine checkStep_data _ md5 _ ?_ ?_ ?_ ?_ (fill512 66) true hlen ?_ ?_ ?_ ?_ ?_ ?_
          ?_ ?_ ?_ ?_ ?_
        case refine_5 => exact rfl
        case refine_6 => exact rfl
        case refine_7 => exact rfl
        case refine_8 => exact rfl
        case refine_9 => exact rfl
        case refine_10 => exact rfl
        case refine_11 => exact rfl
        case refine_12 => exact hlen _
        case refine_13 => exact hlen _
        case refine_14 => exact hlen _
        case refine_15 => exact hB
      refine checkLoop_stop _ md5 0 _ ?_
      exact rfl
    case hout => rfl

set_option maxRecDepth 100000 in
/-- **C21.** The check command is given the full dump of generation 0, whose block 1
holds 512 times `A`, and the digest file of generation 0 in which block 1 holds the
fingerprint of 512 times `X` (headers the same snapshot).  For every hash function of
16 bytes that tells the two payloads apart, in either build, `doCheck` prints the mark
`X` for block 1 and `Check: WRONG` and returns normally, `Command::run` returns true,
and `main` returns 0. -/
theorem check_wrong_scenario (ndebug : Bool) (md5 : List Nat → List Nat)
    (hlen : ∀ x, (md5 x).length = MD5_DIGEST_LENGTH)
    (hne : md5 (fill512 88) ≠ md5 (fill512 65)) :
    isTheSameSnapshot ndebug utcTimeLib dumpGen0.header (digestWrongOf md5).header =
      Res.ok true ∧
    doCheck ndebug utcTimeLib sysGen1 md5 [dumpGen0] (cfgCheckOf (digestWrongOf md5)) =
      some ({ marks := [CheckMark.count 0, CheckMark.invalid, CheckMark.valid,
                        CheckMark.valid],
              verdict := some false }, Res.ok ()) ∧
    runResult (Res.ok ()) = Res.ok true ∧
    mainCheck ndebug utcTimeLib sysGen1 md5 [dumpGen0] (cfgCheckOf (digestWrongOf md5)) =
      some ({ marks := [CheckMark.count 0, CheckMark.invalid, CheckMark.valid,
                        CheckMark.valid],
              verdict := some false }, Res.ok 0) := by
  have h := doCheck_wrong_digest ndebug md5 hlen hne
  refine ⟨?_, h, rfl, ?_⟩
  · cases ndebug <;> rfl
  · simp only [mainCheck, h]
    rfl

set_option maxRecDepth 100000 in
/-- Witness of `check_wrong_scenario`: the build with assertions and the hash function
`sample16`. -/
theorem check_wrong_scenario_witness :
    (∀ x, (sample16 x).length = MD5_DIGEST_LENGTH) ∧
    sample16 (fill512 88) ≠ sample16 (fill512 65) ∧
    mainCheck false utcTimeLib sysGen1 sample16 [dumpGen0]
        (cfgCheckOf (digestWrongOf sample16)) =
      some ({ marks := [CheckMark.count 0, CheckMark.invalid, CheckMark.valid,
                        CheckMark.valid],
              verdict := some false }, Res.ok 0) :=
  ⟨fun x => by simp [sample16, MD5_DIGEST_LENGTH], by decide,
   (check_wrong_scenario false sample16 (fun x => by simp [sample16, MD5_DIGEST_LENGTH])
      (by decide)).2.2.2⟩

set_option maxRecDepth 100000 in
/-- Counterexample to C21 as stated.  The check of the full dump of generation 0, whose
block 1 holds 512 times `A`, against a digest file whose block 1 holds the fingerprint
of 512 times `X` (headers the same snapshot) prints the mark `X` for block 1 and
`Check: WRONG`; `doCheck` then returns normally, `Command::run` returns true and `main`
returns 0, not a nonzero value: the exit status of a check that printed `Check: OK`. -/
theorem check_wrong_exits_zero :
    isTheSameSnapshot false utcTimeLib dumpGen0.header digestWrongGen0.header = Res.ok true ∧
    mainCheck false utcTimeLib sysGen1 sample16 [dumpGen0] (cfgCheckOf digestWrongGen0) =
      some ({ marks := [CheckMark.count 0, CheckMark.invalid, CheckMark.valid,
                        CheckMark.valid]
              verdict := some false }, Res.ok 0) ∧
    mainCheck true utcTimeLib sysGen1 sample16 [dumpGen0] (cfgCheckOf digestWrongGen0) =
      some ({ marks := [CheckMark.count 0, CheckMark.invalid, CheckMark.valid,
                        CheckMark.valid]
              verdict := some false }, Res.ok 0) ∧
    mainCheck false utcTimeLib sysGen1 sample16 [dumpGen0] (cfgCheckOf digestGen0) =
      some ({ marks := [CheckMark.count 0, CheckMark.valid, CheckMark.valid,
                        CheckMark.valid]
              verdict := some true }, Res.ok 0) := by
  refine ⟨by decide, by decide, by decide, by decide⟩

/-! ## The restore loop -/

theorem writeStep_reads (ndebug : Bool) (env : RestoreEnv) (isWriteZeroBlock : Bool)
    (zeroBlock : ByteArray) (o : Nat) (st st1 : RestoreState)
    (h : writeStep ndebug env isWriteZeroBlock zeroBlock o st = (st1, Res.ok ())) :
    ∃ m1 b isExist, st.mArcMgr.readBlock ndebug st.dumpB = Res.ok (m1, b, isExist) ∧
      st1.mArcMgr = m1 := by
  unfold writeStep at h
  cases hsig : checkAndThrow (!env.isSignal o) with
  | throw => rw [hsig] at h; simp [stepRes] at h
  | abort => rw [hsig] at h; simp [stepRes] at h
  | ok _ =>
    rw [hsig, stepRes_ok] at h
    cases hr : st.mArcMgr.readBlock ndebug st.dumpB with
    | throw => rw [hr] at h; simp [stepRes] at h
    | abort => rw [hr] at h; simp [stepRes] at h
    | ok r =>
      obtain ⟨m1, b, isExist⟩ := r
      refine ⟨m1, b, isExist, rfl, ?_⟩
      rw [hr, stepRes_ok] at h
      simp only at h
      generalize hc : (if isExist = true then _ else _ : RestoreState × Res Unit) = c at h
      have hcm : c.1.mArcMgr = m1 := by
        rw [← hc]
        split
        · cases cassert ndebug (o == b.offset) with
          | throw => rfl
          | abort => rfl
          | ok _ =>
            rw [stepRes_ok]
            cases b.getIsAllZero ndebug with
            | throw => rfl
            | abort => rfl
            | ok z =>
              simp only [stepRes_ok]
              repeat' split
              all_goals rfl
        · rfl
      cases hc2 : c.2 with
      | throw => rw [hc2] at h; simp [stepRes] at h
      | abort => rw [hc2] at h; simp [stepRes] at h
      | ok _ =>
        rw [hc2, stepRes_ok] at h
        simp only [Prod.mk.injEq, and_true] at h
        rw [← h]
        exact hcm

/-- From a reader whose offset is at most its disk size, a `uint64`, the restore loop
returns within `diskSize - offset` iterations. -/
theorem writeLoop_total (ndebug : Bool) (env : RestoreEnv) (isWriteZeroBlock : Bool)
    (zeroBlock : ByteArray) :
    ∀ (n o : Nat) (st : RestoreState), st.mArcMgr.offset ≤ st.mArcMgr.diskSize →
      st.mArcMgr.diskSize < 2 ^ 64 → st.mArcMgr.diskSize - st.mArcMgr.offset ≤ n →
      (writeLoop ndebug env isWriteZeroBlock zeroBlock n o st).isSome = true := by
  intro n
  induction n with
  | zero =>
    intro o st hle hds hn
    unfold writeLoop
    cases he : st.mArcMgr.isEOF ndebug with
    | throw => rfl
    | abort => rfl
    | ok v =>
      have hv := isEOF_ok _ _ _ he
      cases v with
      | true => rfl
      | false =>
        exfalso
        have : st.mArcMgr.offset ≠ st.mArcMgr.diskSize := by simpa using hv.symm
        omega
  | succ n ih =>
    intro o st hle hds hn
    unfold writeLoop
    cases he : st.mArcMgr.isEOF ndebug with
    | throw => rfl
    | abort => rfl
    | ok v =>
      have hv := isEOF_ok _ _ _ he
      cases v with
      | true => rfl
      | false =>
        simp only
        have hne : st.mArcMgr.offset ≠ st.mArcMgr.diskSize := by simpa using hv.symm
        cases hs : writeStep ndebug env isWriteZeroBlock zeroBlock o st with
        | mk s r =>
          cases r with
          | throw => rfl
          | abort => rfl
          | ok _ =>
            simp only
            obtain ⟨m1, b, isExist, hr, hm⟩ := writeStep_reads _ _ _ _ _ _ _ hs
            obtain ⟨h1, h2⟩ := readBlock_advance ndebug _ _ _ _ _ he hr
            have hw : wrapU64 (st.mArcMgr.offset + 1) = st.mArcMgr.offset + 1 := by
              unfold wrapU64
              exact Nat.mod_eq_of_lt (by omega)
            rw [hw] at h1
            apply ih
            · rw [hm, h1, h2]; omega
            · rw [hm, h2]; exact hds
            · rw [hm, h1, h2]; omega

/-- What an iteration of the loop of `writeBlocksToVmdk` at offset `o` that completes
has made the provider write, `b` being the block and `isExist` the flag that `readBlock`
yields. -/
theorem writeStep_writes (ndebug : Bool) (env : RestoreEnv) (isWriteZeroBlock : Bool)
    (blockSize o : Nat) (st st1 : RestoreState) (m1 : MultiArchiveManager)
    (b : VmdkDumpBlock) (isExist : Bool)
    (hread : st.mArcMgr.readBlock ndebug st.dumpB = Res.ok (m1, b, isExist))
    (h : writeStep ndebug env isWriteZeroBlock (List.replicate blockSize 0) o st =
      (st1, Res.ok ())) :
    (isExist = true → b.isAllZero ≠ Boolean.BTRUE →
      st1.writes = st.writes ++ [(o, b.block)]) ∧
    (isExist = true → b.isAllZero = Boolean.BTRUE → isWriteZeroBlock = true →
      st1.writes = st.writes ++ [(o, List.replicate blockSize 0)]) ∧
    (isExist = true → b.isAllZero = Boolean.BTRUE → isWriteZeroBlock = false →
      st1.writes = st.writes) ∧
    (isExist = false → st1.writes = st.writes) ∧
    (isExist = true → ndebug = false → b.offset = o ∧ b.isAllZero ≠ Boolean.BNULL) ∧
    st1.mArcMgr = m1 ∧ st1.dumpB = b := by
  unfold writeStep at h
  cases hsig : checkAndThrow (!env.isSignal o) with
  | throw => rw [hsig] at h; simp [stepRes] at h
  | abort => rw [hsig] at h; simp [stepRes] at h
  | ok _ =>
    rw [hsig, stepRes_ok, hread, stepRes_ok] at h
    simp only at h
    cases isExist with
    | false =>
      simp only [Bool.false_eq_true, if_false, stepRes_ok, Prod.mk.injEq, and_true] at h
      rw [← h]
      simp
    | true =>
      simp only [if_true] at h
      cases hc : cassert ndebug (o == b.offset) with
      | throw => rw [hc] at h; simp [stepRes] at h
      | abort => rw [hc] at h; simp [stepRes] at h
      | ok _ =>
        rw [hc, stepRes_ok] at h
        cases hz : b.getIsAllZero ndebug with
        | throw => rw [hz] at h; simp [stepRes] at h
        | abort => rw [hz] at h; simp [stepRes] at h
        | ok z =>
          rw [hz, stepRes_ok] at h
          have hzv : z = (b.isAllZero == Boolean.BTRUE) ∧
              (ndebug = true ∨ b.isAllZero ≠ Boolean.BNULL) := by
            unfold VmdkDumpBlock.getIsAllZero at hz
            cases hca : cassert ndebug (b.isAllZero != Boolean.BNULL) with
            | throw => rw [hca] at hz; simp at hz
            | abort => rw [hca] at hz; simp at hz
            | ok _ =>
              rw [hca] at hz
              refine ⟨(Res.ok.inj hz).symm, ?_⟩
              rcases (cassert_eq_ok ndebug _).1 hca with h1 | h1
              · exact Or.inl h1
              · right; simpa using h1
          have hoff : ndebug = false → b.offset = o ∧ b.isAllZero ≠ Boolean.BNULL := by
            intro hn
            rcases (cassert_eq_ok ndebug _).1 hc with h1 | h1
            · rw [hn] at h1; cases h1
            · refine ⟨(by simpa using h1 : o = b.offset).symm, ?_⟩
              rcases hzv.2 with h2 | h2
              · rw [hn] at h2; cases h2
              · exact h2
          by_cases hw : (!z || isWriteZeroBlock) = true
          · rw [if_pos hw] at h
            simp only [stepRes_ok] at h
            by_cases hwb : env.writeBlock o (if z = true then List.replicate blockSize 0
                else b.block) = true
            · rw [if_pos hwb] at h
              simp only [stepRes_ok, Prod.mk.injEq, and_true] at h
              subst h
              refine ⟨fun _ hb => ?_, fun _ hb _ => ?_, fun _ hb hf => ?_, fun hf => (by cases hf),
                fun _ => hoff, rfl, rfl⟩
              · have : z = false := by rw [hzv.1]; simpa using hb
                simp [this]
              · have : z = true := by rw [hzv.1]; simpa using hb
                simp [this]
              · have : z = true := by rw [hzv.1]; simpa using hb
                rw [this, hf] at hw
                simp at hw
            · rw [if_neg hwb] at h
              simp [stepRes] at h
          · rw [if_neg hw] at h
            simp only [stepRes_ok, Prod.mk.injEq, and_true] at h
            subst h
            have hz1 : z = true ∧ isWriteZeroBlock = false := by
              cases z <;> cases isWriteZeroBlock <;> simp at hw ⊢
            refine ⟨fun _ hb => ?_, fun _ _ hf => ?_, fun _ _ _ => rfl, fun hf => (by cases hf),
              fun _ => hoff, rfl, rfl⟩
            · exfalso
              apply hb
              have := hzv.1
              rw [hz1.1] at this
              simpa using this.symm
            · rw [hz1.2] at hf; cases hf

theorem stepWrites_filter (ndebug : Bool) (isWriteZeroBlock : Bool) (zeroBlock : ByteArray)
    (o p : Nat) (s : RestoreState) :
    (stepWrites ndebug isWriteZeroBlock zeroBlock o s).filter (fun w => w.1 == p) =
      if o = p then stepWrites ndebug isWriteZeroBlock zeroBlock o s else [] := by
  unfold stepWrites
  by_cases h : o = p
  · subst h
    simp only [if_true]
    split
    · split
      · split <;> simp
      · simp
    · rfl
  · simp only [if_neg h]
    have hb : (o == p) = false := by simpa using h
    split
    · split
      · split <;> simp [hb]
      · simp [hb]
    · rfl

theorem writeStep_appends (ndebug : Bool) (env : RestoreEnv) (isWriteZeroBlock : Bool)
    (blockSize o : Nat) (st st1 : RestoreState)
    (h : writeStep ndebug env isWriteZeroBlock (List.replicate blockSize 0) o st =
      (st1, Res.ok ())) :
    st1.writes = st.writes ++
      stepWrites ndebug isWriteZeroBlock (List.replicate blockSize 0) o st := by
  obtain ⟨m1, b, isExist, hr, _⟩ := writeStep_reads _ _ _ _ _ _ _ h
  obtain ⟨h1, h2, h3, h4, _⟩ := writeStep_writes ndebug env isWriteZeroBlock blockSize o st st1
    m1 b isExist hr h
  unfold stepWrites
  rw [hr]
  cases isExist with
  | false => simp [h4 rfl]
  | true =>
    simp only
    by_cases hb : b.isAllZero = Boolean.BTRUE
    · rw [if_pos hb]
      cases hw : isWriteZeroBlock with
      | true => rw [hw] at h2; simp [h2 rfl hb rfl]
      | false => rw [hw] at h3; simp [h3 rfl hb rfl]
    · rw [if_neg hb]
      exact h1 rfl hb

/-- The restore loop, when it returns: it has run one iteration per offset from the
reader's offset to the disk size, each starting with the reader at that offset and
reading successfully, and what it wrote at an offset is what the iteration for that
offset wrote. -/
theorem writeLoop_filter (ndebug : Bool) (env : RestoreEnv) (isWriteZeroBlock : Bool)
    (blockSize : Nat) :
    ∀ (n o : Nat) (st st1 : RestoreState),
      st.mArcMgr.offset ≤ st.mArcMgr.diskSize → st.mArcMgr.diskSize < 2 ^ 64 →
      o = st.mArcMgr.offset →
      writeLoop ndebug env isWriteZeroBlock (List.replicate blockSize 0) n o st =
        some (st1, Res.ok ()) →
      (restoreStates ndebug env isWriteZeroBlock (List.replicate blockSize 0)
        (st.mArcMgr.diskSize - st.mArcMgr.offset) o st).length =
        st.mArcMgr.diskSize - st.mArcMgr.offset ∧
      (∀ (i : Nat) (s : RestoreState),
        (restoreStates ndebug env isWriteZeroBlock (List.replicate blockSize 0)
          (st.mArcMgr.diskSize - st.mArcMgr.offset) o st)[i]? = some s →
        s.mArcMgr.offset = o + i ∧
        ∃ r, s.mArcMgr.readBlock ndebug s.dumpB = Res.ok r) ∧
      ∀ (p : Nat), st1.writes.filter (fun w => w.1 == p) =
        st.writes.filter (fun w => w.1 == p) ++
        (match (restoreStates ndebug env isWriteZeroBlock (List.replicate blockSize 0)
            (st.mArcMgr.diskSize - st.mArcMgr.offset) o st)[p - o]? with
         | some s =>
           if o ≤ p then stepWrites ndebug isWriteZeroBlock (List.replicate blockSize 0) p s
           else []
         | none => []) := by
  intro n
  induction n with
  | zero =>
    intro o st st1 hle hds ho h
    unfold writeLoop at h
    cases he : st.mArcMgr.isEOF ndebug with
    | throw => rw [he] at h; simp at h
    | abort => rw [he] at h; simp at h
    | ok v =>
      have hv := isEOF_ok _ _ _ he
      rw [he] at h
      cases v with
      | false => simp at h
      | true =>
        simp only [Option.some.injEq, Prod.mk.injEq, and_true] at h
        subst h
        have e : st.mArcMgr.offset = st.mArcMgr.diskSize := by simpa using hv.symm
        simp [e, restoreStates]
  | succ n ih =>
    intro o st st1 hle hds ho h
    unfold writeLoop at h
    cases he : st.mArcMgr.isEOF ndebug with
    | throw => rw [he] at h; simp at h
    | abort => rw [he] at h; simp at h
    | ok v =>
      have hv := isEOF_ok _ _ _ he
      rw [he] at h
      cases v with
      | true =>
        simp only [Option.some.injEq, Prod.mk.injEq, and_true] at h
        subst h
        have e : st.mArcMgr.offset = st.mArcMgr.diskSize := by simpa using hv.symm
        simp [e, restoreStates]
      | false =>
        simp only at h
        have hne : st.mArcMgr.offset ≠ st.mArcMgr.diskSize := by simpa using hv.symm
        cases hs : writeStep ndebug env isWriteZeroBlock (List.replicate blockSize 0) o st with
        | mk s r =>
          rw [hs] at h
          cases r with
          | throw => simp at h
          | abort => simp at h
          | ok _ =>
            simp only at h
            obtain ⟨m1, b, isExist, hr, hm⟩ := writeStep_reads _ _ _ _ _ _ _ hs
            obtain ⟨h1, h2⟩ := readBlock_advance ndebug _ _ _ _ _ he hr
            have hw : wrapU64 (st.mArcMgr.offset + 1) = st.mArcMgr.offset + 1 := by
              unfold wrapU64
              exact Nat.mod_eq_of_lt (by omega)
            rw [hw] at h1
            have hwo : wrapU64 (o + 1) = o + 1 := by rw [ho]; exact hw
            rw [hwo] at h
            have happ := writeStep_appends ndebug env isWriteZeroBlock blockSize o st s hs
            obtain ⟨i1, i2, i3⟩ := ih (o + 1) s st1 (by rw [hm, h1, h2]; omega)
              (by rw [hm, h2]; exact hds) (by rw [hm, h1, ho]) h
            rw [hm, h1, h2] at i1 i2 i3
            have hk : st.mArcMgr.diskSize - st.mArcMgr.offset =
                st.mArcMgr.diskSize - (st.mArcMgr.offset + 1) + 1 := by omega
            have hS : restoreStates ndebug env isWriteZeroBlock (List.replicate blockSize 0)
                (st.mArcMgr.diskSize - st.mArcMgr.offset) o st =
                st :: restoreStates ndebug env isWriteZeroBlock (List.replicate blockSize 0)
                  (st.mArcMgr.diskSize - (st.mArcMgr.offset + 1)) (o + 1) s := by
              rw [hk]
              simp only [restoreStates, hs, hwo]
            rw [hS]
            refine ⟨by simp only [List.length_cons, i1]; omega, ?_, ?_⟩
            · intro i x hx
              cases i with
              | zero =>
                simp only [List.getElem?_cons_zero, Option.some.injEq] at hx
                subst hx
                exact ⟨by rw [ho]; rfl, _, hr⟩
              | succ i =>
                simp only [List.getElem?_cons_succ] at hx
                obtain ⟨j1, j2⟩ := i2 i x hx
                exact ⟨by rw [j1]; omega, j2⟩
            · intro p
              rw [i3 p, happ, List.filter_append, stepWrites_filter, List.append_assoc]
              congr 1
              by_cases hp : o = p
              · subst hp
                have e2 : ¬ (o + 1 ≤ o) := by omega
                simp only [if_true, Nat.sub_self, List.getElem?_cons_zero, Nat.le_refl]
                split <;> simp [e2]
              · rw [if_neg hp, List.nil_append]
                by_cases hlt : o < p
                · have e1 : p - o = (p - (o + 1)) + 1 := by omega
                  rw [e1, List.getElem?_cons_succ]
                  have e2 : (o + 1 ≤ p) = True := by simp; omega
                  have e3 : (o ≤ p) = True := by simp; omega
                  simp only [e2, e3, if_true]
                · have e2 : ¬ (o + 1 ≤ p) := by omega
                  have e3 : ¬ (o ≤ p) := by omega
                  have e4 : p - o = 0 := by omega
                  simp only [if_neg e2, if_neg e3, e4, List.getElem?_cons_zero]
                  split <;> rfl

/-- **C23.** A call of `writeBlocksToVmdk` that completes, on a reader that stands at
offset 0 of a disk whose size is a `uint64`, has run one iteration per offset `o` below
the disk size, `b` being the block and `isExist` the flag that `readBlock` yields in
it.  What the provider was made to write at `o` is: the block's payload buffer, once,
when the block is not flagged all-zero; the zero buffer of `blockSize` bytes, once, when
it is flagged all-zero and zero blocks are written; nothing when it is flagged all-zero
and zero blocks are omitted, or when no block is yielded.  Nothing is written at an
offset from the disk size on. -/
theorem restore_writes_per_offset (ndebug : Bool) (env : RestoreEnv) (cmd : BackupCommand)
    (isWriteZeroBlock : Bool) (m : MultiArchiveManager) (blockSize : Nat)
    (st : RestoreState)
    (hoff : m.offset = 0) (hds : m.diskSize < 2 ^ 64)
    (h : writeBlocksToVmdk ndebug env cmd isWriteZeroBlock m blockSize =
      some (some st, Res.ok ())) :
    (∀ o, o < m.diskSize → ∃ s m1 b isExist,
      (restoreStates ndebug env isWriteZeroBlock (List.replicate blockSize 0) m.diskSize 0
        (RestoreState.init m blockSize))[o]? = some s ∧
      s.mArcMgr.offset = o ∧
      s.mArcMgr.readBlock ndebug s.dumpB = Res.ok (m1, b, isExist) ∧
      st.writes.filter (fun w => w.1 == o) =
        if isExist = true then
          (if b.isAllZero = Boolean.BTRUE then
             (if isWriteZeroBlock = true then [(o, List.replicate blockSize 0)] else [])
           else [(o, b.block)])
        else []) ∧
    (∀ o, m.diskSize ≤ o → st.writes.filter (fun w => w.1 == o) = []) := by
  unfold writeBlocksToVmdk at h
  cases hc : cassert ndebug (cmd == BackupCommand.CMD_RESTORE) with
  | throw => rw [hc] at h; simp at h
  | abort => rw [hc] at h; simp at h
  | ok _ =>
    rw [hc] at h
    simp only at h
    cases hb : VmdkDumpBlock.new ndebug blockSize with
    | throw => rw [hb] at h; simp at h
    | abort => rw [hb] at h; simp at h
    | ok dumpB =>
      rw [hb] at h
      simp only at h
      have hfresh := dumpBlock_new_eq_ok ndebug blockSize dumpB hb
      subst hfresh
      have hinit : (⟨m, VmdkDumpBlock.fresh blockSize, Wflag.NONE, [], []⟩ : RestoreState) =
          RestoreState.init m blockSize := rfl
      rw [hinit] at h
      cases hl : writeLoop ndebug env isWriteZeroBlock (List.replicate blockSize 0)
          (m.diskSize - m.offset) 0 (RestoreState.init m blockSize) with
      | none => rw [hl] at h; simp at h
      | some x =>
        obtain ⟨st', r⟩ := x
        rw [hl] at h
        simp only [Option.map_some', Option.some.injEq, Prod.mk.injEq] at h
        obtain ⟨e1, e2⟩ := h
        subst e1 e2
        obtain ⟨i1, i2, i3⟩ := writeLoop_filter ndebug env isWriteZeroBlock blockSize
          (m.diskSize - m.offset) 0 (RestoreState.init m blockSize) st'
          (by simp [RestoreState.init, hoff]) hds (by simp [RestoreState.init, hoff]) hl
        have hm0 : (RestoreState.init m blockSize).mArcMgr = m := rfl
        have hw0 : (RestoreState.init m blockSize).writes = [] := rfl
        rw [hm0, hoff, Nat.sub_zero] at i1 i2 i3
        refine ⟨fun o ho => ?_, fun o ho => ?_⟩
        · have hlt : o < (restoreStates ndebug env isWriteZeroBlock (List.replicate blockSize 0)
              m.diskSize 0 (RestoreState.init m blockSize)).length := by rw [i1]; exact ho
          have hso := List.getElem?_eq_getElem hlt
          obtain ⟨j1, r, j2⟩ := i2 o _ hso
          obtain ⟨m1, b, isExist⟩ := r
          refine ⟨_, m1, b, isExist, hso, by rw [j1, Nat.zero_add], j2, ?_⟩
          rw [i3 o, hw0, Nat.sub_zero, hso]
          simp only [List.filter_nil, List.nil_append, Nat.zero_le, if_true, stepWrites, j2]
          cases isExist <;> simp
        · rw [i3 o, hw0, Nat.sub_zero, List.getElem?_eq_none (by rw [i1]; exact ho)]
          rfl

set_option maxRecDepth 100000 in
/-- Witness of `restore_writes_per_offset`: the restore of the full dump of generation
0, zero blocks being written.  At offset 2 the reader yields an all-zero block while
the caller's block holds the payload of block 1; the provider receives 512 zero
bytes.  With zero blocks omitted only the offsets 1 and 3 are written. -/
theorem restore_writes_per_offset_witness :
    readerGen0M.offset = 0 ∧ readerGen0M.diskSize < 2 ^ 64 ∧
    restoreLog (writeBlocksToVmdk false restoreEnvOk BackupCommand.CMD_RESTORE false
      readerGen0M 512) = some (some [(1, fill512 65), (3, fill512 66)], Res.ok ()) ∧
    restoreAfter2.dumpB.block = fill512 65 ∧
    ∃ st, writeBlocksToVmdk false restoreEnvOk BackupCommand.CMD_RESTORE true
        readerGen0M 512 = some (some st, Res.ok ()) ∧
      st.writes = [(0, List.replicate 512 0), (1, fill512 65), (2, List.replicate 512 0),
                   (3, fill512 66)] ∧
      (∀ o, o < readerGen0M.diskSize → ∃ s m1 b isExist,
        (restoreStates false restoreEnvOk true (List.replicate 512 0) readerGen0M.diskSize 0
          (RestoreState.init readerGen0M 512))[o]? = some s ∧
        s.mArcMgr.offset = o ∧
        s.mArcMgr.readBlock false s.dumpB = Res.ok (m1, b, isExist) ∧
        st.writes.filter (fun w => w.1 == o) =
          if isExist = true then
            (if b.isAllZero = Boolean.BTRUE then
               (if true = true then [(o, List.replicate 512 0)] else [])
             else [(o, b.block)])
          else []) ∧
      (∀ o, readerGen0M.diskSize ≤ o → st.writes.filter (fun w => w.1 == o) = []) := by
  have hlog : restoreLog (writeBlocksToVmdk false restoreEnvOk BackupCommand.CMD_RESTORE true
      readerGen0M 512) =
      some (some [(0, List.replicate 512 0), (1, fill512 65), (2, List.replicate 512 0),
                  (3, fill512 66)], Res.ok ()) := by decide
  cases hr : writeBlocksToVmdk false restoreEnvOk BackupCommand.CMD_RESTORE true
      readerGen0M 512 with
  | none => rw [hr] at hlog; simp [restoreLog] at hlog
  | some x =>
    obtain ⟨s, r⟩ := x
    rw [hr] at hlog
    simp only [restoreLog, Option.map_some', Option.some.injEq, Prod.mk.injEq] at hlog
    obtain ⟨hw, hok⟩ := hlog
    subst hok
    cases s with
    | none => simp at hw
    | some st =>
      simp only [Option.map_some', Option.some.injEq] at hw
      have hthm := restore_writes_per_offset false restoreEnvOk BackupCommand.CMD_RESTORE true
        readerGen0M 512 st (by decide) (by decide) hr
      exact ⟨by decide, by decide, by decide, by decide, st, rfl, hw, hthm.1, hthm.2⟩

/-! ## The queue and the parallel reader -/

theorem queue_drain_closed {α : Type} (xs : List (Option α)) (size : Nat) :
    Queue.drain xs.length ({ items := xs, size := size, isClosed := true } : Queue α) =
      (xs, { items := [], size := size, isClosed := true }) := by
  induction xs with
  | nil => rfl
  | cons x rest ih =>
    simp only [List.length_cons, Queue.drain, Queue.get, Bool.not_true, Bool.false_and,
      Bool.false_eq_true, if_false, List.isEmpty_cons, Bool.and_false, ih]

/-- **C15.** For every queue state that respects the maximum size: after `close()` a
`put` returns false and leaves the queue as it is; `get` on a queue that holds an item
returns true with the item at the front, the item put first, and removes it, so that
the closed queue delivers all its items in the order they were put; `get` returns false
exactly when the queue is closed and empty, and then nothing is taken; `put` on an open
queue with room appends the item at the back; a `put` of a null pointer returns false
and stores nothing, in every state. -/
theorem queue_close_put_get {α : Type} (ndebug : Bool) (q : Queue α) (x : α)
    (blk : Option α) (hsize : q.items.length ≤ q.size) :
    q.close.put ndebug (some x) = Res.ok (some (q.close, false)) ∧
    q.close.items = q.items ∧ q.close.isClosed = true ∧
    (Queue.drain q.items.length q.close).1 = q.items ∧
    (Queue.drain q.items.length q.close).2.get blk =
      some ({ q.close with items := [] }, blk, false) ∧
    (∀ y rest, q.items = y :: rest → q.get blk = some ({ q with items := rest }, y, true)) ∧
    (∀ r, q.get blk = some r → (r.2.2 = false ↔ (q.isClosed = true ∧ q.items = []))) ∧
    (q.isClosed = false → q.items.length < q.size →
      q.put ndebug (some x) = Res.ok (some ({ q with items := q.items ++ [some x] }, true))) ∧
    q.put ndebug none = Res.ok (some (q, false)) := by
  obtain ⟨items, size, isClosed⟩ := q
  simp only at hsize
  have hc : ({ items := items, size := size, isClosed := isClosed } : Queue α).close =
      { items := items, size := size, isClosed := true } := by
    cases isClosed <;> rfl
  have ha : cassert ndebug (decide (items.length ≤ size)) = Res.ok () := by
    rw [cassert_eq_ok]; right; simpa using hsize
  rw [hc]
  refine ⟨?_, rfl, rfl, ?_, ?_, ?_, ?_, ?_, rfl⟩
  · simp [Queue.put, ha]
  · rw [queue_drain_closed]
  · rw [queue_drain_closed]
    rfl
  · intro y rest hq
    simp only at hq
    subst hq
    cases isClosed <;> rfl
  · intro r hr
    cases items with
    | nil =>
      cases isClosed with
      | false => simp [Queue.get] at hr
      | true =>
        simp only [Queue.get, Bool.not_true, Bool.false_and, Bool.false_eq_true, if_false,
          List.isEmpty_nil, Bool.and_self, if_true, Option.some.injEq] at hr
        subst hr
        simp
    | cons y rest =>
      have : ({ items := y :: rest, size := size, isClosed := isClosed } : Queue α).get blk =
          some ({ items := rest, size := size, isClosed := isClosed }, y, true) := by
        cases isClosed <;> rfl
      rw [this] at hr
      simp only [Option.some.injEq] at hr
      subst hr
      simp
  · intro ho hlt
    simp only at ho hlt
    subst ho
    have hb : cassert ndebug (decide (items.length < size)) = Res.ok () := by
      rw [cassert_eq_ok]; right; simpa using hlt
    have hne : (items.length == size) = false := by
      simpa using Nat.ne_of_lt hlt
    simp [Queue.put, ha, hb, hne]

/-- Witness of `queue_close_put_get`: a full queue holding the items 1 and 2. -/
theorem queue_close_put_get_witness :
    queueFull12.items.length ≤ queueFull12.size ∧
    queueFull12.close.put false (some 3) = Res.ok (some (queueFull12.close, false)) ∧
    (Queue.drain queueFull12.items.length queueFull12.close).1 = [some 1, some 2] :=
  ⟨by decide,
   (queue_close_put_get false queueFull12 3 none (by decide)).1,
   by decide⟩

/-- **C16.** A reader over a stream of the two items 10 and 11 with a queue of capacity
1.  After `start` the worker enqueues 10, reads 11, which ends the stream, and waits in
`put` because the queue is full.  The consumer finds `isEnd()` false and gets 10, then
calls `pause()`: the queue is closed, `put` returns false, the worker stores 11 in
`tmpDataP_`, ends its loop and sets the end flag.  After `resume()` the new worker finds
the stream at its end, does not enter its loop, and sets the end flag; `isEnd()` is now
true with 11 still in `tmpDataP_` and an empty queue.  The consumer has obtained 10
only: the last item is lost. -/
theorem reader_loses_buffered_last_item :
    (do let r ← readerTwo.start false
        DataReader.workerSteps false 5 r) = Res.ok readerWorkerWaits ∧
    readerWorkerWaits.workerStep false = Res.ok readerWorkerWaits ∧
    readerWorkerWaits.isEndAll = false ∧
    readerWorkerWaits.get =
      some ({ readerWorkerWaits with queue := { items := [], size := 1, isClosed := false } },
            some 10) ∧
    DataReader.pause false
      { readerWorkerWaits with queue := { items := [], size := 1, isClosed := false } } =
      some (Res.ok readerPaused) ∧
    (do let r ← readerPaused.resume false
        DataReader.workerSteps false 1 r) = Res.ok readerResumedDone ∧
    readerResumedDone.workerStep false = Res.ok readerResumedDone ∧
    readerResumedDone.isEndAll = true ∧
    readerResumedDone.tmpDataP = some 11 ∧
    readerResumedDone.queue.items = [] := by
  refine ⟨by decide, by decide, by decide, by decide, by decide, by decide, by decide,
    by decide, by decide, by decide⟩

end Vmdkbkp
